import Mathlib

/-!
# Post-Man v3: geospatial data pipeline

A shallow embedding of the KML parser and validator (`KMLService/KMLParser.js`,
`KMLService/KMLValidator.js`), of the load coordinator
(`KMLService/KMLService.js`, `KMLService/KMLFileService.js`), of the proximity
engine (`MapService/GPSMarkerService.js`), of the map state
(`MapService/MapStateService.js`), of the navigation, routing and manual-stop
services, and of the database and integration services
(`DatabaseService/DatabaseService.js`,
`IntegrationService/PostManV3Service.js`), with the properties the
specification states about them.

Conventions of the embedding.

* JavaScript values are the data values `JSVal` (no functions, no accessors).
* Numbers that are only parsed, stored and compared are `JSNum`: `NaN`, the two
  infinities and the finite values, held as rationals (every finite double is a
  rational, and comparison of doubles is exact). The two zeros are identified.
* Built-in conversions from text to numbers (`parseFloat`, `ToNumber` on a
  string) are not fixed: they are fields of an `Engine`, and every statement
  holds for every engine. The same holds for the conversions from numbers to
  text (`Printer`), for the XML library and for the clock.
* Strings are sequences of characters and arrays are lists of any length: the
  difference between characters and UTF-16 code units and the limit on the
  length of an array are not part of the embedding.
* A `try`/`catch` is embedded with the state at the moment of the exception:
  what the body has pushed before it throws is still there in the handler.
* The great-circle formulas are embedded twice. Over the real numbers every
  operation is exact; the statements on the triangle inequality, on ranges
  and on the order of distances are made there. On binary64 numbers
  (`Binary64`) the results of `+`, `-`, `*` and `/` are rounded to the nearest
  binary64 number, and `Math.sin`, `Math.cos`, `Math.sqrt` and `Math.atan2`
  are parameters of which only the cases fixed by the language are embedded;
  the statements on equality of two distances, on their sign and on the
  nearest stop are made there.
* A module is embedded by the names it binds at its top level: a name bound
  twice ends the import with a `SyntaxError` before any statement of the
  module is evaluated.
* The number of arguments that a call passes is bounded by the engine
  (`Engine.maxArguments`). Memory is not bounded: a loop whose number of turns
  is a binary64 integer comes to its end.
-/

namespace PostMan

/-! ## JavaScript numbers and values -/

/-- A JavaScript number: `NaN`, `-Infinity`, a finite value, `+Infinity`. -/
inductive JSNum where
  | nan
  | negInf
  | fin (q : ℚ)
  | posInf
  deriving DecidableEq

namespace JSNum

/-- The operator `a <= b` on numbers (false as soon as one side is `NaN`). -/
def le : JSNum → JSNum → Bool
  | fin a, fin b => decide (a ≤ b)
  | negInf, negInf => true
  | negInf, fin _ => true
  | negInf, posInf => true
  | fin _, posInf => true
  | posInf, posInf => true
  | _, _ => false

/-- The operator `a < b` on numbers (false as soon as one side is `NaN`). -/
def lt : JSNum → JSNum → Bool
  | fin a, fin b => decide (a < b)
  | negInf, fin _ => true
  | negInf, posInf => true
  | fin _, posInf => true
  | _, _ => false

/-- The operator `a >= b`, which JavaScript evaluates as `b <= a`. -/
def ge (a b : JSNum) : Bool := le b a

/-- The operator `a > b`, which JavaScript evaluates as `b < a`. -/
def gt (a b : JSNum) : Bool := lt b a

/-- The test `isNaN(x)` on a number. -/
def isNaN : JSNum → Bool
  | nan => true
  | _ => false

/-- The test `isFinite(x)` on a number. -/
def isFinite : JSNum → Bool
  | fin _ => true
  | _ => false

/-- Truthiness of a number: `0` and `NaN` are falsy. -/
def truthy : JSNum → Bool
  | fin q => decide (q ≠ 0)
  | nan => false
  | _ => true

/-- An integer as a JavaScript number. -/
def ofInt (z : ℤ) : JSNum := fin z

/-- A natural number as a JavaScript number. -/
def ofNat (n : ℕ) : JSNum := fin n

/-- The number is finite and lies in the closed interval `[lo, hi]`. -/
def InRange (x : JSNum) (lo hi : ℚ) : Prop :=
  ∃ q : ℚ, x = fin q ∧ lo ≤ q ∧ q ≤ hi

instance (x : JSNum) (lo hi : ℚ) : Decidable (InRange x lo hi) :=
  match x with
  | fin q =>
    if h : lo ≤ q ∧ q ≤ hi then isTrue ⟨q, rfl, h.1, h.2⟩
    else isFalse (fun ⟨q', hq, h1, h2⟩ => by
      cases hq; exact h ⟨h1, h2⟩)
  | nan => isFalse (fun ⟨_, hq, _⟩ => by cases hq)
  | negInf => isFalse (fun ⟨_, hq, _⟩ => by cases hq)
  | posInf => isFalse (fun ⟨_, hq, _⟩ => by cases hq)

end JSNum

/-- A JavaScript data value. Objects are association lists from property
names to values; the first binding of a name is the one that counts. -/
inductive JSVal where
  | undefined
  | null
  | bool (b : Bool)
  | num (n : JSNum)
  | str (s : String)
  | arr (items : List JSVal)
  | obj (fields : List (String × JSVal))

namespace JSVal

/-- Truthiness: `undefined`, `null`, `false`, `0`, `NaN` and `""` are falsy. -/
def truthy : JSVal → Bool
  | undefined => false
  | null => false
  | bool b => b
  | num n => n.truthy
  | str s => decide (s.data ≠ [])
  | arr _ => true
  | obj _ => true

/-- The test `typeof v === 'string'`. -/
def isString : JSVal → Bool
  | str _ => true
  | _ => false

/-- The test `typeof v === 'number'`. -/
def isNumber : JSVal → Bool
  | num _ => true
  | _ => false

/-- The test `Array.isArray(v)`. -/
def isArray : JSVal → Bool
  | arr _ => true
  | _ => false

end JSVal

/-- The text-to-number conversions of the host, left open. -/
structure Engine where
  /-- The global `parseFloat` applied to a string. -/
  parseFloat : String → JSNum
  /-- The abstract operation `ToNumber` applied to a string. -/
  stringToNumber : String → JSNum
  /-- The abstract operation `ToNumber` applied to an array. -/
  arrayToNumber : List JSVal → JSNum
  /-- The largest number of arguments that a call `f(...xs)` passes; the
  spread of a longer array throws a `RangeError`. -/
  maxArguments : ℕ

/-! ## Text primitives -/

/-- The characters matched by `\s` in a regular expression; `String.prototype.trim`
strips the same set. -/
def isWhiteSpace (c : Char) : Bool :=
  let n := c.toNat
  (9 ≤ n && n ≤ 13) || n == 32 || n == 160 || n == 5760 ||
  (8192 ≤ n && n ≤ 8202) || n == 8232 || n == 8233 || n == 8239 ||
  n == 8287 || n == 12288 || n == 65279

/-- The method `String.prototype.trim` on the characters of a string. -/
def trim (cs : List Char) : List Char :=
  ((cs.dropWhile isWhiteSpace).reverse.dropWhile isWhiteSpace).reverse

/-- Worker of `splitWhiteSpace`; `inSep` tells that the previous character
belonged to a separator. -/
def splitWhiteSpaceAux : List Char → Bool → List (List Char)
  | [], _ => [[]]
  | c :: cs, inSep =>
    if isWhiteSpace c then
      if inSep then splitWhiteSpaceAux cs true
      else [] :: splitWhiteSpaceAux cs true
    else
      match splitWhiteSpaceAux cs false with
      | [] => [[c]]
      | t :: ts => (c :: t) :: ts

/-- The call `s.split(/\s+/)`: the pieces between maximal runs of white space
(a leading or trailing run leaves an empty piece; the empty string gives one
empty piece). -/
def splitWhiteSpace (cs : List Char) : List (List Char) :=
  splitWhiteSpaceAux cs false

/-- The call `s.split(',')`. -/
def splitComma : List Char → List (List Char)
  | [] => [[]]
  | c :: cs =>
    if c = ',' then [] :: splitComma cs
    else
      match splitComma cs with
      | [] => [[c]]
      | t :: ts => (c :: t) :: ts

/-! ## KMLParser.js: coordinates -/

/-- A point as `parseCoordinates` builds it. -/
structure Coordinate where
  latitude : JSNum
  longitude : JSNum
  altitude : JSNum
  deriving DecidableEq

/-- The object literal `{ latitude, longitude, altitude }`. -/
def Coordinate.toJS (p : Coordinate) : JSVal :=
  .obj [("latitude", .num p.latitude), ("longitude", .num p.longitude),
        ("altitude", .num p.altitude)]

/-- The call `parseFloat(coords[i])`: an index out of bounds reads `undefined`,
which `parseFloat` turns into `NaN`. -/
def parseFloatAt (E : Engine) (coords : List (List Char)) (i : ℕ) : JSNum :=
  match coords.get? i with
  | some f => E.parseFloat (String.mk f)
  | none => .nan

/-- The function `isValidCoordinate` of KMLParser.js. -/
def Parser.isValidCoordinate (latitude longitude : JSNum) : Bool :=
  !latitude.isNaN && !longitude.isNaN &&
  latitude.ge (.fin (-90)) && latitude.le (.fin 90) &&
  longitude.ge (.fin (-180)) && longitude.le (.fin 180)

/-- One turn of the loop of `parseCoordinates`: `points` is the array built so
far, `line` the current token. -/
def parseCoordinatesStep (E : Engine) (points : List Coordinate) (line : List Char) :
    List Coordinate :=
  let coords := splitComma line
  if coords.length ≥ 2 then
    let longitude := parseFloatAt E coords 0
    let latitude := parseFloatAt E coords 1
    let altitude := if coords.length ≥ 3 then parseFloatAt E coords 2 else .fin 0
    if Parser.isValidCoordinate latitude longitude then
      points ++ [{ latitude := latitude, longitude := longitude, altitude := altitude }]
    else points
  else points

/-- The function `parseCoordinates` of KMLParser.js. Nothing in its body can
throw on a data value, so the `catch` branch is never taken and the result is
a plain list. -/
def parseCoordinates (E : Engine) (coordinatesString : JSVal) : List Coordinate :=
  if !coordinatesString.truthy || !coordinatesString.isString then []
  else
    match coordinatesString with
    | .str s =>
      let lines := splitWhiteSpace (trim s.data)
      lines.foldl (parseCoordinatesStep E) []
    | _ => []

/-- What the specification says of one token: a point when the token has at
least two comma-separated fields, the first a longitude in `[-180, 180]` and
the second a latitude in `[-90, 90]`; the altitude is the third field, or `0`
when there are only two. -/
def specPoint (E : Engine) (token : List Char) : Option Coordinate :=
  match splitComma token with
  | f0 :: f1 :: rest =>
    let lng := E.parseFloat (String.mk f0)
    let lat := E.parseFloat (String.mk f1)
    if lng.InRange (-180) 180 ∧ lat.InRange (-90) 90 then
      some { latitude := lat, longitude := lng,
             altitude := match rest with
               | [] => .fin 0
               | f2 :: _ => E.parseFloat (String.mk f2) }
    else none
  | _ => none

/-! ## An engine for concrete evaluation

Its `parseFloat` reads an optional minus sign, a run of decimal digits and an
optional fraction, and returns the exact value; anything else is `NaN`. -/

/-- The value of a decimal digit. -/
def digitValue (c : Char) : Option ℕ :=
  if 48 ≤ c.toNat ∧ c.toNat ≤ 57 then some (c.toNat - 48) else none

/-- The value of a run of decimal digits, `none` when a character is not a digit. -/
def digitsValue (cs : List Char) : Option ℕ :=
  cs.foldl (fun acc c =>
    match acc, digitValue c with
    | some a, some d => some (10 * a + d)
    | _, _ => none) (some 0)

/-- The text before the first dot and, when there is one, the text after it. -/
def splitOnDot : List Char → List Char × Option (List Char)
  | [] => ([], none)
  | c :: cs =>
    if c = '.' then ([], some cs)
    else ((c :: (splitOnDot cs).1), (splitOnDot cs).2)

/-- The value of an unsigned decimal literal `digits` or `digits.digits`. -/
def unsignedDecimal (cs : List Char) : Option ℚ :=
  match splitOnDot cs with
  | (ip, none) => if ip = [] then none else (digitsValue ip).map (fun n => (n : ℚ))
  | (ip, some fp) =>
    if ip = [] ∨ fp = [] then none
    else
      match digitsValue ip, digitsValue fp with
      | some a, some b => some ((a : ℚ) + (b : ℚ) / (10 : ℚ) ^ fp.length)
      | _, _ => none

/-- The decimal reader of the evaluation engine. -/
def decimalParseFloat (s : String) : JSNum :=
  match s.data with
  | '-' :: cs => match unsignedDecimal cs with
    | some q => .fin (-q)
    | none => .nan
  | cs => match unsignedDecimal cs with
    | some q => .fin q
    | none => .nan

/-- The evaluation engine: exact decimal reading for strings, `NaN` for arrays. -/
def decimalEngine : Engine where
  parseFloat := decimalParseFloat
  stringToNumber := decimalParseFloat
  arrayToNumber := fun _ => .nan
  maxArguments := 65535

/-! ## Property access and conversions -/

/-- How a call ends: it returns a value, it throws an error with a message, or
it does not terminate (its loop never ends, so that it gives no result). -/
inductive Completion (α : Type) where
  | returns (a : α)
  | throws (message : String)
  | diverges

/-- The property read `v.key` for a property name written in the program. On
`undefined` and `null` it throws a `TypeError` (the message text is the
engine's; a fixed text stands for it). Arrays and strings answer `length`;
the program reads no other named property that they have. -/
def getProp (v : JSVal) (key : String) : Except String JSVal :=
  match v with
  | .undefined => .error ("TypeError: cannot read property " ++ key ++ " of undefined")
  | .null => .error ("TypeError: cannot read property " ++ key ++ " of null")
  | .obj fields => .ok ((fields.lookup key).getD .undefined)
  | .arr items => .ok (if key = "length" then .num (.ofNat items.length) else .undefined)
  | .str s => .ok (if key = "length" then .num (.ofNat s.data.length) else .undefined)
  | _ => .ok .undefined

/-- The indexed read `v[i]` for a counter `i`. -/
def getIndex (v : JSVal) (i : ℕ) : Except String JSVal :=
  match v with
  | .undefined => .error ("TypeError: cannot read property " ++ toString i ++ " of undefined")
  | .null => .error ("TypeError: cannot read property " ++ toString i ++ " of null")
  | .obj fields => .ok ((fields.lookup (toString i)).getD .undefined)
  | .arr items => .ok (items.getD i .undefined)
  | .str s =>
    .ok (match s.data.get? i with
      | some c => .str (String.mk [c])
      | none => .undefined)
  | _ => .ok .undefined

/-- The abstract operation `ToNumber`. An object whose own `toString` is a data
value has no callable conversion left and the operation throws. -/
def toNumber (E : Engine) (v : JSVal) : Except String JSNum :=
  match v with
  | .undefined => .ok .nan
  | .null => .ok (.fin 0)
  | .bool b => .ok (if b then .fin 1 else .fin 0)
  | .num n => .ok n
  | .str s => .ok (E.stringToNumber s)
  | .arr items => .ok (E.arrayToNumber items)
  | .obj fields =>
    if (fields.lookup "toString").isSome then
      .error "TypeError: cannot convert object to primitive value"
    else .ok .nan

/-- The values a `for ... of` loop runs through; a value that is not iterable
throws. -/
def iterate (v : JSVal) : Except String (List JSVal) :=
  match v with
  | .arr items => .ok items
  | .str s => .ok (s.data.map (fun c => .str (String.mk [c])))
  | _ => .error "TypeError: value is not iterable"

/-- The number of turns of `for (let i = 0; i < routes.length; i++)`, for the
value `routes` and the number `len` that its `length` converts to; `none`
when the loop never ends. For an array the bound is its length. For another
value the bound can be any number: the loop never ends when it is
`+Infinity`, and also when it is greater than `2^53`, where `i++` leaves the
counter as it is (`2^53 + 1` is rounded to `2^53`). The memory that the turns
take is not part of the embedding: for a bound such as `1e15` the loop of the
embedding comes to its end, where an engine has used up its memory long
before. No statement of this development is about such a bound. -/
def loopCount (routes : JSVal) (len : JSNum) : Option ℕ :=
  match routes with
  | .arr items => some items.length
  | _ =>
    match len with
    | .fin q => if q ≤ 9007199254740992 then some (Int.toNat ⌈q⌉) else none
    | .posInf => none
    | _ => some 0

/-- The test `!name || name.trim().length === 0`; a truthy value that is not a
string has no method `trim`, and the call throws. -/
def isBlankName (name : JSVal) : Except String Bool :=
  if !name.truthy then .ok true
  else
    match name with
    | .str s => .ok (decide ((trim s.data).length = 0))
    | _ => .error "TypeError: name.trim is not a function"

/-- The decimal text of a natural number in a template literal. -/
def showNat (n : ℕ) : String := toString n

/-! ## KMLValidator.js -/

/-- The record `result.stats`. The last two fields are absent until
`calculateValidationStats` sets them. -/
structure Stats where
  routeCount : JSVal
  totalPoints : ℕ
  validRoutes : ℕ
  averagePointsPerRoute : Option ℕ
  stopCount : Option JSVal

/-- The record `result` of `validateKML`. -/
structure ValidationResult where
  isValid : Bool
  errors : List String
  warnings : List String
  stats : Stats

/-- The state after a piece of the validator has run on `result`. -/
inductive Step (α : Type) where
  | ok (a : α) (result : ValidationResult)
  | throws (message : String) (result : ValidationResult)
  | diverges

/-- A piece of the validator: it reads and updates `result`. -/
def Eff (α : Type) : Type := ValidationResult → Step α

/-- Sequencing of two pieces of the validator. -/
def Eff.bind {α β : Type} (m : Eff α) (f : α → Eff β) : Eff β :=
  fun r =>
    match m r with
    | .ok a r1 => f a r1
    | .throws msg r1 => .throws msg r1
    | .diverges => .diverges

instance : Monad Eff where
  pure a := fun r => .ok a r
  bind := Eff.bind

/-- A read or a conversion inside the validator: its exception leaves `result`
as it is. -/
def liftE {α : Type} (e : Except String α) : Eff α :=
  fun r =>
    match e with
    | .ok a => .ok a r
    | .error msg => .throws msg r

/-- The statement `result.errors.push(msg)`. -/
def pushError (msg : String) : Eff Unit :=
  fun r => .ok () { r with errors := r.errors ++ [msg] }

/-- The statement `result.warnings.push(msg)`. -/
def pushWarning (msg : String) : Eff Unit :=
  fun r => .ok () { r with warnings := r.warnings ++ [msg] }

/-- A loop that never ends. -/
def loopForever {α : Type} : Eff α := fun _ => .diverges

/-- The loop `for (let i = start; i < start + n; i++) body(i)`. -/
def forIndex (body : ℕ → Eff Unit) : ℕ → ℕ → Eff Unit
  | _, 0 => pure ()
  | start, n + 1 => Eff.bind (body start) (fun _ => forIndex body (start + 1) n)

/-- The loop `for (const x of xs) body(x)`. -/
def forEach {α : Type} (body : α → Eff Unit) : List α → Eff Unit
  | [] => pure ()
  | x :: xs => Eff.bind (body x) (fun _ => forEach body xs)

/-- The function `isValidCoordinate` of KMLValidator.js on two numbers. -/
def Validator.isValidNumbers (latitude longitude : JSNum) : Bool :=
  !latitude.isNaN && !longitude.isNaN &&
  latitude.ge (.fin (-90)) && latitude.le (.fin 90) &&
  longitude.ge (.fin (-180)) && longitude.le (.fin 180) &&
  latitude.isFinite && longitude.isFinite

/-- The function `isValidCoordinate` of KMLValidator.js on any two values:
`isNaN`, the comparisons and `isFinite` convert their argument with `ToNumber`;
the conjunction stops at the first false test, so the longitude is converted
only when the latitude is not `NaN`. -/
def Validator.isValidCoordinate (E : Engine) (latitude longitude : JSVal) :
    Except String Bool := do
  let lat ← toNumber E latitude
  if lat.isNaN then pure false
  else
    let lng ← toNumber E longitude
    pure (Validator.isValidNumbers lat lng)

/-- The function `validateBasicStructure`. -/
def validateBasicStructure (parsedKML : JSVal) : Eff Unit := do
  if !parsedKML.truthy then
    pushError "KML parsato è null o undefined"
  else
    let metadata ← liftE (getProp parsedKML "metadata")
    if !metadata.truthy then
      pushError "Mancano metadati nel KML"
    else
      let name ← liftE (getProp metadata "name")
      let blank ← liftE (isBlankName name)
      (if blank then pushWarning "Nome del percorso non specificato" else pure ())
      let routes ← liftE (getProp parsedKML "routes")
      match routes with
      | .arr items =>
        (if items.length = 0 then pushError "Nessun percorso trovato nel KML" else pure ())
      | _ => pushError "Array percorsi non valido o mancante"

/-- The three tests of `validateRouteCoordinates` on one point: it is truthy,
its latitude and longitude are numbers, and they are valid. -/
def pointIsValid (point : JSVal) : Bool :=
  if !point.truthy then false
  else
    match getProp point "latitude", getProp point "longitude" with
    | .ok (.num lat), .ok (.num lng) => Validator.isValidNumbers lat lng
    | _, _ => false

/-- The scan of `validateRouteCoordinates`: the number of valid points and the
indices of the invalid ones, from index `i` on. -/
def scanPoints : List JSVal → ℕ → ℕ × List ℕ → ℕ × List ℕ
  | [], _, acc => acc
  | point :: rest, i, (validPoints, invalidPoints) =>
    if pointIsValid point then scanPoints rest (i + 1) (validPoints + 1, invalidPoints)
    else scanPoints rest (i + 1) (validPoints, invalidPoints ++ [i])

/-- The function `validateRouteCoordinates` on the array `route.path`. -/
def validateRouteCoordinates (path : List JSVal) (routeLabel : String) : Eff Unit := do
  let scan := scanPoints path 0 (0, [])
  let validPoints := scan.1
  let invalidPoints := scan.2
  (if validPoints = 0 then
    pushError (routeLabel ++ ": nessun punto valido trovato")
  else if invalidPoints.length > 0 then
    pushWarning (routeLabel ++ ": " ++ showNat invalidPoints.length ++
      " punti non validi (indici: " ++
      String.intercalate ", " ((invalidPoints.take 5).map showNat) ++
      (if invalidPoints.length > 5 then "..." else "") ++ ")")
  else pure ())
  (if validPoints < 2 then
    pushError (routeLabel ++ ": meno di 2 punti validi")
  else pure ())

/-- The body of the loop of `validateRoutes` for the index `i`. -/
def validateRouteAt (routes : JSVal) (i : ℕ) : Eff Unit := do
  let route ← liftE (getIndex routes i)
  let routeLabel := "Percorso " ++ showNat (i + 1)
  if !route.truthy then
    pushError (routeLabel ++ ": percorso nullo")
  else
    let name ← liftE (getProp route "name")
    let blank ← liftE (isBlankName name)
    (if blank then pushWarning (routeLabel ++ ": nome mancante") else pure ())
    let path ← liftE (getProp route "path")
    match path with
    | .arr points =>
      if points.length < 2 then
        pushError (routeLabel ++ ": meno di 2 punti nel percorso")
      else
        validateRouteCoordinates points routeLabel
        (if points.length > 10000 then
          pushWarning (routeLabel ++ ": percorso molto lungo (" ++ showNat points.length ++
            " punti) - potrebbe causare problemi di performance")
        else pure ())
    | _ => pushError (routeLabel ++ ": path non valido")

/-- The function `validateRoutes`. The loop bound `routes.length` is read on
whatever `parsedKML.routes` is. -/
def validateRoutes (E : Engine) (parsedKML : JSVal) : Eff Unit := do
  let routes ← liftE (getProp parsedKML "routes")
  let len ← liftE (getProp routes "length")
  let bound ← liftE (toNumber E len)
  match loopCount routes bound with
  | some n => forIndex (validateRouteAt routes) 0 n
  | none => loopForever

/-- The body of the loop of `validateStops` for the index `i`. -/
def validateStopAt (E : Engine) (stops : List JSVal) (i : ℕ) : Eff Unit := do
  let stop := stops.getD i .undefined
  let stopLabel := "Fermata " ++ showNat (i + 1)
  if !stop.truthy then
    pushError (stopLabel ++ ": fermata null")
  else
    let name ← liftE (getProp stop "name")
    let blank ← liftE (isBlankName name)
    (if blank then pushWarning (stopLabel ++ ": nome mancante") else pure ())
    let latitude ← liftE (getProp stop "latitude")
    let longitude ← liftE (getProp stop "longitude")
    let valid ← liftE (Validator.isValidCoordinate E latitude longitude)
    (if !valid then pushError (stopLabel ++ ": coordinate non valide") else pure ())

/-- The function `validateStops`. -/
def validateStops (E : Engine) (parsedKML : JSVal) : Eff Unit := do
  let stops ← liftE (getProp parsedKML "stops")
  match stops with
  | .arr items => forIndex (validateStopAt E items) 0 items.length
  | _ => pure ()

/-- The decimal text of a number in a template literal, for the naturals
below `10^21` (which JavaScript prints in plain decimal); the engine prints
the other numbers. -/
def showNum (numberToString : JSNum → String) (n : JSNum) : String :=
  match n with
  | .fin q =>
    if q.den = 1 ∧ 0 ≤ q.num ∧ q < 10 ^ 21 then showNat q.num.toNat
    else numberToString n
  | _ => numberToString n

/-- The conversions to text of the host that the validator uses in its
messages. -/
structure Printer where
  /-- The abstract operation `ToString` on a number. -/
  numberToString : JSNum → String
  /-- The abstract operation `ToString` on an array. -/
  arrayToString : List JSVal → String

/-- The abstract operation `ToString` of a template literal, on a value whose
conversion to a number has succeeded. -/
def showVal (P : Printer) (v : JSVal) : String :=
  match v with
  | .undefined => "undefined"
  | .null => "null"
  | .bool b => if b then "true" else "false"
  | .num n => showNum P.numberToString n
  | .str s => s
  | .arr items => P.arrayToString items
  | .obj _ => "[object Object]"

/-- One turn of the loop of `calculateValidationStats`. -/
def countRoute (route : JSVal) : Eff Unit := fun r =>
  if !route.truthy then .ok () r
  else
    match getProp route "path" with
    | .ok (.arr points) =>
      if points.length ≥ 2 then
        .ok () { r with stats := { r.stats with
          validRoutes := r.stats.validRoutes + 1,
          totalPoints := r.stats.totalPoints + points.length } }
      else .ok () r
    | _ => .ok () r

/-- The value of `Math.round(a / b)` for naturals `a` and `b > 0`: the integer
nearest to the quotient, halves going up. -/
def roundDiv (a b : ℕ) : ℕ := (2 * a + b) / (2 * b)

/-- The expression `len > 0 ? Math.round(totalPoints / len) : 0`. -/
def averagePoints (totalPoints len : ℕ) : ℕ :=
  if len > 0 then roundDiv totalPoints len else 0

/-- An assignment to fields of `result.stats`. -/
def modifyStats (f : Stats → Stats) : Eff Unit :=
  fun r => .ok () { r with stats := f r.stats }

/-- The function `calculateValidationStats`. -/
def calculateValidationStats (parsedKML : JSVal) : Eff Unit := do
  let routes0 ← liftE (getProp parsedKML "routes")
  let routes := if routes0.truthy then routes0 else .arr []
  let len ← liftE (getProp routes "length")
  modifyStats (fun st => { st with routeCount := len, validRoutes := 0, totalPoints := 0 })
  let items ← liftE (iterate routes)
  forEach countRoute items
  modifyStats (fun st => { st with
    averagePointsPerRoute := some (averagePoints st.totalPoints items.length) })
  let stops ← liftE (getProp parsedKML "stops")
  let stopCount ← if stops.truthy then liftE (getProp stops "length") else pure (.num (.fin 0))
  modifyStats (fun st => { st with stopCount := some stopCount })

/-- The body of the second loop of `validatePerformance` for the index `i`. -/
def checkDenseAt (E : Engine) (P : Printer) (routes : JSVal) (i : ℕ) : Eff Unit := do
  let route ← liftE (getIndex routes i)
  if route.truthy then
    let path ← liftE (getProp route "path")
    if path.truthy then
      let len ← liftE (getProp path "length")
      let n ← liftE (toNumber E len)
      (if n.gt (.fin 20000) then
        pushWarning ("Percorso " ++ showNat (i + 1) ++ " molto denso (" ++ showVal P len ++
          " punti) - considerare semplificazione")
      else pure ())
    else pure ()
  else pure ()

/-- The first half of `validatePerformance`: the two tests on
`result.stats.totalPoints`. -/
def checkTotalPoints : Eff Unit := fun r =>
  let totalPoints := r.stats.totalPoints
  ((if totalPoints > 50000 then
      pushWarning ("File molto grande (" ++ showNat totalPoints ++
        " punti) - potrebbe causare problemi di performance")
    else pure ()) >>= fun _ =>
   (if totalPoints > 100000 then
      pushError ("File troppo grande (" ++ showNat totalPoints ++
        " punti) - supera il limite di performance")
    else pure ())) r

/-- The second half of `validatePerformance`: the loop over the routes. -/
def checkDenseRoutes (E : Engine) (P : Printer) (parsedKML : JSVal) : Eff Unit := do
  let routes0 ← liftE (getProp parsedKML "routes")
  let routes := if routes0.truthy then routes0 else .arr []
  let len ← liftE (getProp routes "length")
  let bound ← liftE (toNumber E len)
  match loopCount routes bound with
  | some n => forIndex (checkDenseAt E P routes) 0 n
  | none => loopForever

/-- The function `validatePerformance`. -/
def validatePerformance (E : Engine) (P : Printer) (parsedKML : JSVal) : Eff Unit := do
  checkTotalPoints
  checkDenseRoutes E P parsedKML

/-- The record `result` at the start of `validateKML`. -/
def initialResult : ValidationResult where
  isValid := true
  errors := []
  warnings := []
  stats := { routeCount := .num (.fin 0), totalPoints := 0, validRoutes := 0,
             averagePointsPerRoute := none, stopCount := none }

/-- The `try` block of `validateKML` without its last assignment. -/
def validateKMLBody (E : Engine) (P : Printer) (parsedKML : JSVal) : Eff Unit := do
  validateBasicStructure parsedKML
  validateRoutes E parsedKML
  validateStops E parsedKML
  calculateValidationStats parsedKML
  validatePerformance E P parsedKML

/-- The function `validateKML`: the `try` block ends with
`result.isValid = result.errors.length === 0`; the `catch` block sets
`isValid` to `false` and pushes the message of the error. -/
def validateKML (E : Engine) (P : Printer) (parsedKML : JSVal) :
    Completion ValidationResult :=
  match validateKMLBody E P parsedKML initialResult with
  | .ok _ r => .returns { r with isValid := decide (r.errors.length = 0) }
  | .throws msg r =>
    .returns { r with isValid := false, errors := r.errors ++ ["Errore validazione: " ++ msg] }
  | .diverges => .diverges

/-! ## KMLParser.js: the document -/

/-- The lower-case form of an ASCII letter; other characters are unchanged.
A regular expression with the flag `i` (and without `u`) matches an ASCII
letter of the pattern against its two cases only. -/
def lowerAscii (c : Char) : Char :=
  if 65 ≤ c.toNat ∧ c.toNat ≤ 90 then Char.ofNat (c.toNat + 32) else c

/-- The class `\d` of a regular expression. -/
def isDigit (c : Char) : Bool := 48 ≤ c.toNat && c.toNat ≤ 57

/-- The class `[a-zA-Z0-9]`. -/
def isAsciiAlnum (c : Char) : Bool :=
  isDigit c || (65 ≤ c.toNat && c.toNat ≤ 90) || (97 ≤ c.toNat && c.toNat ≤ 122)

/-- What is left of `cs` after the lower-case word `word`, read without regard
to case, when `cs` starts with it. -/
def stripWord : List Char → List Char → Option (List Char)
  | [], cs => some cs
  | _ :: _, [] => none
  | w :: ws, c :: cs => if lowerAscii c = w then stripWord ws cs else none

/-- The leftmost match of a pattern that `here` recognises at the start of a
text: the result of `here` at the first position where it succeeds. -/
def firstMatch {α : Type} (here : List Char → Option α) : List Char → Option α
  | [] => here []
  | c :: cs =>
    match here (c :: cs) with
    | some a => some a
    | none => firstMatch here cs

/-- The pattern `Zona\s*(\d+)` with flag `i`, at the start of a text: the
digits of the group. -/
def zoneHere (cs : List Char) : Option (List Char) :=
  match stripWord "zona".data cs with
  | some rest =>
    let digits := (rest.dropWhile isWhiteSpace).takeWhile isDigit
    if digits = [] then none else some digits
  | none => none

/-- The pattern `Sottozona\s*([AB])` with flag `i`, at the start of a text:
the character of the group, as it is written in the text. -/
def subzoneHere (cs : List Char) : Option Char :=
  match stripWord "sottozona".data cs with
  | some rest =>
    match rest.dropWhile isWhiteSpace with
    | c :: _ => if lowerAscii c = 'a' ∨ lowerAscii c = 'b' then some c else none
    | [] => none
  | none => none

/-- The record `metadata` of a parsed document. `zone` is the value of
`parseInt` on a run of decimal digits, held exactly. -/
structure Metadata where
  name : String
  description : JSVal
  zone : Option ℕ
  subzone : Option String

/-- A route as `parseRoute` builds it. -/
structure Route where
  id : String
  name : String
  path : List Coordinate
  pointCount : ℕ
  style : JSVal
  description : JSVal

/-- The object that `parseKML` returns. -/
structure ParsedKML where
  metadata : Metadata
  routes : List Route
  stops : List JSVal
  rawDocument : JSVal

/-- The metadata as a JavaScript object. -/
def Metadata.toJS (m : Metadata) : JSVal :=
  .obj [("name", .str m.name), ("description", m.description),
        ("zone", match m.zone with
          | some z => .num (.ofNat z)
          | none => .null),
        ("subzone", match m.subzone with
          | some c => .str c
          | none => .null)]

/-- The route as a JavaScript object. -/
def Route.toJS (r : Route) : JSVal :=
  .obj [("id", .str r.id), ("name", .str r.name),
        ("path", .arr (r.path.map Coordinate.toJS)),
        ("pointCount", .num (.ofNat r.pointCount)),
        ("style", r.style), ("description", r.description)]

/-- The parsed document as a JavaScript object. -/
def ParsedKML.toJS (d : ParsedKML) : JSVal :=
  .obj [("metadata", d.metadata.toJS), ("routes", .arr (d.routes.map Route.toJS)),
        ("stops", .arr d.stops), ("rawDocument", d.rawDocument)]

/-- The expression `v || d`. -/
def orElse (v d : JSVal) : JSVal := if v.truthy then v else d

/-- The function `generateRouteId`; `now` is the value of `Date.now()`. A name
that is not a string has no method `replace`, and the call throws. -/
def generateRouteId (name : JSVal) (pointCount now : ℕ) : Except String String :=
  match name with
  | .str s =>
    let cleanName := String.mk ((s.data.filter isAsciiAlnum).map lowerAscii)
    .ok (cleanName ++ "_" ++ showNat pointCount ++ "_" ++ showNat now)
  | _ => .error "TypeError: name.replace is not a function"

/-- The `try` block of `parseRoute`; `none` is the result `null`. -/
def parseRouteBody (E : Engine) (now : ℕ) (placemark : JSVal) :
    Except String (Option Route) := do
  let name := orElse (← getProp placemark "name") (.str "Percorso Sconosciuto")
  let lineString ← getProp placemark "LineString"
  let coordinates ← getProp lineString "coordinates"
  if !coordinates.truthy then pure none
  else
    let path := parseCoordinates E coordinates
    if path.length < 2 then pure none
    else
      let id ← generateRouteId name path.length now
      match name with
      | .str s =>
        pure (some { id := id, name := s, path := path, pointCount := path.length,
                     style := orElse (← getProp placemark "styleUrl") .null,
                     description := orElse (← getProp placemark "description") .null })
      | _ => pure none

/-- The function `parseRoute`: an exception in its body gives `null`. -/
def parseRoute (E : Engine) (now : ℕ) (placemark : JSVal) : Option Route :=
  match parseRouteBody E now placemark with
  | .ok r => r
  | .error _ => none

/-- The function `findPlacemarks`. -/
def findPlacemarks (document : JSVal) : Except String (List JSVal) := do
  let folder ← getProp document "Folder"
  let inFolder ←
    if folder.truthy then do
      let pm ← getProp folder "Placemark"
      match pm with
      | .arr items => pure items
      | _ => pure (if pm.truthy then [pm] else [])
    else pure []
  let pm ← getProp document "Placemark"
  let direct :=
    if pm.truthy then
      match pm with
      | .arr items => items
      | _ => [pm]
    else []
  pure (inFolder ++ direct)

/-- The loop of `extractRoutes` from the placemark of index `i` on; `clock i`
is the value `Date.now()` has while that placemark is handled. -/
def extractRoutesLoop (E : Engine) (clock : ℕ → ℕ) :
    List JSVal → ℕ → List Route → Except String (List Route)
  | [], _, routes => .ok routes
  | placemark :: rest, i, routes => do
    let lineString ← getProp placemark "LineString"
    let hasCoordinates ←
      if lineString.truthy then do
        let coordinates ← getProp lineString "coordinates"
        pure coordinates.truthy
      else pure false
    if hasCoordinates then
      match parseRoute E (clock i) placemark with
      | some route => extractRoutesLoop E clock rest (i + 1) (routes ++ [route])
      | none => extractRoutesLoop E clock rest (i + 1) routes
    else extractRoutesLoop E clock rest (i + 1) routes

/-- The function `extractRoutes`: an exception in its body gives `[]`. -/
def extractRoutes (E : Engine) (clock : ℕ → ℕ) (document : JSVal) : List Route :=
  match (do
    let placemarks ← findPlacemarks document
    extractRoutesLoop E clock placemarks 0 []) with
  | .ok routes => routes
  | .error _ => []

/-- The function `extractStops`. -/
def extractStops (_document : JSVal) : List JSVal := []

/-- The `try` block of `parseKML`; `xmlParse` is the call `xmlParser.parse` of
the XML library. -/
def parseKMLBody (E : Engine) (xmlParse : String → Except String JSVal) (clock : ℕ → ℕ)
    (kmlContent : JSVal) : Except String ParsedKML := do
  match kmlContent with
  | .str content =>
    if !kmlContent.truthy then throw "Contenuto KML non valido"
    let parsedXML ← xmlParse content
    let kml ← getProp parsedXML "kml"
    if !kml.truthy then throw "Struttura KML non valida: manca Document"
    let document ← getProp kml "Document"
    if !document.truthy then throw "Struttura KML non valida: manca Document"
    let name := orElse (← getProp document "name") (.str "Percorso Sconosciuto")
    let description := orElse (← getProp document "description") (.str "")
    match name with
    | .str s =>
      let zone := (firstMatch zoneHere s.data).bind digitsValue
      let subzone := (firstMatch subzoneHere s.data).map (fun c => String.mk [c])
      let routes := extractRoutes E clock document
      let stops := extractStops document
      pure { metadata := { name := s, description := description, zone := zone,
                           subzone := subzone },
             routes := routes, stops := stops, rawDocument := document }
    | _ => throw "TypeError: metadata.name.match is not a function"
  | _ => throw "Contenuto KML non valido"

/-- The function `parseKML`: an exception in its body is thrown again with
the text `Errore parsing KML: ` before its message. -/
def parseKML (E : Engine) (xmlParse : String → Except String JSVal) (clock : ℕ → ℕ)
    (kmlContent : JSVal) : Except String ParsedKML :=
  match parseKMLBody E xmlParse clock kmlContent with
  | .ok d => .ok d
  | .error msg => .error ("Errore parsing KML: " ++ msg)

/-! ## GPSMarkerService.js

The formulas are embedded over the real numbers: `Math.PI` is `π`, and
`Math.sin`, `Math.cos`, `Math.sqrt` are the real functions. The same functions
on binary64 numbers, with every operation rounded, are embedded in the section
on GPSMarkerService.js in binary64 arithmetic. -/

/-- The function `Math.atan2(y, x)` over the reals: the angle in `(-π, π]` of
the point `(x, y)`, and `0` at the origin. -/
noncomputable def atan2 (y x : ℝ) : ℝ := Complex.arg ⟨x, y⟩

/-- The function `Math.round` over the reals: the nearest integer, halves
going up. -/
noncomputable def mathRound (x : ℝ) : ℤ := ⌊x + 1 / 2⌋

/-- The operator `a % b` over the reals: `a - b * trunc(a / b)`, the remainder
with the sign of `a`. -/
noncomputable def jsRem (a b : ℝ) : ℝ :=
  a - b * (if 0 ≤ a / b then (⌊a / b⌋ : ℝ) else (⌈a / b⌉ : ℝ))

/-- A point `{ latitude, longitude }`, in degrees. -/
structure GeoPoint where
  latitude : ℝ
  longitude : ℝ

/-- The function `haversineDistance` of GPSMarkerService.js (KMLParser.js has
the same body), over the real numbers: every operation is exact. The argument
of each square root then lies in `[0, 1]` for all points (`haversineA_nonneg`,
`haversineA_le_one`). The function on binary64 numbers, where the sum `a` is
rounded and can exceed `1`, is `Binary64.haversineDistance`. -/
noncomputable def haversineDistance (point1 point2 : GeoPoint) : ℝ :=
  let R : ℝ := 6371000
  let lat1Rad := point1.latitude * Real.pi / 180
  let lat2Rad := point2.latitude * Real.pi / 180
  let deltaLatRad := (point2.latitude - point1.latitude) * Real.pi / 180
  let deltaLngRad := (point2.longitude - point1.longitude) * Real.pi / 180
  let a := Real.sin (deltaLatRad / 2) * Real.sin (deltaLatRad / 2) +
    Real.cos lat1Rad * Real.cos lat2Rad *
    Real.sin (deltaLngRad / 2) * Real.sin (deltaLngRad / 2)
  let c := 2 * atan2 (Real.sqrt a) (Real.sqrt (1 - a))
  R * c

/-- The function `calculateBearing`. -/
noncomputable def calculateBearing (fromPoint toPoint : GeoPoint) : ℝ :=
  let lat1Rad := fromPoint.latitude * Real.pi / 180
  let lat2Rad := toPoint.latitude * Real.pi / 180
  let deltaLngRad := (toPoint.longitude - fromPoint.longitude) * Real.pi / 180
  let y := Real.sin deltaLngRad * Real.cos lat2Rad
  let x := Real.cos lat1Rad * Real.sin lat2Rad -
    Real.sin lat1Rad * Real.cos lat2Rad * Real.cos deltaLngRad
  let bearing := atan2 y x * 180 / Real.pi
  jsRem (bearing + 360) 360

/-- A GPS fix `{ latitude, longitude, accuracy }`; `none` is an absent field. -/
structure UserLocation where
  latitude : Option ℝ
  longitude : Option ℝ
  accuracy : Option ℝ

/-- A stop: its coordinates (`none` when the field is absent) and the rest of
its fields. -/
structure Stop (α : Type) where
  info : α
  latitude : Option ℝ
  longitude : Option ℝ

/-- The object `{ ...stop, distance: Math.round(distance) }`. -/
structure VisibleStop (α : Type) where
  stop : Stop α
  distance : ℤ

/-- Truthiness of a numeric field: it is present and is not `0`. -/
noncomputable def fieldTruthy (x : Option ℝ) : Bool :=
  match x with
  | some v => decide (v ≠ 0)
  | none => false

/-- The point read from two numeric fields (an absent field is never read
where the program uses this). -/
noncomputable def pointOf (latitude longitude : Option ℝ) : GeoPoint :=
  { latitude := latitude.getD 0, longitude := longitude.getD 0 }

/-- One turn of the loop of `getVisibleStops`. -/
noncomputable def visibleStep {α : Type} (user : GeoPoint) (radius : ℝ)
    (visibleStops : List (VisibleStop α)) (stop : Stop α) : List (VisibleStop α) :=
  if !fieldTruthy stop.latitude || !fieldTruthy stop.longitude then visibleStops
  else
    let distance := haversineDistance user (pointOf stop.latitude stop.longitude)
    if distance ≤ radius then
      visibleStops ++ [{ stop := stop, distance := mathRound distance }]
    else visibleStops

/-- The call `visibleStops.sort((a, b) => a.distance - b.distance)`: the sort
is stable, so its result is that of a stable insertion by `distance`. -/
def sortByDistance {α : Type} (xs : List (VisibleStop α)) : List (VisibleStop α) :=
  xs.insertionSort (fun a b => a.distance ≤ b.distance)

/-- The default value of the parameter `radius`. -/
def defaultRadius : ℝ := 200

/-- The function `getVisibleStops`; `none` is a user location that is `null`
or `undefined`. -/
noncomputable def getVisibleStops {α : Type} (userLocation : Option UserLocation)
    (allStops : List (Stop α)) (radius : ℝ) : List (VisibleStop α) :=
  match userLocation with
  | none => []
  | some u =>
    if !fieldTruthy u.latitude || !fieldTruthy u.longitude then []
    else if fieldTruthy u.accuracy && decide (u.accuracy.getD 0 > 50) then []
    else
      sortByDistance (allStops.foldl (visibleStep (pointOf u.latitude u.longitude) radius) [])

/-! ## Predicates, specification-side definitions and sample data -/

/-- A piece of the validator that ends (by returning or by throwing) from every state. -/
def NoDiv {α : Type} (m : Eff α) : Prop := ∀ r, m r ≠ .diverges

/-- The loop over `routes.length` of the document ends: `routes` is an array,
or its `length` converts to a number that the counter reaches. -/
def FiniteRoutes (E : Engine) (v : JSVal) : Prop :=
  ∀ routes len bound, getProp v "routes" = .ok routes → getProp routes "length" = .ok len →
    toNumber E len = .ok bound → loopCount routes bound ≠ none

/-- A printer for concrete evaluation. -/
def plainPrinter : Printer where
  numberToString := fun _ => "NaN"
  arrayToString := fun _ => ""

/-- The first two characters of a message. -/
def headTwo (s : String) : List Char := s.data.take 2

/-- The message is not one that starts with `Fi` (as the size error does). -/
def NotSizeLike (e : String) : Prop := headTwo e ≠ ['F', 'i']

/-- The size error that `validatePerformance` pushes for `n` points. -/
def sizeError (n : ℕ) : String :=
  "File troppo grande (" ++ showNat n ++ " punti) - supera il limite di performance"

/-- From the state `r`, the step has only appended errors that satisfy `good`. -/
def GrowsFrom {α : Type} (good : String → Prop) (r : ValidationResult) : Step α → Prop
  | .ok _ r1 => ∃ es, r1.errors = r.errors ++ es ∧ ∀ e ∈ es, good e
  | .throws _ r1 => ∃ es, r1.errors = r.errors ++ es ∧ ∀ e ∈ es, good e
  | .diverges => True

/-- A piece of the validator that only appends errors satisfying `good`. -/
def Grows {α : Type} (good : String → Prop) (m : Eff α) : Prop :=
  ∀ r, GrowsFrom good r (m r)

/-- The name of the object is a string, or is falsy (absent or empty). -/
def NameOk (o : JSVal) : Prop :=
  ∀ nm, getProp o "name" = .ok nm → nm.truthy = true → nm.isString = true

/-- The property of the object is a number, or is absent. -/
def NumberOrAbsent (o : JSVal) (key : String) : Prop :=
  ∀ x, getProp o key = .ok x → x = .undefined ∨ x.isNumber = true

/-- The stops of a parsed document: when they are an array, every stop that is
not null has a string or falsy name and numeric or absent coordinates. -/
def StopsOk (stops : JSVal) : Prop :=
  ∀ items, stops = .arr items → ∀ stop ∈ items, stop.truthy = true →
    NameOk stop ∧ NumberOrAbsent stop "latitude" ∧ NumberOrAbsent stop "longitude"

/-- The number of points of a route as the statistics count it: the length of
its path when the route is not null and its path is an array of at least two
points, and `0` otherwise. -/
def countedPoints (route : JSVal) : ℕ :=
  if route.truthy then
    match getProp route "path" with
    | .ok (.arr points) => if points.length ≥ 2 then points.length else 0
    | _ => 0
  else 0

/-- The sum of the path lengths of the routes that have at least two points. -/
def specTotalPoints (routes : List JSVal) : ℕ := (routes.map countedPoints).sum

/-- A piece of the validator that returns normally from every state. -/
def Succeeds {α : Type} (m : Eff α) : Prop := ∀ r, ∃ a r1, m r = .ok a r1

/-- A path for concrete evaluation: 100001 times the same point. -/
def bigPath : List JSVal :=
  List.replicate 100001
    (Coordinate.toJS { latitude := .fin 45, longitude := .fin 9, altitude := .fin 0 })

/-- A route for concrete evaluation, with the path `bigPath`. -/
def bigRoute : JSVal :=
  .obj [("name", .str "Percorso"), ("path", .arr bigPath)]

/-- The fields of the document with the route `bigRoute`. -/
def bigDocFields : List (String × JSVal) :=
  [("metadata", .obj [("name", .str "Zona 9 Sottozona B")]),
   ("routes", .arr [bigRoute]), ("stops", .arr [])]

/-- The text of one point of a `coordinates` element: three fields that the
token `lng,lat,alt` joins with commas. -/
structure CoordText where
  lng : List Char
  lat : List Char
  alt : List Char

/-- The token `lng,lat,alt`. -/
def CoordText.token (t : CoordText) : List Char :=
  t.lng ++ ',' :: (t.lat ++ ',' :: t.alt)

/-- No field of the token holds a comma or a white-space character. -/
def CoordText.Clean (t : CoordText) : Prop :=
  ∀ c ∈ t.lng ++ t.lat ++ t.alt, c ≠ ',' ∧ isWhiteSpace c = false

/-- The point that the text of a token denotes. -/
def CoordText.point (E : Engine) (t : CoordText) : Coordinate :=
  { latitude := E.parseFloat (String.mk t.lat),
    longitude := E.parseFloat (String.mk t.lng),
    altitude := E.parseFloat (String.mk t.alt) }

/-- A first token followed by more tokens, each after its separator. -/
def spacedTokens (first : List Char) (rest : List (List Char × List Char)) : List Char :=
  first ++ (rest.map (fun p => p.1 ++ p.2)).flatten

/-- The text of a `coordinates` element: white-space-separated tokens, with
optional white space before and after. -/
def coordinatesText (lead : List Char) (first : CoordText)
    (rest : List (List Char × CoordText)) (trail : List Char) : List Char :=
  lead ++ spacedTokens first.token (rest.map (fun p => (p.1, p.2.token))) ++ trail

/-- The tokens and separators of a text are well formed: tokens are not empty
and hold no white space, separators are not empty and hold only white space. -/
def SpacedOk (first : List Char) (rest : List (List Char × List Char)) : Prop :=
  (first ≠ [] ∧ ∀ c ∈ first, isWhiteSpace c = false) ∧
  ∀ p ∈ rest, (p.1 ≠ [] ∧ ∀ c ∈ p.1, isWhiteSpace c = true) ∧
    (p.2 ≠ [] ∧ ∀ c ∈ p.2, isWhiteSpace c = false)

/-- The longitude and the latitude that the text of a token denotes are in
range. -/
def CoordText.InRange (E : Engine) (t : CoordText) : Prop :=
  (E.parseFloat (String.mk t.lng)).InRange (-180) 180 ∧
    (E.parseFloat (String.mk t.lat)).InRange (-90) 90

/-- The layout of a `coordinates` text is well formed: white space only
before, after and between the tokens, at least one character between two
tokens, and clean tokens whose longitude and latitude are in range. -/
def LayoutOk (E : Engine) (lead : List Char) (first : CoordText)
    (rest : List (List Char × CoordText)) (trail : List Char) : Prop :=
  (∀ c ∈ lead, isWhiteSpace c = true) ∧ (∀ c ∈ trail, isWhiteSpace c = true) ∧
  (first.Clean ∧ first.InRange E) ∧
  ∀ p ∈ rest, (p.1 ≠ [] ∧ ∀ c ∈ p.1, isWhiteSpace c = true) ∧ p.2.Clean ∧ p.2.InRange E

/-- A route that the validator accepts: it is not null, its name is a string
or falsy, and its path is an array of at least two points that are all valid. -/
def GoodRoute (route : JSVal) : Prop :=
  route.truthy = true ∧ NameOk route ∧
    ∃ points, getProp route "path" = .ok (.arr points) ∧ 2 ≤ points.length ∧
      ∀ p ∈ points, pointIsValid p = true

/-- The value of `name || 'Percorso Sconosciuto'` for a name that is a string. -/
def nameOrDefault (name : String) : String :=
  if name.data ≠ [] then name else "Percorso Sconosciuto"

/-- The tree of the sample document `Zona 9 Sottozona B`. -/
def sampleTree : JSVal :=
  .obj [("kml", .obj [("Document", .obj [
    ("name", .str "Zona 9 Sottozona B"),
    ("Placemark", .obj [
      ("name", .str "Percorso Sconosciuto"),
      ("LineString", .obj [("coordinates",
        .str "9.58337,44.96544,0 9.58333,44.96549,0 9.58331,44.96552,0")])])])])]

/-- The first token of the sample document. -/
def samplePoint1 : CoordText :=
  { lng := "9.58337".data, lat := "44.96544".data, alt := "0".data }

/-- The second token of the sample document. -/
def samplePoint2 : CoordText :=
  { lng := "9.58333".data, lat := "44.96549".data, alt := "0".data }

/-- The third token of the sample document. -/
def samplePoint3 : CoordText :=
  { lng := "9.58331".data, lat := "44.96552".data, alt := "0".data }

/-- The quantity `a` of `haversineDistance`. -/
noncomputable def haversineA (point1 point2 : GeoPoint) : ℝ :=
  Real.sin ((point2.latitude - point1.latitude) * Real.pi / 180 / 2) *
      Real.sin ((point2.latitude - point1.latitude) * Real.pi / 180 / 2) +
    Real.cos (point1.latitude * Real.pi / 180) * Real.cos (point2.latitude * Real.pi / 180) *
      Real.sin ((point2.longitude - point1.longitude) * Real.pi / 180 / 2) *
      Real.sin ((point2.longitude - point1.longitude) * Real.pi / 180 / 2)

/-- The cosine of the angle between the directions of two points: the inner
product of their unit vectors. -/
noncomputable def cosAngle (p q : GeoPoint) : ℝ :=
  Real.sin (p.latitude * Real.pi / 180) * Real.sin (q.latitude * Real.pi / 180) +
    Real.cos (p.latitude * Real.pi / 180) * Real.cos (q.latitude * Real.pi / 180) *
      Real.cos ((q.longitude - p.longitude) * Real.pi / 180)

/-- The distance from the user to a stop, as `getVisibleStops` computes it. -/
noncomputable def stopDistance {α : Type} (user : GeoPoint) (s : Stop α) : ℝ :=
  haversineDistance user (pointOf s.latitude s.longitude)

/-- What the loop of `getVisibleStops` keeps of one stop: the stop with its
rounded distance when both coordinates are truthy and the distance is at most
the radius. -/
noncomputable def keepStop {α : Type} (user : GeoPoint) (radius : ℝ) (s : Stop α) :
    Option (VisibleStop α) :=
  if fieldTruthy s.latitude = true ∧ fieldTruthy s.longitude = true ∧
      stopDistance user s ≤ radius then
    some { stop := s, distance := mathRound (stopDistance user s) }
  else none

/-! ## GPSMarkerService.js: cardinal direction and nearest stop -/

/-- The array `directions` of `bearingToCardinal`. -/
def directions : List String := ["N", "NE", "E", "SE", "S", "SW", "W", "NW"]

/-- The function `bearingToCardinal`, over the reals: the operator `%` on the
integer `Math.round(bearing / 45)` is the truncated remainder, and an index
that is negative or too large reads `undefined` (here `none`). -/
noncomputable def bearingToCardinal (bearing : ℝ) : Option String :=
  let index := Int.tmod (mathRound (bearing / 45)) 8
  if 0 ≤ index then directions.get? index.toNat else none

/-- The object `{ ...nearestStop, distance, bearing, direction }` that
`findNearestStop` returns. -/
structure NearestStop (α : Type) where
  stop : Stop α
  distance : ℤ
  bearing : ℤ
  direction : Option String

/-- One turn of the loop of `findNearestStop`, over the real numbers, where a
distance is a number less than `Infinity` (in binary64 a distance can be
`NaN`: see `Binary64.nearestStep`). The state is the pair
`(nearestStop, minDistance)`: `none` is `(null, Infinity)`, the value it has
until a first stop is taken; the two variables are always assigned together. -/
noncomputable def nearestStep {α : Type} (user : GeoPoint) (state : Option (Stop α × ℝ))
    (stop : Stop α) : Option (Stop α × ℝ) :=
  if !fieldTruthy stop.latitude || !fieldTruthy stop.longitude then state
  else
    let distance := haversineDistance user (pointOf stop.latitude stop.longitude)
    match state with
    | none => some (stop, distance)
    | some (nearestStop, minDistance) =>
      if distance < minDistance then some (stop, distance) else some (nearestStop, minDistance)

/-- The function `findNearestStop` of GPSMarkerService.js, over the real
numbers; `none` is `null`. -/
noncomputable def findNearestStop {α : Type} (userLocation : Option UserLocation)
    (allStops : List (Stop α)) : Option (NearestStop α) :=
  match userLocation with
  | none => none
  | some u =>
    if !fieldTruthy u.latitude || !fieldTruthy u.longitude then none
    else if fieldTruthy u.accuracy && decide (u.accuracy.getD 0 > 50) then none
    else
      match allStops.foldl (nearestStep (pointOf u.latitude u.longitude)) none with
      | none => none
      | some (nearestStop, minDistance) =>
        let bearing := calculateBearing (pointOf u.latitude u.longitude)
          (pointOf nearestStop.latitude nearestStop.longitude)
        some { stop := nearestStop, distance := mathRound minDistance,
               bearing := mathRound bearing, direction := bearingToCardinal bearing }

/-- The stop `s` is the first stop of the list at minimal distance `d`: the
stops before it are strictly farther, the stops after it at least as far. -/
def FirstNearest {α : Type} (dist : Stop α → ℝ) (stops : List (Stop α)) (s : Stop α)
    (d : ℝ) : Prop :=
  ∃ before after, stops = before ++ s :: after ∧ d = dist s ∧
    (∀ t ∈ before, d < dist t) ∧ (∀ t ∈ after, d ≤ dist t)

/-- A user location with a good fix, used as sample data. -/
noncomputable def nearUser : UserLocation :=
  { latitude := some (4496544 / 100000), longitude := some (958337 / 100000),
    accuracy := some 10 }

/-- Two stops, the second at the place of `nearUser`. -/
noncomputable def nearStops : List (Stop String) :=
  [{ info := "A", latitude := some (4496552 / 100000), longitude := some (958331 / 100000) },
   { info := "B", latitude := some (4496544 / 100000), longitude := some (958337 / 100000) }]

/-! ## NavigationService.js -/

/-- The names that GPSMarkerService.js exports. The function
`haversineDistance` of that file is declared without `export`, so its name is
not among them. -/
def gpsMarkerServiceExports : List String :=
  ["getVisibleStops", "calculateBearing", "bearingToCardinal", "findNearestStop",
   "calculateNearbyStopsStats", "filterStopsByZone", "createStopMarker",
   "createVisibleMarkers", "updateMarkers"]

/-- The binding that `import { name } from module` gives in a module compiled
to CommonJS (Babel, Metro): the exported value, or `undefined` (here `none`)
when the module exports nothing under that name. -/
def importBinding {α : Type} (exported : List String) (name : String) (value : α) :
    Option α :=
  if name ∈ exported then some value else none

/-- The function position of a call of an imported binding: calling
`undefined` throws a `TypeError` (the message text is the engine's; a fixed
text stands for it). -/
def callBinding {α : Type} (name : String) (binding : Option α) : Except String α :=
  match binding with
  | some f => .ok f
  | none => .error ("TypeError: " ++ name ++ " is not a function")

/-- The decimal text of an integer in a template literal. -/
def showInt (n : ℤ) : String := toString n

/-- The object that `calculateNavigationInfo` returns; `none` is `null` (for
`etaText` and `accuracy`: the field is absent or `null`). -/
structure NavigationInfo where
  distance : Option ℤ
  distanceText : String
  bearing : Option ℤ
  direction : Option String
  eta : Option ℤ
  etaText : Option String
  canNavigate : Bool
  accuracy : Option ℝ

/-- The object of the two early returns of `calculateNavigationInfo`. -/
def noNavigation (distanceText : String) : NavigationInfo :=
  { distance := none, distanceText := distanceText, bearing := none, direction := none,
    eta := none, etaText := none, canNavigate := false, accuracy := none }

/-- The method `formatDistance`; `toFixed1` is the call `x.toFixed(1)`. -/
noncomputable def formatDistance (toFixed1 : ℝ → String) (distance : ℝ) : String :=
  if distance < 1000 then showInt (mathRound distance) ++ "m"
  else toFixed1 (distance / 1000) ++ "km"

/-- The method `formatETA` on an integer, with the exact quotient and
remainder of the integers and the decimal text of an integer; it is the text
that `calculateNavigationInfo` is given. The method on a binary64 number, with
the rounded quotient, is `Binary64.formatETA`. -/
def formatETA (etaMinutes : ℤ) : String :=
  if etaMinutes < 1 then "< 1 min"
  else if etaMinutes < 60 then showInt etaMinutes ++ " min"
  else
    let hours := Int.fdiv etaMinutes 60
    let minutes := Int.tmod etaMinutes 60
    if minutes > 0 then showInt hours ++ "h " ++ showInt minutes ++ "m"
    else showInt hours ++ "h"

/-- The method `calculateNavigationInfo` of NavigationService.js. The three
functions it calls are the bindings of the import from GPSMarkerService.js. -/
noncomputable def calculateNavigationInfo {α : Type} (toFixed1 : ℝ → String)
    (stop : Stop α) (userLocation : Option UserLocation) : Except String NavigationInfo :=
  match userLocation with
  | none => .ok (noNavigation "Posizione GPS non disponibile")
  | some u =>
    if !fieldTruthy u.latitude || !fieldTruthy u.longitude then
      .ok (noNavigation "Posizione GPS non disponibile")
    else if !fieldTruthy stop.latitude || !fieldTruthy stop.longitude then
      .ok (noNavigation "Coordinate fermata non valide")
    else do
      let userPoint := pointOf u.latitude u.longitude
      let stopPoint := pointOf stop.latitude stop.longitude
      let haversine ← callBinding "haversineDistance"
        (importBinding gpsMarkerServiceExports "haversineDistance" haversineDistance)
      let distance := haversine userPoint stopPoint
      let bearingOf ← callBinding "calculateBearing"
        (importBinding gpsMarkerServiceExports "calculateBearing" calculateBearing)
      let bearing := bearingOf userPoint stopPoint
      let cardinalOf ← callBinding "bearingToCardinal"
        (importBinding gpsMarkerServiceExports "bearingToCardinal" bearingToCardinal)
      let direction := cardinalOf bearing
      let walkingSpeed : ℝ := 5000
      let etaMinutes := mathRound ((distance / walkingSpeed) * 60)
      let distanceText := formatDistance toFixed1 distance
      pure { distance := some (mathRound distance), distanceText := distanceText,
             bearing := some (mathRound bearing), direction := direction,
             eta := some etaMinutes, etaText := some (formatETA etaMinutes),
             canNavigate := true,
             accuracy := if fieldTruthy u.accuracy then u.accuracy else none }

/-- A stop next to `nearUser`, used as sample data. -/
noncomputable def navStop : Stop String :=
  { info := "Via Roma 12", latitude := some (4496552 / 100000),
    longitude := some (958331 / 100000) }

/-! ## Further predicates, relations between runs and sample data -/

/-- A placemark with a line of two points, used as sample data. -/
def lineA : JSVal :=
  .obj [("name", .str "Giro A"),
        ("LineString", .obj [("coordinates", .str "9.58337,44.96544,0 9.58333,44.96549,0")])]

/-- A second placemark with a line of two points. -/
def lineB : JSVal :=
  .obj [("name", .str "Giro B"),
        ("LineString", .obj [("coordinates", .str "9.58331,44.96552,0 9.58329,44.96555,0")])]

/-- The element `Document` with two `Folder` elements, each holding one
placemark: the XML library gives an array for an element that occurs more
than once. -/
def twoFolderDocument : JSVal :=
  .obj [("name", .str "Zona 9"),
        ("Folder", .arr [.obj [("Placemark", lineA)], .obj [("Placemark", lineB)]])]

/-- The element `Document` with one `Folder` element that holds the same two
placemarks. -/
def oneFolderDocument : JSVal :=
  .obj [("name", .str "Zona 9"), ("Folder", .obj [("Placemark", .arr [lineA, lineB])])]

/-- The tree of the document with two `Folder` elements. -/
def twoFolderTree : JSVal := .obj [("kml", .obj [("Document", twoFolderDocument)])]

/-- A document with metadata and no field `routes`, used as sample data. -/
def noRoutesDocument : JSVal := .obj [("metadata", .obj [("name", .str "Zona 9")])]

/-- A document with metadata whose field `routes` is an object, not an array. -/
def objectRoutesDocument : JSVal :=
  .obj [("metadata", .obj [("name", .str "Zona 9")]), ("routes", .obj [])]

/-- What the specification says of a route of a parsed document: at least two
points, each with a latitude in `[-90, 90]` and a longitude in `[-180, 180]`,
and `pointCount` equal to the number of points. -/
def RouteOk (r : Route) : Prop :=
  2 ≤ r.path.length ∧ r.pointCount = r.path.length ∧
    ∀ p ∈ r.path, p.latitude.InRange (-90) 90 ∧ p.longitude.InRange (-180) 180

/-- The clock of a run in which the placemark of index `n` is left out: the
placemarks after it are handled one index earlier. -/
def skipClock (clock : ℕ → ℕ) (n : ℕ) : ℕ → ℕ :=
  fun j => if j < n then clock j else clock (j + 1)

/-- A placemark whose line has no point, used as sample data. -/
def badLine : JSVal :=
  .obj [("name", .str "Giro C"), ("LineString", .obj [("coordinates", .str "abc")])]

/-- The element `Document` with three placemarks, the second without a
point. -/
def mixedDocument : JSVal :=
  .obj [("name", .str "Zona 9"), ("Placemark", .arr [lineA, badLine, lineB])]

/-- The same element without its second placemark. -/
def cleanDocument : JSVal :=
  .obj [("name", .str "Zona 9"), ("Placemark", .arr [lineA, lineB])]

/-- The tree of the document with three placemarks. -/
def mixedTree : JSVal := .obj [("kml", .obj [("Document", mixedDocument)])]

/-- The path length that the specification counts for a route: the length of
`path` when the route is not null and its path is an array of at least two
points; `none` for every other route. -/
def countedPath (route : JSVal) : Option ℕ :=
  match route with
  | .undefined => none
  | .null => none
  | _ =>
    match getProp route "path" with
    | .ok (.arr points) => if 2 ≤ points.length then some points.length else none
    | _ => none

/-- A piece of the validator that leaves `result.stats` as it is, also when it
throws. -/
def KeepsStats {α : Type} (m : Eff α) : Prop :=
  ∀ r, match m r with
    | .ok _ r1 => r1.stats = r.stats
    | .throws _ r1 => r1.stats = r.stats
    | .diverges => True

/-- The object `{ latitude, longitude }` of two finite numbers. -/
def pointObject (latitude longitude : ℚ) : JSVal :=
  .obj [("latitude", .num (.fin latitude)), ("longitude", .num (.fin longitude))]

/-- The fields of a document with two routes, one of three points and one
that is `null`, used as sample data. -/
def statsDocFields : List (String × JSVal) :=
  [("metadata", .obj [("name", .str "Zona 9")]),
   ("routes", .arr [.obj [("name", .str "Giro A"),
      ("path", .arr [pointObject (4496544 / 100000) (958337 / 100000),
                     pointObject (4496549 / 100000) (958333 / 100000),
                     pointObject (4496552 / 100000) (958331 / 100000)])],
    .null])]

/-- The fields of an object after the assignment `object[key] = v`. -/
def setField (key : String) (v : JSVal) : List (String × JSVal) → List (String × JSVal)
  | [] => [(key, v)]
  | (k, x) :: rest => if k = key then (key, v) :: rest else (k, x) :: setField key v rest

/-- The document with fields `fields` and routes `rs`, after `point` has been
appended to the path `pts` of its route of index `i`, whose fields are
`rfields`. -/
def appendPoint (fields : List (String × JSVal)) (rs : List JSVal) (i : ℕ)
    (rfields : List (String × JSVal)) (pts : List JSVal) (point : JSVal) : JSVal :=
  .obj (setField "routes"
    (.arr (rs.set i (.obj (setField "path" (.arr (pts ++ [point])) rfields)))) fields)

/-- What the specification calls an invalid point: it is `null`, or its
latitude and longitude are not both numbers, or they are numbers out of the
ranges `[-90, 90]` and `[-180, 180]`. In one formula: whenever the point has a
latitude and a longitude that are numbers, they are not both in range. -/
def InvalidPoint (point : JSVal) : Prop :=
  ∀ lat lng, getProp point "latitude" = .ok (.num lat) →
    getProp point "longitude" = .ok (.num lng) →
    ¬ (lat.InRange (-90) 90 ∧ lng.InRange (-180) 180)

/-- The relation between the results of two runs that the validator keeps
from step to step: errors in the first run come with errors in the second,
and the second run has counted at least as many points. -/
def Sim (r r1 : ValidationResult) : Prop :=
  (r.errors ≠ [] → r1.errors ≠ []) ∧ r.stats.totalPoints ≤ r1.stats.totalPoints

/-- Two steps end in the same way: both return, with the same value and
related results, or both throw, or both do not end. -/
def StepSim {α : Type} : Step α → Step α → Prop
  | .ok a r, .ok a1 r1 => a = a1 ∧ Sim r r1
  | .throws _ _, .throws _ _ => True
  | .diverges, .diverges => True
  | _, _ => False

/-- Two pieces of the validator that end in the same way from related
results. -/
def Rel {α : Type} (m m1 : Eff α) : Prop := ∀ r r1, Sim r r1 → StepSim (m r) (m1 r1)

/-- A piece of the validator that ends in the same way from related results. -/
def Mono {α : Type} (m : Eff α) : Prop := ∀ r r1, Sim r r1 → StepSim (m r) (m r1)

/-- A piece of the validator that returns, leaves the statistics as they are,
and pushes an error exactly when `c` holds. -/
def Pushes (m : Eff Unit) (c : Prop) : Prop :=
  ∀ r, ∃ r1, m r = .ok () r1 ∧ r1.stats = r.stats ∧ (r1.errors ≠ [] ↔ (r.errors ≠ [] ∨ c))

/-- The number of valid points that `validateRouteCoordinates` finds. -/
def validCount (path : List JSVal) : ℕ := (scanPoints path 0 (0, [])).1

/-- The fields of a document with one route whose path is `[null, null]`,
used as sample data. -/
def nullPathFields : List (String × JSVal) :=
  [("routes", .arr [.obj [("name", .str "Giro A"), ("path", .arr [.null, .null])]])]

/-- The stops that the specification calls kept, in the order of the input:
none when the user location is missing, has a falsy latitude or longitude, or
has an accuracy above 50; otherwise the stops with truthy coordinates whose
distance from the user is at most the radius. -/
noncomputable def keptStops {α : Type} (userLocation : Option UserLocation)
    (allStops : List (Stop α)) (radius : ℝ) : List (Stop α) :=
  match userLocation with
  | none => []
  | some u =>
    if fieldTruthy u.latitude = true ∧ fieldTruthy u.longitude = true ∧
        ¬ (fieldTruthy u.accuracy = true ∧ u.accuracy.getD 0 > 50) then
      allStops.filter (fun s => (keepStop (pointOf u.latitude u.longitude) radius s).isSome)
    else []

/-! ## MapStateService.js

The methods are embedded as they run without another call of the service
interleaved at an `await`; the listeners are observers: what they receive is
recorded, in order, in `emitted`. -/

/-- The record `currentState`; `none` is `null`. -/
structure MapState where
  zone : Option ℤ
  subzone : Option String
  routes : List JSVal
  stops : List JSVal
  markers : List JSVal
  selectedStop : JSVal
  isLoaded : Bool
  isLoading : Bool

/-- One property of the object passed to `setState`. -/
inductive StateUpdate where
  | zone (v : Option ℤ)
  | subzone (v : Option String)
  | routes (v : List JSVal)
  | stops (v : List JSVal)
  | markers (v : List JSVal)
  | selectedStop (v : JSVal)
  | isLoaded (v : Bool)
  | isLoading (v : Bool)

/-- The name of the property. -/
def StateUpdate.key : StateUpdate → String
  | .zone _ => "zone"
  | .subzone _ => "subzone"
  | .routes _ => "routes"
  | .stops _ => "stops"
  | .markers _ => "markers"
  | .selectedStop _ => "selectedStop"
  | .isLoaded _ => "isLoaded"
  | .isLoading _ => "isLoading"

/-- The state with one property replaced, as the spread
`{ ...this.currentState, ...newState }` does for each property of `newState`. -/
def StateUpdate.apply (s : MapState) : StateUpdate → MapState
  | .zone v => { s with zone := v }
  | .subzone v => { s with subzone := v }
  | .routes v => { s with routes := v }
  | .stops v => { s with stops := v }
  | .markers v => { s with markers := v }
  | .selectedStop v => { s with selectedStop := v }
  | .isLoaded v => { s with isLoaded := v }
  | .isLoading v => { s with isLoading := v }

/-- An event with its data, as `notifyListeners` hands it to the listeners. -/
inductive MapEvent where
  | stateChanged (oldState newState : MapState) (changes : List String)
  | beforeCleanup (zone : Option ℤ) (subzone : Option String)
  | afterCleanup (zone : Option ℤ) (subzone : Option String)
  | dataLoaded (zone : ℤ) (subzone : String) (routes stops : List JSVal)
  | dataUpdated (zone : ℤ) (subzone : String) (data : JSVal)
  | stopSelected (stop : JSVal)
  | stopDeselected
  | markersUpdated (markers : List JSVal)
  | manualStopAdded (stop : JSVal)
  | manualStopRemoved (stopId : JSVal)

/-- The service: its state and the events it has emitted so far. -/
structure MapService where
  currentState : MapState
  emitted : List MapEvent

/-- The state that the constructor sets. -/
def initialMapState : MapState :=
  { zone := none, subzone := none, routes := [], stops := [], markers := [],
    selectedStop := .null, isLoaded := false, isLoading := false }

/-- The service after its constructor. -/
def initialMapService : MapService := { currentState := initialMapState, emitted := [] }

/-- The method `notifyListeners`: an exception of a listener is caught there. -/
def MapService.notifyListeners (e : MapEvent) (s : MapService) : MapService :=
  { s with emitted := s.emitted ++ [e] }

/-- The method `setState`; `newState` lists the properties of its argument in
the order of the object literal. -/
def MapService.setState (newState : List StateUpdate) (s : MapService) : MapService :=
  let oldState := s.currentState
  let currentState := newState.foldl StateUpdate.apply s.currentState
  MapService.notifyListeners
    (.stateChanged oldState currentState (newState.map StateUpdate.key))
    { s with currentState := currentState }

/-- The method `isZoneLoaded`. -/
def MapService.isZoneLoaded (zone : ℤ) (subzone : String) (s : MapService) : Bool :=
  decide (s.currentState.zone = some zone) && decide (s.currentState.subzone = some subzone) &&
    s.currentState.isLoaded

/-- Truthiness of the field `zone`: `null` and `0` are falsy. -/
def zoneTruthy (zone : Option ℤ) : Bool :=
  match zone with
  | some z => decide (z ≠ 0)
  | none => false

/-- Truthiness of the field `subzone`: `null` and `''` are falsy. -/
def subzoneTruthy (subzone : Option String) : Bool :=
  match subzone with
  | some p => decide (p.data ≠ [])
  | none => false

/-- The method `clearCurrentState`. -/
def MapService.clearCurrentState (s : MapService) : MapService :=
  let oldZone := s.currentState.zone
  let oldSubzone := s.currentState.subzone
  let s1 :=
    if zoneTruthy oldZone && subzoneTruthy oldSubzone then
      MapService.notifyListeners (.beforeCleanup oldZone oldSubzone) s
    else s
  let s2 := MapService.setState
    [.zone none, .subzone none, .routes [], .stops [], .markers [], .selectedStop .null,
     .isLoaded false, .isLoading false] s1
  MapService.notifyListeners (.afterCleanup oldZone oldSubzone) s2

/-- The test `v === zone` for a number `zone`. -/
def isZoneValue (zone : ℤ) (v : JSVal) : Bool :=
  match v with
  | .num (.fin q) => decide (q = (zone : ℚ))
  | _ => false

/-- The test `v === subzone` for a string `subzone`. -/
def isPlanValue (subzone : String) (v : JSVal) : Bool :=
  match v with
  | .str s => decide (s = subzone)
  | _ => false

/-- The callback `route => !route.zone_id || route.zone_id === zone`. -/
def keepZoneRoute (zone : ℤ) (route : JSVal) : Except String Bool := do
  let zoneId ← getProp route "zone_id"
  pure (!zoneId.truthy || isZoneValue zone zoneId)

/-- The callback `stop => stop.zone_id === zone && stop.plan === subzone`. -/
def keepZoneStop (zone : ℤ) (subzone : String) (stop : JSVal) : Except String Bool := do
  let zoneId ← getProp stop "zone_id"
  if isZoneValue zone zoneId then
    let plan ← getProp stop "plan"
    pure (isPlanValue subzone plan)
  else pure false

/-- The loop of `Array.prototype.filter` with a callback that may throw. -/
def filterItems (keep : JSVal → Except String Bool) : List JSVal → Except String (List JSVal)
  | [] => .ok []
  | x :: xs => do
    let k ← keep x
    let rest ← filterItems keep xs
    pure (if k then x :: rest else rest)

/-- The call `v.filter(keep)`: only an array has the method. -/
def callFilter (v : JSVal) (keep : JSVal → Except String Bool) : Except String (List JSVal) :=
  match v with
  | .arr items => filterItems keep items
  | .undefined => .error "TypeError: cannot read property filter of undefined"
  | .null => .error "TypeError: cannot read property filter of null"
  | _ => .error "TypeError: filter is not a function"

/-- The binding `{ name = [] } = data`: the property, or `[]` when it is
`undefined`; on `null` and `undefined` the destructuring throws. -/
def propOrEmpty (data : JSVal) (name : String) : Except String JSVal := do
  let v ← getProp data name
  match v with
  | .undefined => pure (.arr [])
  | _ => pure v

/-- The method `loadZoneData`. Every statement of it that can throw comes
before its `setState`, so an exception leaves the service as it was. -/
def MapService.loadZoneData (zone : ℤ) (subzone : String) (data : JSVal) (s : MapService) :
    Except String MapService := do
  let routes ← propOrEmpty data "routes"
  let stops ← propOrEmpty data "stops"
  let _ ← getProp routes "length"
  let _ ← getProp stops "length"
  let filteredRoutes ← callFilter routes (keepZoneRoute zone)
  let filteredStops ← callFilter stops (keepZoneStop zone subzone)
  let s1 := MapService.setState
    [.routes filteredRoutes, .stops filteredStops, .markers []] s
  pure (MapService.notifyListeners (.dataLoaded zone subzone filteredRoutes filteredStops) s1)

/-- The method `updateZoneData`. -/
def MapService.updateZoneData (zone : ℤ) (subzone : String) (data : JSVal) (s : MapService) :
    Except String MapService := do
  if !MapService.isZoneLoaded zone subzone s then
    throw ("Zona " ++ showInt zone ++ " Sottozona " ++ subzone ++ " non è caricata")
  let s1 ← MapService.loadZoneData zone subzone data s
  pure (MapService.notifyListeners (.dataUpdated zone subzone data) s1)

/-- The `catch` block of `switchToZone`, run on the service as the exception
left it. -/
def MapService.switchFailed (message : String) (s : MapService) :
    Except String Unit × MapService :=
  (.error message, MapService.setState [.isLoading false, .isLoaded false] s)

/-- The method `switchToZone`: how the call ends, and the service after it. -/
def MapService.switchToZone (zone : ℤ) (subzone : String) (data : JSVal) (s : MapService) :
    Except String Unit × MapService :=
  if MapService.isZoneLoaded zone subzone s then
    match MapService.updateZoneData zone subzone data s with
    | .ok s1 => (.ok (), s1)
    | .error message => MapService.switchFailed message s
  else
    let s1 := MapService.clearCurrentState s
    let s2 := MapService.setState
      [.zone (some zone), .subzone (some subzone), .isLoading true, .isLoaded false] s1
    match MapService.loadZoneData zone subzone data s2 with
    | .ok s3 => (.ok (), MapService.setState [.isLoading false, .isLoaded true] s3)
    | .error message => MapService.switchFailed message s2

/-- The method `selectStop`. -/
def MapService.selectStop (stop : JSVal) (s : MapService) : MapService :=
  MapService.notifyListeners (.stopSelected stop) (MapService.setState [.selectedStop stop] s)

/-- The method `deselectStop`. -/
def MapService.deselectStop (s : MapService) : MapService :=
  MapService.notifyListeners .stopDeselected (MapService.setState [.selectedStop .null] s)

/-- The value is neither `null` nor `undefined`, so that its properties can be
read. -/
def NotNullish (v : JSVal) : Prop := v ≠ .null ∧ v ≠ .undefined

/-- The `zone_id` of the route is absent or is a truthy value (a zone number
is a positive integer). -/
def ZoneIdPlain (route : JSVal) : Prop :=
  NotNullish route ∧
    ∀ z, getProp route "zone_id" = .ok z → z = .undefined ∨ z.truthy = true

/-- What the specification keeps of the routes: a route without `zone_id`, or
with `zone_id` equal to the zone. -/
def routeOfZone (zone : ℤ) (route : JSVal) : Bool :=
  match getProp route "zone_id" with
  | .ok .undefined => true
  | .ok (.num (.fin q)) => decide (q = (zone : ℚ))
  | _ => false

/-- What the specification keeps of the stops: a stop with `zone_id` equal to
the zone and `plan` equal to the plan. -/
def stopOfZone (zone : ℤ) (subzone : String) (stop : JSVal) : Bool :=
  match getProp stop "zone_id", getProp stop "plan" with
  | .ok (.num (.fin q)), .ok (.str p) => decide (q = (zone : ℚ)) && decide (p = subzone)
  | _, _ => false

/-- The data `{ routes, stops }` of a zone: two arrays, the routes without
`zone_id` or with a truthy one, the stops not null. -/
def GoodData (data : JSVal) (rs ss : List JSVal) : Prop :=
  getProp data "routes" = .ok (.arr rs) ∧ getProp data "stops" = .ok (.arr ss) ∧
    (∀ r ∈ rs, ZoneIdPlain r) ∧ (∀ st ∈ ss, NotNullish st)

/-- The event is one of the generic `stateChanged` events. -/
def MapEvent.isStateChanged : MapEvent → Bool
  | .stateChanged _ _ _ => true
  | _ => false

/-- The event is a `beforeCleanup` or an `afterCleanup`. -/
def MapEvent.isCleanup : MapEvent → Bool
  | .beforeCleanup _ _ => true
  | .afterCleanup _ _ => true
  | _ => false

/-- The value of the property `key` of a state, as a property of an object;
`none` for a name that is not a key of the state. -/
def MapState.field (s : MapState) (key : String) : Option StateUpdate :=
  if key = "zone" then some (.zone s.zone)
  else if key = "subzone" then some (.subzone s.subzone)
  else if key = "routes" then some (.routes s.routes)
  else if key = "stops" then some (.stops s.stops)
  else if key = "markers" then some (.markers s.markers)
  else if key = "selectedStop" then some (.selectedStop s.selectedStop)
  else if key = "isLoaded" then some (.isLoaded s.isLoaded)
  else if key = "isLoading" then some (.isLoading s.isLoading)
  else none

/-- A stop of zone 9, plan B, used as sample data. -/
def zoneStop : JSVal :=
  .obj [("id", .num (.fin 1)), ("zone_id", .num (.fin 9)), ("plan", .str "B"),
        ("name", .str "Via Roma 12")]

/-- A stop of zone 9, plan A. -/
def otherStop : JSVal :=
  .obj [("id", .num (.fin 2)), ("zone_id", .num (.fin 9)), ("plan", .str "A"),
        ("name", .str "Via Mazzini 3")]

/-- A route without `zone_id`, as the parser builds it. -/
def zoneRoute : JSVal := .obj [("id", .str "giroa_2_0"), ("name", .str "Giro A")]

/-- The data `{ routes, stops }` of the sample. -/
def zoneData : JSVal :=
  .obj [("routes", .arr [zoneRoute]), ("stops", .arr [zoneStop, otherStop])]

/-- The service with zone 9, plan A loaded and a stop selected. -/
def loadedMapService : MapService :=
  { currentState :=
      { zone := some 9, subzone := some "A", routes := [zoneRoute], stops := [otherStop],
        markers := [], selectedStop := otherStop, isLoaded := true, isLoading := false },
    emitted := [] }

/-! ## DatabaseService.js

The SQL statements are embedded by what they do to the tables `runs` and
`run_stops`, held as lists of rows; `now` is the value of `CURRENT_TIMESTAMP`.
The foreign keys of the schema are not checked (the program never turns the
check on). -/

/-- A row of the table `runs`; `none` is `NULL`. -/
structure RunRow where
  id : ℕ
  zone_id : ℤ
  plan : String
  started_at : ℕ
  ended_at : Option ℕ
  status : String
  total_distance : JSVal
  total_time : JSVal
  notes : JSVal

/-- A row of the table `run_stops`. -/
structure RunStopRow where
  id : ℕ
  run_id : ℤ
  stop_id : ℤ
  status : String
  completed_at : Option ℕ
  notes : JSVal
  latitude : JSVal
  longitude : JSVal
  accuracy : JSVal

/-- The service and its database: the two flags that `isReady` tests, the two
tables, and for each table the largest `AUTOINCREMENT` key given out so far. -/
structure Database where
  isInitialized : Bool
  dbOpen : Bool
  runs : List RunRow
  runsSeq : ℕ
  runStops : List RunStopRow
  runStopsSeq : ℕ

/-- The method `isReady`. -/
def Database.isReady (d : Database) : Bool := d.isInitialized && d.dbOpen

/-- The method `ensureInitialized`. -/
def Database.ensureInitialized (d : Database) : Except String Unit :=
  if !d.isReady then .error "Database non inizializzato. Chiamare initialize() prima."
  else .ok ()

/-- The upper-case form of an ASCII letter; other characters are unchanged. -/
def upperAscii (c : Char) : Char :=
  if 97 ≤ c.toNat ∧ c.toNat ≤ 122 then Char.ofNat (c.toNat - 32) else c

/-- The method `toUpperCase` of a string, on ASCII letters. No other character
has `A` or `B` as its upper case, so that the comparisons of the program with
`'A'` and `'B'` see the same result. -/
def toUpperCase (s : String) : String := String.mk (s.data.map upperAscii)

/-- The test `Number.isInteger(value) && value > 0`: the integer when it
holds. -/
def positiveInteger (value : JSVal) : Option ℤ :=
  match value with
  | .num (.fin q) => if q.den = 1 ∧ 0 < q.num then some q.num else none
  | _ => none

/-- The test `['A', 'B'].includes(value?.toUpperCase())`; a value that is
neither a string nor `null` nor `undefined` has no method `toUpperCase`, and
the call throws. -/
def validPlan (value : JSVal) : Except String Bool :=
  match value with
  | .str s => .ok (decide (toUpperCase s = "A" ∨ toUpperCase s = "B"))
  | .undefined => .ok false
  | .null => .ok false
  | _ => .error "TypeError: value.toUpperCase is not a function"

/-- The binding `name = d` of a destructuring: the default stands for
`undefined` only. -/
def orDefault (v d : JSVal) : JSVal :=
  match v with
  | .undefined => d
  | _ => v

/-- The argument `runData` of `startRun`. -/
structure RunData where
  zone_id : JSVal
  plan : JSVal
  notes : JSVal

/-- The method `startRun`: the key of the new row, and the database after the
`INSERT`. -/
def Database.startRun (now : ℕ) (runData : RunData) (d : Database) :
    Except String (ℕ × Database) := do
  d.ensureInitialized
  let notes := orDefault runData.notes (.str "")
  match positiveInteger runData.zone_id with
  | none => throw "zone_id non valido"
  | some zone_id =>
    if !(← validPlan runData.plan) then throw "plan non valido"
    else
      match runData.plan with
      | .str plan =>
        let id := d.runsSeq + 1
        pure (id, { d with
          runs := d.runs ++ [{ id := id, zone_id := zone_id, plan := toUpperCase plan,
                               started_at := now, ended_at := none, status := "active",
                               total_distance := .null, total_time := .null, notes := notes }],
          runsSeq := id })
      | _ => throw "TypeError: plan.toUpperCase is not a function"

/-- The argument `completionData` of `completeRun`. -/
structure RunCompletion where
  total_distance : JSVal
  total_time : JSVal
  notes : JSVal

/-- The method `completeRun`: whether a row was changed, and the database
after the `UPDATE`. -/
def Database.completeRun (now : ℕ) (runId : ℕ) (completionData : RunCompletion)
    (d : Database) : Except String (Bool × Database) := do
  d.ensureInitialized
  let total_distance := orDefault completionData.total_distance .null
  let total_time := orDefault completionData.total_time .null
  let notes := orDefault completionData.notes (.str "")
  let changes := (d.runs.filter (fun r => decide (r.id = runId))).length
  pure (decide (changes > 0), { d with
    runs := d.runs.map (fun r =>
      if r.id = runId then
        { r with status := "completed", ended_at := some now,
                 total_distance := total_distance, total_time := total_time, notes := notes }
      else r) })

/-- The row that `ORDER BY started_at DESC LIMIT 1` keeps: a row with the
latest `started_at` (the first such row of the table). -/
def latestRun : List RunRow → Option RunRow
  | [] => none
  | r :: rs =>
    match latestRun rs with
    | none => some r
    | some best => if r.started_at < best.started_at then some best else some r

/-- The method `getActiveRun`; `none` is `null`. -/
def Database.getActiveRun (d : Database) : Except String (Option RunRow) := do
  d.ensureInitialized
  pure (latestRun (d.runs.filter (fun r => decide (r.status = "active"))))

/-- The argument `runStopData` of `addStopToRun`. -/
structure RunStopData where
  run_id : JSVal
  stop_id : JSVal
  status : JSVal
  notes : JSVal

/-- The method `addStopToRun`. -/
def Database.addStopToRun (runStopData : RunStopData) (d : Database) :
    Except String (ℕ × Database) := do
  d.ensureInitialized
  let status := orDefault runStopData.status (.str "pending")
  let notes := orDefault runStopData.notes (.str "")
  match positiveInteger runStopData.run_id with
  | none => throw "run_id non valido"
  | some run_id =>
    match positiveInteger runStopData.stop_id with
    | none => throw "stop_id non valido"
    | some stop_id =>
      match status with
      | .str st =>
        if st = "pending" ∨ st = "completed" ∨ st = "failed" ∨ st = "skipped" then
          let id := d.runStopsSeq + 1
          pure (id, { d with
            runStops := d.runStops ++ [{ id := id, run_id := run_id, stop_id := stop_id,
                                         status := st, completed_at := none, notes := notes,
                                         latitude := .null, longitude := .null,
                                         accuracy := .null }],
            runStopsSeq := id })
        else throw "status non valido"
      | _ => throw "status non valido"

/-- The argument `completionData` of `completeStopInRun`. -/
structure StopCompletion where
  latitude : JSVal
  longitude : JSVal
  accuracy : JSVal
  notes : JSVal

/-- The method `completeStopInRun`: whether a row was changed, and the
database after the `UPDATE`. -/
def Database.completeStopInRun (now : ℕ) (runStopId : ℕ) (completionData : StopCompletion)
    (d : Database) : Except String (Bool × Database) := do
  d.ensureInitialized
  let latitude := orDefault completionData.latitude .null
  let longitude := orDefault completionData.longitude .null
  let accuracy := orDefault completionData.accuracy .null
  let notes := orDefault completionData.notes (.str "")
  let changes := (d.runStops.filter (fun r => decide (r.id = runStopId))).length
  pure (decide (changes > 0), { d with
    runStops := d.runStops.map (fun r =>
      if r.id = runStopId then
        { r with status := "completed", completed_at := some now, latitude := latitude,
                 longitude := longitude, accuracy := accuracy, notes := notes }
      else r) })

/-! ## PostManV3Service.js -/

/-- The argument `completionData` of `completeStop`. -/
structure StopCompletionData where
  stopId : ℕ
  latitude : JSVal
  longitude : JSVal
  accuracy : JSVal
  notes : JSVal

/-- An event with its data, as `notifyListeners` hands it to the listeners. -/
inductive ServiceEvent where
  | initialized
  | runStarted (runId : ℕ) (runData : RunData)
  | stopCompleted (stopId : ℕ) (completionData : StopCompletionData)

/-- The service with the database it works on, and the events it has emitted
so far. -/
structure PostManService where
  database : Database
  emitted : List ServiceEvent

/-- The method `startRun` of the service: how the call ends, and the service
after it. -/
def PostManService.startRun (now : ℕ) (runData : RunData) (s : PostManService) :
    Except String ℕ × PostManService :=
  match s.database.startRun now runData with
  | .ok (runId, d) =>
    (.ok runId, { database := d, emitted := s.emitted ++ [.runStarted runId runData] })
  | .error message => (.error message, s)

/-- The method `completeStop`: how the call ends, and the service after it. -/
def PostManService.completeStop (now : ℕ) (completionData : StopCompletionData)
    (s : PostManService) : Except String Bool × PostManService :=
  match s.database.getActiveRun with
  | .error message => (.error message, s)
  | .ok none => (.error "Nessuna run attiva", s)
  | .ok (some _) =>
    match s.database.completeStopInRun now completionData.stopId
        { latitude := completionData.latitude, longitude := completionData.longitude,
          accuracy := completionData.accuracy, notes := completionData.notes } with
    | .error message => (.error message, s)
    | .ok (success, d) =>
      if success then
        (.ok true, { database := d,
                     emitted := s.emitted ++
                       [.stopCompleted completionData.stopId completionData] })
      else (.ok false, { s with database := d })

/-- A database service whose flag `isInitialized` is set and whose connection
is open, with its tables empty of runs: the state that `initialize` is written
to reach. No call of the source reaches it (`initializeCall_not_ready`); it
stands only in the lemmas on what the methods do once the flag is set. -/
def readyDatabase : Database :=
  { isInitialized := true, dbOpen := true, runs := [], runsSeq := 0, runStops := [],
    runStopsSeq := 0 }

/-- The argument `{ zone_id: 9, plan: 'B' }` of `startRun`. -/
def sampleRun : RunData := { zone_id := .num (.fin 9), plan := .str "B", notes := .undefined }

/-- The number of rows of `runs` with status `active`. -/
def activeRuns (d : Database) : ℕ :=
  (d.runs.filter (fun r => decide (r.status = "active"))).length

/-- A service whose database holds one active run and one pending stop of
it, used as sample data. -/
def runningService : PostManService :=
  { database :=
      { isInitialized := true, dbOpen := true,
        runs := [{ id := 1, zone_id := 9, plan := "B", started_at := 100, ended_at := none,
                   status := "active", total_distance := .null, total_time := .null,
                   notes := .str "" }],
        runsSeq := 1,
        runStops := [{ id := 1, run_id := 1, stop_id := 7, status := "pending",
                       completed_at := none, notes := .str "", latitude := .null,
                       longitude := .null, accuracy := .null }],
        runStopsSeq := 1 },
    emitted := [] }

/-- The completion of the stop with key 1, used as sample data. -/
def sampleCompletion : StopCompletionData :=
  { stopId := 1, latitude := .null, longitude := .null, accuracy := .null,
    notes := .undefined }

/-! ## KMLFileService.js and KMLService.js: one load

The file system is a library: what it answers during one load is a
parameter. The class of KMLService.js is embedded here, and in the sections
on its cache, as its body reads. The module that holds the class is embedded
in the section on KMLService.js as a module: it is rejected when it is
imported, so a run of the program never comes to the class. -/

/-- What the file system and the clock answer during one load: `exists` of
the `getInfoAsync` in `verifyKMLFile`, `exists` of the one in `loadKML`, the
text of `readAsStringAsync`, and `Date.now()` at the start and at the end. An
`error` is a rejected promise. -/
structure FileAnswers where
  verifyInfo : Except String Bool
  loadInfo : Except String Bool
  content : Except String String
  startTime : ℕ
  endTime : ℕ

/-- The name `Zona${zone}_Sottozona${subzone}.kml`. -/
def kmlFilename (zone : ℤ) (subzone : String) : String :=
  "Zona" ++ showInt zone ++ "_Sottozona" ++ subzone ++ ".kml"

/-- The function `verifyKMLFile`: an exception gives `false`. -/
def verifyKMLFile (info : Except String Bool) : Bool :=
  match info with
  | .ok fileExists => fileExists
  | .error _ => false

/-- The `try` block of `loadKML`. -/
def loadKMLBody (zone : ℤ) (subzone : String) (info : Except String Bool)
    (content : Except String String) : Except String String := do
  let fileExists ← info
  if !fileExists then throw ("File KML non trovato: " ++ kmlFilename zone subzone)
  let kmlContent ← content
  if kmlContent.data = [] ∨ (trim kmlContent.data).length = 0 then
    throw ("File KML vuoto: " ++ kmlFilename zone subzone)
  pure kmlContent

/-- The function `loadKML`: an exception in its body is thrown again with the
zone and the plan before its message. -/
def loadKML (zone : ℤ) (subzone : String) (info : Except String Bool)
    (content : Except String String) : Except String String :=
  match loadKMLBody zone subzone info content with
  | .ok kmlContent => .ok kmlContent
  | .error message =>
    .error ("Impossibile caricare KML per Zona " ++ showInt zone ++ " Sottozona " ++
      subzone ++ ": " ++ message)

/-- The real number that a finite number is (the points of a parsed route are
finite; no other number is read where the program uses this). -/
def JSNum.toReal : JSNum → ℝ
  | .fin q => (q : ℝ)
  | _ => 0

/-- The point `{ latitude, longitude }` of a parsed point. -/
def Coordinate.toGeoPoint (p : Coordinate) : GeoPoint :=
  { latitude := p.latitude.toReal, longitude := p.longitude.toReal }

/-- The sum of the loop of `calculateRouteStats`: the distances between the
consecutive points (the function `haversineDistance` of KMLParser.js has the
body of the one of GPSMarkerService.js). -/
noncomputable def pathDistance : List Coordinate → ℝ
  | p :: q :: rest =>
    haversineDistance p.toGeoPoint q.toGeoPoint + pathDistance (q :: rest)
  | _ => 0

/-- The call `Math.max(...xs)` on a list that is not empty. -/
noncomputable def maxOf (xs : List ℝ) : ℝ := xs.foldl max (xs.headD 0)

/-- The call `Math.min(...xs)` on a list that is not empty. -/
noncomputable def minOf (xs : List ℝ) : ℝ := xs.foldl min (xs.headD 0)

/-- The object that `calculateRouteStats` returns. -/
structure RouteStats where
  pointCount : ℕ
  totalDistance : ℤ
  north : ℝ
  south : ℝ
  east : ℝ
  west : ℝ
  centerLatitude : ℝ
  centerLongitude : ℝ

/-- The message of the `RangeError` of a call with too many arguments. The
text is the engine's; a fixed text stands for it. -/
def tooManyArguments : String := "Maximum call stack size exceeded"

/-- The function `calculateRouteStats`; `none` is `null`. The calls
`Math.max(...lats)` and `Math.min(...lats)` pass every point as an argument:
with more points than the engine passes, the first of them throws. -/
noncomputable def calculateRouteStats (E : Engine) (route : Route) :
    Except String (Option RouteStats) :=
  if route.path.length < 2 then .ok none
  else if E.maxArguments < route.path.length then .error tooManyArguments
  else
    let points := route.path
    let lats := points.map (fun p => p.latitude.toReal)
    let lngs := points.map (fun p => p.longitude.toReal)
    .ok (some { pointCount := points.length,
                totalDistance := mathRound (pathDistance points),
                north := maxOf lats, south := minOf lats, east := maxOf lngs,
                west := minOf lngs,
                centerLatitude := (maxOf lats + minOf lats) / 2,
                centerLongitude := (maxOf lngs + minOf lngs) / 2 })

/-- A route with its statistics: `{ ...route, stats }`. -/
structure RouteWithStats where
  route : Route
  stats : Option RouteStats

/-- The array `routesWithStats` of `_performKMLLoading`: the routes in
turn, each with the result of `calculateRouteStats`; an exception of a call
ends the `map`. -/
noncomputable def routesWithStats (E : Engine) : List Route → Except String (List RouteWithStats)
  | [] => .ok []
  | route :: rest =>
    match calculateRouteStats E route with
    | .error message => .error message
    | .ok stats =>
      match routesWithStats E rest with
      | .error message => .error message
      | .ok others => .ok ({ route := route, stats := stats } :: others)

/-- The object `{ ...parsedKML, routes: routesWithStats }`. -/
structure LoadedKML where
  parsed : ParsedKML
  routes : List RouteWithStats

/-- The field `metadata` of a load result; `none` is an absent field, and
`error` says whether `error: true` is there. -/
structure LoadMetadata where
  loadTime : ℤ
  fileSize : Option ℕ
  routeCount : Option ℕ
  totalPoints : Option ℕ
  isValid : Option Bool
  error : Bool

/-- The object that `_performKMLLoading` returns; `none` is an absent field. -/
structure LoadResult where
  success : Bool
  zone : ℤ
  subzone : String
  parsedKML : Option LoadedKML
  validation : Option ValidationResult
  error : Option String
  metadata : LoadMetadata

/-- The object of the `catch` block of `_performKMLLoading`. -/
def loadFailure (zone : ℤ) (subzone : String) (a : FileAnswers) (message : String) :
    LoadResult :=
  { success := false, zone := zone, subzone := subzone, parsedKML := none,
    validation := none, error := some message,
    metadata := { loadTime := (a.endTime : ℤ) - a.startTime, fileSize := none,
                  routeCount := none, totalPoints := none, isValid := none, error := true } }

/-- The method `_performKMLLoading`: every exception of its body is caught
and gives the object of the failure. -/
noncomputable def performKMLLoading (E : Engine) (P : Printer)
    (xmlParse : String → Except String JSVal) (clock : ℕ → ℕ) (zone : ℤ) (subzone : String)
    (a : FileAnswers) : Completion LoadResult :=
  if !verifyKMLFile a.verifyInfo then
    .returns (loadFailure zone subzone a
      ("File KML non trovato per Zona " ++ showInt zone ++ " Sottozona " ++ subzone))
  else
    match loadKML zone subzone a.loadInfo a.content with
    | .error message => .returns (loadFailure zone subzone a message)
    | .ok kmlContent =>
      match parseKML E xmlParse clock (.str kmlContent) with
      | .error message => .returns (loadFailure zone subzone a message)
      | .ok parsedKML =>
        match validateKML E P parsedKML.toJS with
        | .diverges => .diverges
        | .throws message => .returns (loadFailure zone subzone a message)
        | .returns validation =>
          match routesWithStats E parsedKML.routes with
          | .error message => .returns (loadFailure zone subzone a message)
          | .ok withStats =>
            .returns
              { success := true, zone := zone, subzone := subzone,
                parsedKML := some { parsed := parsedKML, routes := withStats },
                validation := some validation, error := none,
                metadata :=
                  { loadTime := (a.endTime : ℤ) - a.startTime,
                    fileSize := some kmlContent.data.length,
                    routeCount := some withStats.length,
                    totalPoints := some
                      (withStats.foldl (fun sum route => sum + route.route.pointCount) 0),
                    isValid := some validation.isValid, error := false } }

/-- The tree of a document that has a name and no placemark, used as sample
data. -/
def emptyDocumentTree : JSVal :=
  .obj [("kml", .obj [("Document", .obj [("name", .str "Zona 9 Sottozona B")])])]

/-- The answers of a file system that holds the file, with a clock that
stands still. -/
def goodAnswers : FileAnswers :=
  { verifyInfo := .ok true, loadInfo := .ok true,
    content := .ok "<kml><Document><name>Zona 9 Sottozona B</name></Document></kml>",
    startTime := 0, endTime := 0 }

/-- The answers of a file system that does not hold the file. -/
def missingAnswers : FileAnswers :=
  { verifyInfo := .ok false, loadInfo := .ok false, content := .error "ENOENT",
    startTime := 0, endTime := 0 }

/-! ## KMLService.js: the cache and the loads in flight

`loadKMLForZone` is an `async` function: a call runs to its first `await`
and goes on, later, when the promise that it awaits has settled. The service
is a step machine, and a run of it is a list of actions in any order: calls,
promises that settle, calls that go on. -/

/-- The key `${zone}_${subzone}` of `loadKMLForZone`, `removeFromCache` and
`isInCache`. -/
def cacheKey (zone : ℤ) (subzone : String) : String :=
  showInt zone ++ "_" ++ subzone

/-- A promise that `_performKMLLoading(zone, subzone)` returned: pending
(`none`), fulfilled with a result, or rejected with a message. -/
structure PendingLoad where
  zone : ℤ
  subzone : String
  outcome : Option (Except String LoadResult)

/-- A call of `loadKMLForZone` that stands at an `await` on the promise number
`load`: the call that made the promise (`starter`, at
`await loadingPromise`) or a call that found it in `loadingPromises`. -/
structure Waiter where
  caller : ℕ
  key : String
  load : ℕ
  starter : Bool

/-- What a call of `loadKMLForZone` gave its caller: a result or an
exception, and the promise it came from (`none`: from the cache). -/
structure Delivery where
  caller : ℕ
  load : Option ℕ
  outcome : Except String LoadResult

/-- The service: the maps `cache` and `loadingPromises`, the promises that
`_performKMLLoading` has returned so far (one more for every call of it), the
calls that stand at an `await`, and what the finished calls returned. -/
structure KMLService where
  cache : String → Option LoadResult
  loadingPromises : String → Option ℕ
  loads : List PendingLoad
  waiting : List Waiter
  delivered : List Delivery

/-- The service that the constructor makes. -/
def initialKMLService : KMLService :=
  { cache := fun _ => none, loadingPromises := fun _ => none, loads := [], waiting := [],
    delivered := [] }

/-- The method `loadKMLForZone`, up to its first `await` or its `return`. -/
def KMLService.loadKMLForZone (caller : ℕ) (zone : ℤ) (subzone : String) (forceReload : Bool)
    (s : KMLService) : KMLService :=
  let key := cacheKey zone subzone
  match s.loadingPromises key with
  | some load =>
    { s with waiting := s.waiting ++ [{ caller := caller, key := key, load := load,
                                        starter := false }] }
  | none =>
    match (if forceReload then none else s.cache key) with
    | some result =>
      { s with delivered := s.delivered ++ [{ caller := caller, load := none,
                                              outcome := .ok result }] }
    | none =>
      { s with
        loads := s.loads ++ [{ zone := zone, subzone := subzone, outcome := none }]
        loadingPromises := Function.update s.loadingPromises key (some s.loads.length)
        waiting := s.waiting ++ [{ caller := caller, key := key, load := s.loads.length,
                                   starter := true }] }

/-- The promise number `load` settles: the file system has answered and
`_performKMLLoading` has come to its end. A promise that has settled stays as
it is, and a body that does not end leaves the promise pending. -/
noncomputable def KMLService.settle (E : Engine) (P : Printer)
    (xmlParse : String → Except String JSVal) (clock : ℕ → ℕ) (load : ℕ) (answers : FileAnswers)
    (s : KMLService) : KMLService :=
  match s.loads[load]? with
  | none => s
  | some p =>
    match p.outcome with
    | some _ => s
    | none =>
      match performKMLLoading E P xmlParse clock p.zone p.subzone answers with
      | .returns result =>
        { s with loads := s.loads.set load { p with outcome := some (.ok result) } }
      | .throws message =>
        { s with loads := s.loads.set load { p with outcome := some (.error message) } }
      | .diverges => s

/-- The rest of `loadKMLForZone` for the call number `index` of those that
wait, once its promise has settled. The starter puts the result in the cache
and deletes the entry of `loadingPromises`; the other calls return the
result. A rejected promise takes every call to the `catch` block. -/
def KMLService.resume (index : ℕ) (s : KMLService) : KMLService :=
  match s.waiting[index]? with
  | none => s
  | some w =>
    match (s.loads[w.load]?).bind (fun p => p.outcome) with
    | none => s
    | some (.ok result) =>
      if w.starter then
        { s with
          cache := Function.update s.cache w.key (some result)
          loadingPromises := Function.update s.loadingPromises w.key none
          waiting := s.waiting.eraseIdx index
          delivered := s.delivered ++ [{ caller := w.caller, load := some w.load,
                                         outcome := .ok result }] }
      else
        { s with
          waiting := s.waiting.eraseIdx index
          delivered := s.delivered ++ [{ caller := w.caller, load := some w.load,
                                         outcome := .ok result }] }
    | some (.error message) =>
      { s with
        loadingPromises := Function.update s.loadingPromises w.key none
        waiting := s.waiting.eraseIdx index
        delivered := s.delivered ++ [{ caller := w.caller, load := some w.load,
                                       outcome := .error message }] }

/-- The method `clearCache`. -/
def KMLService.clearCache (s : KMLService) : KMLService :=
  { s with cache := fun _ => none }

/-- The method `removeFromCache`. -/
def KMLService.removeFromCache (zone : ℤ) (subzone : String) (s : KMLService) : KMLService :=
  if (s.cache (cacheKey zone subzone)).isSome then
    { s with cache := Function.update s.cache (cacheKey zone subzone) none }
  else s

/-- The method `isInCache`. -/
def KMLService.isInCache (zone : ℤ) (subzone : String) (s : KMLService) : Bool :=
  (s.cache (cacheKey zone subzone)).isSome

/-- What can happen next to the service. -/
inductive KMLAction where
  | call (caller : ℕ) (zone : ℤ) (subzone : String) (forceReload : Bool)
  | settle (load : ℕ) (answers : FileAnswers)
  | resume (index : ℕ)
  | clearCache
  | removeFromCache (zone : ℤ) (subzone : String)

/-- One action on the service. -/
noncomputable def KMLService.step (E : Engine) (P : Printer)
    (xmlParse : String → Except String JSVal) (clock : ℕ → ℕ) (s : KMLService) :
    KMLAction → KMLService
  | .call caller zone subzone forceReload => s.loadKMLForZone caller zone subzone forceReload
  | .settle load answers => s.settle E P xmlParse clock load answers
  | .resume index => s.resume index
  | .clearCache => s.clearCache
  | .removeFromCache zone subzone => s.removeFromCache zone subzone

/-- The actions of a list, one after the other. -/
noncomputable def KMLService.run (E : Engine) (P : Printer)
    (xmlParse : String → Except String JSVal) (clock : ℕ → ℕ) (s : KMLService)
    (actions : List KMLAction) : KMLService :=
  actions.foldl (KMLService.step E P xmlParse clock) s

/-- The service after a list of actions on the service that the constructor
makes. -/
noncomputable def KMLService.after (E : Engine) (P : Printer)
    (xmlParse : String → Except String JSVal) (clock : ℕ → ℕ) (actions : List KMLAction) :
    KMLService :=
  initialKMLService.run E P xmlParse clock actions

/-- The loads in flight for a key: the promises whose starter still stands at
`await loadingPromise`, so that the result is not yet in the cache. -/
def KMLService.inFlight (s : KMLService) (key : String) : List ℕ :=
  (s.waiting.filter (fun w => w.starter && w.key == key)).map (fun w => w.load)

/-- What holds of the service after every run: a starter that waits has the
entry of its key in `loadingPromises`, and its promise was made for that key;
no two starters wait on one promise; every entry of `loadingPromises` has its
starter waiting; a pending promise has its starter waiting; no promise is
rejected; a call that returned what a promise gave returned the outcome of
that promise; and no call has thrown. -/
structure Coalesced (s : KMLService) : Prop where
  registered : ∀ w ∈ s.waiting, w.starter = true → s.loadingPromises w.key = some w.load
  made : ∀ w ∈ s.waiting, w.starter = true →
    ∃ p, s.loads[w.load]? = some p ∧ cacheKey p.zone p.subzone = w.key
  distinct : s.waiting.Pairwise
    (fun v w => v.starter = true → w.starter = true → v.load ≠ w.load)
  started : ∀ key load, s.loadingPromises key = some load →
    ∃ w ∈ s.waiting, w.starter = true ∧ w.key = key ∧ w.load = load
  pending : ∀ load p, s.loads[load]? = some p → p.outcome = none →
    ∃ w ∈ s.waiting, w.starter = true ∧ w.load = load
  fulfilled : ∀ p ∈ s.loads, ∀ message, p.outcome ≠ some (.error message)
  same : ∀ d ∈ s.delivered, ∀ load, d.load = some load →
    ∃ p, s.loads[load]? = some p ∧ p.outcome = some d.outcome
  returned : ∀ d ∈ s.delivered, ∃ result, d.outcome = .ok result

/-- A service with the failure of a load of zone 9, plan B, in its cache. -/
def cachedKMLService : KMLService :=
  { initialKMLService with
    cache := Function.update (fun _ => none) (cacheKey 9 "B")
      (some (loadFailure 9 "B" missingAnswers "File KML non trovato per Zona 9 Sottozona B")) }

/-! ## NavigationService.js and GPSMarkerService.js: texts and bearings of a result -/

/-- The text that the specification gives for an estimated time of `m`
minutes. -/
def etaText (m : ℕ) : String :=
  if m < 1 then "< 1 min"
  else if m < 60 then showNat m ++ " min"
  else if m % 60 = 0 then showNat (m / 60) ++ "h"
  else showNat (m / 60) ++ "h " ++ showNat (m % 60) ++ "m"

/-- The method `calculateNavigationInfo` when the module GPSMarkerService.js
exports the names `exported`; with the names that the module does export it
is `calculateNavigationInfo`. -/
noncomputable def calculateNavigationInfoWith {α : Type} (exported : List String)
    (toFixed1 : ℝ → String) (stop : Stop α) (userLocation : Option UserLocation) :
    Except String NavigationInfo :=
  match userLocation with
  | none => .ok (noNavigation "Posizione GPS non disponibile")
  | some u =>
    if !fieldTruthy u.latitude || !fieldTruthy u.longitude then
      .ok (noNavigation "Posizione GPS non disponibile")
    else if !fieldTruthy stop.latitude || !fieldTruthy stop.longitude then
      .ok (noNavigation "Coordinate fermata non valide")
    else do
      let userPoint := pointOf u.latitude u.longitude
      let stopPoint := pointOf stop.latitude stop.longitude
      let haversine ← callBinding "haversineDistance"
        (importBinding exported "haversineDistance" haversineDistance)
      let distance := haversine userPoint stopPoint
      let bearingOf ← callBinding "calculateBearing"
        (importBinding exported "calculateBearing" calculateBearing)
      let bearing := bearingOf userPoint stopPoint
      let cardinalOf ← callBinding "bearingToCardinal"
        (importBinding exported "bearingToCardinal" bearingToCardinal)
      let direction := cardinalOf bearing
      let walkingSpeed : ℝ := 5000
      let etaMinutes := mathRound ((distance / walkingSpeed) * 60)
      let distanceText := formatDistance toFixed1 distance
      pure { distance := some (mathRound distance), distanceText := distanceText,
             bearing := some (mathRound bearing), direction := direction,
             eta := some etaMinutes, etaText := some (formatETA etaMinutes),
             canNavigate := true,
             accuracy := if fieldTruthy u.accuracy then u.accuracy else none }

/-- A user at latitude 30, longitude 10, used as sample data. -/
noncomputable def northUser : UserLocation :=
  { latitude := some 30, longitude := some 10, accuracy := none }

/-- A stop at latitude 60, a tenth of a degree west of `northUser`. -/
noncomputable def northStop : Stop String :=
  { info := "Nord", latitude := some 60, longitude := some (99 / 10) }

/-! ## KMLParser.js: zone and plan of the document name -/

/-- The number that a run of decimal digits writes. -/
def decimalValue (cs : List Char) : ℕ :=
  cs.foldl (fun acc c => 10 * acc + (c.toNat - 48)) 0

/-- A document tree whose name is written in lower case, used as sample
data. -/
def lowerCaseTree : JSVal :=
  .obj [("kml", .obj [("Document", .obj [("name", .str "zona 9 sottozona b")])])]

/-! ## KMLService.js: what leaves a cache entry in place -/

/-- The action leaves the cache entry of `key` in place: it is not
`clearCache`, not `removeFromCache` for the key, and not a call with
`forceReload` for the key. -/
def KMLAction.keeps (key : String) : KMLAction → Bool
  | .clearCache => false
  | .removeFromCache zone subzone => decide (cacheKey zone subzone ≠ key)
  | .call _ zone subzone forceReload => !(forceReload && decide (cacheKey zone subzone = key))
  | _ => true

/-- A call of `loadKMLForZone` that runs to its end with nothing in between:
the call, the end of its load with the answers `a` of the file system, and
the rest of the call. -/
noncomputable def KMLService.loadNow (E : Engine) (P : Printer)
    (xmlParse : String → Except String JSVal) (clock : ℕ → ℕ) (caller : ℕ) (zone : ℤ)
    (subzone : String) (forceReload : Bool) (a : FileAnswers) (s : KMLService) : KMLService :=
  s.run E P xmlParse clock
    [.call caller zone subzone forceReload, .settle s.loads.length a, .resume s.waiting.length]

/-! ## MapStateService.js: markers, manual stops, and runs of calls -/

/-- The own enumerable properties that a spread `{ ...v }` copies: those of an
object, the elements of an array under their indices, the characters of a
string under theirs, and none for every other value. -/
def spreadFields (v : JSVal) : List (String × JSVal) :=
  match v with
  | .obj fields => fields
  | .arr items => (List.range items.length).zip items |>.map (fun p => (toString p.1, p.2))
  | .str s =>
    (List.range s.data.length).zip s.data |>.map (fun p => (toString p.1, .str (String.mk [p.2])))
  | _ => []

/-- The operator `===` on data values. Two numbers are equal when they have
the same value, and `NaN` is equal to nothing; an array or an object is equal
only to itself, and the values that the program compares are distinct
objects. -/
def strictEquals (a b : JSVal) : Bool :=
  match a, b with
  | .undefined, .undefined => true
  | .null, .null => true
  | .bool x, .bool y => x == y
  | .num .nan, .num _ => false
  | .num x, .num y => decide (x = y)
  | .str x, .str y => decide (x = y)
  | _, _ => false

/-- The method `updateMarkers`: the spread `[...markers]` throws when the
value is not iterable, before the state is touched. -/
def MapService.updateMarkers (markers : JSVal) (s : MapService) :
    Except String Unit × MapService :=
  match iterate markers with
  | .ok items =>
    (.ok (), MapService.notifyListeners (.markersUpdated items)
      (MapService.setState [.markers items] s))
  | .error message => (.error message, s)

/-- The method `addManualStop` of MapStateService.js; `now` is the value of
`Date.now()` and `createdAt` the text of `new Date().toISOString()`. -/
def MapService.addManualStop (now : ℕ) (createdAt : String) (stop : JSVal) (s : MapService) :
    JSVal × MapService :=
  let manualStop : JSVal := .obj
    (setField "created_at" (.str createdAt)
      (setField "is_manual" (.num (.fin 1))
        (setField "id" (.str ("manual_" ++ showNat now)) (spreadFields stop))))
  (manualStop,
    MapService.notifyListeners (.manualStopAdded manualStop)
      (MapService.setState [.stops (s.currentState.stops ++ [manualStop])] s))

/-- The callback `stop => !(stop.id === stopId && stop.is_manual)`. -/
def keepManualStop (stopId : JSVal) (stop : JSVal) : Except String Bool := do
  let id ← getProp stop "id"
  if strictEquals id stopId then
    let isManual ← getProp stop "is_manual"
    pure (!isManual.truthy)
  else pure true

/-- The method `removeManualStop` of MapStateService.js: an exception of the
callback (a stop that is `null`) comes before the state is touched. -/
def MapService.removeManualStop (stopId : JSVal) (s : MapService) :
    Except String Unit × MapService :=
  match filterItems (keepManualStop stopId) s.currentState.stops with
  | .ok filteredStops =>
    (.ok (), MapService.notifyListeners (.manualStopRemoved stopId)
      (MapService.setState [.stops filteredStops] s))
  | .error message => (.error message, s)

/-- A call of a method of the service. -/
inductive MapAction where
  | switchToZone (zone : ℤ) (subzone : String) (data : JSVal)
  | clearCurrentState
  | updateZoneData (zone : ℤ) (subzone : String) (data : JSVal)
  | updateMarkers (markers : JSVal)
  | selectStop (stop : JSVal)
  | deselectStop
  | addManualStop (now : ℕ) (createdAt : String) (stop : JSVal)
  | removeManualStop (stopId : JSVal)

/-- The service after a call, whether the call returns or throws. -/
def MapService.act (s : MapService) : MapAction → MapService
  | .switchToZone zone subzone data => (MapService.switchToZone zone subzone data s).2
  | .clearCurrentState => MapService.clearCurrentState s
  | .updateZoneData zone subzone data =>
    match MapService.updateZoneData zone subzone data s with
    | .ok s1 => s1
    | .error _ => s
  | .updateMarkers markers => (MapService.updateMarkers markers s).2
  | .selectStop stop => MapService.selectStop stop s
  | .deselectStop => MapService.deselectStop s
  | .addManualStop now createdAt stop => (MapService.addManualStop now createdAt stop s).2
  | .removeManualStop stopId => (MapService.removeManualStop stopId s).2

/-- The service after a list of calls, one after the other. -/
def MapService.runActions (s : MapService) (actions : List MapAction) : MapService :=
  actions.foldl MapService.act s

/-- The flags `isLoading` and `isLoaded` are not both true: the state is
Empty, Loading or Loaded. -/
def MapState.exclusive (s : MapState) : Bool := !(s.isLoading && s.isLoaded)

/-- The states that an event shows to the listeners: the two of a
`stateChanged` event. Between two calls of `setState` the state does not
change, so that the state a listener reads while any other event is
delivered is the new state of the last `stateChanged` event before it, or
the state before the call. -/
def MapEvent.states : MapEvent → List MapState
  | .stateChanged oldState newState _ => [oldState, newState]
  | _ => []

/-- The objects that the methods of MapStateService.js pass to `setState`, in
the order of the file: two of `switchToZone`, the one of its `catch` block,
those of `clearCurrentState`, `loadZoneData`, `updateMarkers`, `selectStop`,
`deselectStop`, `addManualStop` and `removeManualStop`. -/
def setStateObjects (zone : Option ℤ) (subzone : Option String)
    (routes stops markers : List JSVal) (stop : JSVal) : List (List StateUpdate) :=
  [[.zone zone, .subzone subzone, .isLoading true, .isLoaded false],
   [.isLoading false, .isLoaded true],
   [.isLoading false, .isLoaded false],
   [.zone none, .subzone none, .routes [], .stops [], .markers [], .selectedStop .null,
    .isLoaded false, .isLoading false],
   [.routes routes, .stops stops, .markers []],
   [.markers markers],
   [.selectedStop stop],
   [.selectedStop .null],
   [.stops stops],
   [.stops stops]]

/-- The current state of the service and every state that its events have
shown are exclusive. -/
def Observed (s : MapService) : Prop :=
  s.currentState.exclusive = true ∧ ∀ e ∈ s.emitted, ∀ st ∈ e.states, st.exclusive = true

/-! ## RoutingService.ts

The waypoints are arrays of numbers (`number[][]`). The request to the
routing server is a library call: what `fetch` and `response.json()` answer
is a parameter. The formula of `calculateDistance` is over the real numbers,
as those of GPSMarkerService.js. -/

/-- The function `Math.round` on a rational number. -/
def roundRat (q : ℚ) : ℤ := ⌊q + 1 / 2⌋

/-- The read `waypoints[index]` for an integer `index`; `none` is `undefined`,
the value of an index outside the array. -/
def elementAt {α : Type} (waypoints : List α) (index : ℤ) : Option α :=
  if 0 ≤ index then waypoints[index.toNat]? else none

/-- The method `decimateWaypoints`. -/
def decimateWaypoints {α : Type} (waypoints : List α) (maxCount : ℕ) : List (Option α) :=
  if waypoints.length ≤ maxCount then waypoints.map some
  else
    let step : ℚ := ((waypoints.length : ℚ) - 1) / ((maxCount : ℚ) - 1)
    let result := (List.range' 1 (maxCount - 2)).foldl
      (fun result (i : ℕ) => result ++ [elementAt waypoints (roundRat ((i : ℚ) * step))])
      [elementAt waypoints 0]
    result ++ [elementAt waypoints ((waypoints.length : ℤ) - 1)]

/-- A waypoint: an array of numbers, `[lng, lat]`. -/
abbrev Waypoint : Type := List JSNum

/-- The read `w[i]` of a waypoint. -/
def Waypoint.at (w : Waypoint) (i : ℕ) : JSVal :=
  match w[i]? with
  | some x => .num x
  | none => .undefined

/-- A point `{ latitude, longitude }` of a route. -/
structure LatLng where
  latitude : JSVal
  longitude : JSVal

/-- A number of a route: a value taken from the response of the server, or a
number that the service has computed with `Math` functions (`none`: `NaN`). -/
inductive Quantity where
  | value (v : JSVal)
  | computed (x : Option ℝ)

/-- The object `RouteResponse`. -/
structure RouteResponse where
  coordinates : List LatLng
  distance : Quantity
  duration : Quantity
  geometry : String

/-- The method `calculateDistance` on two points whose fields are finite
numbers. -/
noncomputable def calculateDistance (point1 point2 : GeoPoint) : ℝ :=
  let R : ℝ := 6371000
  let φ1 := point1.latitude * Real.pi / 180
  let φ2 := point2.latitude * Real.pi / 180
  let Δφ := (point2.latitude - point1.latitude) * Real.pi / 180
  let Δl := (point2.longitude - point1.longitude) * Real.pi / 180
  let a := Real.sin (Δφ / 2) * Real.sin (Δφ / 2) +
    Real.cos φ1 * Real.cos φ2 * Real.sin (Δl / 2) * Real.sin (Δl / 2)
  let c := 2 * atan2 (Real.sqrt a) (Real.sqrt (1 - a))
  R * c

/-- The two numbers of a point, when both fields are finite numbers. -/
def LatLng.toGeoPoint (p : LatLng) : Option GeoPoint :=
  match p.latitude, p.longitude with
  | .num (.fin lat), .num (.fin lng) => some { latitude := (lat : ℝ), longitude := (lng : ℝ) }
  | _, _ => none

/-- The method `calculateDistance` on two points of a route. The fields that
the service passes are numbers or `undefined`; with a field that is
`undefined`, `NaN` or infinite every product or sine of the formula is `NaN`,
and so is the result. -/
noncomputable def LatLng.distanceTo (point1 point2 : LatLng) : Option ℝ :=
  match point1.toGeoPoint, point2.toGeoPoint with
  | some p, some q => some (calculateDistance p q)
  | _, _ => none

/-- The sum `x + y` of two computed numbers. -/
noncomputable def addComputed (x y : Option ℝ) : Option ℝ :=
  match x, y with
  | some a, some b => some (a + b)
  | _, _ => none

/-- The method `fallbackStraightLine`. -/
noncomputable def fallbackStraightLine (waypoints : List Waypoint) : RouteResponse :=
  let coordinates : List LatLng :=
    waypoints.map (fun w => { latitude := w.at 1, longitude := w.at 0 })
  let totalDistance := (coordinates.zip coordinates.tail).foldl
    (fun totalDistance pair => addComputed totalDistance (pair.1.distanceTo pair.2)) (some 0)
  { coordinates := coordinates, distance := .computed totalDistance,
    duration := .value (.num (.fin 0)), geometry := "" }

/-- The text of one waypoint in the cache key; `toFixed5` is the call
`x.toFixed(5)`. A waypoint that is `undefined` has no element `0`, and an
element that is `undefined` has no method `toFixed`: the read throws. -/
def waypointKey (toFixed5 : JSNum → String) (w : Option Waypoint) : Except String String :=
  match w with
  | none => .error "TypeError: cannot read property 0 of undefined"
  | some w =>
    match w[0]?, w[1]? with
    | some x, some y => .ok (toFixed5 x ++ "," ++ toFixed5 y)
    | _, _ => .error "TypeError: cannot read property toFixed of undefined"

/-- The method `getCacheKey`. -/
def getCacheKey (toFixed5 : JSNum → String) (waypoints : List (Option Waypoint)) :
    Except String String := do
  let parts ← waypoints.mapM (waypointKey toFixed5)
  pure ("|".intercalate parts)

/-- The optional chain `v?.key`. -/
def optionalProp (v : JSVal) (key : String) : Except String JSVal :=
  match v with
  | .undefined => .ok .undefined
  | .null => .ok .undefined
  | _ => getProp v key

/-- The optional chain `v?.[i]`. -/
def optionalIndex (v : JSVal) (i : ℕ) : Except String JSVal :=
  match v with
  | .undefined => .ok .undefined
  | .null => .ok .undefined
  | _ => getIndex v i

/-- The `try` block of `extractCoordinatesFromGeoJSON`. -/
def extractCoordinatesBody (geoJSON : JSVal) : Except String (List LatLng) := do
  let features ← getProp geoJSON "features"
  let feature ← optionalIndex features 0
  let geometry ← optionalProp feature "geometry"
  if !geometry.truthy then throw "GeoJSON invalido: mancano coordinate"
  let coordinates ← getProp geometry "coordinates"
  if !coordinates.truthy then throw "GeoJSON invalido: mancano coordinate"
  match coordinates with
  | .arr items =>
    items.mapM (fun coord => do
      let latitude ← getIndex coord 1
      let longitude ← getIndex coord 0
      pure ({ latitude := latitude, longitude := longitude } : LatLng))
  | _ => throw "TypeError: geometry.coordinates.map is not a function"

/-- The method `extractCoordinatesFromGeoJSON`: an exception gives `[]`. -/
def extractCoordinatesFromGeoJSON (geoJSON : JSVal) : List LatLng :=
  match extractCoordinatesBody geoJSON with
  | .ok coordinates => coordinates
  | .error _ => []

/-- What the network answers during one request: `fetch` rejects, or gives a
response with its `ok` flag and its `statusText`; and `response.json()`
rejects, or gives the parsed body. -/
structure FetchAnswers where
  response : Except String (Bool × String)
  body : Except String JSVal

/-- The `try` block of `calculateRoute` up to the result; `stringify` is
`JSON.stringify`. The message of the error for a response that is not `ok`
is read by nothing but the log of the `catch` block. -/
def requestRoute (stringify : JSVal → String) (answers : FetchAnswers) :
    Except String RouteResponse := do
  let response ← answers.response
  if !response.1 then
    let _ ← answers.body
    throw ("OpenRouteService error: " ++ response.2)
  let data ← answers.body
  let coordinates := extractCoordinatesFromGeoJSON data
  let features ← getProp data "features"
  let feature ← optionalIndex features 0
  let summary ← optionalProp (← optionalProp feature "properties") "summary"
  let properties := orElse summary (.obj [])
  let distance := orElse (← getProp properties "distance") (.num (.fin 0))
  let duration := orElse (← getProp properties "duration") (.num (.fin 0))
  let geometry := orElse (← optionalProp feature "geometry") (.obj [])
  pure { coordinates := coordinates, distance := .value distance,
         duration := .value duration, geometry := stringify geometry }

/-- The service: its map `requestCache`. -/
structure RoutingService where
  requestCache : String → Option RouteResponse

/-- The waypoints `limitedWaypoints` of `calculateRoute`. -/
def limitedWaypoints (waypoints : List Waypoint) : List (Option Waypoint) :=
  if waypoints.length > 50 then decimateWaypoints waypoints 50 else waypoints.map some

/-- The method `calculateRoute`: how the call ends, and the service after
it. The cache is written by a request that succeeds only. -/
noncomputable def RoutingService.calculateRoute (toFixed5 : JSNum → String)
    (stringify : JSVal → String) (answers : FetchAnswers) (waypoints : List Waypoint)
    (s : RoutingService) : Except String RouteResponse × RoutingService :=
  if waypoints.length < 2 then
    (.error "Servono almeno 2 waypoints per calcolare un percorso", s)
  else
    match getCacheKey toFixed5 (limitedWaypoints waypoints) with
    | .error message => (.error message, s)
    | .ok cacheKey =>
      match s.requestCache cacheKey with
      | some cached => (.ok cached, s)
      | none =>
        match requestRoute stringify answers with
        | .ok result =>
          (.ok result, { requestCache := Function.update s.requestCache cacheKey (some result) })
        | .error _ => (.ok (fallbackStraightLine waypoints), s)

/-- The request of `calculateRoute` is made: the waypoints have a cache key,
and the cache has no route under it. -/
def RoutingService.requests (toFixed5 : JSNum → String) (waypoints : List Waypoint)
    (s : RoutingService) : Prop :=
  ∃ cacheKey, getCacheKey toFixed5 (limitedWaypoints waypoints) = .ok cacheKey ∧
    s.requestCache cacheKey = none

/-- The index of the waypoint that `decimateWaypoints` takes at turn `i`. -/
def decimatedIndex (n maxCount i : ℕ) : ℕ :=
  (roundRat ((i : ℚ) * (((n : ℚ) - 1) / ((maxCount : ℚ) - 1)))).toNat

/-- The waypoint `[lng, lat]` of two finite numbers. -/
def waypointOf (p : ℚ × ℚ) : Waypoint := [.fin p.1, .fin p.2]

/-- The object `{ latitude: w[1], longitude: w[0] }` of a waypoint
`[lng, lat]` of two finite numbers. -/
def latLngOf (p : ℚ × ℚ) : LatLng :=
  { latitude := .num (.fin p.2), longitude := .num (.fin p.1) }

/-- The point of a waypoint `[lng, lat]`. -/
def geoPointOf (p : ℚ × ℚ) : GeoPoint := { latitude := (p.2 : ℝ), longitude := (p.1 : ℝ) }

/-- The sum of the Haversine distances between consecutive points. -/
noncomputable def lineDistance (points : List GeoPoint) : ℝ :=
  ((points.zip points.tail).map (fun pair => haversineDistance pair.1 pair.2)).sum

/-- A routing service with an empty cache. -/
def emptyRoutingService : RoutingService := { requestCache := fun _ => none }

/-- Three waypoints, used as sample data. -/
def sampleWaypoints : List (ℚ × ℚ) :=
  [(958337 / 100000, 4496544 / 100000), (958333 / 100000, 4496549 / 100000),
   (958331 / 100000, 4496552 / 100000)]

/-! ## ManualStopService.js

The stops are objects; the collection `manualStops` is a list of them, and
what the listeners receive is recorded in `emitted`. -/

/-- An event of the service, with its data. -/
inductive ManualStopEvent where
  | manualStopAdded (stop : JSVal) (totalCount : ℕ)
  | manualStopRemoved (stopId : JSVal) (stop : JSVal) (totalCount : ℕ)
  | manualStopUpdated (stopId : JSVal) (oldStop updatedStop : JSVal) (totalCount : ℕ)
  | manualStopsImported (importedCount validCount totalCount : ℕ)
  | allManualStopsCleared (clearedCount : ℕ)

/-- The service: its collection and the events it has emitted so far. -/
structure ManualStopService where
  manualStops : List JSVal
  emitted : List ManualStopEvent

/-- The service after its constructor. -/
def initialManualStopService : ManualStopService := { manualStops := [], emitted := [] }

/-- The method `isValidCoordinate` of ManualStopService.js: `isNaN`, the
comparisons and `isFinite` convert their argument with `ToNumber`, and the
conjunction stops at the first false test. -/
def ManualStopService.isValidCoordinate (E : Engine) (latitude longitude : JSVal) :
    Except String Bool := do
  let lat ← toNumber E latitude
  if lat.isNaN then pure false
  else
    let lng ← toNumber E longitude
    pure (!lat.isNaN && !lng.isNaN &&
      lat.ge (.fin (-90)) && lat.le (.fin 90) &&
      lng.ge (.fin (-180)) && lng.le (.fin 180) &&
      lat.isFinite && lng.isFinite)

/-- The call `parseFloat(v)`: the value is converted to a string first. -/
def parseFloatOf (E : Engine) (P : Printer) (v : JSVal) : JSNum :=
  E.parseFloat (showVal P v)

/-- The call `v.trim()` on a value that is not `null` or `undefined`: only a
string has the method. -/
def callTrim (v : JSVal) : Except String JSVal :=
  match v with
  | .str s => .ok (.str (String.mk (trim s.data)))
  | .undefined => .error "TypeError: cannot read property trim of undefined"
  | .null => .error "TypeError: cannot read property trim of null"
  | _ => .error "TypeError: trim is not a function"

/-- The call `v.toUpperCase()`: only a string has the method. -/
def callToUpperCase (v : JSVal) : Except String JSVal :=
  match v with
  | .str s => .ok (.str (toUpperCase s))
  | .undefined => .error "TypeError: cannot read property toUpperCase of undefined"
  | .null => .error "TypeError: cannot read property toUpperCase of null"
  | _ => .error "TypeError: toUpperCase is not a function"

/-- What the host gives during one call of `addManualStop`: `Date.now()`, the
text `Math.random().toString(36).substr(2, 9)`, and the two texts
`new Date().toISOString()`. -/
structure StopStamps where
  now : ℕ
  random : String
  createdAt : String
  updatedAt : String

/-- The method `addManualStop` of ManualStopService.js; `parseInt10` is the call
`parseInt(text, 10)`. An exception is thrown again by the `catch` block, and
leaves the service as it was. -/
def ManualStopService.addManualStop (E : Engine) (P : Printer) (parseInt10 : String → JSNum)
    (stamps : StopStamps) (stopData : JSVal) (s : ManualStopService) :
    Except String JSVal × ManualStopService :=
  let body : Except String JSVal := do
    let latitude ← getProp stopData "latitude"
    let longitude ← getProp stopData "longitude"
    let name ← getProp stopData "name"
    let description := orDefault (← getProp stopData "description") (.str "")
    let zone ← getProp stopData "zone"
    let subzone ← getProp stopData "subzone"
    if !latitude.truthy || !longitude.truthy || !name.truthy || !zone.truthy ||
        !subzone.truthy then
      throw "Dati fermata incompleti"
    if !(← ManualStopService.isValidCoordinate E latitude longitude) then
      throw "Coordinate non valide"
    let trimmedName ← callTrim name
    let trimmedDescription ← callTrim description
    let plan ← callToUpperCase subzone
    pure (.obj
      [("id", .str ("manual_" ++ showNat stamps.now ++ "_" ++ stamps.random)),
       ("latitude", .num (parseFloatOf E P latitude)),
       ("longitude", .num (parseFloatOf E P longitude)),
       ("name", trimmedName),
       ("description", trimmedDescription),
       ("zone_id", .num (parseInt10 (showVal P zone))),
       ("plan", plan),
       ("is_manual", .num (.fin 1)),
       ("created_at", .str stamps.createdAt),
       ("updated_at", .str stamps.updatedAt)])
  match body with
  | .ok manualStop =>
    (.ok manualStop,
      { manualStops := s.manualStops ++ [manualStop],
        emitted := s.emitted ++
          [.manualStopAdded manualStop (s.manualStops.length + 1)] })
  | .error message => (.error message, s)

/-- The call `stops.findIndex(stop => stop.id === stopId)`; `none` is `-1`. -/
def findStopIndex (stopId : JSVal) : List JSVal → Except String (Option ℕ)
  | [] => .ok none
  | stop :: rest => do
    let id ← getProp stop "id"
    if strictEquals id stopId then pure (some 0)
    else
      let found ← findStopIndex stopId rest
      pure (found.map (fun i => i + 1))

/-- The method `removeManualStop` of ManualStopService.js. -/
def ManualStopService.removeManualStop (stopId : JSVal) (s : ManualStopService) :
    Except String Bool × ManualStopService :=
  match findStopIndex stopId s.manualStops with
  | .error message => (.error message, s)
  | .ok none => (.ok false, s)
  | .ok (some index) =>
    let removedStop := s.manualStops.getD index .undefined
    let manualStops := s.manualStops.eraseIdx index
    (.ok true,
      { manualStops := manualStops,
        emitted := s.emitted ++
          [.manualStopRemoved stopId removedStop manualStops.length] })

/-- The object `{ ...a, ...b }`: the properties of `a`, each property of `b`
replacing the one of the same name or coming after them. -/
def mergeFields (a b : List (String × JSVal)) : List (String × JSVal) :=
  b.foldl (fun fields p => setField p.1 p.2 fields) a

/-- The method `updateManualStop`; `updatedAt` is the text of
`new Date().toISOString()`, and `none` is `null`. -/
def ManualStopService.updateManualStop (updatedAt : String) (stopId updateData : JSVal)
    (s : ManualStopService) : Except String (Option JSVal) × ManualStopService :=
  match findStopIndex stopId s.manualStops with
  | .error message => (.error message, s)
  | .ok none => (.ok none, s)
  | .ok (some index) =>
    let stop := s.manualStops.getD index .undefined
    if !stop.truthy then (.ok none, s)
    else
      let updatedStop : JSVal := .obj
        (setField "updated_at" (.str updatedAt)
          (setField "is_manual" (.num (.fin 1))
            (setField "id" stopId
              (mergeFields (spreadFields stop) (spreadFields updateData)))))
      (.ok (some updatedStop),
        { manualStops := s.manualStops.set index updatedStop,
          emitted := s.emitted ++
            [.manualStopUpdated stopId stop updatedStop s.manualStops.length] })

/-- The method `isValidManualStop`, as the test of an `if`. -/
def ManualStopService.isValidManualStop (E : Engine) (stop : JSVal) : Except String Bool := do
  if !stop.truthy then return false
  if !(← getProp stop "id").truthy then return false
  let latitude ← getProp stop "latitude"
  if !latitude.truthy then return false
  let longitude ← getProp stop "longitude"
  if !longitude.truthy then return false
  if !(← getProp stop "name").truthy then return false
  if !(← getProp stop "zone_id").truthy then return false
  if !(← getProp stop "plan").truthy then return false
  if !strictEquals (← getProp stop "is_manual") (.num (.fin 1)) then return false
  ManualStopService.isValidCoordinate E latitude longitude

/-- The object that `importManualStops` returns. -/
inductive ImportResult where
  | imported (importedCount validCount errors : ℕ)
  | failed (error : String)

/-- The method `importManualStops`; `jsonParse` is `JSON.parse`. Every
exception is caught, and leaves the service as it was. -/
def ManualStopService.importManualStops (E : Engine) (jsonParse : String → Except String JSVal)
    (jsonData : String) (s : ManualStopService) : ImportResult × ManualStopService :=
  let body : Except String (ℕ × List JSVal) := do
    let data ← jsonParse jsonData
    let manualStops ← getProp data "manualStops"
    if !manualStops.truthy then throw "Formato dati non valido"
    match manualStops with
    | .arr items =>
      let validStops ← filterItems (ManualStopService.isValidManualStop E) items
      pure (items.length, validStops)
    | _ => throw "Formato dati non valido"
  match body with
  | .ok (importedCount, validStops) =>
    (.imported importedCount validStops.length (importedCount - validStops.length),
      { manualStops := s.manualStops ++ validStops,
        emitted := s.emitted ++
          [.manualStopsImported importedCount validStops.length
            (s.manualStops.length + validStops.length)] })
  | .error message => (.failed message, s)

/-- The method `clearAllManualStops`. -/
def ManualStopService.clearAllManualStops (s : ManualStopService) : ManualStopService :=
  { manualStops := [],
    emitted := s.emitted ++ [.allManualStopsCleared s.manualStops.length] }

/-- What the specification asks of a stop: its plan is `A` or `B`, its
latitude is a number in `[-90, 90]` and its longitude a number in
`[-180, 180]`. -/
def WellFormedStop (stop : JSVal) : Prop :=
  (getProp stop "plan" = .ok (.str "A") ∨ getProp stop "plan" = .ok (.str "B")) ∧
  (∃ lat, getProp stop "latitude" = .ok (.num lat) ∧ lat.InRange (-90) 90) ∧
  (∃ lng, getProp stop "longitude" = .ok (.num lng) ∧ lng.InRange (-180) 180)

/-- The argument of `addManualStop` for a stop at latitude 45, longitude 9 in
zone 9, with the given text as `subzone`; used as sample data. -/
def sampleStopData (subzone : String) : JSVal :=
  .obj [("latitude", .num (.fin 45)), ("longitude", .num (.fin 9)), ("name", .str "Via Roma 12"),
        ("zone", .num (.fin 9)), ("subzone", .str subzone)]

/-- The stamps of the sample calls. -/
def sampleStamps : StopStamps :=
  { now := 1700000000000, random := "k3j9x0abc", createdAt := "2023-11-14T22:13:20.000Z",
    updatedAt := "2023-11-14T22:13:20.000Z" }

/-- A `parseInt` for the sample calls: exact on runs of decimal digits. -/
def digitsParseInt (text : String) : JSNum :=
  match digitsValue text.data with
  | some n => if text.data = [] then .nan else .ofNat n
  | none => .nan

/-- The identifier of the sample stops. -/
def sampleStopId : String := "manual_1700000000000_k3j9x0abc"

/-- A stop of the collection as `addManualStop` makes it of `sampleStopData`,
with a latitude, a plan and a time of update. -/
def sampleStop (latitude : ℚ) (plan updatedAt : String) : JSVal :=
  .obj [("id", .str sampleStopId),
        ("latitude", .num (.fin latitude)), ("longitude", .num (.fin 9)),
        ("name", .str "Via Roma 12"), ("description", .str ""),
        ("zone_id", .num (.fin 9)), ("plan", .str plan), ("is_manual", .num (.fin 1)),
        ("created_at", .str "2023-11-14T22:13:20.000Z"),
        ("updated_at", .str updatedAt)]

/-- A service that holds one well-formed stop. -/
def oneStopService : ManualStopService :=
  { manualStops := [sampleStop 45 "B" "2023-11-14T22:13:20.000Z"], emitted := [] }

/-- The text of an export with one stop of plan `C`, after `JSON.parse`. -/
def planCExport : JSVal :=
  .obj [("manualStops", .arr [sampleStop 45 "C" "2023-11-14T22:13:20.000Z"]), ("count", .num (.fin 1))]

/-! ## KMLService.js as a module

An `import` declaration, a `class` declaration and a `const` declaration all
bind their names in the scope of the module, and a name bound twice there is
an error of the module as a text: it is found when the module is read, before
any of its statements is evaluated (the transformer of the bundler reports the
same error). The message text is the engine's; a fixed text stands for it. -/

/-- The names that KMLService.js binds at its top level, in the order of the
source: the bindings of the three `import` declarations (lines 8, 9 and 10),
the class (line 15) and the six `export const` declarations (lines 272, 275,
278, 281, 284 and 287). -/
def kmlServiceDeclarations : List String :=
  ["loadKML", "verifyKMLFile", "listAvailableKMLFiles", "getKMLFileInfo",
   "parseKML", "calculateRouteStats",
   "validateKML", "validateSingleRoute", "generateValidationReport",
   "KMLService",
   "kmlService", "loadKMLForZone", "isKMLAvailable", "listAvailableKMLs",
   "validateKML", "generateValidationReport"]

/-- The first name of `declarations` that is already among `seen`, or among
the names before it in `declarations`. -/
def redeclared (seen : List String) : List String → Option String
  | [] => none
  | name :: declarations =>
    if seen.contains name then some name else redeclared (name :: seen) declarations

/-- The evaluation of a module with the given top-level names: a name that is
declared twice ends it with a `SyntaxError`, and nothing of the body is
evaluated; otherwise the body gives the exports. -/
def evaluateModule {α : Type} (declarations : List String) (body : α) : Except String α :=
  match redeclared [] declarations with
  | some name => .error ("SyntaxError: Identifier " ++ name ++ " has already been declared")
  | none => .ok body

/-- What `import kmlService from ./KMLService` gives: the singleton
`new KMLService()` of line 272, made when the module is evaluated. -/
def importKMLService : Except String KMLService :=
  evaluateModule kmlServiceDeclarations initialKMLService

/-- A program that imports the service and then goes through a list of
actions on it: the service after them, or the error of the import. -/
noncomputable def runImported (E : Engine) (P : Printer)
    (xmlParse : String → Except String JSVal) (clock : ℕ → ℕ) (actions : List KMLAction) :
    Except String KMLService :=
  importKMLService.map (fun s => s.run E P xmlParse clock actions)

/-- A program that imports the service and calls `_performKMLLoading` on it,
with the answers of the file system: how the call ends, or the error of the
import. -/
noncomputable def performImported (E : Engine) (P : Printer)
    (xmlParse : String → Except String JSVal) (clock : ℕ → ℕ) (zone : ℤ) (subzone : String)
    (a : FileAnswers) : Except String (Completion LoadResult) :=
  importKMLService.map (fun _ => performKMLLoading E P xmlParse clock zone subzone a)

/-- The error that ends every import of KMLService.js. -/
def kmlServiceError : String := "SyntaxError: Identifier validateKML has already been declared"

/-! ## DatabaseService.js and PostManV3Service.js: initialisation and runs of calls

The tables `zones` and `settings` are not among the tables of the embedding:
an `INSERT` into one of them leaves the embedded tables as they are. -/

/-- What the SQLite library answers during one `initialize`: how
`openDatabaseSync` ends, and how the `execSync` calls of `createTables` and of
`createIndexes` end. An `error` is an exception. -/
structure SQLiteAnswers where
  openDatabase : Except String Unit
  createTables : Except String Unit
  createIndexes : Except String Unit

/-- The service as its constructor leaves it, `db = null` and
`isInitialized = false`, on the stored tables of a new installation. -/
def newDatabase : Database :=
  { isInitialized := false, dbOpen := false, runs := [], runsSeq := 0, runStops := [],
    runStopsSeq := 0 }

/-- The test `typeof value === 'string' && value.trim().length > 0` of
`VALIDATIONS.zone.name`. -/
def validZoneName (value : JSVal) : Bool :=
  match value with
  | .str s => decide (0 < (trim s.data).length)
  | _ => false

/-- The method `insertZone`: the test of `ensureInitialized`, the test of the
name, and the `INSERT` into `zones`. -/
def Database.insertZone (name : JSVal) (d : Database) : Except String Unit := do
  d.ensureInitialized
  if !validZoneName name then throw "Nome zona non valido"
  pure ()

/-- The method `insertSetting`, which is `setSetting`: the test of
`ensureInitialized` and the `INSERT OR REPLACE` into `settings`. -/
def Database.insertSetting (d : Database) : Except String Unit := do
  d.ensureInitialized
  pure ()

/-- The names of the zones of `SEED_DATA`. -/
def seedZones : List JSVal := [.str "Zona 9"]

/-- The keys of the settings of `SEED_DATA`. -/
def seedSettings : List String :=
  ["gps_accuracy_threshold", "marker_radius", "auto_save_interval", "map_style",
   "notification_enabled"]

/-- The method `seedData`: `insertZone` for every zone of `SEED_DATA`, then
`insertSetting` for every setting. -/
def Database.seedData (d : Database) : Except String Unit := do
  seedZones.forM (fun name => d.insertZone name)
  seedSettings.forM (fun _ => d.insertSetting)

/-- The method `initialize`: how the call ends, and the service after it. The
flag `isInitialized` is set after `seedData` has returned; an exception on the
way is thrown again, and what was assigned before it stays. -/
def Database.initializeCall (answers : SQLiteAnswers) (d : Database) :
    Except String Unit × Database :=
  match answers.openDatabase with
  | .error message => (.error message, d)
  | .ok _ =>
    match answers.createTables with
    | .error message => (.error message, { d with dbOpen := true })
    | .ok _ =>
      match answers.createIndexes with
      | .error message => (.error message, { d with dbOpen := true })
      | .ok _ =>
        match Database.seedData { d with dbOpen := true } with
        | .error message => (.error message, { d with dbOpen := true })
        | .ok _ => (.ok (), { d with dbOpen := true, isInitialized := true })

/-- The method `close`. -/
def Database.close (d : Database) : Database :=
  if d.dbOpen then { d with dbOpen := false, isInitialized := false } else d

/-- A call of a method of the database service. -/
inductive DatabaseAction where
  | initializeCall (answers : SQLiteAnswers)
  | startRun (now : ℕ) (runData : RunData)
  | completeRun (now : ℕ) (runId : ℕ) (completionData : RunCompletion)
  | addStopToRun (runStopData : RunStopData)
  | completeStopInRun (now : ℕ) (runStopId : ℕ) (completionData : StopCompletion)
  | close

/-- The database service after one call; a call that throws leaves the
tables as they are. -/
def Database.act (d : Database) : DatabaseAction → Database
  | .initializeCall answers => (Database.initializeCall answers d).2
  | .startRun now runData =>
    match d.startRun now runData with
    | .ok (_, d1) => d1
    | .error _ => d
  | .completeRun now runId completionData =>
    match d.completeRun now runId completionData with
    | .ok (_, d1) => d1
    | .error _ => d
  | .addStopToRun runStopData =>
    match d.addStopToRun runStopData with
    | .ok (_, d1) => d1
    | .error _ => d
  | .completeStopInRun now runStopId completionData =>
    match d.completeStopInRun now runStopId completionData with
    | .ok (_, d1) => d1
    | .error _ => d
  | .close => d.close

/-- The calls of a list, one after the other. -/
def Database.runActions (d : Database) (actions : List DatabaseAction) : Database :=
  actions.foldl Database.act d

/-- The message of `ensureInitialized`. -/
def notInitialized : String := "Database non inizializzato. Chiamare initialize() prima."

/-- The method `initialize` of PostManV3Service: `databaseService.initialize()`
and, when that has returned, the listeners and the event `initialized`; an
exception is thrown again. -/
def PostManService.initializeCall (answers : SQLiteAnswers) (s : PostManService) :
    Except String Unit × PostManService :=
  match Database.initializeCall answers s.database with
  | (.error message, d) => (.error message, { s with database := d })
  | (.ok _, d) => (.ok (), { database := d, emitted := s.emitted ++ [.initialized] })

/-- The service of PostManV3Service.js as its constructor leaves it, on the
database service as its constructor leaves it. -/
def newPostManService : PostManService := { database := newDatabase, emitted := [] }

/-- A call of a method of the service. -/
inductive ServiceAction where
  | initializeCall (answers : SQLiteAnswers)
  | startRun (now : ℕ) (runData : RunData)
  | completeStop (now : ℕ) (completionData : StopCompletionData)

/-- The service after one call. -/
def PostManService.act (s : PostManService) : ServiceAction → PostManService
  | .initializeCall answers => (PostManService.initializeCall answers s).2
  | .startRun now runData => (s.startRun now runData).2
  | .completeStop now completionData => (s.completeStop now completionData).2

/-- The calls of a list, one after the other. -/
def PostManService.runActions (s : PostManService) (actions : List ServiceAction) :
    PostManService :=
  actions.foldl PostManService.act s

/-- The names that PostManV3Service.js binds at its top level: the five
imports (lines 8 to 12), the class (line 17) and the `export const` of line
407. -/
def postManServiceDeclarations : List String :=
  ["kmlService", "mapStateService", "navigationService", "manualStopService",
   "databaseService", "PostManV3Service", "postManV3Service"]

/-- What `import postManV3Service from ./PostManV3Service` gives: the module
imports KMLService.js first (line 8), and the singleton of line 407 is made
when its own statements are evaluated. -/
def importPostManService : Except String PostManService :=
  importKMLService.bind (fun _ => evaluateModule postManServiceDeclarations newPostManService)

/-- What every call keeps: the flag `isInitialized` is not set, and the two
tables are empty. -/
def NeverReady (d : Database) : Prop :=
  d.isInitialized = false ∧ d.runs = [] ∧ d.runStops = []

/-- The value is `null` or `undefined`, or its `routes` is missing, is `null`
or is an array: the inputs that the validator is written for. -/
def PlainRoutes (v : JSVal) : Prop :=
  v = .null ∨ v = .undefined ∨ getProp v "routes" = .ok .undefined ∨
    getProp v "routes" = .ok .null ∨ ∃ items, getProp v "routes" = .ok (.arr items)

/-- A document whose `routes` is the object `{ length: Infinity }`. -/
def endlessDocument : JSVal :=
  .obj [("metadata", .obj [("name", .str "Zona 9")]),
        ("routes", .obj [("length", .num .posInf)])]

/-! ## Binary64 arithmetic

JavaScript numbers are the binary64 numbers of IEEE 754. A finite one is a
rational, and the result of `+`, `-`, `*` and `/` is the exact result rounded
to the nearest binary64 number, a tie going to the one whose last bit is even.
The functions `Math.sin`, `Math.cos`, `Math.sqrt` and `Math.atan2` are left to
the implementation by the specification of the language: they are parameters
(`MathLib`), and only what the specification fixes for them is embedded. The
two zeros are one number, and no divisor of the program is zero. -/

/-- The nearest integer to a rational, a tie going to the even integer. -/
def roundHalfEven (x : ℚ) : ℤ :=
  if x - ⌊x⌋ < 1 / 2 then ⌊x⌋
  else if 1 / 2 < x - ⌊x⌋ then ⌊x⌋ + 1
  else if ⌊x⌋ % 2 = 0 then ⌊x⌋ else ⌊x⌋ + 1

/-- The exponent of the spacing of the binary64 numbers around `q`: `e - 52`
for `2^e ≤ |q| < 2^(e+1)`, and `-1074` below `2^(-1022)`. -/
def Binary64.ulpExponent (q : ℚ) : ℤ := max (Int.log 2 |q|) (-1022) - 52

/-- The binary64 number nearest to a rational, a tie going to the even one;
a result of magnitude `2^1024` or more is an infinity. -/
def Binary64.round (q : ℚ) : JSNum :=
  if (2 : ℚ) ^ (1024 : ℕ) ≤ |(roundHalfEven (q / 2 ^ ulpExponent q) : ℚ) * 2 ^ ulpExponent q| then
    (if 0 < q then .posInf else .negInf)
  else .fin (roundHalfEven (q / 2 ^ ulpExponent q) * 2 ^ ulpExponent q)

/-- The unary operator `-a`. -/
def Binary64.neg : JSNum → JSNum
  | .fin a => .fin (-a)
  | .posInf => .negInf
  | .negInf => .posInf
  | .nan => .nan

/-- The operator `a + b`. -/
def Binary64.add : JSNum → JSNum → JSNum
  | .fin a, .fin b => round (a + b)
  | .nan, _ => .nan
  | _, .nan => .nan
  | .posInf, .negInf => .nan
  | .negInf, .posInf => .nan
  | .posInf, _ => .posInf
  | .negInf, _ => .negInf
  | _, .posInf => .posInf
  | _, .negInf => .negInf

/-- The operator `a - b`. -/
def Binary64.sub (a b : JSNum) : JSNum := add a (neg b)

/-- The product of an infinity, positive or not, and a number. -/
def Binary64.mulInf (positive : Bool) : JSNum → JSNum
  | .fin b => if b = 0 then .nan else if (0 < b) = positive then .posInf else .negInf
  | .posInf => if positive then .posInf else .negInf
  | .negInf => if positive then .negInf else .posInf
  | .nan => .nan

/-- The operator `a * b`. -/
def Binary64.mul : JSNum → JSNum → JSNum
  | .fin a, .fin b => round (a * b)
  | .nan, _ => .nan
  | .posInf, b => mulInf true b
  | .negInf, b => mulInf false b
  | a, .posInf => mulInf true a
  | a, .negInf => mulInf false a
  | _, .nan => .nan

/-- The operator `a / b` for a divisor `b` that is a finite number and not
zero (the divisors of the program are `180`, `2`, `60` and `Math.PI`). -/
def Binary64.div (a : JSNum) (b : ℚ) : JSNum :=
  match a with
  | .fin q => round (q / b)
  | .posInf => if 0 < b then .posInf else .negInf
  | .negInf => if 0 < b then .negInf else .posInf
  | .nan => .nan

/-- The operator `a % b` for a divisor `b` that is a finite number and not
zero: the remainder `a - b * trunc(a / b)`, which is a binary64 number. -/
def Binary64.rem (a : JSNum) (b : ℚ) : JSNum :=
  match a with
  | .fin q => .fin (q - b * (if 0 ≤ q / b then (⌊q / b⌋ : ℚ) else (⌈q / b⌉ : ℚ)))
  | _ => .nan

/-- The function `Math.floor`. -/
def Binary64.floor : JSNum → JSNum
  | .fin q => .fin ⌊q⌋
  | a => a

/-- The function `Math.round`: the nearest integer, a tie going up. -/
def Binary64.mathRound : JSNum → JSNum
  | .fin q => .fin ⌊q + 1 / 2⌋
  | a => a

/-- The constant `Math.PI`, the binary64 number nearest to π. -/
def Binary64.pi : ℚ := 884279719003555 / 281474976710656

/-- What an implementation of `Math` answers where the specification of the
language leaves the value to it: `sin` and `cos` on a finite number, `sqrt` on
a finite number that is not negative, `atan2` on two numbers that are not
`NaN`. -/
structure MathLib where
  sin : ℚ → JSNum
  cos : ℚ → JSNum
  sqrt : ℚ → JSNum
  atan2 : JSNum → JSNum → JSNum

/-- The function `Math.sin`: `NaN` on `NaN` and on an infinity. -/
def Binary64.sin (M : MathLib) : JSNum → JSNum
  | .fin q => M.sin q
  | _ => .nan

/-- The function `Math.cos`: `NaN` on `NaN` and on an infinity. -/
def Binary64.cos (M : MathLib) : JSNum → JSNum
  | .fin q => M.cos q
  | _ => .nan

/-- The function `Math.sqrt`: `NaN` on `NaN` and on a number less than zero,
`+Infinity` on `+Infinity`. -/
def Binary64.sqrt (M : MathLib) : JSNum → JSNum
  | .fin q => if q < 0 then .nan else M.sqrt q
  | .posInf => .posInf
  | _ => .nan

/-- The function `Math.atan2`: `NaN` as soon as one argument is `NaN`. -/
def Binary64.atan2 (M : MathLib) (y x : JSNum) : JSNum :=
  if y.isNaN || x.isNaN then .nan else M.atan2 y x

/-! ## GPSMarkerService.js in binary64 arithmetic -/

/-- A point `{ latitude, longitude }` whose coordinates are numbers. -/
structure Binary64.Point where
  latitude : JSNum
  longitude : JSNum

/-- The constant `a` of `haversineDistance`. -/
def Binary64.haversineA (M : MathLib) (point1 point2 : Point) : JSNum :=
  let lat1Rad := div (mul point1.latitude (.fin pi)) 180
  let lat2Rad := div (mul point2.latitude (.fin pi)) 180
  let deltaLatRad := div (mul (sub point2.latitude point1.latitude) (.fin pi)) 180
  let deltaLngRad := div (mul (sub point2.longitude point1.longitude) (.fin pi)) 180
  add (mul (sin M (div deltaLatRad 2)) (sin M (div deltaLatRad 2)))
    (mul (mul (mul (cos M lat1Rad) (cos M lat2Rad)) (sin M (div deltaLngRad 2)))
      (sin M (div deltaLngRad 2)))

/-- The function `haversineDistance` of GPSMarkerService.js (KMLParser.js has
the same body), in binary64 arithmetic. -/
def Binary64.haversineDistance (M : MathLib) (point1 point2 : Point) : JSNum :=
  let a := haversineA M point1 point2
  let c := mul (.fin 2) (atan2 M (sqrt M a) (sqrt M (sub (.fin 1) a)))
  mul (.fin 6371000) c

/-- The function `calculateBearing`, in binary64 arithmetic. -/
def Binary64.calculateBearing (M : MathLib) (fromPoint toPoint : Point) : JSNum :=
  let lat1Rad := div (mul fromPoint.latitude (.fin pi)) 180
  let lat2Rad := div (mul toPoint.latitude (.fin pi)) 180
  let deltaLngRad := div (mul (sub toPoint.longitude fromPoint.longitude) (.fin pi)) 180
  let y := mul (sin M deltaLngRad) (cos M lat2Rad)
  let x := sub (mul (cos M lat1Rad) (sin M lat2Rad))
    (mul (mul (sin M lat1Rad) (cos M lat2Rad)) (cos M deltaLngRad))
  let bearing := div (mul (atan2 M y x) (.fin 180)) pi
  rem (add bearing (.fin 360)) 360

/-- The function `bearingToCardinal`, in binary64 arithmetic: an index that is
not one of `0` to `7` reads `undefined` (here `none`). -/
def Binary64.bearingToCardinal (bearing : JSNum) : Option String :=
  match rem (mathRound (div bearing 45)) 8 with
  | .fin q => if 0 ≤ q ∧ q.den = 1 then ["N", "NE", "E", "SE", "S", "SW", "W", "NW"].get? q.num.toNat
    else none
  | _ => none

/-- A GPS fix `{ latitude, longitude, accuracy }` with numbers in its fields;
`none` is an absent field. -/
structure Binary64.UserLocation where
  latitude : Option JSNum
  longitude : Option JSNum
  accuracy : Option JSNum

/-- A stop: its coordinates (`none` when the field is absent) and the rest of
its fields. -/
structure Binary64.Stop (α : Type) where
  info : α
  latitude : Option JSNum
  longitude : Option JSNum

/-- The object `{ ...nearestStop, distance, bearing, direction }` that
`findNearestStop` returns. -/
structure Binary64.NearestStop (α : Type) where
  stop : Stop α
  distance : JSNum
  bearing : JSNum
  direction : Option String

/-- Truthiness of a numeric field: it is present and is neither `0` nor
`NaN`. -/
def Binary64.fieldTruthy (x : Option JSNum) : Bool :=
  match x with
  | some v => v.truthy
  | none => false

/-- The point read from two numeric fields; an absent field reads
`undefined`, which is `NaN` as a number. -/
def Binary64.pointOf (latitude longitude : Option JSNum) : Point :=
  { latitude := latitude.getD .nan, longitude := longitude.getD .nan }

/-- One turn of the loop of `findNearestStop`, on the pair
`(nearestStop, minDistance)`; `none` is `null`. -/
def Binary64.nearestStep {α : Type} (M : MathLib) (user : Point) (state : Option (Stop α) × JSNum)
    (stop : Stop α) : Option (Stop α) × JSNum :=
  if !fieldTruthy stop.latitude || !fieldTruthy stop.longitude then state
  else if JSNum.lt (haversineDistance M user (pointOf stop.latitude stop.longitude)) state.2 then
    (some stop, haversineDistance M user (pointOf stop.latitude stop.longitude))
  else state

/-- The function `findNearestStop` of GPSMarkerService.js, in binary64
arithmetic; `none` is `null`. -/
def Binary64.findNearestStop {α : Type} (M : MathLib) (userLocation : Option UserLocation)
    (allStops : List (Stop α)) : Option (NearestStop α) :=
  match userLocation with
  | none => none
  | some u =>
    if !fieldTruthy u.latitude || !fieldTruthy u.longitude then none
    else if fieldTruthy u.accuracy && JSNum.gt (u.accuracy.getD .nan) (.fin 50) then none
    else
      match allStops.foldl (nearestStep M (pointOf u.latitude u.longitude)) (none, .posInf) with
      | (none, _) => none
      | (some nearestStop, minDistance) =>
        some { stop := nearestStop, distance := mathRound minDistance,
               bearing := mathRound (calculateBearing M (pointOf u.latitude u.longitude)
                 (pointOf nearestStop.latitude nearestStop.longitude)),
               direction := bearingToCardinal (calculateBearing M
                 (pointOf u.latitude u.longitude)
                 (pointOf nearestStop.latitude nearestStop.longitude)) }

/-- The operator `a === b` on two numbers: `NaN` is equal to nothing. -/
def Binary64.strictEq (a b : JSNum) : Bool :=
  match a, b with
  | .nan, _ => false
  | _, .nan => false
  | x, y => decide (x = y)

/-- The method `formatETA` of NavigationService.js on a number, in binary64
arithmetic: the quotient `etaMinutes / 60` is rounded, `Math.floor` and `%`
are exact, and the texts of the numbers are those of the printer. -/
def Binary64.formatETA (P : Printer) (etaMinutes : JSNum) : String :=
  if JSNum.lt etaMinutes (.fin 1) then "< 1 min"
  else if JSNum.lt etaMinutes (.fin 60) then P.numberToString etaMinutes ++ " min"
  else if JSNum.gt (rem etaMinutes 60) (.fin 0) then
    P.numberToString (floor (div etaMinutes 60)) ++ "h " ++
      P.numberToString (rem etaMinutes 60) ++ "m"
  else P.numberToString (floor (div etaMinutes 60)) ++ "h"

/-- An implementation of `Math` for concrete evaluation. Its sine and cosine
answer, at the arguments that the two sample points lead to, the binary64
number nearest to the sine and to the cosine of the argument (the values of
the usual libraries), and `NaN` elsewhere. -/
def sampleMath : MathLib where
  sin := fun x =>
    if x = (7545853602163669 / 36028797018963968) then .fin (7490808106342645 / 36028797018963968)
    else if x = (884279719003555 / 562949953421312) then .fin 1
    else .nan
  cos := fun x =>
    if x = (-7545853602163669 / 36028797018963968) ∨ x = (7545853602163669 / 36028797018963968) then
      .fin (68831018284033 / 70368744177664)
    else .nan
  sqrt := fun _ => .nan
  atan2 := fun _ _ => .nan

/-- The point at latitude -12 and longitude -90. -/
def southWest : Binary64.Point := { latitude := .fin (-12), longitude := .fin (-90) }

/-- The point at latitude 12 and longitude 90, opposite to `southWest` on the
sphere. -/
def northEast : Binary64.Point := { latitude := .fin 12, longitude := .fin 90 }

/-- A user location at latitude -12, longitude -90, without `accuracy`. -/
def southWestUser : Binary64.UserLocation :=
  { latitude := some (.fin (-12)), longitude := some (.fin (-90)), accuracy := none }

/-- A stop at latitude 12, longitude 90. -/
def northEastStop : Binary64.Stop String :=
  { info := "A", latitude := some (.fin 12), longitude := some (.fin 90) }

/-- A printer for concrete evaluation: the decimal text of an integer, and
`NaN` for every other number. -/
def integerPrinter : Printer where
  numberToString := fun n =>
    match n with
    | .fin q => if q.den = 1 then showInt q.num else "NaN"
    | _ => "NaN"
  arrayToString := fun _ => ""

/-! # Theorems -/

/-! ## Coordinates -/

theorem isValidCoordinate_iff (lat lng : JSNum) :
    Parser.isValidCoordinate lat lng = true ↔
      (lng.InRange (-180) 180 ∧ lat.InRange (-90) 90) := by
  unfold Parser.isValidCoordinate JSNum.InRange JSNum.ge
  cases lat <;> cases lng <;> simp [JSNum.isNaN, JSNum.le]
  tauto

theorem parseCoordinatesStep_eq (E : Engine) (points : List Coordinate) (line : List Char) :
    parseCoordinatesStep E points line = points ++ (specPoint E line).toList := by
  unfold parseCoordinatesStep specPoint
  rcases h : splitComma line with _ | ⟨f0, _ | ⟨f1, rest⟩⟩
  · simp
  · simp
  · have hv := isValidCoordinate_iff (E.parseFloat (String.mk f1)) (E.parseFloat (String.mk f0))
    by_cases hc : ((E.parseFloat (String.mk f0)).InRange (-180) 180 ∧
        (E.parseFloat (String.mk f1)).InRange (-90) 90)
    · cases rest <;> simp [parseFloatAt, hv, hc]
    · cases rest <;> simp [parseFloatAt, hv, hc]

theorem foldl_parseCoordinatesStep (E : Engine) (lines : List (List Char))
    (points : List Coordinate) :
    lines.foldl (parseCoordinatesStep E) points = points ++ lines.filterMap (specPoint E) := by
  induction lines generalizing points with
  | nil => simp
  | cons l ls ih =>
    rw [List.foldl_cons, ih, parseCoordinatesStep_eq]
    cases h : specPoint E l <;> simp [List.filterMap_cons, h]

/-- C1. `parseCoordinates` is total (it never throws). On a value that is not
a string, and on the empty string, it returns `[]`. On any other string it
splits the trimmed text on white space and returns, in the order of the
tokens, the point of every token that has at least two comma-separated fields
with the first a longitude in `[-180, 180]` and the second a latitude in
`[-90, 90]` (altitude: the third field, or `0` when there are only two);
every other token is dropped. -/
theorem parseCoordinates_spec (E : Engine) (v : JSVal) :
    parseCoordinates E v =
      match v with
      | .str s =>
        if s.data = [] then []
        else (splitWhiteSpace (trim s.data)).filterMap (specPoint E)
      | _ => [] := by
  cases v <;> simp [parseCoordinates, JSVal.truthy, JSVal.isString]
  rename_i s
  by_cases hs : s.data = []
  · simp [hs]
  · simp [hs, foldl_parseCoordinatesStep]

/-! ## Validator: every run ends unless the route loop is endless (C3) -/

theorem noDiv_pure {α : Type} (a : α) : NoDiv (pure a : Eff α) := by
  intro r h; cases h

theorem noDiv_bind {α β : Type} {m : Eff α} {f : α → Eff β}
    (hm : NoDiv m) (hf : ∀ a, NoDiv (f a)) : NoDiv (m >>= f) := by
  intro r h
  change Eff.bind m f r = _ at h
  unfold Eff.bind at h
  cases hmr : m r with
  | ok a r1 => rw [hmr] at h; exact hf a r1 h
  | throws msg r1 => rw [hmr] at h; cases h
  | diverges => exact hm r hmr

theorem noDiv_liftE {α : Type} (e : Except String α) : NoDiv (liftE e) := by
  intro r h; unfold liftE at h; cases e <;> cases h

theorem noDiv_pushError (msg : String) : NoDiv (pushError msg) := by
  intro r h; cases h

theorem noDiv_pushWarning (msg : String) : NoDiv (pushWarning msg) := by
  intro r h; cases h

theorem noDiv_ite {α : Type} {c : Prop} [Decidable c] {m n : Eff α}
    (hm : NoDiv m) (hn : NoDiv n) : NoDiv (if c then m else n) := by
  split <;> assumption

theorem noDiv_forIndex {body : ℕ → Eff Unit} (hb : ∀ i, NoDiv (body i)) (start n : ℕ) :
    NoDiv (forIndex body start n) := by
  induction n generalizing start with
  | zero => exact noDiv_pure ()
  | succ n ih => exact noDiv_bind (hb start) (fun _ => ih (start + 1))

theorem noDiv_forEach {α : Type} {body : α → Eff Unit} (hb : ∀ a, NoDiv (body a))
    (xs : List α) : NoDiv (forEach body xs) := by
  induction xs with
  | nil => exact noDiv_pure ()
  | cons x xs ih => exact noDiv_bind (hb x) (fun _ => ih)

theorem validateBasicStructure_noDiv (v : JSVal) : NoDiv (validateBasicStructure v) := by
  unfold validateBasicStructure
  repeat' first
    | exact noDiv_pure _
    | exact noDiv_liftE _
    | exact noDiv_pushError _
    | exact noDiv_pushWarning _
    | refine noDiv_ite ?_ ?_
    | refine noDiv_bind ?_ (fun _ => ?_)
    | split

theorem validateRouteCoordinates_noDiv (path : List JSVal) (l : String) :
    NoDiv (validateRouteCoordinates path l) := by
  unfold validateRouteCoordinates
  repeat' first
    | exact noDiv_pure _
    | exact noDiv_liftE _
    | exact noDiv_pushError _
    | exact noDiv_pushWarning _
    | refine noDiv_ite ?_ ?_
    | refine noDiv_bind ?_ (fun _ => ?_)

theorem validateRouteAt_noDiv (routes : JSVal) (i : ℕ) : NoDiv (validateRouteAt routes i) := by
  unfold validateRouteAt
  repeat' first
    | exact noDiv_pure _
    | exact noDiv_liftE _
    | exact noDiv_pushError _
    | exact noDiv_pushWarning _
    | exact validateRouteCoordinates_noDiv _ _
    | refine noDiv_ite ?_ ?_
    | refine noDiv_bind ?_ (fun _ => ?_)
    | split

theorem noDiv_bind_liftE {α β : Type} {e : Except String α} {f : α → Eff β}
    (hf : ∀ a, e = .ok a → NoDiv (f a)) : NoDiv (liftE e >>= f) := by
  intro r h
  change Eff.bind (liftE e) f r = _ at h
  unfold Eff.bind liftE at h
  cases e with
  | error msg => cases h
  | ok a => exact hf a rfl r h

theorem loop_noDiv {body : ℕ → Eff Unit} (hb : ∀ i, NoDiv (body i)) (routes : JSVal)
    (bound : JSNum) (h : loopCount routes bound ≠ none) :
    NoDiv (match loopCount routes bound with
      | some n => forIndex body 0 n
      | none => loopForever) := by
  cases hc : loopCount routes bound with
  | none => exact absurd hc h
  | some n => exact noDiv_forIndex hb _ _

theorem validateRoutes_noDiv (E : Engine) (v : JSVal) (hfin : FiniteRoutes E v) :
    NoDiv (validateRoutes E v) := by
  unfold validateRoutes
  refine noDiv_bind_liftE (fun routes h1 => ?_)
  refine noDiv_bind_liftE (fun len h2 => ?_)
  refine noDiv_bind_liftE (fun bound h3 => ?_)
  exact loop_noDiv (validateRouteAt_noDiv routes) routes bound (hfin routes len bound h1 h2 h3)

theorem validateStopAt_noDiv (E : Engine) (stops : List JSVal) (i : ℕ) :
    NoDiv (validateStopAt E stops i) := by
  unfold validateStopAt
  repeat' first
    | exact noDiv_pure _
    | exact noDiv_liftE _
    | exact noDiv_pushError _
    | exact noDiv_pushWarning _
    | refine noDiv_ite ?_ ?_
    | refine noDiv_bind ?_ (fun _ => ?_)

theorem validateStops_noDiv (E : Engine) (v : JSVal) : NoDiv (validateStops E v) := by
  unfold validateStops
  refine noDiv_bind (noDiv_liftE _) (fun stops => ?_)
  split
  · exact noDiv_forIndex (validateStopAt_noDiv E _) _ _
  · exact noDiv_pure _

theorem countRoute_noDiv (route : JSVal) : NoDiv (countRoute route) := by
  intro r h
  unfold countRoute at h
  split at h
  · cases h
  · split at h
    · split at h <;> cases h
    · cases h

theorem calculateValidationStats_noDiv (v : JSVal) : NoDiv (calculateValidationStats v) := by
  unfold calculateValidationStats
  repeat' first
    | exact noDiv_pure _
    | exact noDiv_liftE _
    | exact noDiv_forEach countRoute_noDiv _
    | exact (fun r h => by cases h)
    | refine noDiv_ite ?_ ?_
    | refine noDiv_bind ?_ (fun _ => ?_)

theorem checkDenseAt_noDiv (E : Engine) (P : Printer) (routes : JSVal) (i : ℕ) :
    NoDiv (checkDenseAt E P routes i) := by
  unfold checkDenseAt
  repeat' first
    | exact noDiv_pure _
    | exact noDiv_liftE _
    | exact noDiv_pushWarning _
    | refine noDiv_ite ?_ ?_
    | refine noDiv_bind ?_ (fun _ => ?_)

theorem checkTotalPoints_noDiv : NoDiv checkTotalPoints := by
  intro r
  unfold checkTotalPoints
  dsimp only
  refine noDiv_bind ?_ (fun _ => ?_) r
  · split
    · exact noDiv_pushWarning _
    · exact noDiv_pure _
  · split
    · exact noDiv_pushError _
    · exact noDiv_pure _

theorem checkDenseRoutes_noDiv (E : Engine) (P : Printer) (v : JSVal)
    (hfin : FiniteRoutes E v) : NoDiv (checkDenseRoutes E P v) := by
  unfold checkDenseRoutes
  refine noDiv_bind_liftE (fun routes0 h1 => ?_)
  refine noDiv_bind_liftE (fun len h2 => ?_)
  refine noDiv_bind_liftE (fun bound h3 => ?_)
  refine loop_noDiv (checkDenseAt_noDiv E P _) _ bound ?_
  by_cases ht : routes0.truthy = true
  · rw [if_pos ht] at h2 ⊢
    exact hfin routes0 len bound h1 h2 h3
  · rw [if_neg ht]
    exact fun h => by cases h

theorem validatePerformance_noDiv (E : Engine) (P : Printer) (v : JSVal)
    (hfin : FiniteRoutes E v) : NoDiv (validatePerformance E P v) := by
  unfold validatePerformance
  exact noDiv_bind checkTotalPoints_noDiv (fun _ => checkDenseRoutes_noDiv E P v hfin)

theorem validateKMLBody_noDiv (E : Engine) (P : Printer) (v : JSVal)
    (hfin : FiniteRoutes E v) : NoDiv (validateKMLBody E P v) := by
  unfold validateKMLBody
  refine noDiv_bind (validateBasicStructure_noDiv v) (fun _ => ?_)
  refine noDiv_bind (validateRoutes_noDiv E v hfin) (fun _ => ?_)
  refine noDiv_bind (validateStops_noDiv E v) (fun _ => ?_)
  refine noDiv_bind (calculateValidationStats_noDiv v) (fun _ => ?_)
  exact validatePerformance_noDiv E P v hfin

/-! ## Validator: the size limit (C4) -/

theorem headTwo_append (a b : String) (h : 2 ≤ a.data.length) :
    headTwo (a ++ b) = headTwo a := by
  unfold headTwo
  rw [String.data_append, List.take_append_of_le_length h]

theorem grows_pure {α : Type} (good : String → Prop) (a : α) : Grows good (pure a : Eff α) :=
  fun r => ⟨[], by simp, by simp⟩

theorem grows_liftE {α : Type} (good : String → Prop) (e : Except String α) :
    Grows good (liftE e) := by
  intro r
  cases e <;> exact ⟨[], by simp, by simp⟩

theorem grows_pushWarning (good : String → Prop) (msg : String) :
    Grows good (pushWarning msg) :=
  fun r => ⟨[], by simp, by simp⟩

theorem grows_pushError (good : String → Prop) (msg : String) (h : good msg) :
    Grows good (pushError msg) :=
  fun r => ⟨[msg], rfl, by simpa using h⟩

theorem growsFrom_trans {α : Type} {good : String → Prop} {r r1 : ValidationResult}
    {s : Step α} (es : List String) (h1 : r1.errors = r.errors ++ es) (hg : ∀ e ∈ es, good e)
    (h2 : GrowsFrom good r1 s) : GrowsFrom good r s := by
  cases s with
  | diverges => trivial
  | ok a r2 =>
    obtain ⟨es2, h, hg2⟩ := h2
    refine ⟨es ++ es2, by rw [h, h1, List.append_assoc], ?_⟩
    intro e he
    rcases List.mem_append.1 he with he | he
    · exact hg e he
    · exact hg2 e he
  | throws msg r2 =>
    obtain ⟨es2, h, hg2⟩ := h2
    refine ⟨es ++ es2, by rw [h, h1, List.append_assoc], ?_⟩
    intro e he
    rcases List.mem_append.1 he with he | he
    · exact hg e he
    · exact hg2 e he

theorem grows_bind {α β : Type} {good : String → Prop} {m : Eff α} {f : α → Eff β}
    (hm : Grows good m) (hf : ∀ a, Grows good (f a)) : Grows good (m >>= f) := by
  intro r
  change GrowsFrom good r (Eff.bind m f r)
  unfold Eff.bind
  have h := hm r
  cases hmr : m r with
  | ok a r1 =>
    rw [hmr] at h
    obtain ⟨es, h1, hg⟩ := h
    exact growsFrom_trans es h1 hg (hf a r1)
  | throws msg r1 => rw [hmr] at h; exact h
  | diverges => trivial

theorem grows_forIndex {good : String → Prop} {body : ℕ → Eff Unit}
    (hb : ∀ i, Grows good (body i)) (start n : ℕ) : Grows good (forIndex body start n) := by
  induction n generalizing start with
  | zero => exact grows_pure good ()
  | succ n ih => exact grows_bind (hb start) (fun _ => ih (start + 1))

theorem notSizeLike_label (a b c : String) (h : 2 ≤ a.data.length)
    (ha : headTwo a ≠ ['F', 'i']) : NotSizeLike (a ++ b ++ c) := by
  unfold NotSizeLike
  rw [headTwo_append _ _ (by rw [String.data_append, List.length_append]; omega),
    headTwo_append _ _ h]
  exact ha

theorem validateBasicStructure_grows (v : JSVal) :
    Grows NotSizeLike (validateBasicStructure v) := by
  unfold validateBasicStructure
  repeat' first
    | exact grows_pure _ _
    | exact grows_liftE _ _
    | exact grows_pushWarning _ _
    | exact grows_pushError _ _ (by unfold NotSizeLike headTwo; decide)
    | refine grows_bind ?_ (fun _ => ?_)
    | split

theorem validateRouteCoordinates_grows (path : List JSVal) (i : ℕ) :
    Grows NotSizeLike (validateRouteCoordinates path ("Percorso " ++ showNat i)) := by
  unfold validateRouteCoordinates
  repeat' first
    | exact grows_pure _ _
    | exact grows_pushWarning _ _
    | exact grows_pushError _ _ (notSizeLike_label _ _ _ (by decide) (by decide))
    | refine grows_bind ?_ (fun _ => ?_)
    | split

theorem validateRouteAt_grows (routes : JSVal) (i : ℕ) :
    Grows NotSizeLike (validateRouteAt routes i) := by
  unfold validateRouteAt
  repeat' first
    | exact grows_pure _ _
    | exact grows_liftE _ _
    | exact grows_pushWarning _ _
    | exact validateRouteCoordinates_grows _ _
    | exact grows_pushError _ _ (notSizeLike_label _ _ _ (by decide) (by decide))
    | refine grows_bind ?_ (fun _ => ?_)
    | split

theorem validateRoutes_grows (E : Engine) (v : JSVal) :
    Grows NotSizeLike (validateRoutes E v) := by
  unfold validateRoutes
  repeat' first
    | exact grows_pure _ _
    | exact grows_liftE _ _
    | exact grows_forIndex (validateRouteAt_grows _) _ _
    | exact (fun _ => trivial)
    | refine grows_bind ?_ (fun _ => ?_)
    | split

theorem validateStopAt_grows (E : Engine) (stops : List JSVal) (i : ℕ) :
    Grows NotSizeLike (validateStopAt E stops i) := by
  unfold validateStopAt
  dsimp only
  repeat' first
    | exact grows_pure _ _
    | exact grows_liftE _ _
    | exact grows_pushWarning _ _
    | exact grows_pushError _ _ (notSizeLike_label _ _ _ (by decide) (by decide))
    | refine grows_bind ?_ (fun _ => ?_)
    | split

theorem validateStops_grows (E : Engine) (v : JSVal) :
    Grows NotSizeLike (validateStops E v) := by
  unfold validateStops
  repeat' first
    | exact grows_pure _ _
    | exact grows_liftE _ _
    | exact grows_forIndex (validateStopAt_grows _ _) _ _
    | refine grows_bind ?_ (fun _ => ?_)
    | split

theorem succeeds_pure {α : Type} (a : α) : Succeeds (pure a : Eff α) :=
  fun r => ⟨a, r, rfl⟩

theorem succeeds_pushError (msg : String) : Succeeds (pushError msg) :=
  fun _ => ⟨(), _, rfl⟩

theorem succeeds_pushWarning (msg : String) : Succeeds (pushWarning msg) :=
  fun _ => ⟨(), _, rfl⟩

theorem succeeds_bind {α β : Type} {m : Eff α} {f : α → Eff β}
    (hm : Succeeds m) (hf : ∀ a, Succeeds (f a)) : Succeeds (m >>= f) := by
  intro r
  obtain ⟨a, r1, h1⟩ := hm r
  obtain ⟨b, r2, h2⟩ := hf a r1
  refine ⟨b, r2, ?_⟩
  change Eff.bind m f r = _
  unfold Eff.bind
  rw [h1]
  exact h2

theorem succeeds_bind_liftE {α β : Type} {e : Except String α} {f : α → Eff β} (a : α)
    (he : e = .ok a) (hf : Succeeds (f a)) : Succeeds (liftE e >>= f) := by
  subst he
  exact hf

theorem succeeds_forIndex {body : ℕ → Eff Unit} (n : ℕ) :
    ∀ start, (∀ i, start ≤ i → i < start + n → Succeeds (body i)) →
      Succeeds (forIndex body start n) := by
  induction n with
  | zero => intro start _; exact succeeds_pure ()
  | succ n ih =>
    intro start hb
    exact succeeds_bind (hb start (le_refl _) (by omega))
      (fun _ => ih (start + 1) (fun i h1 h2 => hb i (by omega) (by omega)))

theorem isBlankName_ok (nm : JSVal) (h : nm.truthy = true → nm.isString = true) :
    ∃ b, isBlankName nm = .ok b := by
  unfold isBlankName
  by_cases ht : nm.truthy = true
  · have hs := h ht
    cases nm <;> simp [JSVal.isString] at hs
    simp [ht]
  · simp [ht]

theorem getProp_ok_of_truthy (o : JSVal) (key : String) (h : o.truthy = true) :
    ∃ x, getProp o key = .ok x := by
  cases o <;> simp [JSVal.truthy] at h <;> simp [getProp]

theorem validateBasicStructure_succeeds (fields : List (String × JSVal))
    (hname : ∀ md, getProp (.obj fields) "metadata" = .ok md → NameOk md) :
    Succeeds (validateBasicStructure (.obj fields)) := by
  unfold validateBasicStructure
  simp only [JSVal.truthy, Bool.not_true, Bool.false_eq_true, if_false]
  refine succeeds_bind_liftE _ rfl ?_
  split
  · exact succeeds_pushError _
  · rename_i hmd
    simp only [Bool.not_eq_true', Bool.not_eq_false] at hmd
    obtain ⟨nm, hnm⟩ := getProp_ok_of_truthy _ "name" hmd
    refine succeeds_bind_liftE nm hnm ?_
    obtain ⟨b, hb⟩ := isBlankName_ok nm (hname _ rfl nm hnm)
    refine succeeds_bind_liftE b hb ?_
    refine succeeds_bind ?_ (fun _ => ?_)
    · split
      · exact succeeds_pushWarning _
      · exact succeeds_pure _
    refine succeeds_bind_liftE _ rfl ?_
    split
    · split
      · exact succeeds_pushError _
      · exact succeeds_pure _
    · exact succeeds_pushError _

theorem validateRouteCoordinates_succeeds (path : List JSVal) (l : String) :
    Succeeds (validateRouteCoordinates path l) := by
  unfold validateRouteCoordinates
  repeat' first
    | exact succeeds_pure _
    | exact succeeds_pushError _
    | exact succeeds_pushWarning _
    | refine succeeds_bind ?_ (fun _ => ?_)
    | split

theorem validateRouteAt_succeeds (rs : List JSVal) (i : ℕ)
    (hname : (rs.getD i .undefined).truthy = true → NameOk (rs.getD i .undefined)) :
    Succeeds (validateRouteAt (.arr rs) i) := by
  unfold validateRouteAt
  refine succeeds_bind_liftE _ rfl ?_
  dsimp only
  split
  · exact succeeds_pushError _
  · rename_i ht
    simp only [Bool.not_eq_true', Bool.not_eq_false] at ht
    obtain ⟨nm, hnm⟩ := getProp_ok_of_truthy _ "name" ht
    refine succeeds_bind_liftE nm hnm ?_
    obtain ⟨b, hb⟩ := isBlankName_ok nm (hname ht nm hnm)
    refine succeeds_bind_liftE b hb ?_
    refine succeeds_bind ?_ (fun _ => ?_)
    · split
      · exact succeeds_pushWarning _
      · exact succeeds_pure _
    obtain ⟨path, hpath⟩ := getProp_ok_of_truthy _ "path" ht
    refine succeeds_bind_liftE path hpath ?_
    split
    · split
      · exact succeeds_pushError _
      · refine succeeds_bind (validateRouteCoordinates_succeeds _ _) (fun _ => ?_)
        split
        · exact succeeds_pushWarning _
        · exact succeeds_pure _
    · exact succeeds_pushError _

theorem toNumber_ofNat (E : Engine) (n : ℕ) :
    toNumber E (.num (.ofNat n)) = .ok (.fin n) := rfl

theorem loopCount_array (rs : List JSVal) (bound : JSNum) :
    loopCount (.arr rs) bound = some rs.length := rfl

theorem validateRoutes_succeeds (E : Engine) (fields : List (String × JSVal))
    (rs : List JSVal) (hroutes : getProp (.obj fields) "routes" = .ok (.arr rs))
    (hname : ∀ route ∈ rs, route.truthy = true → NameOk route) :
    Succeeds (validateRoutes E (.obj fields)) := by
  unfold validateRoutes
  refine succeeds_bind_liftE _ hroutes ?_
  refine succeeds_bind_liftE (.num (.ofNat rs.length)) (by simp [getProp]) ?_
  refine succeeds_bind_liftE _ (toNumber_ofNat E _) ?_
  rw [loopCount_array]
  refine succeeds_forIndex _ _ (fun i _ hi => validateRouteAt_succeeds rs i (fun ht => ?_))
  have hi2 : i < rs.length := by omega
  have hmem : rs.getD i .undefined ∈ rs := by
    rw [List.getD_eq_getElem _ _ hi2]
    exact List.getElem_mem _
  exact hname _ hmem ht

theorem isValidCoordinate_ok (E : Engine) (lat lng : JSVal)
    (hlat : lat = .undefined ∨ lat.isNumber = true)
    (hlng : lng = .undefined ∨ lng.isNumber = true) :
    ∃ b, Validator.isValidCoordinate E lat lng = .ok b := by
  unfold Validator.isValidCoordinate
  rcases hlat with rfl | hlat
  · exact ⟨false, rfl⟩
  · cases lat <;> simp [JSVal.isNumber] at hlat
    rename_i n
    by_cases hn : n.isNaN = true
    · exact ⟨false, by simp [toNumber, hn, bind, Except.bind, pure, Except.pure]⟩
    · rcases hlng with rfl | hlng
      · exact ⟨Validator.isValidNumbers n .nan,
          by simp [toNumber, hn, bind, Except.bind, pure, Except.pure]⟩
      · cases lng <;> simp [JSVal.isNumber] at hlng
        rename_i n2
        exact ⟨Validator.isValidNumbers n n2,
          by simp [toNumber, hn, bind, Except.bind, pure, Except.pure]⟩

theorem validateStopAt_succeeds (E : Engine) (stops : List JSVal) (i : ℕ)
    (hstop : (stops.getD i .undefined).truthy = true →
      NameOk (stops.getD i .undefined) ∧ NumberOrAbsent (stops.getD i .undefined) "latitude" ∧
        NumberOrAbsent (stops.getD i .undefined) "longitude") :
    Succeeds (validateStopAt E stops i) := by
  unfold validateStopAt
  dsimp only
  split
  · exact succeeds_pushError _
  · rename_i ht
    simp only [Bool.not_eq_true', Bool.not_eq_false] at ht
    obtain ⟨h1, h2, h3⟩ := hstop ht
    obtain ⟨nm, hnm⟩ := getProp_ok_of_truthy _ "name" ht
    refine succeeds_bind_liftE nm hnm ?_
    obtain ⟨b, hb⟩ := isBlankName_ok nm (h1 nm hnm)
    refine succeeds_bind_liftE b hb ?_
    refine succeeds_bind ?_ (fun _ => ?_)
    · split
      · exact succeeds_pushWarning _
      · exact succeeds_pure _
    obtain ⟨lat, hlat⟩ := getProp_ok_of_truthy _ "latitude" ht
    refine succeeds_bind_liftE lat hlat ?_
    obtain ⟨lng, hlng⟩ := getProp_ok_of_truthy _ "longitude" ht
    refine succeeds_bind_liftE lng hlng ?_
    obtain ⟨ok, hok⟩ := isValidCoordinate_ok E lat lng (h2 lat hlat) (h3 lng hlng)
    refine succeeds_bind_liftE ok hok ?_
    split
    · exact succeeds_pushError _
    · exact succeeds_pure _

theorem validateStops_succeeds (E : Engine) (fields : List (String × JSVal))
    (hstops : ∀ stops, getProp (.obj fields) "stops" = .ok stops → StopsOk stops) :
    Succeeds (validateStops E (.obj fields)) := by
  unfold validateStops
  refine succeeds_bind_liftE _ rfl ?_
  split
  · rename_i items hitems
    refine succeeds_forIndex _ _ (fun i _ hi => validateStopAt_succeeds E items i (fun ht => ?_))
    have hi2 : i < items.length := by omega
    have hmem : items.getD i .undefined ∈ items := by
      rw [List.getD_eq_getElem _ _ hi2]
      exact List.getElem_mem _
    exact hstops _ rfl items hitems _ hmem ht
  · exact succeeds_pure _

theorem countRoute_eq (route : JSVal) (r : ValidationResult) :
    ∃ r1, countRoute route r = .ok () r1 ∧ r1.errors = r.errors ∧
      r1.stats.totalPoints = r.stats.totalPoints + countedPoints route := by
  unfold countRoute countedPoints
  by_cases ht : route.truthy = true
  · simp only [ht, Bool.not_true, Bool.false_eq_true, if_false, if_true]
    split
    · split
      · exact ⟨_, rfl, rfl, rfl⟩
      · exact ⟨_, rfl, rfl, rfl⟩
    · exact ⟨_, rfl, rfl, rfl⟩
  · simp only [ht, Bool.not_eq_true] at *
    simp [ht]

theorem forEach_countRoute (rs : List JSVal) (r : ValidationResult) :
    ∃ r1, forEach countRoute rs r = .ok () r1 ∧ r1.errors = r.errors ∧
      r1.stats.totalPoints = r.stats.totalPoints + specTotalPoints rs := by
  induction rs generalizing r with
  | nil => exact ⟨r, rfl, rfl, by simp [specTotalPoints]⟩
  | cons x xs ih =>
    obtain ⟨r1, h1, he1, ht1⟩ := countRoute_eq x r
    obtain ⟨r2, h2, he2, ht2⟩ := ih r1
    refine ⟨r2, ?_, by rw [he2, he1], ?_⟩
    · unfold forEach Eff.bind
      rw [h1]
      exact h2
    · rw [ht2, ht1]
      simp [specTotalPoints, Nat.add_assoc]

theorem bind_ok {α β : Type} {m : Eff α} {f : α → Eff β} {r r1 : ValidationResult} {a : α}
    (h : m r = .ok a r1) : (m >>= f) r = f a r1 := by
  change Eff.bind m f r = _
  unfold Eff.bind
  rw [h]

theorem liftE_ok_bind {α β : Type} (a : α) (f : α → Eff β) :
    (liftE (.ok a) >>= f) = f a := rfl

theorem modifyStats_bind {β : Type} (g : Stats → Stats) (f : Unit → Eff β)
    (r : ValidationResult) :
    (modifyStats g >>= f) r = f () { r with stats := g r.stats } := rfl

theorem calculateValidationStats_eq (fields : List (String × JSVal)) (rs : List JSVal)
    (hroutes : getProp (.obj fields) "routes" = .ok (.arr rs)) (r : ValidationResult) :
    ∃ r1, calculateValidationStats (.obj fields) r = .ok () r1 ∧ r1.errors = r.errors ∧
      r1.stats.totalPoints = specTotalPoints rs := by
  unfold calculateValidationStats
  rw [hroutes, liftE_ok_bind]
  rw [if_pos (show (JSVal.arr rs).truthy = true from rfl)]
  rw [show getProp (JSVal.arr rs) "length" = .ok (.num (.ofNat rs.length)) from by simp [getProp],
    liftE_ok_bind, modifyStats_bind]
  rw [show iterate (JSVal.arr rs) = .ok rs from rfl, liftE_ok_bind]
  obtain ⟨r1, h1, he1, ht1⟩ := forEach_countRoute rs { r with stats := { r.stats with
    routeCount := .num (.ofNat rs.length), validRoutes := 0, totalPoints := 0 } }
  rw [bind_ok h1, modifyStats_bind]
  rw [show getProp (JSVal.obj fields) "stops" =
    .ok ((fields.lookup "stops").getD .undefined) from rfl, liftE_ok_bind]
  by_cases hs : ((fields.lookup "stops").getD .undefined).truthy = true
  · obtain ⟨x, hx⟩ := getProp_ok_of_truthy _ "length" hs
    rw [if_pos hs, hx, liftE_ok_bind]
    refine ⟨_, rfl, he1, ?_⟩
    simpa using ht1
  · rw [if_neg hs]
    refine ⟨_, rfl, he1, ?_⟩
    simpa using ht1

theorem checkTotalPoints_eq (r : ValidationResult) :
    ∃ r1, checkTotalPoints r = .ok () r1 ∧ r1.stats = r.stats ∧
      r1.errors = r.errors ++
        (if r.stats.totalPoints > 100000 then [sizeError r.stats.totalPoints] else []) := by
  unfold checkTotalPoints
  dsimp only
  by_cases h1 : r.stats.totalPoints > 50000 <;> by_cases h2 : r.stats.totalPoints > 100000
  · rw [if_pos h1, if_pos h2, if_pos h2]; exact ⟨_, rfl, rfl, rfl⟩
  · rw [if_pos h1, if_neg h2, if_neg h2]; exact ⟨_, rfl, rfl, by simp [pushWarning]⟩
  · rw [if_neg h1, if_pos h2, if_pos h2]; exact ⟨_, rfl, rfl, rfl⟩
  · rw [if_neg h1, if_neg h2, if_neg h2]; exact ⟨_, rfl, rfl, by simp⟩

theorem checkDenseAt_grows (E : Engine) (P : Printer) (routes : JSVal) (i : ℕ) :
    Grows (fun _ => False) (checkDenseAt E P routes i) := by
  unfold checkDenseAt
  repeat' first
    | exact grows_pure _ _
    | exact grows_liftE _ _
    | exact grows_pushWarning _ _
    | refine grows_bind ?_ (fun _ => ?_)
    | split

theorem checkDenseRoutes_grows (E : Engine) (P : Printer) (v : JSVal) :
    Grows (fun _ => False) (checkDenseRoutes E P v) := by
  unfold checkDenseRoutes
  repeat' first
    | exact grows_pure _ _
    | exact grows_liftE _ _
    | exact grows_forIndex (checkDenseAt_grows _ _ _) _ _
    | exact (fun _ => trivial)
    | refine grows_bind ?_ (fun _ => ?_)
    | split

theorem finiteRoutes_of_array (E : Engine) (fields : List (String × JSVal)) (rs : List JSVal)
    (hroutes : getProp (.obj fields) "routes" = .ok (.arr rs)) :
    FiniteRoutes E (.obj fields) := by
  intro routes len bound h1 _ _
  rw [hroutes] at h1
  cases h1
  exact fun h => by cases h

theorem errors_eq_of_grows_false {α : Type} {r : ValidationResult} {s : Step α}
    (h : GrowsFrom (fun _ => False) r s) :
    (∀ a r1, s = .ok a r1 → r1.errors = r.errors) ∧
      (∀ msg r1, s = .throws msg r1 → r1.errors = r.errors) := by
  constructor
  · intro a r1 hs
    subst hs
    obtain ⟨es, h1, h2⟩ := h
    cases es with
    | nil => simpa using h1
    | cons e _ => exact absurd (h2 e (List.mem_cons_self _ _)) id
  · intro msg r1 hs
    subst hs
    obtain ⟨es, h1, h2⟩ := h
    cases es with
    | nil => simpa using h1
    | cons e _ => exact absurd (h2 e (List.mem_cons_self _ _)) id

theorem headTwo_sizeError (n : ℕ) : headTwo (sizeError n) = ['F', 'i'] := by
  unfold sizeError
  rw [headTwo_append _ _ (by
      rw [String.data_append, List.length_append]
      exact Nat.le_add_right_of_le (by decide)),
    headTwo_append _ _ (by decide)]
  decide

theorem sizeError_not_mem (es : List String) (h : ∀ e ∈ es, NotSizeLike e) (n : ℕ) :
    sizeError n ∉ es :=
  fun hmem => h _ hmem (headTwo_sizeError n)

theorem validateKML_size_limit_aux (E : Engine) (P : Printer) (fields : List (String × JSVal))
    (rs : List JSVal)
    (hmeta : ∀ md, getProp (.obj fields) "metadata" = .ok md → NameOk md)
    (hroutes : getProp (.obj fields) "routes" = .ok (.arr rs))
    (hnames : ∀ route ∈ rs, route.truthy = true → NameOk route)
    (hstops : ∀ stops, getProp (.obj fields) "stops" = .ok stops → StopsOk stops) :
    ∃ r es, validateKML E P (.obj fields) = .returns r ∧ (∀ e ∈ es, NotSizeLike e) ∧
      ((100000 < specTotalPoints rs ∧ r.isValid = false ∧
          sizeError (specTotalPoints rs) ∈ r.errors) ∨
        (specTotalPoints rs ≤ 100000 ∧ r.errors = es)) := by
  obtain ⟨_, r1, h1⟩ := validateBasicStructure_succeeds fields hmeta initialResult
  obtain ⟨_, r2, h2⟩ := validateRoutes_succeeds E fields rs hroutes hnames r1
  obtain ⟨_, r3, h3⟩ := validateStops_succeeds E fields hstops r2
  obtain ⟨r4, h4, he4, ht4⟩ := calculateValidationStats_eq fields rs hroutes r3
  obtain ⟨r5, h5, hs5, he5⟩ := checkTotalPoints_eq r4
  have g1 := validateBasicStructure_grows (.obj fields) initialResult
  have g2 := validateRoutes_grows E (.obj fields) r1
  have g3 := validateStops_grows E (.obj fields) r2
  rw [h1] at g1
  rw [h2] at g2
  rw [h3] at g3
  obtain ⟨es1, e1, hg1⟩ := g1
  obtain ⟨es2, e2, hg2⟩ := g2
  obtain ⟨es3, e3, hg3⟩ := g3
  have hr3 : r3.errors = es1 ++ es2 ++ es3 := by
    rw [e3, e2, e1]; simp [initialResult]
  have hgood : ∀ e ∈ es1 ++ es2 ++ es3, NotSizeLike e := by
    intro e he
    simp only [List.mem_append] at he
    rcases he with (he | he) | he
    · exact hg1 e he
    · exact hg2 e he
    · exact hg3 e he
  have hbody : validateKMLBody E P (.obj fields) initialResult =
      checkDenseRoutes E P (.obj fields) r5 := by
    unfold validateKMLBody validatePerformance
    rw [bind_ok h1, bind_ok h2, bind_ok h3, bind_ok h4, bind_ok h5]
  have g5 := errors_eq_of_grows_false (checkDenseRoutes_grows E P (.obj fields) r5)
  have n5 := checkDenseRoutes_noDiv E P (.obj fields) (finiteRoutes_of_array E fields rs hroutes) r5
  rw [ht4, he4, hr3] at he5
  unfold validateKML
  rw [hbody]
  cases hd : checkDenseRoutes E P (.obj fields) r5 with
  | diverges => exact absurd hd n5
  | ok a r6 =>
    have g5 := g5.1 a r6 hd
    by_cases hbig : specTotalPoints rs > 100000
    · rw [if_pos hbig] at he5
      refine ⟨_, es1 ++ es2 ++ es3, rfl, hgood, Or.inl ⟨hbig, ?_, ?_⟩⟩
      · simp [g5, he5]
      · simp [g5, he5]
    · rw [if_neg hbig] at he5
      refine ⟨_, es1 ++ es2 ++ es3, rfl, hgood, Or.inr ⟨by omega, ?_⟩⟩
      simp [g5, he5]
  | throws msg r6 =>
    have g5 := g5.2 msg r6 hd
    by_cases hbig : specTotalPoints rs > 100000
    · rw [if_pos hbig] at he5
      refine ⟨_, es1 ++ es2 ++ es3 ++ ["Errore validazione: " ++ msg], rfl, ?_,
        Or.inl ⟨hbig, rfl, ?_⟩⟩
      · intro e he
        rcases List.mem_append.1 he with he | he
        · exact hgood e he
        · rw [List.mem_singleton.1 he]
          unfold NotSizeLike
          rw [headTwo_append _ _ (by decide)]
          decide
      · simp [g5, he5]
    · rw [if_neg hbig] at he5
      refine ⟨_, es1 ++ es2 ++ es3 ++ ["Errore validazione: " ++ msg], rfl, ?_,
        Or.inr ⟨by omega, ?_⟩⟩
      · intro e he
        rcases List.mem_append.1 he with he | he
        · exact hgood e he
        · rw [List.mem_singleton.1 he]
          unfold NotSizeLike
          rw [headTwo_append _ _ (by decide)]
          decide
      · simp [g5, he5]

/-- C4. For every parsed document (an object whose metadata name, route names
and stop names are strings or absent, whose stop coordinates are numbers or
absent, and whose `routes` is an array): when the path lengths of the routes having at least 2 points sum to more than 100000,
`validateKML` returns `isValid = false` and its errors contain the size error
`File troppo grande (N punti) - supera il limite di performance`; when that
sum is at most 100000 (in particular exactly 100000) no size error is among
the errors. -/
theorem validateKML_size_limit (E : Engine) (P : Printer) (fields : List (String × JSVal))
    (rs : List JSVal)
    (hmeta : ∀ md, getProp (.obj fields) "metadata" = .ok md → NameOk md)
    (hroutes : getProp (.obj fields) "routes" = .ok (.arr rs))
    (hnames : ∀ route ∈ rs, route.truthy = true → NameOk route)
    (hstops : ∀ stops, getProp (.obj fields) "stops" = .ok stops → StopsOk stops) :
    ∃ r, validateKML E P (.obj fields) = .returns r ∧
      (100000 < specTotalPoints rs →
        r.isValid = false ∧ sizeError (specTotalPoints rs) ∈ r.errors) ∧
      (specTotalPoints rs ≤ 100000 → ∀ n, sizeError n ∉ r.errors) := by
  obtain ⟨r, es, hr, hes, h⟩ :=
    validateKML_size_limit_aux E P fields rs hmeta hroutes hnames hstops
  refine ⟨r, hr, ?_, ?_⟩
  · intro hbig
    rcases h with ⟨_, h1, h2⟩ | ⟨h1, _⟩
    · exact ⟨h1, h2⟩
    · omega
  · intro hsmall n
    rcases h with ⟨h1, _⟩ | ⟨_, h2⟩
    · omega
    · rw [h2]
      exact sizeError_not_mem es hes n

theorem bigDoc_meta :
    ∀ md, getProp (.obj bigDocFields) "metadata" = .ok md → NameOk md := by
  intro md h
  simp [getProp, bigDocFields, List.lookup] at h
  subst h
  intro nm h2 _
  simp [getProp, List.lookup] at h2
  subst h2
  rfl

theorem bigDoc_names : ∀ route ∈ [bigRoute], route.truthy = true → NameOk route := by
  intro route hr _
  rw [List.mem_singleton.1 hr]
  intro nm h2 _
  simp [getProp, bigRoute, List.lookup] at h2
  subst h2
  rfl

theorem bigDoc_stops :
    ∀ stops, getProp (.obj bigDocFields) "stops" = .ok stops → StopsOk stops := by
  intro stops h
  simp [getProp, bigDocFields, List.lookup] at h
  subst h
  intro items hitems stop hstop
  cases hitems
  cases hstop

theorem bigPath_length : bigPath.length = 100001 := List.length_replicate _ _

theorem bigDoc_total : specTotalPoints [bigRoute] = 100001 := by
  simp [specTotalPoints, countedPoints, bigRoute, getProp, JSVal.truthy, List.lookup,
    bigPath_length]

/-- C4, witness: a document with one route of 100001 points. -/
theorem validateKML_size_limit_witness :
    ∃ r, validateKML decimalEngine plainPrinter (.obj bigDocFields) = .returns r ∧
      r.isValid = false ∧ sizeError 100001 ∈ r.errors := by
  obtain ⟨r, h, h1, _⟩ := validateKML_size_limit decimalEngine plainPrinter bigDocFields
    [bigRoute] bigDoc_meta rfl bigDoc_names bigDoc_stops
  have h2 := h1 (by rw [bigDoc_total]; decide)
  rw [bigDoc_total] at h2
  exact ⟨r, h, h2⟩

/-! ## Parser: the text of a `coordinates` element -/

theorem splitWhiteSpaceAux_ne_nil (cs : List Char) (b : Bool) :
    splitWhiteSpaceAux cs b ≠ [] := by
  induction cs generalizing b with
  | nil => simp [splitWhiteSpaceAux]
  | cons c cs ih =>
    unfold splitWhiteSpaceAux
    split
    · split
      · exact ih true
      · simp
    · split <;> simp

theorem splitWhiteSpaceAux_cons_clean (c : Char) (cs : List Char) (b : Bool)
    (hc : isWhiteSpace c = false) :
    splitWhiteSpaceAux (c :: cs) b =
      match splitWhiteSpaceAux cs false with
      | [] => [[c]]
      | t :: ts => (c :: t) :: ts := by
  simp [splitWhiteSpaceAux, hc]

theorem splitWhiteSpaceAux_cons_space (c : Char) (cs : List Char) (b : Bool)
    (hc : isWhiteSpace c = true) :
    splitWhiteSpaceAux (c :: cs) b =
      if b then splitWhiteSpaceAux cs true else [] :: splitWhiteSpaceAux cs true := by
  simp [splitWhiteSpaceAux, hc]

theorem splitWhiteSpaceAux_token (t X : List Char) (ht : ∀ c ∈ t, isWhiteSpace c = false) :
    splitWhiteSpaceAux (t ++ X) false =
      match splitWhiteSpaceAux X false with
      | [] => [t]
      | x :: xs => (t ++ x) :: xs := by
  induction t with
  | nil =>
    cases h : splitWhiteSpaceAux X false with
    | nil => exact absurd h (splitWhiteSpaceAux_ne_nil X false)
    | cons x xs => simp [h]
  | cons c t ih =>
    have hc : isWhiteSpace c = false := ht c (List.mem_cons_self _ _)
    have ih2 := ih (fun d hd => ht d (List.mem_cons_of_mem _ hd))
    rw [List.cons_append, splitWhiteSpaceAux_cons_clean c _ false hc, ih2]
    cases h : splitWhiteSpaceAux X false with
    | nil => exact absurd h (splitWhiteSpaceAux_ne_nil X false)
    | cons x xs => simp

theorem splitWhiteSpaceAux_flag (X : List Char)
    (hX : ∀ c ∈ X.head?, isWhiteSpace c = false) :
    splitWhiteSpaceAux X true = splitWhiteSpaceAux X false := by
  cases X with
  | nil => rfl
  | cons c cs =>
    have hc : isWhiteSpace c = false := hX c (by simp)
    rw [splitWhiteSpaceAux_cons_clean c cs true hc, splitWhiteSpaceAux_cons_clean c cs false hc]

theorem splitWhiteSpaceAux_sep_true (s X : List Char) (hs : ∀ c ∈ s, isWhiteSpace c = true) :
    splitWhiteSpaceAux (s ++ X) true = splitWhiteSpaceAux X true := by
  induction s with
  | nil => rfl
  | cons c s ih =>
    have hc : isWhiteSpace c = true := hs c (List.mem_cons_self _ _)
    rw [List.cons_append, splitWhiteSpaceAux_cons_space c _ true hc, if_pos rfl]
    exact ih (fun d hd => hs d (List.mem_cons_of_mem _ hd))

theorem splitWhiteSpaceAux_sep (s X : List Char) (hs : ∀ c ∈ s, isWhiteSpace c = true)
    (hne : s ≠ []) (hX : ∀ c ∈ X.head?, isWhiteSpace c = false) :
    splitWhiteSpaceAux (s ++ X) false = [] :: splitWhiteSpaceAux X false := by
  cases s with
  | nil => exact absurd rfl hne
  | cons c s =>
    have hc : isWhiteSpace c = true := hs c (List.mem_cons_self _ _)
    rw [List.cons_append, splitWhiteSpaceAux_cons_space c _ false hc,
      if_neg (by simp)]
    rw [splitWhiteSpaceAux_sep_true s X (fun d hd => hs d (List.mem_cons_of_mem _ hd)),
      splitWhiteSpaceAux_flag X hX]

theorem spacedTokens_head (first : List Char) (rest : List (List Char × List Char))
    (h : SpacedOk first rest) :
    ∀ c ∈ (spacedTokens first rest).head?, isWhiteSpace c = false := by
  obtain ⟨⟨hne, hf⟩, _⟩ := h
  cases first with
  | nil => exact absurd rfl hne
  | cons a as =>
    intro c hc
    simp [spacedTokens] at hc
    subst hc
    exact hf _ (List.mem_cons_self _ _)

theorem spacedTokens_cons (first s t : List Char) (rest : List (List Char × List Char)) :
    spacedTokens first ((s, t) :: rest) = first ++ (s ++ spacedTokens t rest) := by
  simp [spacedTokens]

theorem splitWhiteSpaceAux_spaced (rest : List (List Char × List Char)) :
    ∀ first, SpacedOk first rest →
      splitWhiteSpaceAux (spacedTokens first rest) false = first :: rest.map (fun p => p.2) := by
  induction rest with
  | nil =>
    intro first h
    have := splitWhiteSpaceAux_token first [] h.1.2
    simpa [spacedTokens, splitWhiteSpaceAux] using this
  | cons p rest ih =>
    intro first h
    obtain ⟨s, t⟩ := p
    have hp := h.2 (s, t) (List.mem_cons_self _ _)
    have hrest : SpacedOk t rest :=
      ⟨hp.2, fun q hq => h.2 q (List.mem_cons_of_mem _ hq)⟩
    rw [spacedTokens_cons, splitWhiteSpaceAux_token first _ h.1.2,
      splitWhiteSpaceAux_sep s _ hp.1.2 hp.1.1 (spacedTokens_head t rest hrest), ih t hrest]
    simp

theorem spacedTokens_ne_nil (first : List Char) (rest : List (List Char × List Char))
    (h : SpacedOk first rest) : spacedTokens first rest ≠ [] := by
  obtain ⟨⟨hne, _⟩, _⟩ := h
  cases first with
  | nil => exact absurd rfl hne
  | cons a as => simp [spacedTokens]

theorem spacedTokens_last (rest : List (List Char × List Char)) :
    ∀ first (h : SpacedOk first rest),
      isWhiteSpace ((spacedTokens first rest).getLast (spacedTokens_ne_nil first rest h))
        = false := by
  induction rest with
  | nil =>
    intro first h
    obtain ⟨x, hx, hxm⟩ : ∃ x, x = (spacedTokens first []).getLast
        (spacedTokens_ne_nil first [] h) ∧ x ∈ spacedTokens first [] :=
      ⟨_, rfl, List.getLast_mem _⟩
    simp only [spacedTokens, List.map_nil, List.flatten_nil, List.append_nil] at hxm
    rw [← hx]
    exact h.1.2 _ hxm
  | cons p rest ih =>
    intro first h
    obtain ⟨s, t⟩ := p
    have hp := h.2 (s, t) (List.mem_cons_self _ _)
    have hrest : SpacedOk t rest :=
      ⟨hp.2, fun q hq => h.2 q (List.mem_cons_of_mem _ hq)⟩
    have heq : spacedTokens first ((s, t) :: rest) = (first ++ s) ++ spacedTokens t rest := by
      rw [spacedTokens_cons, List.append_assoc]
    have hl := ih t hrest
    have key : (spacedTokens first ((s, t) :: rest)).getLast
        (spacedTokens_ne_nil first ((s, t) :: rest) h) =
        (spacedTokens t rest).getLast (spacedTokens_ne_nil t rest hrest) := by
      simp only [heq]
      exact List.getLast_append_of_ne_nil _
    rw [key]
    exact hl

theorem trim_spaced (lead trail B : List Char) (hlead : ∀ c ∈ lead, isWhiteSpace c = true)
    (htrail : ∀ c ∈ trail, isWhiteSpace c = true)
    (hhead : ∀ c ∈ B.head?, isWhiteSpace c = false)
    (hlast : ∀ hne : B ≠ [], isWhiteSpace (B.getLast hne) = false) (hB : B ≠ []) :
    trim (lead ++ B ++ trail) = B := by
  unfold trim
  rw [List.append_assoc, List.dropWhile_append_of_pos hlead]
  have h1 : (B ++ trail).dropWhile isWhiteSpace = B ++ trail := by
    cases B with
    | nil => exact absurd rfl hB
    | cons b bs =>
      have hb : isWhiteSpace b = false := hhead b (by simp)
      simp [List.dropWhile_cons, hb]
  rw [h1, List.reverse_append,
    List.dropWhile_append_of_pos (fun c hc => htrail c (List.mem_reverse.1 hc))]
  have h2 : B.reverse.dropWhile isWhiteSpace = B.reverse := by
    have := (List.rdropWhile_eq_self_iff (p := isWhiteSpace) (l := B)).2
      (fun hl => by simp [hlast hl])
    unfold List.rdropWhile at this
    have h3 := congrArg List.reverse this
    simpa using h3
  rw [h2, List.reverse_reverse]

theorem splitWhiteSpace_trim_spaced (lead trail first : List Char)
    (rest : List (List Char × List Char))
    (hlead : ∀ c ∈ lead, isWhiteSpace c = true) (htrail : ∀ c ∈ trail, isWhiteSpace c = true)
    (h : SpacedOk first rest) :
    splitWhiteSpace (trim (lead ++ spacedTokens first rest ++ trail)) =
      first :: rest.map (fun p => p.2) := by
  rw [trim_spaced lead trail _ hlead htrail (spacedTokens_head first rest h)
    (fun hne => spacedTokens_last rest first h) (spacedTokens_ne_nil first rest h)]
  exact splitWhiteSpaceAux_spaced rest first h

theorem splitComma_ne_nil (cs : List Char) : splitComma cs ≠ [] := by
  cases cs with
  | nil => simp [splitComma]
  | cons c cs =>
    unfold splitComma
    split
    · simp
    · split <;> simp

theorem splitComma_clean (a : List Char) (ha : ∀ c ∈ a, c ≠ ',') : splitComma a = [a] := by
  induction a with
  | nil => rfl
  | cons c a ih =>
    have hc : c ≠ ',' := ha c (List.mem_cons_self _ _)
    unfold splitComma
    rw [if_neg hc, ih (fun d hd => ha d (List.mem_cons_of_mem _ hd))]

theorem splitComma_field (a rest : List Char) (ha : ∀ c ∈ a, c ≠ ',') :
    splitComma (a ++ ',' :: rest) = a :: splitComma rest := by
  induction a with
  | nil => simp [splitComma]
  | cons c a ih =>
    have hc : c ≠ ',' := ha c (List.mem_cons_self _ _)
    rw [List.cons_append]
    conv_lhs => unfold splitComma
    rw [if_neg hc, ih (fun d hd => ha d (List.mem_cons_of_mem _ hd))]

theorem splitComma_token (t : CoordText) (h : t.Clean) :
    splitComma t.token = [t.lng, t.lat, t.alt] := by
  unfold CoordText.token
  rw [splitComma_field _ _ (fun c hc => (h c (by simp [hc])).1),
    splitComma_field _ _ (fun c hc => (h c (by simp [hc])).1),
    splitComma_clean _ (fun c hc => (h c (by simp [hc])).1)]

theorem specPoint_token (E : Engine) (t : CoordText) (h : t.Clean) (hr : t.InRange E) :
    specPoint E t.token = some (t.point E) := by
  unfold specPoint
  rw [splitComma_token t h]
  exact if_pos hr

theorem token_clean (t : CoordText) (h : t.Clean) :
    t.token ≠ [] ∧ ∀ c ∈ t.token, isWhiteSpace c = false := by
  constructor
  · simp [CoordText.token]
  · intro c hc
    simp only [CoordText.token, List.mem_append, List.mem_cons] at hc
    rcases hc with hc | rfl | hc | rfl | hc
    · exact (h c (by simp [hc])).2
    · decide
    · exact (h c (by simp [hc])).2
    · decide
    · exact (h c (by simp [hc])).2

theorem parseCoordinates_text (E : Engine) (lead : List Char) (first : CoordText)
    (rest : List (List Char × CoordText)) (trail : List Char)
    (h : LayoutOk E lead first rest trail) :
    parseCoordinates E (.str (String.mk (coordinatesText lead first rest trail))) =
      (first :: rest.map (fun p => p.2)).map (CoordText.point E) := by
  obtain ⟨hlead, htrail, ⟨hfc, hfr⟩, hrest⟩ := h
  have hsp : SpacedOk first.token (rest.map (fun p => (p.1, p.2.token))) := by
    refine ⟨token_clean first hfc, ?_⟩
    intro p hp
    obtain ⟨q, hq, rfl⟩ := List.mem_map.1 hp
    exact ⟨(hrest q hq).1, token_clean q.2 (hrest q hq).2.1⟩
  have hne : coordinatesText lead first rest trail ≠ [] := by
    unfold coordinatesText
    intro h0
    have h1 := List.append_eq_nil.1 h0
    have h2 := List.append_eq_nil.1 h1.1
    exact spacedTokens_ne_nil _ _ hsp h2.2
  rw [parseCoordinates_spec]
  simp only [hne, if_false]
  unfold coordinatesText
  rw [splitWhiteSpace_trim_spaced lead trail _ _ hlead htrail hsp]
  rw [List.filterMap_cons, specPoint_token E first hfc hfr]
  simp only [List.map_cons, List.map_map]
  congr 1
  clear hsp hne
  induction rest with
  | nil => rfl
  | cons p rest ih =>
    have hp := hrest p (List.mem_cons_self _ _)
    simp only [List.map_cons, List.filterMap_cons, Function.comp]
    rw [specPoint_token E p.2 hp.2.1 hp.2.2]
    simp only [List.cons.injEq, true_and]
    have := ih (fun q hq => hrest q (List.mem_cons_of_mem _ hq))
    simpa [Function.comp] using this

/-! ## Validator: documents that are accepted -/

theorem scanPoints_all_valid (points : List JSVal) (h : ∀ p ∈ points, pointIsValid p = true) :
    ∀ (i valid : ℕ) (invalid : List ℕ),
      scanPoints points i (valid, invalid) = (valid + points.length, invalid) := by
  induction points with
  | nil => intro i valid invalid; rfl
  | cons p ps ih =>
    intro i valid invalid
    have hp : pointIsValid p = true := h p (List.mem_cons_self _ _)
    unfold scanPoints
    rw [if_pos hp, ih (fun q hq => h q (List.mem_cons_of_mem _ hq))]
    simp [Nat.add_assoc, Nat.add_comm 1]

theorem validateRouteCoordinates_good (points : List JSVal) (l : String)
    (h : ∀ p ∈ points, pointIsValid p = true) (h2 : 2 ≤ points.length)
    (r : ValidationResult) : validateRouteCoordinates points l r = .ok () r := by
  unfold validateRouteCoordinates
  rw [scanPoints_all_valid points h]
  have h0 : ¬ (0 + points.length = 0) := by omega
  have h1 : ¬ (0 + points.length < 2) := by omega
  simp only [h0, h1, if_false, List.length_nil, gt_iff_lt, lt_self_iff_false]
  rfl

theorem pushWarning_errors (msg : String) (r : ValidationResult) :
    ∃ r1, pushWarning msg r = .ok () r1 ∧ r1.errors = r.errors ∧ r1.stats = r.stats :=
  ⟨_, rfl, rfl, rfl⟩

theorem whenWarning_errors (c : Prop) [Decidable c] (msg : String) (r : ValidationResult) :
    ∃ r1, (if c then pushWarning msg else pure ()) r = .ok () r1 ∧
      r1.errors = r.errors ∧ r1.stats = r.stats := by
  split
  · exact pushWarning_errors msg r
  · exact ⟨r, rfl, rfl, rfl⟩

theorem validateRouteAt_good (rs : List JSVal) (i : ℕ) (h : GoodRoute (rs.getD i .undefined))
    (r : ValidationResult) :
    ∃ r1, validateRouteAt (.arr rs) i r = .ok () r1 ∧ r1.errors = r.errors ∧
      r1.stats = r.stats := by
  obtain ⟨ht, hn, points, hpath, hlen, hvalid⟩ := h
  obtain ⟨nm, hnm⟩ := getProp_ok_of_truthy _ "name" ht
  obtain ⟨b, hb⟩ := isBlankName_ok nm (hn nm hnm)
  unfold validateRouteAt
  rw [show getIndex (JSVal.arr rs) i = .ok (rs.getD i .undefined) from rfl, liftE_ok_bind]
  rw [if_neg (by rw [ht]; decide), hnm, liftE_ok_bind, hb, liftE_ok_bind]
  obtain ⟨r1, h1, he1, hs1⟩ := whenWarning_errors (b = true)
    ("Percorso " ++ showNat (i + 1) ++ ": nome mancante") r
  rw [bind_ok h1, hpath, liftE_ok_bind]
  dsimp only
  rw [if_neg (by omega), bind_ok (validateRouteCoordinates_good points _ hvalid hlen r1)]
  obtain ⟨r2, h2, he2, hs2⟩ := whenWarning_errors (points.length > 10000)
    ("Percorso " ++ showNat (i + 1) ++ ": percorso molto lungo (" ++ showNat points.length ++
      " punti) - potrebbe causare problemi di performance") r1
  exact ⟨r2, h2, by rw [he2, he1], by rw [hs2, hs1]⟩

theorem forIndex_unchanged {body : ℕ → Eff Unit} (n : ℕ) :
    ∀ start r, (∀ i, start ≤ i → i < start + n → ∀ r0, ∃ r1, body i r0 = .ok () r1 ∧
        r1.errors = r0.errors ∧ r1.stats = r0.stats) →
      ∃ r1, forIndex body start n r = .ok () r1 ∧ r1.errors = r.errors ∧
        r1.stats = r.stats := by
  induction n with
  | zero => intro start r _; exact ⟨r, rfl, rfl, rfl⟩
  | succ n ih =>
    intro start r hb
    obtain ⟨r1, h1, he1, hs1⟩ := hb start (le_refl _) (by omega) r
    obtain ⟨r2, h2, he2, hs2⟩ := ih (start + 1) r1
      (fun i hi1 hi2 => hb i (by omega) (by omega))
    refine ⟨r2, ?_, by rw [he2, he1], by rw [hs2, hs1]⟩
    unfold forIndex Eff.bind
    rw [h1]
    exact h2

theorem validateRoutes_good (E : Engine) (fields : List (String × JSVal)) (rs : List JSVal)
    (hroutes : getProp (.obj fields) "routes" = .ok (.arr rs))
    (hgood : ∀ route ∈ rs, GoodRoute route) (r : ValidationResult) :
    ∃ r1, validateRoutes E (.obj fields) r = .ok () r1 ∧ r1.errors = r.errors ∧
      r1.stats = r.stats := by
  unfold validateRoutes
  rw [hroutes, liftE_ok_bind,
    show getProp (JSVal.arr rs) "length" = .ok (.num (.ofNat rs.length)) from by simp [getProp],
    liftE_ok_bind, toNumber_ofNat, liftE_ok_bind, loopCount_array]
  refine forIndex_unchanged _ _ _ (fun i _ hi r0 => validateRouteAt_good rs i ?_ r0)
  have hi2 : i < rs.length := by omega
  rw [List.getD_eq_getElem _ _ hi2]
  exact hgood _ (List.getElem_mem _)

theorem validateBasicStructure_good (fields : List (String × JSVal)) (md : JSVal)
    (rs : List JSVal)
    (hmd : getProp (.obj fields) "metadata" = .ok md) (hmdT : md.truthy = true)
    (hname : NameOk md)
    (hroutes : getProp (.obj fields) "routes" = .ok (.arr rs)) (hne : rs ≠ [])
    (r : ValidationResult) :
    ∃ r1, validateBasicStructure (.obj fields) r = .ok () r1 ∧ r1.errors = r.errors ∧
      r1.stats = r.stats := by
  obtain ⟨nm, hnm⟩ := getProp_ok_of_truthy _ "name" hmdT
  obtain ⟨b, hb⟩ := isBlankName_ok nm (hname nm hnm)
  unfold validateBasicStructure
  rw [if_neg (by simp [JSVal.truthy]), hmd, liftE_ok_bind, if_neg (by rw [hmdT]; decide), hnm,
    liftE_ok_bind, hb, liftE_ok_bind]
  obtain ⟨r1, h1, he1, hs1⟩ := whenWarning_errors (b = true)
    "Nome del percorso non specificato" r
  rw [bind_ok h1, hroutes, liftE_ok_bind]
  dsimp only
  rw [if_neg (by
    intro h0
    exact hne (List.length_eq_zero.1 h0))]
  exact ⟨r1, rfl, he1, hs1⟩

theorem validateStops_none (E : Engine) (fields : List (String × JSVal))
    (hstops : ∀ items, getProp (.obj fields) "stops" = .ok (.arr items) → items = [])
    (r : ValidationResult) : validateStops E (.obj fields) r = .ok () r := by
  unfold validateStops
  rw [show getProp (JSVal.obj fields) "stops" =
    .ok ((fields.lookup "stops").getD .undefined) from rfl, liftE_ok_bind]
  cases hs : (fields.lookup "stops").getD .undefined with
  | arr items =>
    have := hstops items (by rw [← hs]; rfl)
    subst this
    rfl
  | _ => rfl

theorem checkDenseRoutes_good (E : Engine) (P : Printer) (fields : List (String × JSVal))
    (rs : List JSVal) (hroutes : getProp (.obj fields) "routes" = .ok (.arr rs))
    (hgood : ∀ route ∈ rs, GoodRoute route) (r : ValidationResult) :
    ∃ r1, checkDenseRoutes E P (.obj fields) r = .ok () r1 ∧ r1.errors = r.errors ∧
      r1.stats = r.stats := by
  unfold checkDenseRoutes
  rw [hroutes, liftE_ok_bind]
  rw [if_pos (show (JSVal.arr rs).truthy = true from rfl),
    show getProp (JSVal.arr rs) "length" = .ok (.num (.ofNat rs.length)) from by simp [getProp],
    liftE_ok_bind, toNumber_ofNat, liftE_ok_bind, loopCount_array]
  refine forIndex_unchanged _ _ _ (fun i _ hi r0 => ?_)
  have hi2 : i < rs.length := by omega
  obtain ⟨ht, _, points, hpath, _, _⟩ := hgood _ (List.getElem_mem (l := rs) hi2)
  unfold checkDenseAt
  rw [show getIndex (JSVal.arr rs) i = .ok (rs.getD i .undefined) from rfl, liftE_ok_bind,
    List.getD_eq_getElem _ _ hi2, if_pos ht, hpath, liftE_ok_bind,
    if_pos (show (JSVal.arr points).truthy = true from rfl),
    show getProp (JSVal.arr points) "length" = .ok (.num (.ofNat points.length)) from by
      simp [getProp],
    liftE_ok_bind, toNumber_ofNat, liftE_ok_bind]
  exact whenWarning_errors _ _ r0

/-- A document that the validator accepts: its metadata is present with a
string or falsy name, its routes are a non-empty array of good routes with at
most 100000 points in all, and it has no stops. -/
theorem validateKML_good (E : Engine) (P : Printer) (fields : List (String × JSVal))
    (md : JSVal) (rs : List JSVal)
    (hmd : getProp (.obj fields) "metadata" = .ok md) (hmdT : md.truthy = true)
    (hname : NameOk md)
    (hroutes : getProp (.obj fields) "routes" = .ok (.arr rs)) (hne : rs ≠ [])
    (hgood : ∀ route ∈ rs, GoodRoute route)
    (hstops : ∀ items, getProp (.obj fields) "stops" = .ok (.arr items) → items = [])
    (hsize : specTotalPoints rs ≤ 100000) :
    ∃ res, validateKML E P (.obj fields) = .returns res ∧ res.isValid = true ∧
      res.errors = [] := by
  obtain ⟨r1, h1, he1, _⟩ :=
    validateBasicStructure_good fields md rs hmd hmdT hname hroutes hne initialResult
  obtain ⟨r2, h2, he2, _⟩ := validateRoutes_good E fields rs hroutes hgood r1
  have h3 := validateStops_none E fields hstops r2
  obtain ⟨r4, h4, he4, ht4⟩ := calculateValidationStats_eq fields rs hroutes r2
  obtain ⟨r5, h5, _, he5⟩ := checkTotalPoints_eq r4
  obtain ⟨r6, h6, he6, _⟩ := checkDenseRoutes_good E P fields rs hroutes hgood r5
  have hbody : validateKMLBody E P (.obj fields) initialResult = .ok () r6 := by
    unfold validateKMLBody validatePerformance
    rw [bind_ok h1, bind_ok h2, bind_ok h3, bind_ok h4, bind_ok h5]
    exact h6
  have herr : r6.errors = [] := by
    rw [he6, he5, ht4, if_neg (by omega), he4, he2, he1]
    rfl
  unfold validateKML
  rw [hbody]
  exact ⟨_, rfl, by simp [herr], herr⟩

/-! ## Parser and validator on a document with one route (C2) -/

theorem orElse_name (name : String) :
    orElse (.str name) (.str "Percorso Sconosciuto") = .str (nameOrDefault name) := by
  unfold orElse nameOrDefault JSVal.truthy
  by_cases h : name.data ≠ []
  · simp [h]
  · simp [h]

theorem coordinatesText_ne_nil (lead : List Char) (first : CoordText)
    (rest : List (List Char × CoordText)) (trail : List Char) :
    coordinatesText lead first rest trail ≠ [] := by
  unfold coordinatesText spacedTokens CoordText.token
  simp

theorem isValidNumbers_of_inRange (lat lng : JSNum) (h1 : lng.InRange (-180) 180)
    (h2 : lat.InRange (-90) 90) : Validator.isValidNumbers lat lng = true := by
  obtain ⟨q1, rfl, h11, h12⟩ := h1
  obtain ⟨q2, rfl, h21, h22⟩ := h2
  simp [Validator.isValidNumbers, JSNum.isNaN, JSNum.ge, JSNum.le, JSNum.isFinite, *]

theorem pointIsValid_toJS (p : Coordinate) :
    pointIsValid p.toJS = Validator.isValidNumbers p.latitude p.longitude := by
  simp [pointIsValid, Coordinate.toJS, getProp, List.lookup, JSVal.truthy]

theorem Route.toJS_good (r : Route) (hlen : 2 ≤ r.path.length)
    (hvalid : ∀ p ∈ r.path, Validator.isValidNumbers p.latitude p.longitude = true) :
    GoodRoute r.toJS := by
  refine ⟨rfl, ?_, r.path.map Coordinate.toJS, ?_, by simpa using hlen, ?_⟩
  · intro nm h _
    simp [Route.toJS, getProp, List.lookup] at h
    subst h
    rfl
  · simp [Route.toJS, getProp, List.lookup]
  · intro p hp
    obtain ⟨q, hq, rfl⟩ := List.mem_map.1 hp
    rw [pointIsValid_toJS]
    exact hvalid q hq

theorem countedPoints_toJS (r : Route) (hlen : 2 ≤ r.path.length) :
    countedPoints r.toJS = r.path.length := by
  simp [countedPoints, Route.toJS, getProp, List.lookup, JSVal.truthy, hlen]

/-- Every document that `parseKML` returns with good routes and at most 100000
points in all is valid. -/
theorem validateKML_toJS (E : Engine) (P : Printer) (d : ParsedKML) (hne : d.routes ≠ [])
    (hstops : d.stops = [])
    (hlen : ∀ r ∈ d.routes, 2 ≤ r.path.length)
    (hvalid : ∀ r ∈ d.routes, ∀ p ∈ r.path,
      Validator.isValidNumbers p.latitude p.longitude = true)
    (hsize : ((d.routes.map (fun r => r.path.length)).sum) ≤ 100000) :
    ∃ res, validateKML E P d.toJS = .returns res ∧ res.isValid = true ∧ res.errors = [] := by
  unfold ParsedKML.toJS
  refine validateKML_good E P _ d.metadata.toJS (d.routes.map Route.toJS) ?_ rfl ?_ ?_ ?_ ?_ ?_ ?_
  · simp [getProp, List.lookup]
  · intro nm h _
    simp [Metadata.toJS, getProp, List.lookup] at h
    subst h
    rfl
  · simp [getProp, List.lookup]
  · simpa using hne
  · intro route hr
    obtain ⟨r, hr2, rfl⟩ := List.mem_map.1 hr
    exact Route.toJS_good r (hlen r hr2) (hvalid r hr2)
  · intro items h
    simp [getProp, List.lookup, hstops] at h
    exact h
  · have : specTotalPoints (d.routes.map Route.toJS) =
        (d.routes.map (fun r => r.path.length)).sum := by
      unfold specTotalPoints
      rw [List.map_map]
      congr 1
      apply List.map_congr_left
      intro r hr
      exact countedPoints_toJS r (hlen r hr)
    rw [this]
    exact hsize

theorem parseKML_single_route_aux (E : Engine) (xmlParse : String → Except String JSVal)
    (clock : ℕ → ℕ) (content : String) (tree : JSVal)
    (kmlFields docFields pmFields lsFields : List (String × JSVal))
    (docName pmName : String) (lead : List Char) (first : CoordText)
    (rest : List (List Char × CoordText)) (trail : List Char)
    (hcontent : content.data ≠ [])
    (hxml : xmlParse content = .ok tree)
    (hkml : getProp tree "kml" = .ok (.obj kmlFields))
    (hdoc : getProp (.obj kmlFields) "Document" = .ok (.obj docFields))
    (hname : getProp (.obj docFields) "name" = .ok (.str docName))
    (hfolder : getProp (.obj docFields) "Folder" = .ok .undefined)
    (hpm : getProp (.obj docFields) "Placemark" = .ok (.obj pmFields))
    (hpmName : getProp (.obj pmFields) "name" = .ok (.str pmName))
    (hls : getProp (.obj pmFields) "LineString" = .ok (.obj lsFields))
    (hcoords : getProp (.obj lsFields) "coordinates" =
      .ok (.str (String.mk (coordinatesText lead first rest trail))))
    (hlayout : LayoutOk E lead first rest trail)
    (hn : 1 ≤ rest.length) :
    ∃ d route, parseKML E xmlParse clock (.str content) = .ok d ∧ d.routes = [route] ∧
      route.path = (first :: rest.map (fun p => p.2)).map (CoordText.point E) ∧
      d.stops = [] := by
  have hpath := parseCoordinates_text E lead first rest trail hlayout
  obtain ⟨pts, hpts⟩ : ∃ pts, pts = (first :: rest.map (fun p => p.2)).map (CoordText.point E) :=
    ⟨_, rfl⟩
  rw [← hpts] at hpath
  have hlen : ¬ pts.length < 2 := by
    rw [hpts]
    simp
    omega
  have htext : (coordinatesText lead first rest trail = []) = False :=
    eq_false (coordinatesText_ne_nil lead first rest trail)
  obtain ⟨route, hroute, hrp⟩ : ∃ route, parseRoute E (clock 0) (.obj pmFields) = some route ∧
      route.path = pts := by
    unfold parseRoute parseRouteBody
    simp only [hpmName, hls, hcoords, orElse_name, bind, Except.bind, pure, Except.pure,
      JSVal.truthy, hpath, generateRouteId, htext, hlen, if_false, ne_eq, not_false_eq_true,
      decide_True, decide_not, Bool.not_true, Bool.false_eq_true, decide_False, Bool.not_false]
    exact ⟨_, rfl, rfl⟩
  have hroutes : extractRoutes E clock (.obj docFields) = [route] := by
    unfold extractRoutes findPlacemarks
    simp only [hfolder, hpm, bind, Except.bind, pure, Except.pure, JSVal.truthy]
    simp only [Bool.false_eq_true, if_false, if_true, List.nil_append]
    unfold extractRoutesLoop
    simp only [hls, hcoords, bind, Except.bind, pure, Except.pure, JSVal.truthy, if_true, hroute,
      htext, ne_eq, not_false_eq_true, decide_True]
    rfl
  unfold parseKML parseKMLBody
  simp only [hxml, hkml, hdoc, hname, orElse_name, bind, Except.bind, pure, Except.pure,
    JSVal.truthy, throw, throwThe, MonadExceptOf.throw, hcontent, hroutes, extractStops,
    ne_eq, not_false_eq_true, decide_True, Bool.not_true, Bool.false_eq_true, if_false]
  exact ⟨_, route, rfl, rfl, by rw [hrp, hpts], rfl⟩

/-- C2. For every KML tree `kml.Document` whose name is a string, with no
`Folder` and exactly one `Placemark` that has a string name and a
`LineString.coordinates` text of `n` white-space-separated tokens `lng,lat,alt`
(`2 ≤ n ≤ 100000`, every latitude in `[-90, 90]`, every longitude in
`[-180, 180]`), `parseKML` returns a document with exactly one route, whose
path is those `n` points in the order of the text, and with no stops, and
`validateKML` of that document returns `isValid = true` and no errors. -/
theorem parseKML_single_route (E : Engine) (P : Printer)
    (xmlParse : String → Except String JSVal)
    (clock : ℕ → ℕ) (content : String) (tree : JSVal)
    (kmlFields docFields pmFields lsFields : List (String × JSVal))
    (docName pmName : String) (lead : List Char) (first : CoordText)
    (rest : List (List Char × CoordText)) (trail : List Char)
    (hcontent : content.data ≠ [])
    (hxml : xmlParse content = .ok tree)
    (hkml : getProp tree "kml" = .ok (.obj kmlFields))
    (hdoc : getProp (.obj kmlFields) "Document" = .ok (.obj docFields))
    (hname : getProp (.obj docFields) "name" = .ok (.str docName))
    (hfolder : getProp (.obj docFields) "Folder" = .ok .undefined)
    (hpm : getProp (.obj docFields) "Placemark" = .ok (.obj pmFields))
    (hpmName : getProp (.obj pmFields) "name" = .ok (.str pmName))
    (hls : getProp (.obj pmFields) "LineString" = .ok (.obj lsFields))
    (hcoords : getProp (.obj lsFields) "coordinates" =
      .ok (.str (String.mk (coordinatesText lead first rest trail))))
    (hlayout : LayoutOk E lead first rest trail)
    (hn2 : 2 ≤ rest.length + 1) (hn : rest.length + 1 ≤ 100000) :
    ∃ d route, parseKML E xmlParse clock (.str content) = .ok d ∧ d.routes = [route] ∧
      route.path = (first :: rest.map (fun p => p.2)).map (CoordText.point E) ∧
      d.stops = [] ∧
      ∃ res, validateKML E P d.toJS = .returns res ∧ res.isValid = true ∧ res.errors = [] := by
  obtain ⟨d, route, hd, hr, hp, hs⟩ := parseKML_single_route_aux E xmlParse clock content tree
    kmlFields docFields pmFields lsFields docName pmName lead first rest trail hcontent hxml
    hkml hdoc hname hfolder hpm hpmName hls hcoords hlayout (by omega)
  refine ⟨d, route, hd, hr, hp, hs, ?_⟩
  have hlen : route.path.length = rest.length + 1 := by
    rw [hp]
    simp
  refine validateKML_toJS E P d (by rw [hr]; simp) hs ?_ ?_ ?_
  · intro r hmem
    rw [hr, List.mem_singleton] at hmem
    subst hmem
    omega
  · intro r hmem p hpm
    rw [hr, List.mem_singleton] at hmem
    subst hmem
    rw [hp] at hpm
    obtain ⟨t, ht, rfl⟩ := List.mem_map.1 hpm
    have hin : t.InRange E := by
      rcases List.mem_cons.1 ht with rfl | ht
      · exact hlayout.2.2.1.2
      · obtain ⟨q, hq, rfl⟩ := List.mem_map.1 ht
        exact (hlayout.2.2.2 q hq).2.2
    exact isValidNumbers_of_inRange _ _ hin.1 hin.2
  · rw [hr]
    simp only [List.map_cons, List.map_nil, List.sum_cons, List.sum_nil]
    omega

theorem samplePoint1_inRange : samplePoint1.InRange decimalEngine := by
  constructor
  · refine ⟨958337 / 100000, ?_, by norm_num, by norm_num⟩
    simp [samplePoint1, decimalEngine, decimalParseFloat, unsignedDecimal, splitOnDot,
      digitsValue, digitValue]
    norm_num
  · refine ⟨4496544 / 100000, ?_, by norm_num, by norm_num⟩
    simp [samplePoint1, decimalEngine, decimalParseFloat, unsignedDecimal, splitOnDot,
      digitsValue, digitValue]
    norm_num

theorem samplePoint2_inRange : samplePoint2.InRange decimalEngine := by
  constructor
  · refine ⟨958333 / 100000, ?_, by norm_num, by norm_num⟩
    simp [samplePoint2, decimalEngine, decimalParseFloat, unsignedDecimal, splitOnDot,
      digitsValue, digitValue]
    norm_num
  · refine ⟨4496549 / 100000, ?_, by norm_num, by norm_num⟩
    simp [samplePoint2, decimalEngine, decimalParseFloat, unsignedDecimal, splitOnDot,
      digitsValue, digitValue]
    norm_num

theorem samplePoint3_inRange : samplePoint3.InRange decimalEngine := by
  constructor
  · refine ⟨958331 / 100000, ?_, by norm_num, by norm_num⟩
    simp [samplePoint3, decimalEngine, decimalParseFloat, unsignedDecimal, splitOnDot,
      digitsValue, digitValue]
    norm_num
  · refine ⟨4496552 / 100000, ?_, by norm_num, by norm_num⟩
    simp [samplePoint3, decimalEngine, decimalParseFloat, unsignedDecimal, splitOnDot,
      digitsValue, digitValue]
    norm_num

theorem sample_layout :
    LayoutOk decimalEngine [] samplePoint1
      [(" ".data, samplePoint2), (" ".data, samplePoint3)] [] := by
  refine ⟨by simp, by simp, ⟨by unfold CoordText.Clean; decide, samplePoint1_inRange⟩, ?_⟩
  intro p hp
  simp only [List.mem_cons, List.mem_singleton, List.mem_nil_iff, or_false] at hp
  rcases hp with rfl | rfl
  · exact ⟨by decide, by unfold CoordText.Clean; decide, samplePoint2_inRange⟩
  · exact ⟨by decide, by unfold CoordText.Clean; decide, samplePoint3_inRange⟩

theorem sample_text :
    "9.58337,44.96544,0 9.58333,44.96549,0 9.58331,44.96552,0" =
      String.mk (coordinatesText [] samplePoint1
        [(" ".data, samplePoint2), (" ".data, samplePoint3)] []) := by
  decide

/-- C2, witness: the three-point document `Zona 9 Sottozona B`, whose name
gives zone `9` and subzone `B`. -/
theorem parseKML_single_route_witness :
    ((firstMatch zoneHere "Zona 9 Sottozona B".data).bind digitsValue = some 9 ∧
      firstMatch subzoneHere "Zona 9 Sottozona B".data = some 'B') ∧
    ∃ d route, parseKML decimalEngine (fun _ => .ok sampleTree) (fun _ => 0)
        (.str "<kml>...</kml>") = .ok d ∧ d.routes = [route] ∧
      route.path = [samplePoint1.point decimalEngine, samplePoint2.point decimalEngine,
        samplePoint3.point decimalEngine] ∧
      d.stops = [] ∧
      ∃ res, validateKML decimalEngine plainPrinter d.toJS = .returns res ∧
        res.isValid = true ∧ res.errors = [] :=
  ⟨by decide,
   parseKML_single_route decimalEngine plainPrinter (fun _ => .ok sampleTree) (fun _ => 0)
    "<kml>...</kml>" sampleTree _ _ _ _ "Zona 9 Sottozona B" "Percorso Sconosciuto"
    [] samplePoint1 [(" ".data, samplePoint2), (" ".data, samplePoint3)] []
    (by decide) rfl rfl rfl rfl rfl rfl rfl rfl (by rw [← sample_text]; rfl) sample_layout
    (by decide) (by decide)⟩

/-! ## Great-circle distance and bearing over the real numbers (C9, C10) -/

theorem haversineDistance_eq (p q : GeoPoint) :
    haversineDistance p q =
      6371000 * (2 * atan2 (Real.sqrt (haversineA p q)) (Real.sqrt (1 - haversineA p q))) :=
  rfl

theorem sin_half_sq (x : ℝ) : Real.sin (x / 2) * Real.sin (x / 2) = (1 - Real.cos x) / 2 := by
  have h := Real.cos_sq_add_sin_sq (x / 2)
  have h2 := Real.cos_two_mul (x / 2)
  rw [show 2 * (x / 2) = x from by ring] at h2
  nlinarith

theorem haversineA_eq (p q : GeoPoint) : haversineA p q = (1 - cosAngle p q) / 2 := by
  unfold haversineA cosAngle
  have e1 : (q.latitude - p.latitude) * Real.pi / 180 =
      q.latitude * Real.pi / 180 - p.latitude * Real.pi / 180 := by ring
  rw [mul_assoc (Real.cos _ * Real.cos _), sin_half_sq, sin_half_sq, e1, Real.cos_sub]
  ring

theorem cosAngle_eq_dot (p q : GeoPoint) :
    cosAngle p q =
      (Real.cos (p.latitude * Real.pi / 180) * Real.cos (p.longitude * Real.pi / 180)) *
        (Real.cos (q.latitude * Real.pi / 180) * Real.cos (q.longitude * Real.pi / 180)) +
      (Real.cos (p.latitude * Real.pi / 180) * Real.sin (p.longitude * Real.pi / 180)) *
        (Real.cos (q.latitude * Real.pi / 180) * Real.sin (q.longitude * Real.pi / 180)) +
      Real.sin (p.latitude * Real.pi / 180) * Real.sin (q.latitude * Real.pi / 180) := by
  unfold cosAngle
  have e1 : (q.longitude - p.longitude) * Real.pi / 180 =
      q.longitude * Real.pi / 180 - p.longitude * Real.pi / 180 := by ring
  rw [e1, Real.cos_sub]
  ring

theorem unit_sq (φ l : ℝ) :
    (Real.cos φ * Real.cos l) ^ 2 + (Real.cos φ * Real.sin l) ^ 2 + Real.sin φ ^ 2 = 1 := by
  have h1 := Real.cos_sq_add_sin_sq φ
  have h2 := Real.cos_sq_add_sin_sq l
  nlinarith

theorem dot_le_one (x1 y1 z1 x2 y2 z2 : ℝ) (h1 : x1 ^ 2 + y1 ^ 2 + z1 ^ 2 = 1)
    (h2 : x2 ^ 2 + y2 ^ 2 + z2 ^ 2 = 1) :
    x1 * x2 + y1 * y2 + z1 * z2 ≤ 1 ∧ -1 ≤ x1 * x2 + y1 * y2 + z1 * z2 := by
  constructor
  · nlinarith [sq_nonneg (x1 - x2), sq_nonneg (y1 - y2), sq_nonneg (z1 - z2)]
  · nlinarith [sq_nonneg (x1 + x2), sq_nonneg (y1 + y2), sq_nonneg (z1 + z2)]

theorem cosAngle_le_one (p q : GeoPoint) : cosAngle p q ≤ 1 := by
  rw [cosAngle_eq_dot]
  exact (dot_le_one _ _ _ _ _ _ (unit_sq _ _) (unit_sq _ _)).1

theorem neg_one_le_cosAngle (p q : GeoPoint) : -1 ≤ cosAngle p q := by
  rw [cosAngle_eq_dot]
  exact (dot_le_one _ _ _ _ _ _ (unit_sq _ _) (unit_sq _ _)).2

theorem haversineA_nonneg (p q : GeoPoint) : 0 ≤ haversineA p q := by
  rw [haversineA_eq]
  linarith [cosAngle_le_one p q]

theorem haversineA_le_one (p q : GeoPoint) : haversineA p q ≤ 1 := by
  rw [haversineA_eq]
  linarith [neg_one_le_cosAngle p q]

theorem atan2_sqrt (a : ℝ) (h0 : 0 ≤ a) (h1 : a ≤ 1) :
    atan2 (Real.sqrt a) (Real.sqrt (1 - a)) = Real.arcsin (Real.sqrt a) := by
  unfold atan2
  rw [Complex.arg_of_re_nonneg (show 0 ≤ (Complex.mk (Real.sqrt (1 - a)) (Real.sqrt a)).re from Real.sqrt_nonneg (1 - a))]
  have habs : Complex.abs ⟨Real.sqrt (1 - a), Real.sqrt a⟩ = 1 := by
    rw [Complex.abs_apply, Complex.normSq_mk, ← sq, ← sq, Real.sq_sqrt (by linarith),
      Real.sq_sqrt h0]
    simp
  rw [habs]
  simp

theorem two_arcsin_sqrt (a : ℝ) (h0 : 0 ≤ a) (h1 : a ≤ 1) :
    2 * Real.arcsin (Real.sqrt a) = Real.arccos (1 - 2 * a) := by
  have hs0 : 0 ≤ Real.sqrt a := Real.sqrt_nonneg a
  have hs1 : Real.sqrt a ≤ 1 := by
    rw [show (1 : ℝ) = Real.sqrt 1 from Real.sqrt_one.symm]
    exact Real.sqrt_le_sqrt h1
  have hθ0 : 0 ≤ Real.arcsin (Real.sqrt a) := Real.arcsin_nonneg.2 hs0
  have hθ1 : Real.arcsin (Real.sqrt a) ≤ Real.pi / 2 := Real.arcsin_le_pi_div_two _
  have hsin : Real.sin (Real.arcsin (Real.sqrt a)) = Real.sqrt a :=
    Real.sin_arcsin (by linarith) hs1
  have hcos : Real.cos (2 * Real.arcsin (Real.sqrt a)) = 1 - 2 * a := by
    rw [Real.cos_two_mul, Real.cos_sq', hsin, Real.sq_sqrt h0]
    ring
  rw [← hcos, Real.arccos_cos (by linarith) (by linarith)]

/-- The great-circle distance is the Earth radius times the angle between the
two directions. -/
theorem haversineDistance_eq_arccos (p q : GeoPoint) :
    haversineDistance p q = 6371000 * Real.arccos (cosAngle p q) := by
  rw [haversineDistance_eq, atan2_sqrt _ (haversineA_nonneg p q) (haversineA_le_one p q),
    two_arcsin_sqrt _ (haversineA_nonneg p q) (haversineA_le_one p q), haversineA_eq]
  congr 2
  ring

theorem cosAngle_comm (p q : GeoPoint) : cosAngle p q = cosAngle q p := by
  rw [cosAngle_eq_dot, cosAngle_eq_dot]
  ring

theorem cosAngle_self (p : GeoPoint) : cosAngle p p = 1 := by
  rw [cosAngle_eq_dot]
  have := unit_sq (p.latitude * Real.pi / 180) (p.longitude * Real.pi / 180)
  nlinarith

/-- Over the real numbers, without the rounding of binary64 (for that see
`Binary64.haversineDistance`): the great-circle formula with Earth radius
6371000 m is symmetric, `haversineDistance(A, B) = haversineDistance(B, A)`
for all points `A` and `B`, whatever their coordinates. -/
theorem haversineDistance_symm (A B : GeoPoint) :
    haversineDistance A B = haversineDistance B A := by
  rw [haversineDistance_eq_arccos, haversineDistance_eq_arccos, cosAngle_comm]

/-- Over the real numbers, without the rounding of binary64 (for that see
`Binary64.haversineDistance`): for all points `A` and `B`, whatever their
coordinates, `haversineDistance(A, B) ≥ 0` and `haversineDistance(A, A) = 0`. -/
theorem haversineDistance_nonneg_and_self (A B : GeoPoint) :
    0 ≤ haversineDistance A B ∧ haversineDistance A A = 0 := by
  constructor
  · rw [haversineDistance_eq_arccos]
    exact mul_nonneg (by norm_num) (Real.arccos_nonneg _)
  · rw [haversineDistance_eq_arccos, cosAngle_self, Real.arccos_one, mul_zero]

theorem gram_nonneg (x1 y1 z1 x2 y2 z2 x3 y3 z3 : ℝ) (h1 : x1 ^ 2 + y1 ^ 2 + z1 ^ 2 = 1)
    (h2 : x2 ^ 2 + y2 ^ 2 + z2 ^ 2 = 1) (h3 : x3 ^ 2 + y3 ^ 2 + z3 ^ 2 = 1) :
    ((x1 * x2 + y1 * y2 + z1 * z2) * (x2 * x3 + y2 * y3 + z2 * z3) -
        (x1 * x3 + y1 * y3 + z1 * z3)) ^ 2 ≤
      (1 - (x1 * x2 + y1 * y2 + z1 * z2) ^ 2) * (1 - (x2 * x3 + y2 * y3 + z2 * z3) ^ 2) := by
  have key : (1 - (x1 * x2 + y1 * y2 + z1 * z2) ^ 2) * (1 - (x2 * x3 + y2 * y3 + z2 * z3) ^ 2) -
      ((x1 * x2 + y1 * y2 + z1 * z2) * (x2 * x3 + y2 * y3 + z2 * z3) -
        (x1 * x3 + y1 * y3 + z1 * z3)) ^ 2 =
      (x1 * (y2 * z3 - z2 * y3) - y1 * (x2 * z3 - z2 * x3) + z1 * (x2 * y3 - y2 * x3)) ^ 2 +
      (1 - (x1 ^ 2 + y1 ^ 2 + z1 ^ 2) * (x2 ^ 2 + y2 ^ 2 + z2 ^ 2) * (x3 ^ 2 + y3 ^ 2 + z3 ^ 2)) +
      ((x1 ^ 2 + y1 ^ 2 + z1 ^ 2) - 1) * (x2 * x3 + y2 * y3 + z2 * z3) ^ 2 +
      ((x3 ^ 2 + y3 ^ 2 + z3 ^ 2) - 1) * (x1 * x2 + y1 * y2 + z1 * z2) ^ 2 +
      ((x2 ^ 2 + y2 ^ 2 + z2 ^ 2) - 1) * (x1 * x3 + y1 * y3 + z1 * z3) ^ 2 := by
    ring
  have hsq := sq_nonneg
    (x1 * (y2 * z3 - z2 * y3) - y1 * (x2 * z3 - z2 * x3) + z1 * (x2 * y3 - y2 * x3))
  rw [h1, h2, h3] at key
  linarith

theorem cosAngle_gram (p q s : GeoPoint) :
    (cosAngle p s * cosAngle s q - cosAngle p q) ^ 2 ≤
      (1 - cosAngle p s ^ 2) * (1 - cosAngle s q ^ 2) := by
  rw [cosAngle_eq_dot p s, cosAngle_eq_dot s q, cosAngle_eq_dot p q]
  exact gram_nonneg _ _ _ _ _ _ _ _ _ (unit_sq _ _) (unit_sq _ _) (unit_sq _ _)

theorem arccos_triangle (a b c : ℝ) (ha : -1 ≤ a) (ha1 : a ≤ 1) (hb : -1 ≤ b) (hb1 : b ≤ 1)
    (h : (a * b - c) ^ 2 ≤ (1 - a ^ 2) * (1 - b ^ 2)) :
    Real.arccos c ≤ Real.arccos a + Real.arccos b := by
  by_cases hsum : Real.pi ≤ Real.arccos a + Real.arccos b
  · exact le_trans (Real.arccos_le_pi c) hsum
  · have hsum2 : Real.arccos a + Real.arccos b ≤ Real.pi := by linarith
    have h0 : 0 ≤ Real.arccos a + Real.arccos b :=
      add_nonneg (Real.arccos_nonneg a) (Real.arccos_nonneg b)
    have hcos : Real.cos (Real.arccos a + Real.arccos b) ≤ c := by
      rw [Real.cos_add, Real.cos_arccos ha ha1, Real.cos_arccos hb hb1, Real.sin_arccos,
        Real.sin_arccos]
      have hA : 0 ≤ 1 - a ^ 2 := by nlinarith
      have hB : 0 ≤ 1 - b ^ 2 := by nlinarith
      have hle : a * b - c ≤ Real.sqrt (1 - a ^ 2) * Real.sqrt (1 - b ^ 2) := by
        rw [← Real.sqrt_mul hA]
        exact le_trans (le_abs_self _) (Real.abs_le_sqrt h)
      linarith
    have hmono : Real.arccos c ≤ Real.arccos (Real.cos (Real.arccos a + Real.arccos b)) := by
      rw [Real.arccos_eq_pi_div_two_sub_arcsin c,
        Real.arccos_eq_pi_div_two_sub_arcsin (Real.cos _)]
      linarith [Real.monotone_arcsin hcos]
    calc Real.arccos c ≤ Real.arccos (Real.cos (Real.arccos a + Real.arccos b)) := hmono
      _ = Real.arccos a + Real.arccos b := Real.arccos_cos h0 hsum2

/-- C9. `haversineDistance` satisfies the triangle inequality over the reals,
with no tolerance: for all points `A`, `B`, `C` (whatever their coordinates, so
in particular for latitudes in `[-90, 90]` and longitudes in `[-180, 180]`),
`haversineDistance(A, B) ≤ haversineDistance(A, C) + haversineDistance(C, B)`. -/
theorem haversineDistance_triangle (A B C : GeoPoint) :
    haversineDistance A B ≤ haversineDistance A C + haversineDistance C B := by
  rw [haversineDistance_eq_arccos, haversineDistance_eq_arccos, haversineDistance_eq_arccos,
    ← mul_add]
  exact mul_le_mul_of_nonneg_left
    (arccos_triangle _ _ _ (neg_one_le_cosAngle A C) (cosAngle_le_one A C)
      (neg_one_le_cosAngle C B) (cosAngle_le_one C B) (cosAngle_gram A B C))
    (by norm_num)

theorem jsRem_pos_range (x m : ℝ) (hx : 0 ≤ x) (hm : 0 < m) :
    0 ≤ jsRem x m ∧ jsRem x m < m := by
  unfold jsRem
  rw [if_pos (div_nonneg hx hm.le)]
  have h1 := Int.floor_le (x / m)
  have h2 := Int.lt_floor_add_one (x / m)
  have e : x = m * (x / m) := by field_simp
  constructor
  · have : m * (⌊x / m⌋ : ℝ) ≤ m * (x / m) := mul_le_mul_of_nonneg_left h1 hm.le
    linarith
  · have : m * (x / m) < m * ((⌊x / m⌋ : ℝ) + 1) := mul_lt_mul_of_pos_left h2 hm
    linarith

theorem atan2_range (y x : ℝ) : -Real.pi < atan2 y x ∧ atan2 y x ≤ Real.pi :=
  ⟨Complex.neg_pi_lt_arg _, Complex.arg_le_pi _⟩

/-- C10. For every pair of points `from`, `to` (whatever their coordinates, so
in particular for latitudes in `[-90, 90]` and longitudes in `[-180, 180]`),
`calculateBearing(from, to)` is a value `b` with `0 ≤ b < 360`. -/
theorem calculateBearing_range (fromPoint toPoint : GeoPoint) :
    0 ≤ calculateBearing fromPoint toPoint ∧ calculateBearing fromPoint toPoint < 360 := by
  unfold calculateBearing
  dsimp only
  refine jsRem_pos_range _ 360 ?_ (by norm_num)
  have h := (atan2_range
    (Real.sin ((toPoint.longitude - fromPoint.longitude) * Real.pi / 180) *
      Real.cos (toPoint.latitude * Real.pi / 180))
    (Real.cos (fromPoint.latitude * Real.pi / 180) * Real.sin (toPoint.latitude * Real.pi / 180) -
      Real.sin (fromPoint.latitude * Real.pi / 180) * Real.cos (toPoint.latitude * Real.pi / 180) *
        Real.cos ((toPoint.longitude - fromPoint.longitude) * Real.pi / 180))).1
  have hpi := Real.pi_pos
  have h2 : -180 < atan2
      (Real.sin ((toPoint.longitude - fromPoint.longitude) * Real.pi / 180) *
        Real.cos (toPoint.latitude * Real.pi / 180))
      (Real.cos (fromPoint.latitude * Real.pi / 180) * Real.sin (toPoint.latitude * Real.pi / 180) -
        Real.sin (fromPoint.latitude * Real.pi / 180) * Real.cos (toPoint.latitude * Real.pi / 180) *
          Real.cos ((toPoint.longitude - fromPoint.longitude) * Real.pi / 180)) * 180 / Real.pi := by
    rw [lt_div_iff₀ hpi]
    nlinarith
  linarith

/-! ## Visible stops (C5, C6) -/

theorem visibleStep_eq {α : Type} (user : GeoPoint) (radius : ℝ) (acc : List (VisibleStop α))
    (s : Stop α) : visibleStep user radius acc s = acc ++ (keepStop user radius s).toList := by
  unfold visibleStep keepStop stopDistance
  by_cases h1 : fieldTruthy s.latitude = true <;> by_cases h2 : fieldTruthy s.longitude = true
  · by_cases h3 : haversineDistance user (pointOf s.latitude s.longitude) ≤ radius
    · simp [h1, h2, h3]
    · simp [h1, h2, h3]
  · simp [h1, h2]
  · simp [h1, h2]
  · simp [h1, h2]

theorem foldl_visibleStep {α : Type} (user : GeoPoint) (radius : ℝ) (stops : List (Stop α))
    (acc : List (VisibleStop α)) :
    stops.foldl (visibleStep user radius) acc = acc ++ stops.filterMap (keepStop user radius) := by
  induction stops generalizing acc with
  | nil => simp
  | cons s ss ih =>
    rw [List.foldl_cons, ih, visibleStep_eq]
    cases h : keepStop user radius s <;> simp [List.filterMap_cons, h]

theorem getVisibleStops_of_gate_open {α : Type} (loc : UserLocation) (lat lng : ℝ)
    (hlat : loc.latitude = some lat) (hlng : loc.longitude = some lng)
    (hlat0 : lat ≠ 0) (hlng0 : lng ≠ 0) (hacc : ∀ a, loc.accuracy = some a → a ≤ 50)
    (stops : List (Stop α)) (r : ℝ) :
    getVisibleStops (some loc) stops r =
      sortByDistance (stops.filterMap (keepStop { latitude := lat, longitude := lng } r)) := by
  unfold getVisibleStops
  have h1 : fieldTruthy loc.latitude = true := by simp [fieldTruthy, hlat, hlat0]
  have h2 : fieldTruthy loc.longitude = true := by simp [fieldTruthy, hlng, hlng0]
  have h3 : (fieldTruthy loc.accuracy && decide (loc.accuracy.getD 0 > 50)) = false := by
    cases hacc2 : loc.accuracy with
    | none => simp [fieldTruthy]
    | some a =>
      have := hacc a hacc2
      simp only [Option.getD_some, Bool.and_eq_false_imp]
      intro _
      simp only [gt_iff_lt, decide_eq_false_iff_not, not_lt]
      exact this
  simp only [h1, h2, h3, Bool.not_true, Bool.or_self, Bool.false_eq_true, if_false]
  rw [foldl_visibleStep, List.nil_append]
  simp [pointOf, hlat, hlng]

/-- C5 (amended). For every user location with non-zero latitude and
longitude and with accuracy absent or at most 50, every list of stops whose
latitude and longitude are present and non-zero, and every radius `r`, the
stops returned by `getVisibleStops` are exactly (as a list up to order) the
input stops whose Haversine distance from the user is at most `r`, the
boundary included and with no test of the range of the coordinates, each
carrying a `distance` equal to that distance rounded to the nearest metre. -/
theorem getVisibleStops_exact {α : Type} (loc : UserLocation) (lat lng : ℝ)
    (hlat : loc.latitude = some lat) (hlng : loc.longitude = some lng)
    (hlat0 : lat ≠ 0) (hlng0 : lng ≠ 0) (hacc : ∀ a, loc.accuracy = some a → a ≤ 50)
    (stops : List (Stop α))
    (hstops : ∀ s ∈ stops, fieldTruthy s.latitude = true ∧ fieldTruthy s.longitude = true)
    (r : ℝ) :
    List.Perm (getVisibleStops (some loc) stops r)
      ((stops.filter
          (fun s => decide (stopDistance { latitude := lat, longitude := lng } s ≤ r))).map
        (fun s => { stop := s,
                    distance := mathRound (stopDistance { latitude := lat, longitude := lng } s) }))
    := by
  rw [getVisibleStops_of_gate_open loc lat lng hlat hlng hlat0 hlng0 hacc]
  refine (List.perm_insertionSort _ _).trans ?_
  have : stops.filterMap (keepStop { latitude := lat, longitude := lng } r) =
      (stops.filter
          (fun s => decide (stopDistance { latitude := lat, longitude := lng } s ≤ r))).map
        (fun s => { stop := s,
                    distance := mathRound (stopDistance { latitude := lat, longitude := lng } s) })
      := by
    clear hlat hlng hacc
    induction stops with
    | nil => rfl
    | cons s ss ih =>
      have hs := hstops s (List.mem_cons_self _ _)
      have ih2 := ih (fun t ht => hstops t (List.mem_cons_of_mem _ ht))
      by_cases hd : stopDistance { latitude := lat, longitude := lng } s ≤ r
      · simp [List.filterMap_cons, keepStop, hs.1, hs.2, hd, List.filter_cons, ih2]
      · simp [List.filterMap_cons, keepStop, hs.1, hs.2, hd, List.filter_cons, ih2]
  rw [this]

/-- C6. For every stop list and every radius, `getVisibleStops` returns the
empty list when the user location is `null` or `undefined`, and when its
accuracy is greater than 50 metres, however close the stops are. -/
theorem getVisibleStops_gated {α : Type} (userLocation : Option UserLocation)
    (stops : List (Stop α)) (r : ℝ)
    (h : userLocation = none ∨
      ∃ loc a, userLocation = some loc ∧ loc.accuracy = some a ∧ 50 < a) :
    getVisibleStops userLocation stops r = [] := by
  rcases h with rfl | ⟨loc, a, rfl, ha, h50⟩
  · rfl
  · unfold getVisibleStops
    by_cases hg : (!fieldTruthy loc.latitude || !fieldTruthy loc.longitude) = true
    · simp only [hg, if_true]
    · have ha0 : a ≠ 0 := by
        intro h0
        rw [h0] at h50
        norm_num at h50
      simp [hg, ha, fieldTruthy, ha0, h50]

theorem haversineDistance_same_longitude (p q : GeoPoint) (hl : q.longitude = p.longitude)
    (h0 : 0 ≤ (q.latitude - p.latitude) * Real.pi / 180)
    (h1 : (q.latitude - p.latitude) * Real.pi / 180 ≤ Real.pi) :
    haversineDistance p q = 6371000 * ((q.latitude - p.latitude) * Real.pi / 180) := by
  rw [haversineDistance_eq_arccos]
  have hc : cosAngle p q = Real.cos ((q.latitude - p.latitude) * Real.pi / 180) := by
    unfold cosAngle
    rw [hl, sub_self, zero_mul, zero_div, Real.cos_zero, mul_one,
      show (q.latitude - p.latitude) * Real.pi / 180 =
        q.latitude * Real.pi / 180 - p.latitude * Real.pi / 180 from by ring,
      Real.cos_sub]
    ring
  rw [hc, Real.arccos_cos h0 h1]

theorem haversineDistance_millidegree (la lb lng : ℝ) (h : lb - la = 1 / 1000) :
    haversineDistance { latitude := la, longitude := lng } { latitude := lb, longitude := lng }
      ≤ 200 := by
  have hpi := Real.pi_pos
  have hpi4 := Real.pi_le_four
  rw [haversineDistance_same_longitude { latitude := la, longitude := lng }
    { latitude := lb, longitude := lng } rfl
    (by simp only [h]; positivity) (by simp only [h]; nlinarith)]
  simp only [h]
  nlinarith

/-- C5, counterexample. A user on the equator at `(0, 10)` with no accuracy
field and a stop at `(0.001, 10)`, less than 200 m away: the claim has the stop
returned, `getVisibleStops` returns `[]`. And a user at `(89.9995, 10)` with a
stop at `(90.0005, 10)`, whose latitude is out of range: the claim has it left
out, `getVisibleStops` returns it. -/
theorem getVisibleStops_counterexample :
    (getVisibleStops (some { latitude := some 0, longitude := some 10, accuracy := none })
        [({ info := "A", latitude := some (1 / 1000), longitude := some 10 } : Stop String)] 200
        = [] ∧
      stopDistance { latitude := 0, longitude := 10 }
        ({ info := "A", latitude := some (1 / 1000), longitude := some 10 } : Stop String)
        ≤ 200) ∧
    ((getVisibleStops
        (some { latitude := some (899995 / 10000), longitude := some 10, accuracy := none })
        [({ info := "B", latitude := some (900005 / 10000), longitude := some 10 } : Stop String)]
        200).map (fun v => v.stop)
        = [{ info := "B", latitude := some (900005 / 10000), longitude := some 10 }]) := by
  refine ⟨⟨?_, ?_⟩, ?_⟩
  · simp [getVisibleStops, fieldTruthy]
  · exact haversineDistance_millidegree 0 (1 / 1000) 10 (by norm_num)
  · rw [getVisibleStops_of_gate_open _ (899995 / 10000) 10 rfl rfl (by norm_num) (by norm_num)
      (fun a h => by cases h)]
    have hd : stopDistance { latitude := 899995 / 10000, longitude := 10 }
        ({ info := "B", latitude := some (900005 / 10000), longitude := some 10 } : Stop String)
        ≤ 200 :=
      haversineDistance_millidegree (899995 / 10000) (900005 / 10000) 10 (by norm_num)
    have ht1 : fieldTruthy (some (900005 / 10000 : ℝ)) = true := by
      simp [fieldTruthy]
    have ht2 : fieldTruthy (some (10 : ℝ)) = true := by
      simp [fieldTruthy]
    simp only [List.filterMap_cons, List.filterMap_nil, keepStop, ht1, ht2, hd, and_self,
      if_true, sortByDistance, List.insertionSort, List.orderedInsert, List.map_cons,
      List.map_nil]

/-- C5, witness: a user at `(44.96544, 9.58337)` with accuracy 10 and one stop
at the same place. -/
theorem getVisibleStops_exact_witness :
    List.Perm
      (getVisibleStops
        (some { latitude := some (4496544 / 100000), longitude := some (958337 / 100000),
                accuracy := some 10 })
        [({ info := "fermata", latitude := some (4496544 / 100000),
            longitude := some (958337 / 100000) } : Stop String)] 200)
      (([({ info := "fermata", latitude := some (4496544 / 100000),
            longitude := some (958337 / 100000) } : Stop String)].filter
          (fun s => decide (stopDistance
            { latitude := 4496544 / 100000, longitude := 958337 / 100000 } s ≤ 200))).map
        (fun s => { stop := s,
                    distance := mathRound (stopDistance
                      { latitude := 4496544 / 100000, longitude := 958337 / 100000 } s) })) :=
  getVisibleStops_exact _ (4496544 / 100000) (958337 / 100000) rfl rfl (by norm_num)
    (by norm_num)
    (fun a h => by
      simp only [Option.some.injEq] at h
      rw [← h]
      norm_num)
    _
    (fun s hs => by
      rw [List.mem_singleton.1 hs]
      constructor <;> simp [fieldTruthy])
    200

/-- C6, witness: accuracy 60 with a stop at the place of the user. -/
theorem getVisibleStops_gated_witness :
    getVisibleStops
      (some { latitude := some (4496544 / 100000), longitude := some (958337 / 100000),
              accuracy := some 60 })
      [({ info := "fermata", latitude := some (4496544 / 100000),
          longitude := some (958337 / 100000) } : Stop String)] 200 = [] :=
  getVisibleStops_gated _ _ 200 (Or.inr ⟨_, 60, rfl, rfl, by norm_num⟩)

/-! ## Cardinal direction (C11) -/

theorem mathRound_eq_iff (x : ℝ) (k : ℤ) :
    mathRound x = k ↔ (k : ℝ) - 1 / 2 ≤ x ∧ x < (k : ℝ) + 1 / 2 := by
  unfold mathRound
  rw [Int.floor_eq_iff]
  constructor
  · rintro ⟨h1, h2⟩
    constructor <;> linarith
  · rintro ⟨h1, h2⟩
    constructor <;> linarith

theorem bearingToCardinal_sector (b : ℝ) (k : ℕ) (hk : k ≤ 8)
    (h1 : 45 * (k : ℝ) - 45 / 2 ≤ b) (h2 : b < 45 * (k : ℝ) + 45 / 2) :
    bearingToCardinal b = directions.get? (k % 8) := by
  have hr : mathRound (b / 45) = (k : ℤ) := by
    rw [mathRound_eq_iff]
    push_cast
    constructor
    · rw [le_div_iff₀ (by norm_num)]
      linarith
    · rw [div_lt_iff₀ (by norm_num)]
      linarith
  unfold bearingToCardinal
  rw [hr]
  interval_cases k <;> rfl

theorem mathRound_bearing_range (b : ℝ) (h0 : 0 ≤ b) (h360 : b < 360) :
    0 ≤ mathRound (b / 45) ∧ mathRound (b / 45) ≤ 8 := by
  unfold mathRound
  constructor
  · apply Int.floor_nonneg.2
    have : 0 ≤ b / 45 := div_nonneg h0 (by norm_num)
    linarith
  · have h : b / 45 + 1 / 2 < ((9 : ℤ) : ℝ) := by
      have : b / 45 < 8 := by
        rw [div_lt_iff₀ (by norm_num)]
        linarith
      push_cast
      linarith
    have := Int.floor_lt.2 h
    omega

/-- C11. For every bearing `b` in `[0, 360)`, `bearingToCardinal(b)` is one of
the eight names `N, NE, E, SE, S, SW, W, NW`, namely the element of that list
at index `round(b / 45) mod 8`: for each `k` in `0..7`, every `b` with
`45k - 22.5 ≤ b < 45k + 22.5` gives the `k`-th name, and `337.5 ≤ b < 360`
gives `N`. -/
theorem bearingToCardinal_spec (b : ℝ) (h0 : 0 ≤ b) (h360 : b < 360) :
    bearingToCardinal b = directions.get? ((mathRound (b / 45)).toNat % 8) ∧
    (∃ name, name ∈ directions ∧ bearingToCardinal b = some name) ∧
    (∀ k : ℕ, k < 8 → 45 * (k : ℝ) - 22.5 ≤ b → b < 45 * (k : ℝ) + 22.5 →
      bearingToCardinal b = directions.get? k) ∧
    (337.5 ≤ b → bearingToCardinal b = some "N") := by
  obtain ⟨hr0, hr8⟩ := mathRound_bearing_range b h0 h360
  obtain ⟨n, hn⟩ : ∃ n : ℕ, mathRound (b / 45) = (n : ℤ) := ⟨_, (Int.toNat_of_nonneg hr0).symm⟩
  have hn8 : n ≤ 8 := by omega
  have hb := (mathRound_eq_iff (b / 45) n).1 hn
  have hb1 : 45 * (n : ℝ) - 45 / 2 ≤ b := by
    have := hb.1
    rw [le_div_iff₀ (by norm_num)] at this
    push_cast at this
    linarith
  have hb2 : b < 45 * (n : ℝ) + 45 / 2 := by
    have := hb.2
    rw [div_lt_iff₀ (by norm_num)] at this
    push_cast at this
    linarith
  have hmain := bearingToCardinal_sector b n hn8 hb1 hb2
  refine ⟨?_, ?_, ?_, ?_⟩
  · rw [hmain, hn, Int.toNat_ofNat]
  · rw [hmain]
    have hlt : n % 8 < directions.length := by
      have : n % 8 < 8 := Nat.mod_lt _ (by norm_num)
      simpa [directions] using this
    refine ⟨directions.get ⟨n % 8, hlt⟩, List.get_mem _ _ _, ?_⟩
    rw [List.get?_eq_get hlt]
  · intro k hk h1 h2
    have := bearingToCardinal_sector b k (by omega) (by linarith) (by linarith)
    rw [this, Nat.mod_eq_of_lt hk]
  · intro h
    have := bearingToCardinal_sector b 8 (le_refl _) (by push_cast; linarith)
      (by push_cast; linarith)
    rw [this]
    rfl

/-- C11, witness: the bearing `100` lies in the sector of `E`. -/
theorem bearingToCardinal_spec_witness : bearingToCardinal 100 = some "E" := by
  have h := (bearingToCardinal_spec 100 (by norm_num) (by norm_num)).2.2.1 2 (by norm_num)
    (by norm_num) (by norm_num)
  rw [h]
  rfl

/-! ## Visible stops: order (C12) -/

theorem getVisibleStops_eq_kept {α : Type} (u : Option UserLocation) (stops : List (Stop α))
    (r : ℝ) :
    (getVisibleStops u stops r = [] ∧ keptStops u stops r = []) ∨
      ∃ user, getVisibleStops u stops r = sortByDistance (stops.filterMap (keepStop user r)) ∧
        keptStops u stops r = stops.filter (fun s => (keepStop user r s).isSome) := by
  unfold getVisibleStops keptStops
  cases u with
  | none => exact Or.inl ⟨rfl, rfl⟩
  | some loc =>
    dsimp only
    by_cases h1 : fieldTruthy loc.latitude = true
    · by_cases h2 : fieldTruthy loc.longitude = true
      · by_cases h3 : fieldTruthy loc.accuracy = true ∧ loc.accuracy.getD 0 > 50
        · left
          simp [h1, h2, h3]
        · right
          refine ⟨pointOf loc.latitude loc.longitude, ?_, ?_⟩
          · have h4 : (fieldTruthy loc.accuracy && decide (loc.accuracy.getD 0 > 50)) = false := by
              rw [Bool.and_eq_false_iff]
              by_cases ha : fieldTruthy loc.accuracy = true
              · right
                exact decide_eq_false (fun hgt => h3 ⟨ha, hgt⟩)
              · left
                simpa using ha
            simp only [h1, h2, h4, Bool.not_true, Bool.or_self, Bool.false_eq_true, if_false]
            rw [foldl_visibleStep, List.nil_append]
          · rw [if_pos ⟨h1, h2, h3⟩]
      · left
        simp [h1, h2]
    · left
      simp [h1]

theorem filterMap_keepStop_map_stop {α : Type} (user : GeoPoint) (r : ℝ)
    (stops : List (Stop α)) :
    (stops.filterMap (keepStop user r)).map (fun v => v.stop) =
      stops.filter (fun s => (keepStop user r s).isSome) := by
  induction stops with
  | nil => rfl
  | cons s ss ih =>
    rw [List.filterMap_cons, List.filter_cons]
    cases h : keepStop user r s with
    | none => simpa using ih
    | some v =>
      have hv : v.stop = s := by
        unfold keepStop at h
        split at h
        · cases h
          rfl
        · cases h
      simp [ih, hv]

/-- C12. For every input, the list returned by `getVisibleStops` is sorted in
non-decreasing order of the field `distance`, and its stops are a reordering
of the kept input stops (the filtered stops, a sublist of the input): each
kept stop occurs exactly once, nothing is duplicated or invented. -/
theorem getVisibleStops_sorted_perm {α : Type} (u : Option UserLocation)
    (stops : List (Stop α)) (r : ℝ) :
    List.Sorted (fun a b : VisibleStop α => a.distance ≤ b.distance)
        (getVisibleStops u stops r) ∧
      List.Perm ((getVisibleStops u stops r).map (fun v => v.stop)) (keptStops u stops r) ∧
      List.Sublist (keptStops u stops r) stops := by
  rcases getVisibleStops_eq_kept u stops r with ⟨h, hk⟩ | ⟨user, h, hk⟩
  · rw [h, hk]
    exact ⟨List.sorted_nil, List.Perm.refl _, List.nil_sublist _⟩
  · rw [h, hk]
    haveI : IsTotal (VisibleStop α) (fun a b => a.distance ≤ b.distance) :=
      ⟨fun a b => le_total a.distance b.distance⟩
    haveI : IsTrans (VisibleStop α) (fun a b => a.distance ≤ b.distance) :=
      ⟨fun _ _ _ h1 h2 => le_trans h1 h2⟩
    refine ⟨List.sorted_insertionSort _ _, ?_, List.filter_sublist _⟩
    rw [← filterMap_keepStop_map_stop]
    exact (List.perm_insertionSort _ _).map _

/-! ## Nearest stop over the real numbers -/

theorem nearestStep_of_truthy {α : Type} (user : GeoPoint) (state : Option (Stop α × ℝ))
    (stop : Stop α) (h : fieldTruthy stop.latitude = true ∧ fieldTruthy stop.longitude = true) :
    nearestStep user state stop =
      match state with
      | none => some (stop, stopDistance user stop)
      | some (nearestStop, minDistance) =>
        if stopDistance user stop < minDistance then some (stop, stopDistance user stop)
        else some (nearestStop, minDistance) := by
  unfold nearestStep stopDistance
  simp [h.1, h.2]

theorem firstNearest_step {α : Type} (user : GeoPoint) (pre : List (Stop α)) (x : Stop α)
    (hx : fieldTruthy x.latitude = true ∧ fieldTruthy x.longitude = true)
    (state : Option (Stop α × ℝ))
    (h : match state with
      | none => pre = []
      | some (s, d) => FirstNearest (stopDistance user) pre s d) :
    match nearestStep user state x with
    | none => False
    | some (s, d) => FirstNearest (stopDistance user) (pre ++ [x]) s d := by
  rw [nearestStep_of_truthy user state x hx]
  cases state with
  | none =>
    dsimp only at h ⊢
    subst h
    exact ⟨[], [], rfl, rfl, by simp, by simp⟩
  | some p =>
    obtain ⟨s, d⟩ := p
    dsimp only at h ⊢
    obtain ⟨before, after, hpre, hd, hb, ha⟩ := h
    by_cases hlt : stopDistance user x < d
    · rw [if_pos hlt]
      refine ⟨pre, [], rfl, rfl, ?_, by simp⟩
      intro t ht
      rw [hpre] at ht
      rcases List.mem_append.1 ht with ht | ht
      · exact lt_trans hlt (hb t ht)
      · rcases List.mem_cons.1 ht with rfl | ht
        · rw [← hd]; exact hlt
        · exact lt_of_lt_of_le hlt (ha t ht)
    · rw [if_neg hlt]
      refine ⟨before, after ++ [x], by rw [hpre]; simp, hd, hb, ?_⟩
      intro t ht
      rcases List.mem_append.1 ht with ht | ht
      · exact ha t ht
      · rw [List.mem_singleton.1 ht]
        exact not_lt.1 hlt

theorem firstNearest_foldl {α : Type} (user : GeoPoint) (l : List (Stop α)) :
    ∀ (pre : List (Stop α)) (state : Option (Stop α × ℝ)),
      (∀ s ∈ l, fieldTruthy s.latitude = true ∧ fieldTruthy s.longitude = true) →
      (match state with
        | none => pre = []
        | some (s, d) => FirstNearest (stopDistance user) pre s d) →
      match l.foldl (nearestStep user) state with
      | none => pre ++ l = []
      | some (s, d) => FirstNearest (stopDistance user) (pre ++ l) s d := by
  induction l with
  | nil =>
    intro pre state _ h
    simp only [List.foldl_nil, List.append_nil]
    exact h
  | cons x xs ih =>
    intro pre state hl h
    have hstep := firstNearest_step user pre x (hl x (List.mem_cons_self _ _)) state h
    have := ih (pre ++ [x]) (nearestStep user state x)
      (fun s hs => hl s (List.mem_cons_of_mem _ hs))
    rw [List.foldl_cons, show pre ++ x :: xs = pre ++ [x] ++ xs from by simp]
    apply this
    cases hn : nearestStep user state x with
    | none => rw [hn] at hstep; exact absurd hstep id
    | some p => rw [hn] at hstep; exact hstep

theorem findNearestStop_of_gate_open {α : Type} (loc : UserLocation) (lat lng : ℝ)
    (hlat : loc.latitude = some lat) (hlng : loc.longitude = some lng)
    (hlat0 : lat ≠ 0) (hlng0 : lng ≠ 0) (hacc : ∀ a, loc.accuracy = some a → a ≤ 50)
    (stops : List (Stop α)) :
    findNearestStop (some loc) stops =
      match stops.foldl (nearestStep { latitude := lat, longitude := lng }) none with
      | none => none
      | some (nearestStop, minDistance) =>
        some { stop := nearestStop, distance := mathRound minDistance,
               bearing := mathRound (calculateBearing { latitude := lat, longitude := lng }
                 (pointOf nearestStop.latitude nearestStop.longitude)),
               direction := bearingToCardinal (calculateBearing
                 { latitude := lat, longitude := lng }
                 (pointOf nearestStop.latitude nearestStop.longitude)) } := by
  unfold findNearestStop
  have h1 : fieldTruthy loc.latitude = true := by simp [fieldTruthy, hlat, hlat0]
  have h2 : fieldTruthy loc.longitude = true := by simp [fieldTruthy, hlng, hlng0]
  have h3 : (fieldTruthy loc.accuracy && decide (loc.accuracy.getD 0 > 50)) = false := by
    cases hacc2 : loc.accuracy with
    | none => simp [fieldTruthy]
    | some a =>
      have := hacc a hacc2
      simp only [Option.getD_some, Bool.and_eq_false_imp]
      intro _
      simp only [gt_iff_lt, decide_eq_false_iff_not, not_lt]
      exact this
  have hp : pointOf loc.latitude loc.longitude = { latitude := lat, longitude := lng } := by
    simp [pointOf, hlat, hlng]
  simp only [h1, h2, h3, Bool.not_true, Bool.or_self, Bool.false_eq_true, if_false, hp]

/-- Over the real numbers, without the rounding of binary64 (for that see
`Binary64.findNearestStop`): for every user location that passes the validity
gate (non-zero latitude and longitude, accuracy absent or at most 50) and every
stop list
whose stops all have non-zero latitude and longitude, `findNearestStop`
returns `null` if and only if the list is empty, and otherwise returns the
first stop in list order whose Haversine distance to the user is minimal over
the whole list, with `distance` equal to that minimum rounded to the nearest
metre. -/
theorem findNearestStop_spec {α : Type} (loc : UserLocation) (lat lng : ℝ)
    (hlat : loc.latitude = some lat) (hlng : loc.longitude = some lng)
    (hlat0 : lat ≠ 0) (hlng0 : lng ≠ 0) (hacc : ∀ a, loc.accuracy = some a → a ≤ 50)
    (stops : List (Stop α))
    (hstops : ∀ s ∈ stops, fieldTruthy s.latitude = true ∧ fieldTruthy s.longitude = true) :
    (findNearestStop (some loc) stops = none ↔ stops = []) ∧
    ∀ res, findNearestStop (some loc) stops = some res →
      FirstNearest (stopDistance { latitude := lat, longitude := lng }) stops res.stop
          (stopDistance { latitude := lat, longitude := lng } res.stop) ∧
        res.distance = mathRound (stopDistance { latitude := lat, longitude := lng } res.stop)
    := by
  rw [findNearestStop_of_gate_open loc lat lng hlat hlng hlat0 hlng0 hacc]
  have hfold := firstNearest_foldl { latitude := lat, longitude := lng } stops [] none hstops rfl
  rw [List.nil_append] at hfold
  cases hf : stops.foldl (nearestStep { latitude := lat, longitude := lng }) none with
  | none =>
    rw [hf] at hfold
    dsimp only at hfold ⊢
    exact ⟨⟨fun _ => hfold, fun _ => rfl⟩, fun res h => by cases h⟩
  | some p =>
    obtain ⟨s, d⟩ := p
    rw [hf] at hfold
    dsimp only at hfold ⊢
    have hd : d = stopDistance { latitude := lat, longitude := lng } s := by
      obtain ⟨_, _, _, hd, _, _⟩ := hfold
      exact hd
    constructor
    · constructor
      · intro h
        cases h
      · intro h
        obtain ⟨before, after, hst, _⟩ := hfold
        rw [h] at hst
        exact absurd hst (by simp)
    · intro res hres
      simp only [Option.some.injEq] at hres
      subst hres
      dsimp only
      rw [← hd]
      exact ⟨hfold, rfl⟩

/-- An instance of `findNearestStop_spec`: a user at `(44.96544, 9.58337)`
with accuracy 10 and two stops, the second at the place of the user. -/
theorem findNearestStop_spec_witness :
    (findNearestStop (some nearUser) nearStops = none ↔ nearStops = []) ∧
    ∀ res, findNearestStop (some nearUser) nearStops = some res →
      FirstNearest (stopDistance { latitude := 4496544 / 100000, longitude := 958337 / 100000 })
          nearStops res.stop
          (stopDistance { latitude := 4496544 / 100000, longitude := 958337 / 100000 }
            res.stop) ∧
        res.distance = mathRound
          (stopDistance { latitude := 4496544 / 100000, longitude := 958337 / 100000 }
            res.stop) :=
  findNearestStop_spec nearUser (4496544 / 100000) (958337 / 100000) rfl rfl (by norm_num)
    (by norm_num)
    (fun a h => by
      simp only [nearUser, Option.some.injEq] at h
      rw [← h]
      norm_num)
    nearStops
    (fun s hs => by
      simp only [nearStops, List.mem_cons, List.mem_singleton, List.mem_nil_iff, or_false] at hs
      rcases hs with rfl | rfl <;> constructor <;> simp [fieldTruthy])

/-! ## Navigation information (C14) -/

theorem importBinding_haversineDistance {α : Type} (value : α) :
    importBinding gpsMarkerServiceExports "haversineDistance" value = none := by
  unfold importBinding gpsMarkerServiceExports
  rw [if_neg (by decide)]

theorem calculateNavigationInfo_unavailable {α : Type} (toFixed1 : ℝ → String)
    (stop : Stop α) (userLocation : Option UserLocation)
    (h : (∀ u, userLocation = some u →
        fieldTruthy u.latitude = false ∨ fieldTruthy u.longitude = false) ∨
      fieldTruthy stop.latitude = false ∨ fieldTruthy stop.longitude = false) :
    ∃ info, calculateNavigationInfo toFixed1 stop userLocation = .ok info ∧
      info.canNavigate = false ∧ info.distance = none ∧ info.distanceText ≠ "" := by
  unfold calculateNavigationInfo
  cases userLocation with
  | none => exact ⟨_, rfl, rfl, rfl, by decide⟩
  | some u =>
    dsimp only
    split
    · exact ⟨_, rfl, rfl, rfl, by decide⟩
    · rename_i hu
      split
      · exact ⟨_, rfl, rfl, rfl, by decide⟩
      · rename_i hs
        exfalso
        rcases h with h | h | h
        · rcases h u rfl with h | h <;> simp [h] at hu
        · simp [h] at hs
        · simp [h] at hs

/-- C14 (the behaviour of the code). For every stop and every user location
whose latitude and longitude are all present and non-zero,
`calculateNavigationInfo` does not return: the binding `haversineDistance` it
imports from GPSMarkerService.js is not exported there, and calling it throws
a `TypeError`. -/
theorem calculateNavigationInfo_throws {α : Type} (toFixed1 : ℝ → String)
    (stop : Stop α) (u : UserLocation)
    (hu : fieldTruthy u.latitude = true ∧ fieldTruthy u.longitude = true)
    (hs : fieldTruthy stop.latitude = true ∧ fieldTruthy stop.longitude = true) :
    calculateNavigationInfo toFixed1 stop (some u) =
      .error "TypeError: haversineDistance is not a function" := by
  unfold calculateNavigationInfo
  simp only [hu.1, hu.2, hs.1, hs.2, Bool.not_true, Bool.or_self, Bool.false_eq_true,
    if_false, importBinding_haversineDistance]
  rfl

/-- C14, the failing input: the stop `navStop` and the user `nearUser`, some
ten metres apart. -/
theorem calculateNavigationInfo_throws_witness :
    calculateNavigationInfo (fun _ => "") navStop (some nearUser) =
      .error "TypeError: haversineDistance is not a function" :=
  calculateNavigationInfo_throws (fun _ => "") navStop nearUser
    ⟨by simp [nearUser, fieldTruthy], by simp [nearUser, fieldTruthy]⟩
    ⟨by simp [navStop, fieldTruthy], by simp [navStop, fieldTruthy]⟩

/-! ## Placemarks in folders (C16) -/

/-- C16 (the behaviour of the code). `findPlacemarks` reads
`document.Folder.Placemark` on whatever `document.Folder` is. One `Folder`
element with two placemarks gives both of them; two `Folder` elements are an
array, which has no property `Placemark`, so that nothing is collected from
them, and `parseKML` returns the document with no route at all, for every
`parseFloat` and every clock. -/
theorem findPlacemarks_two_folders :
    findPlacemarks oneFolderDocument = .ok [lineA, lineB] ∧
    findPlacemarks twoFolderDocument = .ok [] ∧
    ∀ (E : Engine) (clock : ℕ → ℕ), ∃ d,
      parseKML E (fun _ => .ok twoFolderTree) clock (.str "<kml/>") = .ok d ∧
        d.routes = [] := by
  refine ⟨rfl, rfl, fun E clock => ?_⟩
  have h : extractRoutes E clock twoFolderDocument = [] := rfl
  exact ⟨_, rfl, h⟩

/-! ## Validator: statistics of a document without a route array (C19) -/

/-- C19 (the behaviour of the code). On a document with metadata and no field
`routes`, `validateRoutes` reads `routes.length` on `undefined` and throws, the
`catch` block of `validateKML` returns the result, and
`calculateValidationStats` has never run: the fields `averagePointsPerRoute`
and `stopCount` of the returned statistics are absent. When `routes` is an
object that is not an array, `routeCount` is set to `routes.length`, which is
`undefined`, before the loop over the routes throws. -/
theorem validateKML_stats_absent (E : Engine) (P : Printer) :
    (∃ r, validateKML E P noRoutesDocument = .returns r ∧ r.isValid = false ∧
      r.stats.averagePointsPerRoute = none ∧ r.stats.stopCount = none) ∧
    (∃ r, validateKML E P objectRoutesDocument = .returns r ∧ r.isValid = false ∧
      r.stats.routeCount = .undefined ∧
      r.stats.averagePointsPerRoute = none ∧ r.stats.stopCount = none) := by
  constructor
  · exact ⟨_, rfl, rfl, rfl, rfl⟩
  · exact ⟨_, rfl, rfl, rfl, rfl, rfl⟩

/-! ## Parser: the routes of a parsed document (C15) -/

theorem parseCoordinates_mem (E : Engine) (v : JSVal) (p : Coordinate)
    (h : p ∈ parseCoordinates E v) :
    p.latitude.InRange (-90) 90 ∧ p.longitude.InRange (-180) 180 := by
  unfold parseCoordinates at h
  split at h
  · cases h
  · split at h
    · rw [foldl_parseCoordinatesStep, List.nil_append, List.mem_filterMap] at h
      obtain ⟨token, _, hp⟩ := h
      unfold specPoint at hp
      split at hp
      · dsimp only at hp
        split at hp
        · rename_i hr
          cases hp
          exact ⟨hr.2, hr.1⟩
        · cases hp
      · cases hp
    · cases h

theorem parseRoute_ok (E : Engine) (now : ℕ) (placemark : JSVal) (r : Route)
    (h : parseRoute E now placemark = some r) : RouteOk r := by
  unfold parseRoute at h
  split at h
  · rename_i o hbody
    subst h
    unfold parseRouteBody at hbody
    simp only [bind, Except.bind, pure, Except.pure] at hbody
    repeat' split at hbody
    all_goals try cases hbody
    all_goals
      refine ⟨?_, rfl, fun p hp => parseCoordinates_mem E _ p hp⟩
      show 2 ≤ (parseCoordinates E _).length
      omega
  · cases h

theorem extractRoutesLoop_ok (E : Engine) (clock : ℕ → ℕ) (placemarks : List JSVal) :
    ∀ (i : ℕ) (routes out : List Route), (∀ r ∈ routes, RouteOk r) →
      extractRoutesLoop E clock placemarks i routes = .ok out → ∀ r ∈ out, RouteOk r := by
  induction placemarks with
  | nil =>
    intro i routes out hroutes h
    unfold extractRoutesLoop at h
    cases h
    exact hroutes
  | cons placemark rest ih =>
    intro i routes out hroutes h
    unfold extractRoutesLoop at h
    simp only [bind, Except.bind, pure, Except.pure] at h
    repeat' split at h
    all_goals try first
      | cases h
      | exact ih _ _ _ hroutes h
    all_goals
      refine ih _ _ _ ?_ h
      intro r hr
      rcases List.mem_append.1 hr with hr | hr
      · exact hroutes r hr
      · rw [List.mem_singleton.1 hr]
        exact parseRoute_ok E _ _ _ (by assumption)

theorem extractRoutes_ok (E : Engine) (clock : ℕ → ℕ) (document : JSVal) :
    ∀ r ∈ extractRoutes E clock document, RouteOk r := by
  unfold extractRoutes
  split
  · rename_i routes h
    simp only [bind, Except.bind] at h
    split at h
    · cases h
    · exact extractRoutesLoop_ok E clock _ 0 [] routes (fun _ hr => by cases hr) h
  · intro r hr
    cases hr

theorem parseKML_routes (E : Engine) (xmlParse : String → Except String JSVal)
    (clock : ℕ → ℕ) (v : JSVal) (d : ParsedKML)
    (h : parseKML E xmlParse clock v = .ok d) :
    ∃ document, d.routes = extractRoutes E clock document := by
  unfold parseKML at h
  split at h
  · rename_i d1 hbody
    cases h
    unfold parseKMLBody at hbody
    simp only [bind, Except.bind, pure, Except.pure] at hbody
    repeat' split at hbody
    all_goals try cases hbody
    all_goals
      exact ⟨_, rfl⟩
  · cases h

theorem extractRoutesLoop_congr (E : Engine) (clock clock1 : ℕ → ℕ) (placemarks : List JSVal) :
    ∀ (i j : ℕ) (routes : List Route),
      (∀ k, k < placemarks.length → clock (i + k) = clock1 (j + k)) →
      extractRoutesLoop E clock placemarks i routes =
        extractRoutesLoop E clock1 placemarks j routes := by
  induction placemarks with
  | nil =>
    intro i j routes _
    rfl
  | cons placemark rest ih =>
    intro i j routes h
    have h0 : clock i = clock1 j := by simpa using h 0 (by simp)
    have hrest : ∀ routes1, extractRoutesLoop E clock rest (i + 1) routes1 =
        extractRoutesLoop E clock1 rest (j + 1) routes1 := fun routes1 =>
      ih (i + 1) (j + 1) routes1 (fun k hk => by
        have := h (k + 1) (by simpa using hk)
        rw [show i + 1 + k = i + (k + 1) by omega, show j + 1 + k = j + (k + 1) by omega]
        exact this)
    rw [extractRoutesLoop, extractRoutesLoop]
    simp only [h0, hrest]

theorem parseRoute_none_of_few (E : Engine) (now : ℕ) (placemark lineString c : JSVal)
    (hls : getProp placemark "LineString" = .ok lineString)
    (hc : getProp lineString "coordinates" = .ok c)
    (hfew : (parseCoordinates E c).length < 2) :
    parseRoute E now placemark = none := by
  unfold parseRoute
  split
  · rename_i o hbody
    unfold parseRouteBody at hbody
    simp only [bind, Except.bind, pure, Except.pure, hls, hc, hfew, if_true] at hbody
    repeat' split at hbody
    all_goals try cases hbody
    all_goals rfl
  · rfl

theorem extractRoutesLoop_skip (E : Engine) (clock : ℕ → ℕ) (bad lineString c : JSVal)
    (hls : getProp bad "LineString" = .ok lineString)
    (hc : getProp lineString "coordinates" = .ok c)
    (hfew : (parseCoordinates E c).length < 2)
    (rest : List JSVal) (i : ℕ) (routes : List Route) :
    extractRoutesLoop E clock (bad :: rest) i routes =
      extractRoutesLoop E clock rest (i + 1) routes := by
  rw [extractRoutesLoop]
  simp only [bind, Except.bind, pure, Except.pure, hls]
  split
  · rename_i hT
    simp only [hc]
    split
    · rw [parseRoute_none_of_few E _ bad lineString c hls hc hfew]
    · rfl
  · rfl

theorem extractRoutesLoop_drop (E : Engine) (clock : ℕ → ℕ) (bad lineString c : JSVal)
    (hls : getProp bad "LineString" = .ok lineString)
    (hc : getProp lineString "coordinates" = .ok c)
    (hfew : (parseCoordinates E c).length < 2)
    (post : List JSVal) (pre : List JSVal) :
    ∀ (i : ℕ) (routes : List Route),
      extractRoutesLoop E clock (pre ++ bad :: post) i routes =
        extractRoutesLoop E (skipClock clock (i + pre.length)) (pre ++ post) i routes := by
  induction pre with
  | nil =>
    intro i routes
    rw [List.nil_append, List.nil_append,
      extractRoutesLoop_skip E clock bad lineString c hls hc hfew]
    refine extractRoutesLoop_congr E _ _ post _ _ routes (fun k _ => ?_)
    unfold skipClock
    rw [if_neg (by simp), show i + 1 + k = i + k + 1 by omega]
  | cons placemark pre ih =>
    intro i routes
    have hclock : skipClock clock (i + (placemark :: pre).length) i = clock i := by
      unfold skipClock
      rw [if_pos (by simp)]
    have hih : ∀ routes1, extractRoutesLoop E clock (pre ++ bad :: post) (i + 1) routes1 =
        extractRoutesLoop E (skipClock clock (i + (placemark :: pre).length)) (pre ++ post)
          (i + 1) routes1 := fun routes1 => by
      rw [ih (i + 1) routes1, show i + 1 + pre.length = i + (placemark :: pre).length by
        simp; omega]
    rw [List.cons_append, List.cons_append, extractRoutesLoop, extractRoutesLoop]
    simp only [hclock, hih]

/-- C15. Every route of a document that `parseKML` returns has a path of at
least 2 points, each with a latitude in `[-90, 90]` and a longitude in
`[-180, 180]`, and a `pointCount` equal to the length of its path. A placemark
whose `LineString.coordinates` gives fewer than 2 valid points contributes no
route and leaves the routes of the other placemarks as they are: the routes of
a document whose placemarks are `pre ++ bad :: post` are those of a document
whose placemarks are `pre ++ post`, the clock being read at the same
placemarks in both runs. -/
theorem parseKML_routes_ok (E : Engine) (xmlParse : String → Except String JSVal)
    (clock : ℕ → ℕ) :
    (∀ v d, parseKML E xmlParse clock v = .ok d → ∀ r ∈ d.routes, RouteOk r) ∧
    (∀ pre bad post lineString c document document1,
      getProp bad "LineString" = .ok lineString →
      getProp lineString "coordinates" = .ok c →
      (parseCoordinates E c).length < 2 →
      findPlacemarks document = .ok (pre ++ bad :: post) →
      findPlacemarks document1 = .ok (pre ++ post) →
      extractRoutes E clock document =
        extractRoutes E (skipClock clock pre.length) document1) := by
  constructor
  · intro v d h r hr
    obtain ⟨document, hd⟩ := parseKML_routes E xmlParse clock v d h
    rw [hd] at hr
    exact extractRoutes_ok E clock document r hr
  · intro pre bad post lineString c document document1 hls hc hfew hd hd1
    unfold extractRoutes
    rw [hd, hd1]
    simp only [bind, Except.bind]
    rw [extractRoutesLoop_drop E clock bad lineString c hls hc hfew post pre 0 [],
      Nat.zero_add]

/-- C15, witness: the document with the placemarks `lineA`, `badLine`, `lineB`
has the routes of the document with `lineA`, `lineB`. -/
theorem parseKML_routes_ok_witness :
    extractRoutes decimalEngine (fun _ => 0) mixedDocument =
      extractRoutes decimalEngine (skipClock (fun _ => 0) [lineA].length) cleanDocument :=
  (parseKML_routes_ok decimalEngine (fun _ => .ok mixedTree) (fun _ => 0)).2
    [lineA] badLine [lineB] (.obj [("coordinates", .str "abc")]) (.str "abc")
    mixedDocument cleanDocument rfl rfl (by decide) rfl rfl

/-! ## Parser: failures of `parseKML` (C17) -/

theorem parseKML_error_shape (E : Engine) (xmlParse : String → Except String JSVal)
    (clock : ℕ → ℕ) (v : JSVal) (msg : String)
    (h : parseKML E xmlParse clock v = .error msg) :
    ∃ m, msg = "Errore parsing KML: " ++ m := by
  unfold parseKML at h
  split at h
  · cases h
  · rename_i m _
    cases h
    exact ⟨m, rfl⟩

theorem parseKML_invalid_content (E : Engine) (xmlParse : String → Except String JSVal)
    (clock : ℕ → ℕ) (v : JSVal) (h : ∀ s, v = .str s → s.data = []) :
    parseKML E xmlParse clock v = .error "Errore parsing KML: Contenuto KML non valido" := by
  unfold parseKML parseKMLBody
  cases v with
  | str s =>
    have hs := h s rfl
    simp [JSVal.truthy, hs]
    rfl
  | _ => rfl

theorem parseKML_no_document (E : Engine) (xmlParse : String → Except String JSVal)
    (clock : ℕ → ℕ) (content : String) (tree kml : JSVal)
    (hcontent : content.data ≠ []) (htree : xmlParse content = .ok tree)
    (hkml : getProp tree "kml" = .ok kml)
    (h : kml.truthy = false ∨ ∃ doc, getProp kml "Document" = .ok doc ∧ doc.truthy = false) :
    parseKML E xmlParse clock (.str content) =
      .error "Errore parsing KML: Struttura KML non valida: manca Document" := by
  have hbody : parseKMLBody E xmlParse clock (.str content) =
      .error "Struttura KML non valida: manca Document" := by
    have hc : (JSVal.str content).truthy = true := by simp [JSVal.truthy, hcontent]
    unfold parseKMLBody
    simp only [hc, Bool.not_true, Bool.false_eq_true, if_false]
    rw [htree]
    simp only [bind, Except.bind, pure, Except.pure, hkml]
    rcases h with h | ⟨doc, hdoc, h⟩
    · simp only [h, Bool.not_false, if_true]
    · by_cases hk : kml.truthy = true
      · simp only [hk, hdoc, h, Bool.not_true, Bool.not_false, Bool.false_eq_true, if_false,
          if_true]
      · rw [Bool.not_eq_true] at hk
        simp only [hk, Bool.not_false, if_true]
  unfold parseKML
  rw [hbody]
  rfl

theorem parseKML_of_document (E : Engine) (xmlParse : String → Except String JSVal)
    (clock : ℕ → ℕ) (content : String) (tree kml document : JSVal)
    (hcontent : content.data ≠ []) (htree : xmlParse content = .ok tree)
    (hkml : getProp tree "kml" = .ok kml) (hkmlT : kml.truthy = true)
    (hdoc : getProp kml "Document" = .ok document) (hdocT : document.truthy = true)
    (hname : ∀ name, getProp document "name" = .ok name →
      name = .undefined ∨ name.isString = true) :
    ∃ d, parseKML E xmlParse clock (.str content) = .ok d ∧ d.rawDocument = document ∧
      d.routes = extractRoutes E clock document ∧ d.stops = [] := by
  obtain ⟨name, hn⟩ := getProp_ok_of_truthy document "name" hdocT
  obtain ⟨description, hd⟩ := getProp_ok_of_truthy document "description" hdocT
  have hs : ∃ s, orElse name (.str "Percorso Sconosciuto") = .str s := by
    rcases hname name hn with h | h
    · subst h
      exact ⟨_, rfl⟩
    · cases name <;> simp [JSVal.isString] at h
      rename_i s
      exact ⟨_, orElse_name s⟩
  obtain ⟨s, hs⟩ := hs
  have hc : (JSVal.str content).truthy = true := by simp [JSVal.truthy, hcontent]
  unfold parseKML parseKMLBody
  simp only [hc, Bool.not_true, Bool.false_eq_true, if_false]
  rw [htree]
  simp only [bind, Except.bind, pure, Except.pure, hkml, hkmlT, hdoc, hdocT, hn, hd, hs,
    Bool.not_true, Bool.false_eq_true, if_false]
  exact ⟨_, rfl, rfl, rfl, rfl⟩

/-- C17. `parseKML` fails with the message
`Errore parsing KML: Contenuto KML non valido` when the content is not a
string or is the empty string, and with
`Errore parsing KML: Struttura KML non valida: manca Document` when the parsed
tree has no (truthy) `kml` or no (truthy) `kml.Document`; every message of a
failure starts with `Errore parsing KML: `. For every non-empty content whose
tree has `kml.Document` with a name that is a string or absent, `parseKML`
returns a document, whatever the placemarks are: its routes are those of
`extractRoutes`, which never throws. -/
theorem parseKML_failures (E : Engine) (xmlParse : String → Except String JSVal)
    (clock : ℕ → ℕ) :
    (∀ v, (∀ s, v = .str s → s.data = []) →
      parseKML E xmlParse clock v = .error "Errore parsing KML: Contenuto KML non valido") ∧
    (∀ content tree kml, content.data ≠ [] → xmlParse content = .ok tree →
      getProp tree "kml" = .ok kml →
      (kml.truthy = false ∨ ∃ doc, getProp kml "Document" = .ok doc ∧ doc.truthy = false) →
      parseKML E xmlParse clock (.str content) =
        .error "Errore parsing KML: Struttura KML non valida: manca Document") ∧
    (∀ v msg, parseKML E xmlParse clock v = .error msg →
      ∃ m, msg = "Errore parsing KML: " ++ m) ∧
    (∀ content tree kml document, content.data ≠ [] → xmlParse content = .ok tree →
      getProp tree "kml" = .ok kml → kml.truthy = true →
      getProp kml "Document" = .ok document → document.truthy = true →
      (∀ name, getProp document "name" = .ok name →
        name = .undefined ∨ name.isString = true) →
      ∃ d, parseKML E xmlParse clock (.str content) = .ok d ∧ d.rawDocument = document ∧
        d.routes = extractRoutes E clock document ∧ d.stops = []) :=
  ⟨parseKML_invalid_content E xmlParse clock,
   fun content tree kml => parseKML_no_document E xmlParse clock content tree kml,
   parseKML_error_shape E xmlParse clock,
   fun content tree kml document =>
     parseKML_of_document E xmlParse clock content tree kml document⟩

/-- C17, witness: the document with the three placemarks `lineA`, `badLine`,
`lineB` has `kml.Document` with a string name, and `parseKML` returns a
document for it. -/
theorem parseKML_failures_witness :
    ∃ d, parseKML decimalEngine (fun _ => .ok mixedTree) (fun _ => 0) (.str "<kml/>") =
        .ok d ∧ d.rawDocument = mixedDocument ∧
      d.routes = extractRoutes decimalEngine (fun _ => 0) mixedDocument ∧ d.stops = [] :=
  (parseKML_failures decimalEngine (fun _ => .ok mixedTree) (fun _ => 0)).2.2.2
    "<kml/>" mixedTree (.obj [("Document", mixedDocument)]) mixedDocument
    (by decide) rfl rfl rfl rfl rfl
    (fun name h => by
      cases h
      exact Or.inr rfl)

/-! ## Validator: the statistics (C20) -/

theorem keepsStats_pure {α : Type} (a : α) : KeepsStats (pure a : Eff α) :=
  fun _ => rfl

theorem keepsStats_liftE {α : Type} (e : Except String α) : KeepsStats (liftE e) := by
  intro r
  cases e <;> rfl

theorem keepsStats_pushError (msg : String) : KeepsStats (pushError msg) :=
  fun _ => rfl

theorem keepsStats_pushWarning (msg : String) : KeepsStats (pushWarning msg) :=
  fun _ => rfl

theorem keepsStats_loopForever {α : Type} : KeepsStats (loopForever : Eff α) :=
  fun _ => trivial

theorem keepsStats_bind {α β : Type} {m : Eff α} {f : α → Eff β}
    (hm : KeepsStats m) (hf : ∀ a, KeepsStats (f a)) : KeepsStats (m >>= f) := by
  intro r
  change match Eff.bind m f r with
    | .ok _ r1 => r1.stats = r.stats
    | .throws _ r1 => r1.stats = r.stats
    | .diverges => True
  unfold Eff.bind
  have h1 := hm r
  cases hmr : m r with
  | ok a r1 =>
    rw [hmr] at h1
    have h2 := hf a r1
    dsimp only at h1 ⊢
    cases hfr : f a r1 with
    | ok b r2 =>
      rw [hfr] at h2
      exact h2.trans h1
    | throws msg r2 =>
      rw [hfr] at h2
      exact h2.trans h1
    | diverges => trivial
  | throws msg r1 =>
    rw [hmr] at h1
    exact h1
  | diverges => trivial

theorem keepsStats_forIndex {body : ℕ → Eff Unit} (hb : ∀ i, KeepsStats (body i))
    (start n : ℕ) : KeepsStats (forIndex body start n) := by
  induction n generalizing start with
  | zero => exact keepsStats_pure ()
  | succ n ih =>
    unfold forIndex
    exact keepsStats_bind (hb start) (fun _ => ih (start + 1))

theorem checkDenseAt_keepsStats (E : Engine) (P : Printer) (routes : JSVal) (i : ℕ) :
    KeepsStats (checkDenseAt E P routes i) := by
  unfold checkDenseAt
  repeat' first
    | exact keepsStats_pure _
    | exact keepsStats_liftE _
    | exact keepsStats_pushWarning _
    | refine keepsStats_bind ?_ (fun _ => ?_)
    | split

theorem checkDenseRoutes_keepsStats (E : Engine) (P : Printer) (v : JSVal) :
    KeepsStats (checkDenseRoutes E P v) := by
  unfold checkDenseRoutes
  repeat' first
    | exact keepsStats_pure _
    | exact keepsStats_liftE _
    | exact keepsStats_forIndex (checkDenseAt_keepsStats _ _ _) _ _
    | exact keepsStats_loopForever
    | refine keepsStats_bind ?_ (fun _ => ?_)
    | split

theorem countedPath_eq (route : JSVal) :
    countedPath route =
      if route.truthy then
        match getProp route "path" with
        | .ok (.arr points) => if 2 ≤ points.length then some points.length else none
        | _ => none
      else none := by
  cases route with
  | undefined => rfl
  | null => rfl
  | bool b => cases b <;> rfl
  | num n => by_cases h : n.truthy = true <;> simp [countedPath, JSVal.truthy, getProp, h]
  | str s =>
    by_cases h : s.data = [] <;>
      simp [countedPath, JSVal.truthy, getProp, h, show ¬ ("path" = "length") by decide]
  | arr items =>
    simp [countedPath, JSVal.truthy, getProp, show ¬ ("path" = "length") by decide]
  | obj fields => simp [countedPath, JSVal.truthy]

theorem countRoute_stats (route : JSVal) (r : ValidationResult) :
    ∃ r1, countRoute route r = .ok () r1 ∧
      r1.stats = { r.stats with
        validRoutes := r.stats.validRoutes + (countedPath route).toList.length,
        totalPoints := r.stats.totalPoints + (countedPath route).toList.sum } := by
  rw [countedPath_eq]
  unfold countRoute
  by_cases ht : route.truthy = true
  · simp only [ht, Bool.not_true, Bool.false_eq_true, if_false, if_true]
    split
    · split
      · exact ⟨_, rfl, by simp⟩
      · exact ⟨_, rfl, by simp⟩
    · exact ⟨_, rfl, by simp⟩
  · simp only [ht, Bool.not_eq_true] at *
    simp [ht]

theorem forEach_countRoute_stats (rs : List JSVal) (r : ValidationResult) :
    ∃ r1, forEach countRoute rs r = .ok () r1 ∧
      r1.stats = { r.stats with
        validRoutes := r.stats.validRoutes + (rs.filterMap countedPath).length,
        totalPoints := r.stats.totalPoints + (rs.filterMap countedPath).sum } := by
  induction rs generalizing r with
  | nil => exact ⟨r, rfl, rfl⟩
  | cons x xs ih =>
    obtain ⟨r1, h1, hs1⟩ := countRoute_stats x r
    obtain ⟨r2, h2, hs2⟩ := ih r1
    refine ⟨r2, ?_, ?_⟩
    · unfold forEach Eff.bind
      rw [h1]
      exact h2
    · rw [hs2, hs1]
      cases hx : countedPath x
      · simp [List.filterMap_cons, hx]
      · simp only [List.filterMap_cons, hx, Option.toList_some, List.sum_cons, List.sum_nil,
          List.length_cons, List.length_nil, Stats.mk.injEq, true_and]
        exact ⟨by omega, by omega, trivial⟩

theorem calculateValidationStats_stats (fields : List (String × JSVal)) (rs : List JSVal)
    (hroutes : getProp (.obj fields) "routes" = .ok (.arr rs)) (r : ValidationResult) :
    ∃ r1 stopCount, calculateValidationStats (.obj fields) r = .ok () r1 ∧
      r1.stats = { routeCount := .num (.ofNat rs.length),
                   validRoutes := (rs.filterMap countedPath).length,
                   totalPoints := (rs.filterMap countedPath).sum,
                   averagePointsPerRoute :=
                     some (averagePoints (rs.filterMap countedPath).sum rs.length),
                   stopCount := some stopCount } ∧
      (∀ items, getProp (.obj fields) "stops" = .ok (.arr items) →
        stopCount = .num (.ofNat items.length)) ∧
      (∀ stops, getProp (.obj fields) "stops" = .ok stops → stops.truthy = false →
        stopCount = .num (.fin 0)) := by
  unfold calculateValidationStats
  rw [hroutes, liftE_ok_bind]
  rw [if_pos (show (JSVal.arr rs).truthy = true from rfl)]
  rw [show getProp (JSVal.arr rs) "length" = .ok (.num (.ofNat rs.length)) from by simp [getProp],
    liftE_ok_bind, modifyStats_bind]
  rw [show iterate (JSVal.arr rs) = .ok rs from rfl, liftE_ok_bind]
  obtain ⟨r1, h1, hs1⟩ := forEach_countRoute_stats rs { r with stats := { r.stats with
    routeCount := .num (.ofNat rs.length), validRoutes := 0, totalPoints := 0 } }
  rw [bind_ok h1, modifyStats_bind]
  obtain ⟨stops0, hst⟩ : ∃ s, getProp (JSVal.obj fields) "stops" = .ok s := ⟨_, rfl⟩
  rw [hst, liftE_ok_bind]
  by_cases hs : stops0.truthy = true
  · obtain ⟨x, hx⟩ := getProp_ok_of_truthy _ "length" hs
    rw [if_pos hs, hx, liftE_ok_bind]
    refine ⟨_, x, rfl, ?_, ?_, ?_⟩
    · simp [modifyStats, hs1]
    · intro items hitems
      cases hitems
      simp [getProp] at hx
      exact hx.symm
    · intro stops hstops hf
      cases hstops
      rw [hf] at hs
      cases hs
  · rw [if_neg hs]
    refine ⟨_, .num (.fin 0), rfl, ?_, ?_, ?_⟩
    · simp [modifyStats, hs1]
    · intro items hitems
      cases hitems
      exact absurd rfl hs
    · intro _ _ _
      rfl

theorem averagePoints_round (a b : ℕ) (hb : 0 < b) :
    ((averagePoints a b : ℕ) : ℤ) = ⌊(a : ℚ) / b + 1 / 2⌋ := by
  unfold averagePoints roundDiv
  rw [if_pos hb]
  have hb0 : (b : ℚ) ≠ 0 := Nat.cast_ne_zero.2 (by omega)
  have h : (a : ℚ) / b + 1 / 2 = ((2 * a + b : ℕ) : ℚ) / ((2 * b : ℕ) : ℚ) := by
    push_cast
    field_simp
    ring
  rw [h, Rat.floor_natCast_div_natCast]
  norm_cast

theorem averagePoints_zero (a : ℕ) : averagePoints a 0 = 0 := rfl

/-- C20. For every parsed document (an object whose metadata name, route names
and stop names are strings or absent, whose stop coordinates are numbers or
absent, and whose `routes` is an array), `validateKML` returns a result whose
statistics are: `routeCount` the length of `routes`; `validRoutes` the number
of routes that are not null and have a path that is an array of at least 2
points; `totalPoints` the sum of the path lengths of exactly those routes;
`averagePointsPerRoute` the quotient `totalPoints / routeCount` rounded to the
nearest integer (halves up), and `0` when there is no route; `stopCount` the
length of `stops`, and `0` when `stops` is absent. -/
theorem validateKML_stats (E : Engine) (P : Printer) (fields : List (String × JSVal))
    (rs : List JSVal)
    (hmeta : ∀ md, getProp (.obj fields) "metadata" = .ok md → NameOk md)
    (hroutes : getProp (.obj fields) "routes" = .ok (.arr rs))
    (hnames : ∀ route ∈ rs, route.truthy = true → NameOk route)
    (hstops : ∀ stops, getProp (.obj fields) "stops" = .ok stops → StopsOk stops) :
    ∃ r average stopCount, validateKML E P (.obj fields) = .returns r ∧
      r.stats.routeCount = .num (.ofNat rs.length) ∧
      r.stats.validRoutes = (rs.filterMap countedPath).length ∧
      r.stats.totalPoints = (rs.filterMap countedPath).sum ∧
      r.stats.averagePointsPerRoute = some average ∧
      (rs = [] → average = 0) ∧
      (rs ≠ [] → (average : ℤ) = ⌊(r.stats.totalPoints : ℚ) / rs.length + 1 / 2⌋) ∧
      r.stats.stopCount = some stopCount ∧
      (∀ items, getProp (.obj fields) "stops" = .ok (.arr items) →
        stopCount = .num (.ofNat items.length)) ∧
      (getProp (.obj fields) "stops" = .ok .undefined → stopCount = .num (.ofNat 0)) := by
  obtain ⟨_, r1, h1⟩ := validateBasicStructure_succeeds fields hmeta initialResult
  obtain ⟨_, r2, h2⟩ := validateRoutes_succeeds E fields rs hroutes hnames r1
  obtain ⟨_, r3, h3⟩ := validateStops_succeeds E fields hstops r2
  obtain ⟨r4, stopCount, h4, hs4, hsc1, hsc2⟩ := calculateValidationStats_stats fields rs hroutes r3
  obtain ⟨r5, h5, hs5, _⟩ := checkTotalPoints_eq r4
  have hbody : validateKMLBody E P (.obj fields) initialResult =
      checkDenseRoutes E P (.obj fields) r5 := by
    unfold validateKMLBody validatePerformance
    rw [bind_ok h1, bind_ok h2, bind_ok h3, bind_ok h4, bind_ok h5]
  have k5 := checkDenseRoutes_keepsStats E P (.obj fields) r5
  have n5 := checkDenseRoutes_noDiv E P (.obj fields) (finiteRoutes_of_array E fields rs hroutes) r5
  have hfinal : ∃ r, validateKML E P (.obj fields) = .returns r ∧ r.stats = r4.stats := by
    unfold validateKML
    rw [hbody]
    cases hd : checkDenseRoutes E P (.obj fields) r5 with
    | diverges => exact absurd hd n5
    | ok a r6 =>
      rw [hd] at k5
      exact ⟨_, rfl, k5.trans hs5⟩
    | throws msg r6 =>
      rw [hd] at k5
      exact ⟨_, rfl, k5.trans hs5⟩
  obtain ⟨r, hr, hst⟩ := hfinal
  rw [hs4] at hst
  refine ⟨r, averagePoints (rs.filterMap countedPath).sum rs.length, stopCount, hr, ?_, ?_, ?_,
    ?_, ?_, ?_, ?_, hsc1, ?_⟩
  · rw [hst]
  · rw [hst]
  · rw [hst]
  · rw [hst]
  · intro h
    rw [h]
    rfl
  · intro h
    rw [hst]
    exact averagePoints_round _ _ (List.length_pos.2 h)
  · rw [hst]
  · intro h
    exact hsc2 _ h rfl

/-- C20, witness: a document with a route of three points and a route that is
`null`, without stops. -/
theorem validateKML_stats_witness :
    ∃ r average stopCount,
      validateKML decimalEngine plainPrinter (.obj statsDocFields) = .returns r ∧
      r.stats.routeCount = .num (.ofNat 2) ∧
      r.stats.validRoutes = 1 ∧
      r.stats.totalPoints = 3 ∧
      r.stats.averagePointsPerRoute = some average ∧
      (average : ℤ) = ⌊(r.stats.totalPoints : ℚ) / (2 : ℕ) + 1 / 2⌋ ∧
      r.stats.stopCount = some stopCount ∧
      stopCount = .num (.ofNat 0) := by
  obtain ⟨r, average, stopCount, h, h1, h2, h3, h4, _, h6, h7, _, h9⟩ :=
    validateKML_stats decimalEngine plainPrinter statsDocFields
      [.obj [("name", .str "Giro A"),
        ("path", .arr [pointObject (4496544 / 100000) (958337 / 100000),
                       pointObject (4496549 / 100000) (958333 / 100000),
                       pointObject (4496552 / 100000) (958331 / 100000)])],
       .null]
      (fun md h nm hnm _ => by
        cases h
        cases hnm
        rfl)
      rfl
      (fun route hroute _ nm hnm _ => by
        simp only [List.mem_cons, List.mem_singleton, List.mem_nil_iff, or_false] at hroute
        rcases hroute with rfl | rfl
        · cases hnm
          rfl
        · cases hnm)
      (fun stops h items hitems => by
        cases h
        cases hitems)
  exact ⟨r, average, stopCount, h, h1, h2, h3, h4, h6 (by simp), h7, h9 rfl⟩

/-! ## Validator: an invalid point more (C18) -/

theorem mono_pure {α : Type} (a : α) : Mono (pure a : Eff α) :=
  fun _ _ h => ⟨rfl, h⟩

theorem mono_liftE {α : Type} (e : Except String α) : Mono (liftE e) := by
  intro r r1 h
  cases e with
  | ok a => exact ⟨rfl, h⟩
  | error msg => trivial

theorem rel_pushError (msg msg1 : String) : Rel (pushError msg) (pushError msg1) := by
  intro r r1 h
  refine ⟨rfl, ?_, h.2⟩
  intro _
  simp

theorem mono_pushError (msg : String) : Mono (pushError msg) := rel_pushError msg msg

theorem rel_pushWarning (msg msg1 : String) : Rel (pushWarning msg) (pushWarning msg1) :=
  fun _ _ h => ⟨rfl, h⟩

theorem mono_pushWarning (msg : String) : Mono (pushWarning msg) := rel_pushWarning msg msg

theorem mono_loopForever {α : Type} : Mono (loopForever : Eff α) :=
  fun _ _ _ => trivial

theorem rel_bind {α β : Type} {m n : Eff α} {f g : α → Eff β}
    (hm : Rel m n) (hf : ∀ a, Rel (f a) (g a)) : Rel (m >>= f) (n >>= g) := by
  intro r r1 h
  change StepSim (Eff.bind m f r) (Eff.bind n g r1)
  unfold Eff.bind
  have h1 := hm r r1 h
  cases hmr : m r with
  | ok a r2 =>
    cases hmr1 : n r1 with
    | ok a1 r3 =>
      rw [hmr, hmr1] at h1
      obtain ⟨ha, hs⟩ := h1
      subst ha
      exact hf a r2 r3 hs
    | throws msg r3 =>
      rw [hmr, hmr1] at h1
      exact h1.elim
    | diverges =>
      rw [hmr, hmr1] at h1
      exact h1.elim
  | throws msg r2 =>
    cases hmr1 : n r1 with
    | ok a1 r3 =>
      rw [hmr, hmr1] at h1
      exact h1.elim
    | throws msg r3 => trivial
    | diverges =>
      rw [hmr, hmr1] at h1
      exact h1.elim
  | diverges =>
    cases hmr1 : n r1 with
    | ok a1 r3 =>
      rw [hmr, hmr1] at h1
      exact h1.elim
    | throws msg r3 =>
      rw [hmr, hmr1] at h1
      exact h1.elim
    | diverges => trivial

theorem mono_bind {α β : Type} {m : Eff α} {f : α → Eff β}
    (hm : Mono m) (hf : ∀ a, Mono (f a)) : Mono (m >>= f) :=
  rel_bind hm hf

theorem rel_forIndex {body body1 : ℕ → Eff Unit} (hb : ∀ i, Rel (body i) (body1 i))
    (start n : ℕ) : Rel (forIndex body start n) (forIndex body1 start n) := by
  induction n generalizing start with
  | zero => exact fun _ _ h => ⟨rfl, h⟩
  | succ n ih =>
    unfold forIndex
    exact rel_bind (hb start) (fun _ => ih (start + 1))

theorem mono_forIndex {body : ℕ → Eff Unit} (hb : ∀ i, Mono (body i)) (start n : ℕ) :
    Mono (forIndex body start n) :=
  rel_forIndex hb start n

theorem rel_of_pushes {m m1 : Eff Unit} {c c1 : Prop} (hm : Pushes m c) (hm1 : Pushes m1 c1)
    (hc : c → c1) : Rel m m1 := by
  intro r r1 h
  obtain ⟨r2, h2, hs2, he2⟩ := hm r
  obtain ⟨r3, h3, hs3, he3⟩ := hm1 r1
  rw [h2, h3]
  refine ⟨rfl, ?_, ?_⟩
  · intro he
    rcases he2.1 he with he | he
    · exact he3.2 (Or.inl (h.1 he))
    · exact he3.2 (Or.inr (hc he))
  · rw [hs2, hs3]
    exact h.2

theorem lookup_setField_eq (key : String) (v : JSVal) (fields : List (String × JSVal)) :
    (setField key v fields).lookup key = some v := by
  induction fields with
  | nil => simp [setField, List.lookup]
  | cons kv rest ih =>
    obtain ⟨k, x⟩ := kv
    unfold setField
    by_cases h : k = key
    · rw [if_pos h]
      simp [List.lookup]
    · rw [if_neg h]
      have hne : (key == k) = false := by
        rw [beq_eq_false_iff_ne]
        exact fun h1 => h h1.symm
      simp only [List.lookup, hne]
      exact ih

theorem lookup_setField_ne (key k : String) (v : JSVal) (fields : List (String × JSVal))
    (hk : k ≠ key) : (setField key v fields).lookup k = fields.lookup k := by
  induction fields with
  | nil =>
    have hne : (k == key) = false := by
      rw [beq_eq_false_iff_ne]
      exact hk
    simp [setField, List.lookup, hne]
  | cons kv rest ih =>
    obtain ⟨k1, x⟩ := kv
    unfold setField
    by_cases h : k1 = key
    · rw [if_pos h]
      subst h
      have hne : (k == k1) = false := by
        rw [beq_eq_false_iff_ne]
        exact hk
      simp only [List.lookup, hne]
    · rw [if_neg h]
      by_cases h2 : (k == k1) = true
      · simp only [List.lookup, h2]
      · rw [Bool.not_eq_true] at h2
        simp only [List.lookup, h2]
        exact ih

theorem getProp_setField_eq (key : String) (v : JSVal) (fields : List (String × JSVal)) :
    getProp (.obj (setField key v fields)) key = .ok v := by
  simp [getProp, lookup_setField_eq]

theorem getProp_setField_ne (key k : String) (v : JSVal) (fields : List (String × JSVal))
    (hk : k ≠ key) :
    getProp (.obj (setField key v fields)) k = getProp (.obj fields) k := by
  simp [getProp, lookup_setField_ne key k v fields hk]

theorem inRange_of_isValidNumbers (lat lng : JSNum)
    (h : Validator.isValidNumbers lat lng = true) :
    lat.InRange (-90) 90 ∧ lng.InRange (-180) 180 := by
  unfold Validator.isValidNumbers at h
  unfold JSNum.InRange
  cases lat <;> cases lng <;>
    simp [JSNum.isNaN, JSNum.le, JSNum.ge, JSNum.isFinite] at h
  rename_i a b
  exact ⟨⟨a, rfl, h.1.1.1, h.1.1.2⟩, ⟨b, rfl, h.1.2, h.2⟩⟩

theorem pointIsValid_of_invalid (point : JSVal) (h : InvalidPoint point) :
    pointIsValid point = false := by
  unfold pointIsValid
  split
  · rfl
  · split
    · rename_i lat lng hlat hlng
      rw [Bool.eq_false_iff]
      exact fun hv => h lat lng hlat hlng (inRange_of_isValidNumbers lat lng hv)
    · rfl

theorem scanPoints_append (bad : JSVal) (hbad : pointIsValid bad = false) (xs : List JSVal) :
    ∀ (i : ℕ) (acc : ℕ × List ℕ),
      (scanPoints (xs ++ [bad]) i acc).1 = (scanPoints xs i acc).1 := by
  induction xs with
  | nil =>
    intro i acc
    obtain ⟨v, inv⟩ := acc
    simp [scanPoints, hbad]
  | cons x xs ih =>
    intro i acc
    obtain ⟨v, inv⟩ := acc
    rw [List.cons_append, scanPoints, scanPoints]
    split
    · exact ih _ _
    · exact ih _ _

theorem scanPoints_le (xs : List JSVal) :
    ∀ (i : ℕ) (acc : ℕ × List ℕ), (scanPoints xs i acc).1 ≤ acc.1 + xs.length := by
  induction xs with
  | nil =>
    intro i acc
    obtain ⟨v, inv⟩ := acc
    simp [scanPoints]
  | cons x xs ih =>
    intro i acc
    obtain ⟨v, inv⟩ := acc
    rw [scanPoints]
    split
    · have := ih (i + 1) (v + 1, inv)
      simp only [List.length_cons] at this ⊢
      omega
    · have := ih (i + 1) (v, inv ++ [i])
      simp only [List.length_cons] at this ⊢
      omega

theorem validCount_append (bad : JSVal) (hbad : pointIsValid bad = false) (pts : List JSVal) :
    validCount (pts ++ [bad]) = validCount pts :=
  scanPoints_append bad hbad pts 0 (0, [])

theorem validCount_le (pts : List JSVal) : validCount pts ≤ pts.length := by
  have := scanPoints_le pts 0 (0, [])
  unfold validCount
  omega

theorem validateRouteCoordinates_pushes (path : List JSVal) (routeLabel : String) :
    Pushes (validateRouteCoordinates path routeLabel) (validCount path < 2) := by
  intro r
  unfold validateRouteCoordinates
  change ∃ r1, Eff.bind _ _ r = _ ∧ _
  unfold Eff.bind
  dsimp only
  have hv : (scanPoints path 0 (0, [])).1 = validCount path := rfl
  rw [hv]
  by_cases h0 : validCount path = 0
  · rw [if_pos h0, if_pos (by omega)]
    refine ⟨_, rfl, rfl, ?_⟩
    simp [pushError]
    omega
  · rw [if_neg h0]
    by_cases hinv : (scanPoints path 0 (0, [])).2.length > 0
    · rw [if_pos hinv]
      by_cases h2 : validCount path < 2
      · rw [if_pos h2]
        refine ⟨_, rfl, rfl, ?_⟩
        simp [pushError, pushWarning, h2]
      · rw [if_neg h2]
        refine ⟨_, rfl, rfl, ?_⟩
        simp [pushWarning, h2]
    · rw [if_neg hinv]
      by_cases h2 : validCount path < 2
      · rw [if_pos h2]
        refine ⟨_, rfl, rfl, ?_⟩
        simp [pushError, h2]
      · rw [if_neg h2]
        refine ⟨_, rfl, rfl, ?_⟩
        simp [h2]

theorem pushes_pure : Pushes (pure ()) False :=
  fun r => ⟨r, rfl, rfl, by simp⟩

theorem pushes_pushError (msg : String) : Pushes (pushError msg) True :=
  fun r => ⟨_, rfl, rfl, by simp [pushError]⟩

theorem pushes_pushWarning (msg : String) : Pushes (pushWarning msg) False :=
  fun r => ⟨_, rfl, rfl, by simp [pushWarning]⟩

theorem pushes_congr {m : Eff Unit} {c c1 : Prop} (h : Pushes m c) (hc : c ↔ c1) :
    Pushes m c1 := by
  intro r
  obtain ⟨r1, h1, hs, he⟩ := h r
  exact ⟨r1, h1, hs, by rw [he, hc]⟩

theorem pushes_bind {m : Eff Unit} {k : Unit → Eff Unit} {c d : Prop} (hm : Pushes m c)
    (hk : Pushes (k ()) d) : Pushes (m >>= k) (c ∨ d) := by
  intro r
  obtain ⟨r1, h1, hs1, he1⟩ := hm r
  obtain ⟨r2, h2, hs2, he2⟩ := hk r1
  refine ⟨r2, ?_, hs2.trans hs1, ?_⟩
  · rw [bind_ok h1]
    exact h2
  · rw [he2, he1, or_assoc]

theorem validateRouteCoordinates_mono (path : List JSVal) (routeLabel : String) :
    Mono (validateRouteCoordinates path routeLabel) :=
  rel_of_pushes (validateRouteCoordinates_pushes path routeLabel)
    (validateRouteCoordinates_pushes path routeLabel) id

theorem validateBasicStructure_mono (v : JSVal) : Mono (validateBasicStructure v) := by
  unfold validateBasicStructure
  repeat' first
    | exact mono_pure _
    | exact mono_liftE _
    | exact mono_pushError _
    | exact mono_pushWarning _
    | refine mono_bind ?_ (fun _ => ?_)
    | split

theorem validateRouteAt_mono (routes : JSVal) (i : ℕ) : Mono (validateRouteAt routes i) := by
  unfold validateRouteAt
  repeat' first
    | exact mono_pure _
    | exact mono_liftE _
    | exact mono_pushError _
    | exact mono_pushWarning _
    | exact validateRouteCoordinates_mono _ _
    | refine mono_bind ?_ (fun _ => ?_)
    | split

theorem validateStopAt_mono (E : Engine) (stops : List JSVal) (i : ℕ) :
    Mono (validateStopAt E stops i) := by
  unfold validateStopAt
  dsimp only
  repeat' first
    | exact mono_pure _
    | exact mono_liftE _
    | exact mono_pushError _
    | exact mono_pushWarning _
    | refine mono_bind ?_ (fun _ => ?_)
    | split

theorem validateStops_mono (E : Engine) (v : JSVal) : Mono (validateStops E v) := by
  unfold validateStops
  refine mono_bind (mono_liftE _) (fun stops => ?_)
  split
  · exact mono_forIndex (validateStopAt_mono E _) _ _
  · exact mono_pure _

theorem checkDenseAt_mono (E : Engine) (P : Printer) (routes : JSVal) (i : ℕ) :
    Mono (checkDenseAt E P routes i) := by
  unfold checkDenseAt
  repeat' first
    | exact mono_pure _
    | exact mono_liftE _
    | exact mono_pushWarning _
    | refine mono_bind ?_ (fun _ => ?_)
    | split

theorem checkTotalPoints_mono : Mono checkTotalPoints := by
  intro r r1 h
  obtain ⟨r2, h2, hs2, he2⟩ := checkTotalPoints_eq r
  obtain ⟨r3, h3, hs3, he3⟩ := checkTotalPoints_eq r1
  rw [h2, h3]
  refine ⟨rfl, ?_, ?_⟩
  · intro he
    rw [he2] at he
    rw [he3]
    by_cases hbig : r.stats.totalPoints > 100000
    · have hbig1 : r1.stats.totalPoints > 100000 := lt_of_lt_of_le hbig h.2
      rw [if_pos hbig1]
      simp
    · rw [if_neg hbig, List.append_nil] at he
      have := h.1 he
      simp [this]
  · rw [hs2, hs3]
    exact h.2

theorem getIndex_set_eq (rs : List JSVal) (i : ℕ) (x y : JSVal) (h : rs.get? i = some x) :
    getIndex (.arr rs) i = .ok x ∧ getIndex (.arr (rs.set i y)) i = .ok y := by
  have hi : i < rs.length := by
    rw [List.get?_eq_getElem?] at h
    exact (List.getElem?_eq_some_iff.1 h).1
  constructor
  · simp only [getIndex, List.getD_eq_getElem?_getD]
    rw [← List.get?_eq_getElem?, h]
    rfl
  · simp only [getIndex, List.getD_eq_getElem?_getD]
    rw [List.getElem?_set_self (by simpa using hi)]
    rfl

theorem getIndex_set_ne (rs : List JSVal) (i j : ℕ) (y : JSVal) (h : i ≠ j) :
    getIndex (.arr (rs.set i y)) j = getIndex (.arr rs) j := by
  simp only [getIndex, List.getD_eq_getElem?_getD]
  rw [List.getElem?_set_ne h]

theorem validateRouteAt_congr (a b : JSVal) (j : ℕ) (h : getIndex a j = getIndex b j) :
    validateRouteAt a j = validateRouteAt b j := by
  unfold validateRouteAt
  rw [h]

theorem checkDenseAt_congr (E : Engine) (P : Printer) (a b : JSVal) (j : ℕ)
    (h : getIndex a j = getIndex b j) : checkDenseAt E P a j = checkDenseAt E P b j := by
  unfold checkDenseAt
  rw [h]

theorem routeChecks_pushes (pts : List JSVal) (routeLabel : String) (m : Eff Unit)
    (hm : m = (if pts.length < 2 then
        pushError (routeLabel ++ ": meno di 2 punti nel percorso")
      else do
        validateRouteCoordinates pts routeLabel
        (if pts.length > 10000 then
          pushWarning (routeLabel ++ ": percorso molto lungo (" ++ showNat pts.length ++
            " punti) - potrebbe causare problemi di performance")
        else pure ()))) :
    Pushes m (validCount pts < 2) := by
  subst hm
  have hle := validCount_le pts
  by_cases h : pts.length < 2
  · rw [if_pos h]
    exact pushes_congr (pushes_pushError _) (by
      constructor
      · intro _
        omega
      · intro _
        trivial)
  · rw [if_neg h]
    refine pushes_congr (pushes_bind (validateRouteCoordinates_pushes pts routeLabel)
      (d := False) ?_) (by simp)
    split
    · exact pushes_pushWarning _
    · exact pushes_pure

theorem validateRouteAt_rel (rs : List JSVal) (i : ℕ) (rfields : List (String × JSVal))
    (pts : List JSVal) (bad : JSVal) (hroute : rs.get? i = some (.obj rfields))
    (hpath : getProp (.obj rfields) "path" = .ok (.arr pts))
    (hbad : pointIsValid bad = false) :
    Rel (validateRouteAt (.arr rs) i)
      (validateRouteAt
        (.arr (rs.set i (.obj (setField "path" (.arr (pts ++ [bad])) rfields)))) i) := by
  obtain ⟨h1, h2⟩ := getIndex_set_eq rs i _
    (.obj (setField "path" (.arr (pts ++ [bad])) rfields)) hroute
  unfold validateRouteAt
  rw [h1, h2, liftE_ok_bind, liftE_ok_bind]
  simp only [JSVal.truthy, Bool.not_true, Bool.false_eq_true, if_false]
  rw [getProp_setField_ne "path" "name" _ _ (by decide), getProp_setField_eq, hpath]
  refine rel_bind (mono_liftE _) (fun name => ?_)
  refine rel_bind (mono_liftE _) (fun blank => ?_)
  refine rel_bind (m := if blank = true then _ else _) (n := if blank = true then _ else _)
    ?_ (fun _ => ?_)
  · split
    · exact mono_pushWarning _
    · exact mono_pure _
  · rw [liftE_ok_bind, liftE_ok_bind]
    refine rel_of_pushes (routeChecks_pushes pts _ _ rfl)
      (routeChecks_pushes (pts ++ [bad]) _ _ rfl) ?_
    rw [validCount_append bad hbad]
    exact id

theorem validateRoutes_array (E : Engine) (fields : List (String × JSVal)) (rs : List JSVal)
    (hroutes : getProp (.obj fields) "routes" = .ok (.arr rs)) :
    validateRoutes E (.obj fields) = forIndex (validateRouteAt (.arr rs)) 0 rs.length := by
  unfold validateRoutes
  rw [hroutes, liftE_ok_bind,
    show getProp (JSVal.arr rs) "length" = .ok (.num (.ofNat rs.length)) from by simp [getProp],
    liftE_ok_bind, toNumber_ofNat, liftE_ok_bind, loopCount_array]

theorem checkDenseRoutes_array (E : Engine) (P : Printer) (fields : List (String × JSVal))
    (rs : List JSVal) (hroutes : getProp (.obj fields) "routes" = .ok (.arr rs)) :
    checkDenseRoutes E P (.obj fields) =
      forIndex (checkDenseAt E P (.arr rs)) 0 rs.length := by
  unfold checkDenseRoutes
  rw [hroutes, liftE_ok_bind, if_pos (show (JSVal.arr rs).truthy = true from rfl)]
  dsimp only
  rw [show getProp (JSVal.arr rs) "length" = .ok (.num (.ofNat rs.length)) from by simp [getProp],
    liftE_ok_bind, toNumber_ofNat, liftE_ok_bind, loopCount_array]

theorem checkDenseAt_pushes (E : Engine) (P : Printer) (rs : List JSVal) (i : ℕ)
    (rfields : List (String × JSVal)) (pts : List JSVal)
    (hroute : getIndex (.arr rs) i = .ok (.obj rfields))
    (hpath : getProp (.obj rfields) "path" = .ok (.arr pts)) :
    Pushes (checkDenseAt E P (.arr rs) i) False := by
  unfold checkDenseAt
  rw [hroute, liftE_ok_bind, if_pos (show (JSVal.obj rfields).truthy = true from rfl), hpath,
    liftE_ok_bind, if_pos (show (JSVal.arr pts).truthy = true from rfl),
    show getProp (JSVal.arr pts) "length" = .ok (.num (.ofNat pts.length)) from by simp [getProp],
    liftE_ok_bind, toNumber_ofNat, liftE_ok_bind]
  split
  · exact pushes_pushWarning _
  · exact pushes_pure

theorem countedPoints_append (rfields : List (String × JSVal)) (pts : List JSVal)
    (bad : JSVal) (hpath : getProp (.obj rfields) "path" = .ok (.arr pts)) :
    countedPoints (.obj rfields) ≤
      countedPoints (.obj (setField "path" (.arr (pts ++ [bad])) rfields)) := by
  unfold countedPoints
  rw [hpath, getProp_setField_eq]
  simp only [JSVal.truthy, if_true, List.length_append, List.length_singleton]
  split <;> split <;> omega

theorem sum_map_set_le (f : JSVal → ℕ) (rs : List JSVal) :
    ∀ (i : ℕ) (x y : JSVal), rs.get? i = some x → f x ≤ f y →
      (rs.map f).sum ≤ ((rs.set i y).map f).sum := by
  induction rs with
  | nil =>
    intro i x y h _
    cases h
  | cons r rs ih =>
    intro i x y h hle
    cases i with
    | zero =>
      simp only [List.get?_cons_zero, Option.some.injEq] at h
      subst h
      simp only [List.set_cons_zero, List.map_cons, List.sum_cons]
      omega
    | succ i =>
      simp only [List.get?_cons_succ] at h
      have := ih i x y h hle
      simp only [List.set_cons_succ, List.map_cons, List.sum_cons]
      omega

theorem validateBasicStructure_appendPoint (fields : List (String × JSVal)) (rs : List JSVal)
    (i : ℕ) (rfields : List (String × JSVal)) (pts : List JSVal) (bad : JSVal)
    (hroutes : getProp (.obj fields) "routes" = .ok (.arr rs)) :
    validateBasicStructure (appendPoint fields rs i rfields pts bad) =
      validateBasicStructure (.obj fields) := by
  unfold appendPoint validateBasicStructure
  rw [getProp_setField_ne "routes" "metadata" _ _ (by decide), getProp_setField_eq, hroutes]
  simp only [JSVal.truthy, liftE_ok_bind, List.length_set]

theorem validateStops_appendPoint (E : Engine) (fields : List (String × JSVal))
    (rs : List JSVal) (i : ℕ) (rfields : List (String × JSVal)) (pts : List JSVal)
    (bad : JSVal) :
    validateStops E (appendPoint fields rs i rfields pts bad) =
      validateStops E (.obj fields) := by
  unfold appendPoint validateStops
  rw [getProp_setField_ne "routes" "stops" _ _ (by decide)]

theorem validateKMLBody_rel (E : Engine) (P : Printer) (fields : List (String × JSVal))
    (rs : List JSVal) (i : ℕ) (rfields : List (String × JSVal)) (pts : List JSVal)
    (bad : JSVal) (hroutes : getProp (.obj fields) "routes" = .ok (.arr rs))
    (hroute : rs.get? i = some (.obj rfields))
    (hpath : getProp (.obj rfields) "path" = .ok (.arr pts))
    (hbad : pointIsValid bad = false) :
    Rel (validateKMLBody E P (.obj fields))
      (validateKMLBody E P (appendPoint fields rs i rfields pts bad)) := by
  have hroutes1 : getProp (appendPoint fields rs i rfields pts bad) "routes" =
      .ok (.arr (rs.set i (.obj (setField "path" (.arr (pts ++ [bad])) rfields)))) :=
    getProp_setField_eq _ _ _
  obtain ⟨hi1, hi2⟩ := getIndex_set_eq rs i _
    (.obj (setField "path" (.arr (pts ++ [bad])) rfields)) hroute
  unfold validateKMLBody validatePerformance
  refine rel_bind ?_ (fun _ => rel_bind ?_ (fun _ => rel_bind ?_ (fun _ =>
    rel_bind ?_ (fun _ => rel_bind ?_ (fun _ => ?_)))))
  · rw [validateBasicStructure_appendPoint fields rs i rfields pts bad hroutes]
    exact validateBasicStructure_mono _
  · rw [validateRoutes_array E fields rs hroutes]
    unfold appendPoint at hroutes1 ⊢
    rw [validateRoutes_array E _ _ hroutes1, List.length_set]
    refine rel_forIndex (fun j => ?_) 0 _
    by_cases hj : i = j
    · subst hj
      exact validateRouteAt_rel rs i rfields pts bad hroute hpath hbad
    · rw [validateRouteAt_congr _ _ j (getIndex_set_ne rs i j _ hj)]
      exact validateRouteAt_mono _ _
  · rw [validateStops_appendPoint]
    exact validateStops_mono E _
  · intro r r1 h
    unfold appendPoint at hroutes1 ⊢
    obtain ⟨r2, h2, he2, ht2⟩ := calculateValidationStats_eq fields rs hroutes r
    obtain ⟨r3, h3, he3, ht3⟩ := calculateValidationStats_eq _ _ hroutes1 r1
    rw [h2, h3]
    refine ⟨rfl, ?_, ?_⟩
    · rw [he2, he3]
      exact h.1
    · rw [ht2, ht3]
      exact sum_map_set_le countedPoints rs i _ _ hroute
        (countedPoints_append rfields pts bad hpath)
  · exact checkTotalPoints_mono
  · rw [checkDenseRoutes_array E P fields rs hroutes]
    unfold appendPoint at hroutes1 ⊢
    rw [checkDenseRoutes_array E P _ _ hroutes1, List.length_set]
    refine rel_forIndex (fun j => ?_) 0 _
    by_cases hj : i = j
    · subst hj
      exact rel_of_pushes (checkDenseAt_pushes E P rs i rfields pts hi1 hpath)
        (checkDenseAt_pushes E P _ i _ (pts ++ [bad]) hi2 (getProp_setField_eq _ _ _)) id
    · rw [checkDenseAt_congr E P _ _ j (getIndex_set_ne rs i j _ hj)]
      exact checkDenseAt_mono E P _ _

/-- C18. Validator monotonicity. Let a document have an array `routes` and a
route of index `i` whose path is an array (such a route is an object), and let
the second document be the first with one invalid point (`null`, or without a
numeric latitude and longitude, or with them out of range) appended to that
path. Then `validateKML` returns a result for both documents, and if the
result for the first has `isValid = false`, so has the result for the
second. -/
theorem validateKML_monotone (E : Engine) (P : Printer) (fields : List (String × JSVal))
    (rs : List JSVal) (i : ℕ) (rfields : List (String × JSVal)) (pts : List JSVal)
    (bad : JSVal) (hroutes : getProp (.obj fields) "routes" = .ok (.arr rs))
    (hroute : rs.get? i = some (.obj rfields))
    (hpath : getProp (.obj rfields) "path" = .ok (.arr pts))
    (hbad : InvalidPoint bad) :
    ∃ res res1, validateKML E P (.obj fields) = .returns res ∧
      validateKML E P (appendPoint fields rs i rfields pts bad) = .returns res1 ∧
      (res.isValid = false → res1.isValid = false) := by
  have hrel := validateKMLBody_rel E P fields rs i rfields pts bad hroutes hroute hpath
    (pointIsValid_of_invalid bad hbad) initialResult initialResult ⟨id, le_refl _⟩
  have hnd := validateKMLBody_noDiv E P (.obj fields)
    (finiteRoutes_of_array E fields rs hroutes) initialResult
  unfold validateKML
  cases h : validateKMLBody E P (.obj fields) initialResult with
  | diverges => exact absurd h hnd
  | ok a r =>
    cases h1 : validateKMLBody E P (appendPoint fields rs i rfields pts bad) initialResult with
    | ok a1 r1 =>
      rw [h, h1] at hrel
      refine ⟨_, _, rfl, rfl, ?_⟩
      intro hv
      have he : r.errors ≠ [] := by
        intro he
        simp [he] at hv
      have he1 := hrel.2.1 he
      simpa using he1
    | throws msg r1 =>
      rw [h, h1] at hrel
      exact hrel.elim
    | diverges =>
      rw [h, h1] at hrel
      exact hrel.elim
  | throws msg r =>
    cases h1 : validateKMLBody E P (appendPoint fields rs i rfields pts bad) initialResult with
    | ok a1 r1 =>
      rw [h, h1] at hrel
      exact hrel.elim
    | throws msg1 r1 => exact ⟨_, _, rfl, rfl, fun _ => rfl⟩
    | diverges =>
      rw [h, h1] at hrel
      exact hrel.elim

/-- C18, witness: the document with one route whose path is `[null, null]`
is not valid, and it is not valid either after `null` has been appended to
that path. -/
theorem validateKML_monotone_witness :
    ∃ res res1, validateKML decimalEngine plainPrinter (.obj nullPathFields) = .returns res ∧
      validateKML decimalEngine plainPrinter
        (appendPoint nullPathFields
          [.obj [("name", .str "Giro A"), ("path", .arr [.null, .null])]] 0
          [("name", .str "Giro A"), ("path", .arr [.null, .null])] [.null, .null] .null) =
        .returns res1 ∧
      res.isValid = false ∧ res1.isValid = false := by
  obtain ⟨res, res1, h, h1, himp⟩ :=
    validateKML_monotone decimalEngine plainPrinter nullPathFields
      [.obj [("name", .str "Giro A"), ("path", .arr [.null, .null])]] 0
      [("name", .str "Giro A"), ("path", .arr [.null, .null])] [.null, .null] .null
      rfl rfl rfl
      (fun lat lng hlat _ => by cases hlat)
  have hres : res.isValid = false := by
    obtain ⟨r, hr, hv⟩ : ∃ r, validateKML decimalEngine plainPrinter (.obj nullPathFields) =
        .returns r ∧ r.isValid = false := ⟨_, rfl, rfl⟩
    rw [h] at hr
    cases hr
    exact hv
  exact ⟨res, res1, h, h1, hres, himp hres⟩

/-! ## Map state: switching zone (C25 to C28) -/

theorem keepZoneRoute_eq (zone : ℤ) (route : JSVal) (h : ZoneIdPlain route) :
    keepZoneRoute zone route = .ok (routeOfZone zone route) := by
  obtain ⟨⟨h1, h2⟩, h3⟩ := h
  unfold keepZoneRoute routeOfZone
  cases hz : getProp route "zone_id" with
  | error e => cases route <;> simp [getProp] at hz <;> simp_all
  | ok z =>
    rcases h3 z hz with rfl | ht
    · rfl
    · simp only [bind, Except.bind, pure, Except.pure, ht, Bool.not_true, Bool.false_or]
      cases z with
      | num n => cases n <;> simp [isZoneValue]
      | undefined => simp [JSVal.truthy] at ht
      | _ => simp [isZoneValue]

theorem keepZoneStop_eq (zone : ℤ) (subzone : String) (stop : JSVal) (h : NotNullish stop) :
    keepZoneStop zone subzone stop = .ok (stopOfZone zone subzone stop) := by
  obtain ⟨h1, h2⟩ := h
  have hz : ∃ z, getProp stop "zone_id" = .ok z := by
    cases stop <;> simp [getProp] at h1 h2 ⊢
  have hp : ∃ p, getProp stop "plan" = .ok p := by
    cases stop <;> simp [getProp] at h1 h2 ⊢
  obtain ⟨z, hz⟩ := hz
  obtain ⟨p, hp⟩ := hp
  unfold keepZoneStop stopOfZone
  rw [hz, hp]
  simp only [bind, Except.bind, pure, Except.pure]
  cases z with
  | num n =>
    cases n with
    | fin q =>
      by_cases hq : q = (zone : ℚ)
      · cases p <;> simp [isZoneValue, isPlanValue, hq]
      · cases p <;> simp [isZoneValue, hq]
    | _ => simp [isZoneValue]
  | _ => simp [isZoneValue]

theorem filterItems_eq (keep : JSVal → Except String Bool) (f : JSVal → Bool)
    (items : List JSVal) (h : ∀ x ∈ items, keep x = .ok (f x)) :
    filterItems keep items = .ok (items.filter f) := by
  induction items with
  | nil => rfl
  | cons x xs ih =>
    have hx := h x (List.mem_cons_self _ _)
    have hxs := ih (fun y hy => h y (List.mem_cons_of_mem _ hy))
    unfold filterItems
    rw [hx, hxs]
    simp only [bind, Except.bind, pure, Except.pure, List.filter_cons]

theorem zoneData_good : GoodData zoneData [zoneRoute] [zoneStop, otherStop] := by
  refine ⟨rfl, rfl, ?_, ?_⟩
  · intro r hr
    rw [List.mem_singleton] at hr
    subst hr
    refine ⟨⟨by simp [zoneRoute], by simp [zoneRoute]⟩, fun z hz => ?_⟩
    cases hz
    exact Or.inl rfl
  · intro st hst
    simp only [List.mem_cons, List.mem_singleton, List.mem_nil_iff, or_false] at hst
    rcases hst with rfl | rfl
    · exact ⟨by simp [zoneStop], by simp [zoneStop]⟩
    · exact ⟨by simp [otherStop], by simp [otherStop]⟩

theorem loadZoneData_good (zone : ℤ) (subzone : String) (data : JSVal) (rs ss : List JSVal)
    (h : GoodData data rs ss) (s : MapService) :
    MapService.loadZoneData zone subzone data s =
      .ok (MapService.notifyListeners
        (.dataLoaded zone subzone (rs.filter (routeOfZone zone))
          (ss.filter (stopOfZone zone subzone)))
        (MapService.setState
          [.routes (rs.filter (routeOfZone zone)), .stops (ss.filter (stopOfZone zone subzone)),
           .markers []] s)) := by
  obtain ⟨h1, h2, h3, h4⟩ := h
  have hr : callFilter (.arr rs) (keepZoneRoute zone) = .ok (rs.filter (routeOfZone zone)) :=
    filterItems_eq _ _ rs (fun r hr => keepZoneRoute_eq zone r (h3 r hr))
  have hs : callFilter (.arr ss) (keepZoneStop zone subzone) =
      .ok (ss.filter (stopOfZone zone subzone)) :=
    filterItems_eq _ _ ss (fun st hst => keepZoneStop_eq zone subzone st (h4 st hst))
  unfold MapService.loadZoneData propOrEmpty
  rw [h1, h2]
  simp only [bind, Except.bind, pure, Except.pure, getProp, hr, hs]

theorem loadZoneData_error (zone : ℤ) (subzone : String) (data : JSVal) (s s1 : MapService)
    (e : String) (h : MapService.loadZoneData zone subzone data s = .error e) :
    MapService.loadZoneData zone subzone data s1 = .error e := by
  unfold MapService.loadZoneData at h ⊢
  simp only [bind, Except.bind, pure, Except.pure] at h ⊢
  repeat' split at h
  all_goals first
    | cases h
      rfl
    | cases h

theorem loadZoneData_nullish (zone : ℤ) (subzone : String) (data : JSVal) (s : MapService)
    (h : data = .null ∨ data = .undefined) :
    ∃ e, MapService.loadZoneData zone subzone data s = .error e := by
  rcases h with rfl | rfl
  · exact ⟨_, rfl⟩
  · exact ⟨_, rfl⟩

theorem setState_state (newState : List StateUpdate) (s : MapService) :
    (MapService.setState newState s).currentState =
      newState.foldl StateUpdate.apply s.currentState := rfl

theorem setState_emitted (newState : List StateUpdate) (s : MapService) :
    (MapService.setState newState s).emitted =
      s.emitted ++ [.stateChanged s.currentState
        (newState.foldl StateUpdate.apply s.currentState) (newState.map StateUpdate.key)] := rfl

/-- C25. For every prior state and every data `{ routes, stops }` (arrays; the
routes have no `zone_id` or a truthy one, the stops are not null): when the
requested zone and plan are not the loaded ones, `switchToZone` ends without
an exception and leaves the state with the zone and the plan, `isLoaded`
true, `isLoading` false, `selectedStop` null, no markers, as stops exactly the
stops of the data with that `zone_id` and `plan`, in order, and as routes
exactly the routes of the data without `zone_id` or with that `zone_id`.
Nothing of the prior state is left in it. -/
theorem switchToZone_state (zone : ℤ) (subzone : String) (data : JSVal) (rs ss : List JSVal)
    (s : MapService) (hdata : GoodData data rs ss)
    (hnot : MapService.isZoneLoaded zone subzone s = false) :
    ∃ s1, MapService.switchToZone zone subzone data s = (.ok (), s1) ∧
      s1.currentState =
        { zone := some zone, subzone := some subzone,
          routes := rs.filter (routeOfZone zone),
          stops := ss.filter (stopOfZone zone subzone),
          markers := [], selectedStop := .null, isLoaded := true, isLoading := false } := by
  unfold MapService.switchToZone
  rw [hnot]
  simp only [Bool.false_eq_true, if_false]
  rw [loadZoneData_good zone subzone data rs ss hdata]
  exact ⟨_, rfl, rfl⟩

/-- C25, witness: from the service with zone 9, plan A loaded, the switch to
zone 9, plan B with the sample data. -/
theorem switchToZone_state_witness :
    ∃ s1, MapService.switchToZone 9 "B" zoneData loadedMapService = (.ok (), s1) ∧
      s1.currentState =
        { zone := some 9, subzone := some "B",
          routes := [zoneRoute].filter (routeOfZone 9),
          stops := [zoneStop, otherStop].filter (stopOfZone 9 "B"),
          markers := [], selectedStop := .null, isLoaded := true, isLoading := false } :=
  switchToZone_state 9 "B" zoneData [zoneRoute] [zoneStop, otherStop] loadedMapService
    zoneData_good (by decide)

/-- C26 (amended). Let the data be as for C25: an object `{ routes, stops }`
of two arrays, the routes without `zone_id` or with a truthy one, the stops
not null. When `switchToZone` is called for a zone and plan while a different
zone `z1` with plan `p1` is loaded (a zone key: `z1` is not `0` and `p1` is not empty), the events other
than the generic `stateChanged` that the listeners receive are, in this order,
`beforeCleanup` and `afterCleanup` with `z1` and `p1`, and `dataLoaded` with
the requested zone and plan. When the requested zone and plan are the loaded
ones, no `beforeCleanup` and no `afterCleanup` is emitted, and `zone`,
`subzone`, `isLoaded` and `selectedStop` are left as they were. -/
theorem switchToZone_events (zone : ℤ) (subzone : String) (data : JSVal) (rs ss : List JSVal)
    (s : MapService) (hdata : GoodData data rs ss) :
    (∀ z1 p1, s.currentState.zone = some z1 → s.currentState.subzone = some p1 →
      s.currentState.isLoaded = true → z1 ≠ 0 → p1.data ≠ [] →
      ¬ (z1 = zone ∧ p1 = subzone) →
      ∃ s1 new, MapService.switchToZone zone subzone data s = (.ok (), s1) ∧
        s1.emitted = s.emitted ++ new ∧
        new.filter (fun e => !e.isStateChanged) =
          [.beforeCleanup (some z1) (some p1), .afterCleanup (some z1) (some p1),
           .dataLoaded zone subzone (rs.filter (routeOfZone zone))
             (ss.filter (stopOfZone zone subzone))]) ∧
    (MapService.isZoneLoaded zone subzone s = true →
      ∃ s1 new, MapService.switchToZone zone subzone data s = (.ok (), s1) ∧
        s1.emitted = s.emitted ++ new ∧ (∀ e ∈ new, e.isCleanup = false) ∧
        s1.currentState.zone = s.currentState.zone ∧
        s1.currentState.subzone = s.currentState.subzone ∧
        s1.currentState.isLoaded = s.currentState.isLoaded ∧
        s1.currentState.selectedStop = s.currentState.selectedStop) := by
  constructor
  · intro z1 p1 hz hp hl hz0 hp0 hne
    have hnot : MapService.isZoneLoaded zone subzone s = false := by
      unfold MapService.isZoneLoaded
      rw [hz, hp]
      by_cases h1 : z1 = zone
      · have h2 : p1 ≠ subzone := fun h2 => hne ⟨h1, h2⟩
        simp [h2]
      · simp [h1]
    have htruthy : (zoneTruthy s.currentState.zone && subzoneTruthy s.currentState.subzone) =
        true := by
      rw [hz, hp]
      simp [zoneTruthy, subzoneTruthy, hz0, hp0]
    unfold MapService.switchToZone
    rw [hnot]
    simp only [Bool.false_eq_true, if_false]
    rw [loadZoneData_good zone subzone data rs ss hdata]
    unfold MapService.clearCurrentState
    simp only [htruthy, if_true]
    refine ⟨_, ?_, rfl, ?_, ?_⟩
    rotate_left
    · simp only [MapService.setState, MapService.notifyListeners, List.append_assoc]
      exact rfl
    · rw [hz, hp]
      rfl
  · intro hl
    unfold MapService.switchToZone MapService.updateZoneData
    rw [hl]
    simp only [if_true, Bool.not_true, Bool.false_eq_true, if_false, bind, Except.bind,
      pure, Except.pure, loadZoneData_good zone subzone data rs ss hdata]
    refine ⟨_, ?_, rfl, ?_, ?_, rfl, rfl, rfl, rfl⟩
    rotate_left
    · simp only [MapService.setState, MapService.notifyListeners, List.append_assoc]
      exact rfl
    · intro e he
      simp only [List.cons_append, List.nil_append, List.mem_cons, List.mem_singleton,
        List.mem_nil_iff, or_false] at he
      rcases he with rfl | rfl | rfl <;> rfl

/-- C26, witness: from the service with zone 9, plan A loaded, the switch to
zone 9, plan B with the sample data. -/
theorem switchToZone_events_witness :
    ∃ s1 new, MapService.switchToZone 9 "B" zoneData loadedMapService = (.ok (), s1) ∧
      s1.emitted = loadedMapService.emitted ++ new ∧
      new.filter (fun e => !e.isStateChanged) =
        [.beforeCleanup (some 9) (some "A"), .afterCleanup (some 9) (some "A"),
         .dataLoaded 9 "B" ([zoneRoute].filter (routeOfZone 9))
           ([zoneStop, otherStop].filter (stopOfZone 9 "B"))] :=
  (switchToZone_events 9 "B" zoneData [zoneRoute] [zoneStop, otherStop] loadedMapService
    zoneData_good).1 9 "A" rfl rfl rfl (by decide) (by decide) (by decide)

theorem switchFailed_state (message : String) (s : MapService) :
    (MapService.switchFailed message s).2.currentState.isLoading = false ∧
      (MapService.switchFailed message s).2.currentState.isLoaded = false :=
  ⟨rfl, rfl⟩

/-- C27. If loading fails inside `switchToZone`, the call ends with the
exception of the load, and the state it leaves has `isLoading` false and
`isLoaded` false. In particular this is so when the data is `null` or
`undefined`, for every prior state. -/
theorem switchToZone_failure (zone : ℤ) (subzone : String) (data : JSVal) (s : MapService) :
    (∀ e, (MapService.switchToZone zone subzone data s).1 = .error e →
      (MapService.switchToZone zone subzone data s).2.currentState.isLoading = false ∧
      (MapService.switchToZone zone subzone data s).2.currentState.isLoaded = false) ∧
    (∀ e s0, MapService.loadZoneData zone subzone data s0 = .error e →
      (MapService.switchToZone zone subzone data s).1 = .error e) ∧
    (data = .null ∨ data = .undefined →
      ∃ e, (MapService.switchToZone zone subzone data s).1 = .error e) := by
  have hprop : ∀ e s0, MapService.loadZoneData zone subzone data s0 = .error e →
      MapService.switchToZone zone subzone data s = MapService.switchFailed e
        (if MapService.isZoneLoaded zone subzone s then s
         else MapService.setState
          [.zone (some zone), .subzone (some subzone), .isLoading true, .isLoaded false]
          (MapService.clearCurrentState s)) := by
    intro e s0 h
    unfold MapService.switchToZone MapService.updateZoneData
    by_cases hl : MapService.isZoneLoaded zone subzone s = true
    · rw [hl]
      simp only [if_true, Bool.not_true, Bool.false_eq_true, if_false, bind, Except.bind,
        pure, Except.pure, loadZoneData_error zone subzone data s0 s e h]
    · rw [Bool.not_eq_true] at hl
      rw [hl]
      simp only [Bool.false_eq_true, if_false,
        loadZoneData_error zone subzone data s0 _ e h]
  refine ⟨?_, ?_, ?_⟩
  · intro e h
    unfold MapService.switchToZone MapService.updateZoneData at h ⊢
    by_cases hl : MapService.isZoneLoaded zone subzone s = true
    · rw [hl] at h ⊢
      simp only [if_true, Bool.not_true, Bool.false_eq_true, if_false, bind, Except.bind,
        pure, Except.pure] at h ⊢
      cases hd : MapService.loadZoneData zone subzone data s with
      | ok s1 =>
        rw [hd] at h
        cases h
      | error e1 =>
        exact switchFailed_state e1 s
    · rw [Bool.not_eq_true] at hl
      rw [hl] at h ⊢
      simp only [Bool.false_eq_true, if_false] at h ⊢
      split
      · rename_i s3 hd
        rw [hd] at h
        cases h
      · exact switchFailed_state _ _
  · intro e s0 h
    rw [hprop e s0 h]
    rfl
  · intro h
    obtain ⟨e, he⟩ := loadZoneData_nullish zone subzone data s h
    exact ⟨e, by rw [hprop e s he]; rfl⟩

/-- C27, witness: the switch to zone 9, plan B with `null` as data, from the
service with zone 9, plan A loaded. -/
theorem switchToZone_failure_witness :
    ∃ e, (MapService.switchToZone 9 "B" .null loadedMapService).1 = .error e :=
  (switchToZone_failure 9 "B" .null loadedMapService).2.2 (Or.inl rfl)

theorem apply_field_ne (st : MapState) (u : StateUpdate) (key : String) (h : key ≠ u.key) :
    (StateUpdate.apply st u).field key = st.field key := by
  cases u <;> simp only [StateUpdate.key] at h <;>
    simp [MapState.field, StateUpdate.apply, h]

theorem foldl_apply_field (newState : List StateUpdate) (key : String)
    (h : key ∉ newState.map StateUpdate.key) (st : MapState) :
    (newState.foldl StateUpdate.apply st).field key = st.field key := by
  induction newState generalizing st with
  | nil => rfl
  | cons u us ih =>
    rw [List.map_cons, List.mem_cons, not_or] at h
    rw [List.foldl_cons, ih h.2, apply_field_ne st u key h.1]

/-- C28 (amended). Every `stateChanged` event emitted by `setState` carries
the state before the update, the state after it, and as `changes` exactly the
keys of the object passed to `setState`, in its order. Every key whose value
differs between the two states is in that list; a key that is set to the value
it already had is in the list as well. -/
theorem setState_changes (newState : List StateUpdate) (s : MapService) :
    (MapService.setState newState s).emitted =
      s.emitted ++ [.stateChanged s.currentState (MapService.setState newState s).currentState
        (newState.map StateUpdate.key)] ∧
    ∀ key, s.currentState.field key ≠ (MapService.setState newState s).currentState.field key →
      key ∈ newState.map StateUpdate.key := by
  refine ⟨rfl, fun key hne => ?_⟩
  by_contra hmem
  exact hne (foldl_apply_field newState key hmem s.currentState).symm

/-- C28, counterexample. `deselectStop` on the service as its constructor
leaves it sets `selectedStop` to `null`, which it already is: the event
`stateChanged` carries two equal states and the list `changes` with the key
`selectedStop`, whose value does not differ between them. -/
theorem setState_counterexample :
    (MapService.deselectStop initialMapService).emitted =
      [.stateChanged initialMapState initialMapState ["selectedStop"], .stopDeselected] :=
  rfl

/-! ## Runs and stop completion on a database whose flag is set -/

theorem ensureInitialized_ready (d : Database) (h : d.isReady = true) :
    d.ensureInitialized = .ok () := by
  unfold Database.ensureInitialized
  rw [h]
  rfl

theorem startRun_active (now : ℕ) (runData : RunData) (d : Database) (zone_id : ℤ)
    (hready : d.isReady = true) (hzone : positiveInteger runData.zone_id = some zone_id)
    (hplan : validPlan runData.plan = .ok true) :
    ∃ d1, d.startRun now runData = .ok (d.runsSeq + 1, d1) ∧
      d1.isReady = true ∧ activeRuns d1 = activeRuns d + 1 := by
  unfold Database.startRun
  rw [ensureInitialized_ready d hready, hzone, hplan]
  simp only [bind, Except.bind, pure, Except.pure, Bool.not_true, Bool.false_eq_true, if_false]
  cases hp : runData.plan with
  | str plan =>
    refine ⟨_, rfl, hready, ?_⟩
    simp [activeRuns, List.filter_append]
  | _ => simp [hp, validPlan] at hplan

theorem positiveInteger_nine : positiveInteger (.num (.fin 9)) = some 9 := by
  have h1 : (9 : ℚ).den = 1 := rfl
  have h2 : (9 : ℚ).num = 9 := rfl
  simp [positiveInteger, h1, h2]

/-- On a database whose flag `isInitialized` is set, a state that no list of
calls reaches from the constructor (see `neverReady_runActions`). `startRun`
inserts a row with status `active` without looking for one that is there
already: on every such database, two calls of `startRun` with a valid `zone_id` and plan both
succeed, and after them the table `runs` holds two active rows more than
before, so at least two. -/
theorem startRun_twice (now now1 : ℕ) (runData : RunData) (d : Database) (zone_id : ℤ)
    (hready : d.isReady = true) (hzone : positiveInteger runData.zone_id = some zone_id)
    (hplan : validPlan runData.plan = .ok true) :
    ∃ id d1 id1 d2, d.startRun now runData = .ok (id, d1) ∧
      d1.startRun now1 runData = .ok (id1, d2) ∧ activeRuns d2 = activeRuns d + 2 := by
  obtain ⟨d1, h1, hr1, ha1⟩ := startRun_active now runData d zone_id hready hzone hplan
  obtain ⟨d2, h2, _, ha2⟩ := startRun_active now1 runData d1 zone_id hr1 hzone hplan
  exact ⟨_, d1, _, d2, h1, h2, by rw [ha2, ha1]⟩

/-- An instance of `startRun_twice`: two calls of
`startRun({ zone_id: 9, plan: 'B' })` on the database without runs whose flag
is set leave two active rows. -/
theorem startRun_twice_witness :
    ∃ id d1 id1 d2, readyDatabase.startRun 100 sampleRun = .ok (id, d1) ∧
      d1.startRun 200 sampleRun = .ok (id1, d2) ∧ activeRuns d2 = activeRuns readyDatabase + 2 :=
  startRun_twice 100 200 sampleRun readyDatabase 9 rfl positiveInteger_nine rfl

theorem latestRun_eq_none (rs : List RunRow) : latestRun rs = none ↔ rs = [] := by
  cases rs with
  | nil => exact ⟨fun _ => rfl, fun _ => rfl⟩
  | cons r rs =>
    unfold latestRun
    constructor
    · intro h
      split at h
      · cases h
      · split at h <;> cases h
    · intro h
      cases h

/-- On a database whose flag `isInitialized` is set, a state that no list of
calls reaches from the constructor (see `neverReady_service_runActions`): when
no run has status `active`,
`completeStop` fails with the error `Nessuna run attiva` and leaves the
service as it was (nothing is written to `run_stops`, no event is emitted);
when a run is active, `completeStop` returns whether the completion write
changed a row (a row of `run_stops` has the key `stopId`), leaves the table
`runs` as it was, and emits `stopCompleted` if and only if that is so. -/
theorem completeStop_spec (now : ℕ) (c : StopCompletionData) (s : PostManService)
    (hready : s.database.isReady = true) :
    ((∀ r ∈ s.database.runs, r.status ≠ "active") →
      PostManService.completeStop now c s = (.error "Nessuna run attiva", s)) ∧
    ((∃ r ∈ s.database.runs, r.status = "active") →
      ∃ success d, PostManService.completeStop now c s =
          (.ok success, { database := d,
                          emitted := if success then s.emitted ++ [.stopCompleted c.stopId c]
                            else s.emitted }) ∧
        (success = true ↔ ∃ row ∈ s.database.runStops, row.id = c.stopId) ∧
        d.runs = s.database.runs) := by
  constructor
  · intro h
    have hnone : latestRun (s.database.runs.filter (fun r => decide (r.status = "active"))) =
        none := by
      rw [latestRun_eq_none, List.filter_eq_nil_iff]
      intro r hr
      simpa using h r hr
    unfold PostManService.completeStop Database.getActiveRun
    rw [ensureInitialized_ready _ hready]
    simp only [bind, Except.bind, pure, Except.pure, hnone]
  · rintro ⟨r, hr, hact⟩
    have hsome : ∃ a, latestRun (s.database.runs.filter
        (fun r => decide (r.status = "active"))) = some a := by
      cases hl : latestRun (s.database.runs.filter (fun r => decide (r.status = "active"))) with
      | some a => exact ⟨a, rfl⟩
      | none =>
        rw [latestRun_eq_none, List.filter_eq_nil_iff] at hl
        exact absurd hact (by simpa using hl r hr)
    obtain ⟨a, ha⟩ := hsome
    unfold PostManService.completeStop Database.getActiveRun Database.completeStopInRun
    rw [ensureInitialized_ready _ hready]
    simp only [bind, Except.bind, pure, Except.pure, ha]
    by_cases hrow : ∃ row ∈ s.database.runStops, row.id = c.stopId
    · have hpos : (s.database.runStops.filter (fun r => decide (r.id = c.stopId))).length > 0 := by
        obtain ⟨row, hmem, hid⟩ := hrow
        exact List.length_pos_of_mem (List.mem_filter.2 ⟨hmem, by simpa using hid⟩)
      simp only [hpos, decide_True, if_true]
      exact ⟨true, _, rfl, ⟨fun _ => hrow, fun _ => rfl⟩, rfl⟩
    · have hzero : ¬ (s.database.runStops.filter (fun r => decide (r.id = c.stopId))).length > 0 := by
        intro hpos
        obtain ⟨row, hmem⟩ := List.exists_mem_of_length_pos hpos
        rw [List.mem_filter] at hmem
        exact hrow ⟨row, hmem.1, by simpa using hmem.2⟩
      simp only [hzero, decide_False, Bool.false_eq_true, if_false]
      exact ⟨false, _, rfl, ⟨fun h => Bool.noConfusion h, fun h => absurd h hrow⟩, rfl⟩

/-- An instance of `completeStop_spec`: the service with one active run and
the stop with key 1. -/
theorem completeStop_spec_witness :
    ∃ success d, PostManService.completeStop 200 sampleCompletion runningService =
        (.ok success, { database := d,
                        emitted := if success then runningService.emitted ++
                            [.stopCompleted sampleCompletion.stopId sampleCompletion]
                          else runningService.emitted }) ∧
      (success = true ↔ ∃ row ∈ runningService.database.runStops,
        row.id = sampleCompletion.stopId) ∧
      d.runs = runningService.database.runs :=
  (completeStop_spec 200 sampleCompletion runningService rfl).2
    ⟨_, List.mem_singleton.2 rfl, rfl⟩

/-! ## The load coordinator taken alone: one load -/

theorem validateKML_toJS_ends (E : Engine) (P : Printer) (d : ParsedKML) :
    ∃ r, validateKML E P d.toJS = .returns r := by
  have hfin : FiniteRoutes E d.toJS :=
    finiteRoutes_of_array E _ (d.routes.map Route.toJS) (by simp [getProp, List.lookup])
  unfold validateKML
  cases h : validateKMLBody E P d.toJS initialResult with
  | ok a r => exact ⟨_, rfl⟩
  | throws msg r => exact ⟨_, rfl⟩
  | diverges => exact absurd h (validateKMLBody_noDiv E P d.toJS hfin _)

theorem performKMLLoading_missing (E : Engine) (P : Printer)
    (xmlParse : String → Except String JSVal) (clock : ℕ → ℕ) (zone : ℤ) (subzone : String)
    (a : FileAnswers) (hv : verifyKMLFile a.verifyInfo = false) :
    performKMLLoading E P xmlParse clock zone subzone a =
      .returns (loadFailure zone subzone a
        ("File KML non trovato per Zona " ++ showInt zone ++ " Sottozona " ++ subzone)) := by
  unfold performKMLLoading
  rw [hv]
  rfl

theorem performKMLLoading_unread (E : Engine) (P : Printer)
    (xmlParse : String → Except String JSVal) (clock : ℕ → ℕ) (zone : ℤ) (subzone : String)
    (a : FileAnswers) (message : String) (hv : verifyKMLFile a.verifyInfo = true)
    (hl : loadKML zone subzone a.loadInfo a.content = .error message) :
    performKMLLoading E P xmlParse clock zone subzone a =
      .returns (loadFailure zone subzone a message) := by
  unfold performKMLLoading
  rw [hv, hl]
  rfl

theorem performKMLLoading_unparsed (E : Engine) (P : Printer)
    (xmlParse : String → Except String JSVal) (clock : ℕ → ℕ) (zone : ℤ) (subzone : String)
    (a : FileAnswers) (kmlContent message : String)
    (hv : verifyKMLFile a.verifyInfo = true)
    (hl : loadKML zone subzone a.loadInfo a.content = .ok kmlContent)
    (hp : parseKML E xmlParse clock (.str kmlContent) = .error message) :
    performKMLLoading E P xmlParse clock zone subzone a =
      .returns (loadFailure zone subzone a message) := by
  unfold performKMLLoading
  rw [hv, hl]
  simp only [Bool.not_true, Bool.false_eq_true, if_false, hp]

theorem routesWithStats_routes (E : Engine) :
    ∀ (routes : List Route) (withStats : List RouteWithStats),
      routesWithStats E routes = .ok withStats → withStats.map (fun x => x.route) = routes := by
  intro routes
  induction routes with
  | nil =>
    intro withStats h
    cases h
    rfl
  | cons route rest ih =>
    intro withStats h
    unfold routesWithStats at h
    cases hs : calculateRouteStats E route with
    | error message =>
      rw [hs] at h
      cases h
    | ok stats =>
      rw [hs] at h
      cases hr : routesWithStats E rest with
      | error message =>
        rw [hr] at h
        cases h
      | ok others =>
        rw [hr] at h
        cases h
        simp [ih others hr]

theorem calculateRouteStats_ok_iff (E : Engine) (route : Route) :
    (∃ stats, calculateRouteStats E route = .ok stats) ↔
      (route.path.length < 2 ∨ route.path.length ≤ E.maxArguments) := by
  unfold calculateRouteStats
  by_cases h2 : route.path.length < 2
  · simp [h2]
  · by_cases hm : E.maxArguments < route.path.length
    · simp only [h2, hm, if_true, if_false, false_or]
      constructor
      · rintro ⟨stats, h⟩
        cases h
      · intro h
        omega
    · simp only [h2, hm, if_false, false_or]
      exact ⟨fun _ => by omega, fun _ => ⟨_, rfl⟩⟩

theorem calculateRouteStats_error (E : Engine) (route : Route) (message : String)
    (h : calculateRouteStats E route = .error message) : message = tooManyArguments := by
  unfold calculateRouteStats at h
  split_ifs at h
  cases h
  rfl

theorem routesWithStats_ok_iff (E : Engine) (routes : List Route) :
    (∃ withStats, routesWithStats E routes = .ok withStats) ↔
      ∀ route ∈ routes, route.path.length < 2 ∨ route.path.length ≤ E.maxArguments := by
  induction routes with
  | nil => simp [routesWithStats]
  | cons route rest ih =>
    unfold routesWithStats
    simp only [List.mem_cons, forall_eq_or_imp]
    rw [← ih, ← calculateRouteStats_ok_iff E route]
    cases hs : calculateRouteStats E route with
    | error message => simp
    | ok stats =>
      cases hr : routesWithStats E rest with
      | error message => simp
      | ok others => simp

theorem routesWithStats_error (E : Engine) :
    ∀ (routes : List Route) (message : String),
      routesWithStats E routes = .error message → message = tooManyArguments := by
  intro routes
  induction routes with
  | nil =>
    intro message h
    cases h
  | cons route rest ih =>
    intro message h
    unfold routesWithStats at h
    cases hs : calculateRouteStats E route with
    | error m =>
      rw [hs] at h
      cases h
      exact calculateRouteStats_error E route _ hs
    | ok stats =>
      rw [hs] at h
      cases hr : routesWithStats E rest with
      | error m =>
        rw [hr] at h
        cases h
        exact ih _ hr
      | ok others =>
        rw [hr] at h
        cases h

theorem performKMLLoading_loaded (E : Engine) (P : Printer)
    (xmlParse : String → Except String JSVal) (clock : ℕ → ℕ) (zone : ℤ) (subzone : String)
    (a : FileAnswers) (kmlContent : String) (parsedKML : ParsedKML)
    (validation : ValidationResult) (withStats : List RouteWithStats)
    (hv : verifyKMLFile a.verifyInfo = true)
    (hl : loadKML zone subzone a.loadInfo a.content = .ok kmlContent)
    (hp : parseKML E xmlParse clock (.str kmlContent) = .ok parsedKML)
    (hval : validateKML E P parsedKML.toJS = .returns validation)
    (hstats : routesWithStats E parsedKML.routes = .ok withStats) :
    performKMLLoading E P xmlParse clock zone subzone a =
      .returns
        { success := true, zone := zone, subzone := subzone,
          parsedKML := some { parsed := parsedKML, routes := withStats },
          validation := some validation, error := none,
          metadata :=
            { loadTime := (a.endTime : ℤ) - a.startTime,
              fileSize := some kmlContent.data.length,
              routeCount := some withStats.length,
              totalPoints := some
                (withStats.foldl (fun sum route => sum + route.route.pointCount) 0),
              isValid := some validation.isValid, error := false } } := by
  unfold performKMLLoading
  rw [hv, hl]
  simp only [Bool.not_true, Bool.false_eq_true, if_false, hp, hval, hstats]

theorem performKMLLoading_rangeError (E : Engine) (P : Printer)
    (xmlParse : String → Except String JSVal) (clock : ℕ → ℕ) (zone : ℤ) (subzone : String)
    (a : FileAnswers) (kmlContent : String) (parsedKML : ParsedKML)
    (validation : ValidationResult) (message : String)
    (hv : verifyKMLFile a.verifyInfo = true)
    (hl : loadKML zone subzone a.loadInfo a.content = .ok kmlContent)
    (hp : parseKML E xmlParse clock (.str kmlContent) = .ok parsedKML)
    (hval : validateKML E P parsedKML.toJS = .returns validation)
    (hstats : routesWithStats E parsedKML.routes = .error message) :
    performKMLLoading E P xmlParse clock zone subzone a =
      .returns (loadFailure zone subzone a tooManyArguments) := by
  unfold performKMLLoading
  rw [hv, hl]
  simp only [Bool.not_true, Bool.false_eq_true, if_false, hp, hval, hstats,
    routesWithStats_error E _ _ hstats]

theorem performKMLLoading_returns (E : Engine) (P : Printer)
    (xmlParse : String → Except String JSVal) (clock : ℕ → ℕ) (zone : ℤ) (subzone : String)
    (a : FileAnswers) :
    ∃ r, performKMLLoading E P xmlParse clock zone subzone a = .returns r := by
  unfold performKMLLoading
  split
  · exact ⟨_, rfl⟩
  · split
    · exact ⟨_, rfl⟩
    · split
      · exact ⟨_, rfl⟩
      · rename_i parsedKML _
        obtain ⟨v, hv⟩ := validateKML_toJS_ends E P parsedKML
        rw [hv]
        cases routesWithStats E parsedKML.routes <;> exact ⟨_, rfl⟩

/-! ## The load coordinator taken alone: the cache and the loads in flight -/

theorem mem_eraseIdx_of_ne {α : Type} (w v : α) :
    ∀ (l : List α) (i : ℕ), v ∈ l → l[i]? = some w → v ≠ w → v ∈ l.eraseIdx i := by
  intro l
  induction l with
  | nil => intro i h; cases h
  | cons a l ih =>
    intro i hv hw hne
    cases i with
    | zero =>
      simp only [List.getElem?_cons_zero, Option.some.injEq] at hw
      subst hw
      simp only [List.eraseIdx_cons_zero]
      rcases List.mem_cons.1 hv with h | h
      · exact absurd h hne
      · exact h
    | succ j =>
      simp only [List.getElem?_cons_succ] at hw
      simp only [List.eraseIdx_cons_succ]
      rcases List.mem_cons.1 hv with h | h
      · exact List.mem_cons.2 (Or.inl h)
      · exact List.mem_cons.2 (Or.inr (ih j h hw hne))

theorem mem_of_mem_eraseIdx_list {α : Type} (v : α) (l : List α) (i : ℕ)
    (h : v ∈ l.eraseIdx i) : v ∈ l :=
  (List.eraseIdx_sublist l i).subset h

theorem rel_of_mem_eraseIdx {α : Type} (R : α → α → Prop) (hR : ∀ a b, R a b → R b a)
    (w v : α) :
    ∀ (l : List α) (i : ℕ), l.Pairwise R → l[i]? = some w → v ∈ l.eraseIdx i → R w v := by
  intro l
  induction l with
  | nil => intro i _ h; simp at h
  | cons a l ih =>
    intro i hp hw hv
    rw [List.pairwise_cons] at hp
    cases i with
    | zero =>
      simp only [List.getElem?_cons_zero, Option.some.injEq] at hw
      subst hw
      simp only [List.eraseIdx_cons_zero] at hv
      exact hp.1 v hv
    | succ j =>
      simp only [List.getElem?_cons_succ] at hw
      simp only [List.eraseIdx_cons_succ] at hv
      rcases List.mem_cons.1 hv with h | h
      · subst h
        exact hR _ _ (hp.1 w (List.getElem?_mem hw))
      · exact ih j hp.2 hw h

theorem coalesced_initial : Coalesced initialKMLService where
  registered := by intro w h; cases h
  made := by intro w h; cases h
  distinct := List.Pairwise.nil
  started := by intro key load h; cases h
  pending := by intro load p h; simp [initialKMLService] at h
  fulfilled := by intro p h; cases h
  same := by intro d h; cases h
  returned := by intro d h; cases h

theorem getElem?_lt_length {α : Type} (l : List α) (i : ℕ) (a : α) (h : l[i]? = some a) :
    i < l.length := by
  rcases List.getElem?_eq_some.1 h with ⟨hlt, _⟩
  exact hlt

theorem coalesced_call (s : KMLService) (caller : ℕ) (zone : ℤ) (subzone : String)
    (forceReload : Bool) (h : Coalesced s) :
    Coalesced (s.loadKMLForZone caller zone subzone forceReload) := by
  unfold KMLService.loadKMLForZone
  dsimp only
  split
  · constructor
    · intro w hw hs
      rcases List.mem_append.1 hw with hw | hw
      · exact h.registered w hw hs
      · rw [List.mem_singleton.1 hw] at hs
        cases hs
    · intro w hw hs
      rcases List.mem_append.1 hw with hw | hw
      · exact h.made w hw hs
      · rw [List.mem_singleton.1 hw] at hs
        cases hs
    · refine List.pairwise_append.2 ⟨h.distinct, List.pairwise_singleton _ _, ?_⟩
      intro a _ b hb _ hs
      rw [List.mem_singleton.1 hb] at hs
      cases hs
    · intro key load hk
      obtain ⟨w, hw, hrest⟩ := h.started key load hk
      exact ⟨w, List.mem_append.2 (Or.inl hw), hrest⟩
    · intro load p hp hnone
      obtain ⟨w, hw, hrest⟩ := h.pending load p hp hnone
      exact ⟨w, List.mem_append.2 (Or.inl hw), hrest⟩
    · exact h.fulfilled
    · exact h.same
    · exact h.returned
  · rename_i hidle
    split
    · constructor
      · exact h.registered
      · exact h.made
      · exact h.distinct
      · exact h.started
      · exact h.pending
      · exact h.fulfilled
      · intro d hd load hl
        rcases List.mem_append.1 hd with hd | hd
        · exact h.same d hd load hl
        · rw [List.mem_singleton.1 hd] at hl
          cases hl
      · intro d hd
        rcases List.mem_append.1 hd with hd | hd
        · exact h.returned d hd
        · rw [List.mem_singleton.1 hd]
          exact ⟨_, rfl⟩
    · constructor
      · intro w hw hs
        rcases List.mem_append.1 hw with hw | hw
        · have hreg := h.registered w hw hs
          have hne : w.key ≠ cacheKey zone subzone := by
            intro heq
            rw [heq, hidle] at hreg
            cases hreg
          show Function.update s.loadingPromises (cacheKey zone subzone) _ w.key = _
          rw [Function.update_noteq hne]
          exact hreg
        · rw [List.mem_singleton.1 hw]
          exact Function.update_same _ _ _
      · intro w hw hs
        rcases List.mem_append.1 hw with hw | hw
        · obtain ⟨p, hp, hkey⟩ := h.made w hw hs
          refine ⟨p, ?_, hkey⟩
          show (s.loads ++ _)[w.load]? = some p
          rw [List.getElem?_append_left (getElem?_lt_length _ _ _ hp)]
          exact hp
        · rw [List.mem_singleton.1 hw]
          exact ⟨_, List.getElem?_concat_length _ _, rfl⟩
      · refine List.pairwise_append.2 ⟨h.distinct, List.pairwise_singleton _ _, ?_⟩
        intro a ha b hb hs _
        rw [List.mem_singleton.1 hb]
        obtain ⟨p, hp, _⟩ := h.made a ha hs
        exact Nat.ne_of_lt (getElem?_lt_length _ _ _ hp)
      · intro key load hk
        by_cases hkey : key = cacheKey zone subzone
        · subst hkey
          have hk2 : Function.update s.loadingPromises (cacheKey zone subzone)
              (some s.loads.length) (cacheKey zone subzone) = some load := hk
          rw [Function.update_same] at hk2
          cases hk2
          exact ⟨_, List.mem_append.2 (Or.inr (List.mem_singleton.2 rfl)), rfl, rfl, rfl⟩
        · have hk2 : Function.update s.loadingPromises (cacheKey zone subzone)
              (some s.loads.length) key = some load := hk
          rw [Function.update_noteq hkey] at hk2
          obtain ⟨w, hw, hrest⟩ := h.started key load hk2
          exact ⟨w, List.mem_append.2 (Or.inl hw), hrest⟩
      · intro load p hp hnone
        have hp2 : (s.loads ++ [({ zone := zone, subzone := subzone, outcome := none } :
            PendingLoad)])[load]? = some p := hp
        by_cases hlt : load < s.loads.length
        · rw [List.getElem?_append_left hlt] at hp2
          obtain ⟨w, hw, hrest⟩ := h.pending load p hp2 hnone
          exact ⟨w, List.mem_append.2 (Or.inl hw), hrest⟩
        · have hlen := getElem?_lt_length _ _ _ hp2
          simp only [List.length_append, List.length_singleton] at hlen
          have heq : load = s.loads.length := by omega
          exact ⟨_, List.mem_append.2 (Or.inr (List.mem_singleton.2 rfl)), rfl, heq.symm⟩
      · intro p hp message
        rcases List.mem_append.1 hp with hp | hp
        · exact h.fulfilled p hp message
        · rw [List.mem_singleton.1 hp]
          intro hcontra
          cases hcontra
      · intro d hd load hl
        obtain ⟨p, hp, hout⟩ := h.same d hd load hl
        refine ⟨p, ?_, hout⟩
        show (s.loads ++ _)[load]? = some p
        rw [List.getElem?_append_left (getElem?_lt_length _ _ _ hp)]
        exact hp
      · exact h.returned

theorem settle_eq (E : Engine) (P : Printer) (xmlParse : String → Except String JSVal)
    (clock : ℕ → ℕ) (load : ℕ) (answers : FileAnswers) (s : KMLService) :
    s.settle E P xmlParse clock load answers = s ∨
      ∃ p result, s.loads[load]? = some p ∧ p.outcome = none ∧
        performKMLLoading E P xmlParse clock p.zone p.subzone answers = .returns result ∧
        s.settle E P xmlParse clock load answers =
          { s with loads := s.loads.set load { p with outcome := some (.ok result) } } := by
  unfold KMLService.settle
  cases hp : s.loads[load]? with
  | none => exact Or.inl rfl
  | some p =>
    cases ho : p.outcome with
    | some o => exact Or.inl (by simp only [ho])
    | none =>
      obtain ⟨result, hr⟩ := performKMLLoading_returns E P xmlParse clock p.zone p.subzone answers
      refine Or.inr ⟨p, result, rfl, ho, hr, ?_⟩
      simp only [ho, hr]

theorem coalesced_settle (E : Engine) (P : Printer) (xmlParse : String → Except String JSVal)
    (clock : ℕ → ℕ) (load : ℕ) (answers : FileAnswers) (s : KMLService) (h : Coalesced s) :
    Coalesced (s.settle E P xmlParse clock load answers) := by
  rcases settle_eq E P xmlParse clock load answers s with heq | ⟨p, result, hp, hnone, _, heq⟩
  · rw [heq]
    exact h
  · rw [heq]
    constructor
    · exact h.registered
    · intro w hw hs
      obtain ⟨q, hq, hkey⟩ := h.made w hw hs
      show ∃ q, (s.loads.set load _)[w.load]? = some q ∧ _
      by_cases hl : load = w.load
      · subst hl
        rw [hp] at hq
        cases hq
        refine ⟨{ p with outcome := some (.ok result) }, ?_, hkey⟩
        rw [List.getElem?_set, if_pos rfl, if_pos (getElem?_lt_length _ _ _ hp)]
      · rw [List.getElem?_set_ne hl]
        exact ⟨q, hq, hkey⟩
    · exact h.distinct
    · exact h.started
    · intro l q hq hqnone
      have hq2 : (s.loads.set load { p with outcome := some (.ok result) })[l]? = some q := hq
      by_cases hl : load = l
      · subst hl
        rw [List.getElem?_set, if_pos rfl, if_pos (getElem?_lt_length _ _ _ hp)] at hq2
        cases hq2
        cases hqnone
      · rw [List.getElem?_set_ne hl] at hq2
        exact h.pending l q hq2 hqnone
    · intro q hq message
      rcases List.mem_or_eq_of_mem_set hq with hq | hq
      · exact h.fulfilled q hq message
      · rw [hq]
        intro hcontra
        cases hcontra
    · intro d hd l hl
      obtain ⟨q, hq, hout⟩ := h.same d hd l hl
      show ∃ q, (s.loads.set load _)[l]? = some q ∧ _
      by_cases hne : load = l
      · subst hne
        rw [hp] at hq
        cases hq
        rw [hnone] at hout
        cases hout
      · rw [List.getElem?_set_ne hne]
        exact ⟨q, hq, hout⟩
    · exact h.returned

theorem resume_eq (index : ℕ) (s : KMLService) (h : Coalesced s) :
    s.resume index = s ∨
      ∃ w p result, s.waiting[index]? = some w ∧ s.loads[w.load]? = some p ∧
        p.outcome = some (.ok result) ∧
        s.resume index =
          { s with
            cache := if w.starter then Function.update s.cache w.key (some result) else s.cache
            loadingPromises :=
              if w.starter then Function.update s.loadingPromises w.key none
              else s.loadingPromises
            waiting := s.waiting.eraseIdx index
            delivered := s.delivered ++ [{ caller := w.caller, load := some w.load,
                                           outcome := .ok result }] } := by
  unfold KMLService.resume
  cases hw : s.waiting[index]? with
  | none => exact Or.inl rfl
  | some w =>
    dsimp only
    cases hp : s.loads[w.load]? with
    | none => exact Or.inl rfl
    | some p =>
      cases ho : p.outcome with
      | none => exact Or.inl (by simp only [Option.bind, ho])
      | some o =>
        cases o with
        | error message => exact absurd ho (h.fulfilled p (List.getElem?_mem hp) message)
        | ok result =>
          refine Or.inr ⟨w, p, result, rfl, hp, ho, ?_⟩
          simp only [Option.bind, ho]
          cases w.starter <;> rfl

theorem coalesced_resume (index : ℕ) (s : KMLService) (h : Coalesced s) :
    Coalesced (s.resume index) := by
  rcases resume_eq index s h with heq | ⟨w, p, result, hw, hp, hout, heq⟩
  · rw [heq]
    exact h
  · rw [heq]
    have hmem : ∀ v, v ∈ s.waiting.eraseIdx index → v ∈ s.waiting :=
      fun v hv => mem_of_mem_eraseIdx_list v _ _ hv
    have hdiff : ∀ v, v ∈ s.waiting.eraseIdx index → v.starter = true → w.starter = true →
        v.key ≠ w.key := by
      intro v hv hvs hws hkey
      have h1 := h.registered v (hmem v hv) hvs
      have h2 := h.registered w (List.getElem?_mem hw) hws
      rw [hkey, h2] at h1
      have hrel := rel_of_mem_eraseIdx
        (fun v w : Waiter => v.starter = true → w.starter = true → v.load ≠ w.load)
        (fun a b hab hb ha heq => hab ha hb heq.symm) w v s.waiting index h.distinct hw hv
        hws hvs
      exact hrel (Option.some.inj h1)
    constructor
    · intro v hv hvs
      have hreg := h.registered v (hmem v hv) hvs
      show (if w.starter then Function.update s.loadingPromises w.key none
        else s.loadingPromises) v.key = some v.load
      cases hws : w.starter with
      | false => exact hreg
      | true =>
        simp only [if_true]
        rw [Function.update_noteq (hdiff v hv hvs hws)]
        exact hreg
    · intro v hv hvs
      exact h.made v (hmem v hv) hvs
    · exact h.distinct.sublist (List.eraseIdx_sublist _ _)
    · intro key load hk
      have hk2 : (if w.starter then Function.update s.loadingPromises w.key none
        else s.loadingPromises) key = some load := hk
      cases hws : w.starter with
      | false =>
        rw [hws] at hk2
        obtain ⟨v, hv, hvs, hrest⟩ := h.started key load hk2
        refine ⟨v, mem_eraseIdx_of_ne w v _ _ hv hw ?_, hvs, hrest⟩
        intro hvw
        rw [hvw, hws] at hvs
        cases hvs
      | true =>
        rw [hws] at hk2
        simp only [if_true] at hk2
        have hkey : key ≠ w.key := by
          intro hkey
          rw [hkey, Function.update_same] at hk2
          cases hk2
        rw [Function.update_noteq hkey] at hk2
        obtain ⟨v, hv, hvs, hvk, hvl⟩ := h.started key load hk2
        refine ⟨v, mem_eraseIdx_of_ne w v _ _ hv hw ?_, hvs, hvk, hvl⟩
        intro hvw
        rw [hvw] at hvk
        exact hkey hvk.symm
    · intro load q hq hnone
      obtain ⟨v, hv, hvs, hvl⟩ := h.pending load q hq hnone
      refine ⟨v, mem_eraseIdx_of_ne w v _ _ hv hw ?_, hvs, hvl⟩
      intro hvw
      rw [hvw] at hvl
      rw [hvl, hq] at hp
      cases hp
      rw [hnone] at hout
      cases hout
    · exact h.fulfilled
    · intro d hd load hl
      rcases List.mem_append.1 hd with hd | hd
      · exact h.same d hd load hl
      · rw [List.mem_singleton.1 hd] at hl ⊢
        cases hl
        exact ⟨p, hp, hout⟩
    · intro d hd
      rcases List.mem_append.1 hd with hd | hd
      · exact h.returned d hd
      · rw [List.mem_singleton.1 hd]
        exact ⟨_, rfl⟩

theorem coalesced_step (E : Engine) (P : Printer) (xmlParse : String → Except String JSVal)
    (clock : ℕ → ℕ) (s : KMLService) (action : KMLAction) (h : Coalesced s) :
    Coalesced (s.step E P xmlParse clock action) := by
  cases action with
  | call caller zone subzone forceReload => exact coalesced_call s caller zone subzone _ h
  | settle load answers => exact coalesced_settle E P xmlParse clock load answers s h
  | resume index => exact coalesced_resume index s h
  | clearCache => exact ⟨h.1, h.2, h.3, h.4, h.5, h.6, h.7, h.8⟩
  | removeFromCache zone subzone =>
    show Coalesced (s.removeFromCache zone subzone)
    unfold KMLService.removeFromCache
    split
    · exact ⟨h.1, h.2, h.3, h.4, h.5, h.6, h.7, h.8⟩
    · exact h

theorem coalesced_run (E : Engine) (P : Printer) (xmlParse : String → Except String JSVal)
    (clock : ℕ → ℕ) (actions : List KMLAction) :
    ∀ s, Coalesced s → Coalesced (s.run E P xmlParse clock actions) := by
  induction actions with
  | nil => intro s h; exact h
  | cons action rest ih =>
    intro s h
    exact ih _ (coalesced_step E P xmlParse clock s action h)

theorem coalesced_after (E : Engine) (P : Printer) (xmlParse : String → Except String JSVal)
    (clock : ℕ → ℕ) (actions : List KMLAction) :
    Coalesced (KMLService.after E P xmlParse clock actions) :=
  coalesced_run E P xmlParse clock actions _ coalesced_initial

theorem length_le_one_of_pairwise (f : String → Option ℕ) (key : String) :
    ∀ l : List Waiter,
      l.Pairwise (fun v w => v.starter = true → w.starter = true → v.load ≠ w.load) →
      (∀ v ∈ l, v.starter = true ∧ f key = some v.load) → l.length ≤ 1 := by
  intro l hp hall
  match l, hp, hall with
  | [], _, _ => exact Nat.zero_le _
  | [_], _, _ => exact Nat.le_refl _
  | a :: b :: rest, hp, hall =>
    exfalso
    have ha := hall a (List.mem_cons_self _ _)
    have hb := hall b (List.mem_cons_of_mem _ (List.mem_cons_self _ _))
    have hne := (List.pairwise_cons.1 hp).1 b (List.mem_cons_self _ _) ha.1 hb.1
    rw [ha.2] at hb
    exact hne (Option.some.inj hb.2)

theorem mem_inFlight (s : KMLService) (key : String) (load : ℕ) :
    load ∈ s.inFlight key ↔
      ∃ w ∈ s.waiting, w.starter = true ∧ w.key = key ∧ w.load = load := by
  unfold KMLService.inFlight
  simp only [List.mem_map, List.mem_filter, Bool.and_eq_true, beq_iff_eq]
  constructor
  · rintro ⟨w, ⟨hw, hs, hk⟩, hl⟩
    exact ⟨w, hw, hs, hk, hl⟩
  · rintro ⟨w, hw, hs, hk, hl⟩
    exact ⟨w, ⟨hw, hs, hk⟩, hl⟩

theorem inFlight_iff (s : KMLService) (h : Coalesced s) (key : String) (load : ℕ) :
    load ∈ s.inFlight key ↔ s.loadingPromises key = some load := by
  rw [mem_inFlight]
  constructor
  · rintro ⟨w, hw, hs, hk, hl⟩
    rw [← hk, ← hl]
    exact h.registered w hw hs
  · exact h.started key load

theorem inFlight_length (s : KMLService) (h : Coalesced s) (key : String) :
    (s.inFlight key).length ≤ 1 := by
  unfold KMLService.inFlight
  rw [List.length_map]
  apply length_le_one_of_pairwise s.loadingPromises key
  · exact h.distinct.sublist (List.filter_sublist _)
  · intro v hv
    simp only [List.mem_filter, Bool.and_eq_true, beq_iff_eq] at hv
    refine ⟨hv.2.1, ?_⟩
    rw [← hv.2.2]
    exact h.registered v hv.1 hv.2.1

theorem pending_inFlight (s : KMLService) (h : Coalesced s) (load : ℕ) (p : PendingLoad)
    (hp : s.loads[load]? = some p) (hnone : p.outcome = none) :
    load ∈ s.inFlight (cacheKey p.zone p.subzone) := by
  rw [mem_inFlight]
  obtain ⟨w, hw, hs, hl⟩ := h.pending load p hp hnone
  obtain ⟨q, hq, hkey⟩ := h.made w hw hs
  rw [hl, hp] at hq
  cases hq
  exact ⟨w, hw, hs, hkey.symm, hl⟩

theorem loadKMLForZone_join (s : KMLService) (caller : ℕ) (zone : ℤ) (subzone : String)
    (forceReload : Bool) (load : ℕ)
    (h : s.loadingPromises (cacheKey zone subzone) = some load) :
    s.loadKMLForZone caller zone subzone forceReload =
      { s with waiting := s.waiting ++ [{ caller := caller, key := cacheKey zone subzone,
                                          load := load, starter := false }] } := by
  unfold KMLService.loadKMLForZone
  simp only [h]

theorem run_cons (E : Engine) (P : Printer) (xmlParse : String → Except String JSVal)
    (clock : ℕ → ℕ) (s : KMLService) (action : KMLAction) (rest : List KMLAction) :
    s.run E P xmlParse clock (action :: rest) =
      (s.step E P xmlParse clock action).run E P xmlParse clock rest := rfl

theorem run_nil (E : Engine) (P : Printer) (xmlParse : String → Except String JSVal)
    (clock : ℕ → ℕ) (s : KMLService) : s.run E P xmlParse clock [] = s := rfl

theorem loadKMLForZone_start (s : KMLService) (caller : ℕ) (zone : ℤ) (subzone : String)
    (forceReload : Bool) (hidle : s.loadingPromises (cacheKey zone subzone) = none)
    (hmiss : forceReload = true ∨ s.cache (cacheKey zone subzone) = none) :
    s.loadKMLForZone caller zone subzone forceReload =
      { s with
        loads := s.loads ++ [{ zone := zone, subzone := subzone, outcome := none }]
        loadingPromises :=
          Function.update s.loadingPromises (cacheKey zone subzone) (some s.loads.length)
        waiting := s.waiting ++ [{ caller := caller, key := cacheKey zone subzone,
                                   load := s.loads.length, starter := true }] } := by
  unfold KMLService.loadKMLForZone
  rcases hmiss with hf | hc
  · simp only [hidle, hf, if_true]
  · cases forceReload <;> simp [hidle, hc]

theorem reload_run (E : Engine) (P : Printer) (xmlParse : String → Except String JSVal)
    (clock : ℕ → ℕ) (s : KMLService) (caller : ℕ) (zone : ℤ) (subzone : String)
    (forceReload : Bool) (a : FileAnswers) (r : LoadResult)
    (hidle : s.loadingPromises (cacheKey zone subzone) = none)
    (hmiss : forceReload = true ∨ s.cache (cacheKey zone subzone) = none)
    (hr : performKMLLoading E P xmlParse clock zone subzone a = .returns r) :
    s.run E P xmlParse clock
        [.call caller zone subzone forceReload, .settle s.loads.length a,
          .resume s.waiting.length] =
      { s with
        cache := Function.update s.cache (cacheKey zone subzone) (some r)
        loads := s.loads ++ [{ zone := zone, subzone := subzone, outcome := some (.ok r) }]
        delivered := s.delivered ++ [{ caller := caller, load := some s.loads.length,
                                       outcome := .ok r }] } := by
  rw [run_cons, run_cons, run_cons, run_nil]
  simp only [KMLService.step]
  rw [loadKMLForZone_start s caller zone subzone forceReload hidle hmiss]
  simp only [KMLService.settle, List.getElem?_concat_length, hr, KMLService.resume,
    List.set_append_right, List.length_append, List.length_singleton, Nat.sub_self,
    List.set_cons_zero, le_refl, Option.bind, List.getElem?_concat_length,
    List.eraseIdx_append_of_length_le, List.eraseIdx_cons_zero, List.append_nil, if_true,
    Function.update_idem, List.length_set]
  congr 1
  rw [← hidle, Function.update_eq_self]

theorem cacheKey_ne (zone : ℤ) : cacheKey zone "b" ≠ cacheKey zone "B" := by
  intro h
  have hdata := congrArg String.data h
  simp only [cacheKey, String.data_append, List.append_cancel_left_eq] at hdata
  exact absurd hdata (by decide)

/-- The class taken alone, as its body reads (the module that holds it is
rejected when it is imported, see `importKMLService_error`). In a
service whose cache has a result for the key of a zone and a plan and whose `loadingPromises` has no entry for that key, a call of
`loadKMLForZone` without `forceReload` returns the cached result at once:
`_performKMLLoading` is not called (no promise is added), and the cache and
everything else but the list of returned values stay as they are. With
`forceReload`, `_performKMLLoading` is called once more, and when its promise
has settled and the call has gone on, the cache is the old cache with the
entry of that key alone replaced by the new result, which the caller gets. -/
theorem loadKMLForZone_cached (E : Engine) (P : Printer)
    (xmlParse : String → Except String JSVal) (clock : ℕ → ℕ) (s : KMLService) (caller : ℕ)
    (zone : ℤ) (subzone : String) (result : LoadResult) (a : FileAnswers)
    (hcache : s.cache (cacheKey zone subzone) = some result)
    (hidle : s.loadingPromises (cacheKey zone subzone) = none) :
    s.loadKMLForZone caller zone subzone false =
        { s with delivered := s.delivered ++ [{ caller := caller, load := none,
                                                outcome := .ok result }] } ∧
      ∃ r, performKMLLoading E P xmlParse clock zone subzone a = .returns r ∧
        s.run E P xmlParse clock
            [.call caller zone subzone true, .settle s.loads.length a,
              .resume s.waiting.length] =
          { s with
            cache := Function.update s.cache (cacheKey zone subzone) (some r)
            loads := s.loads ++ [{ zone := zone, subzone := subzone, outcome := some (.ok r) }]
            delivered := s.delivered ++ [{ caller := caller, load := some s.loads.length,
                                           outcome := .ok r }] } := by
  constructor
  · unfold KMLService.loadKMLForZone
    simp only [hidle, hcache, Bool.false_eq_true, if_false]
  · obtain ⟨r, hr⟩ := performKMLLoading_returns E P xmlParse clock zone subzone a
    exact ⟨r, hr, reload_run E P xmlParse clock s caller zone subzone true a r hidle
      (Or.inl rfl) hr⟩

/-- An instance of `loadKMLForZone_cached`: the service with the failure of a
load of zone 9, plan B, in its cache. -/
theorem loadKMLForZone_cached_witness :
    cachedKMLService.loadKMLForZone 2 9 "B" false =
        { cachedKMLService with
          delivered := [{ caller := 2, load := none,
                          outcome := .ok (loadFailure 9 "B" missingAnswers
                            "File KML non trovato per Zona 9 Sottozona B") }] } ∧
      ∃ r, performKMLLoading decimalEngine plainPrinter (fun _ => .error "no XML") id 9 "B"
          goodAnswers = .returns r ∧
        cachedKMLService.run decimalEngine plainPrinter (fun _ => .error "no XML") id
            [.call 2 9 "B" true, .settle 0 goodAnswers, .resume 0] =
          { cachedKMLService with
            cache := Function.update cachedKMLService.cache (cacheKey 9 "B") (some r)
            loads := [{ zone := 9, subzone := "B", outcome := some (.ok r) }]
            delivered := [{ caller := 2, load := some 0, outcome := .ok r }] } :=
  loadKMLForZone_cached decimalEngine plainPrinter (fun _ => .error "no XML") id
    cachedKMLService 2 9 "B" _ goodAnswers
    (show Function.update (fun _ => none) (cacheKey 9 "B") _ (cacheKey 9 "B") = _ from
      Function.update_same _ _ _) rfl

/-- The class taken alone, as its body reads (the module that holds it is
rejected when it is imported, see `importKMLService_error`). After
every list of actions on a new service (calls of
`loadKMLForZone`, promises that settle, calls that go on, `clearCache`,
`removeFromCache`, in any order): at most one load is in flight for the key
of a zone and a plan, and it is the one in `loadingPromises`; two promises of
`_performKMLLoading` that are both pending were made for different keys; a
call for a key with a load in flight, with or without `forceReload`, does not
call `_performKMLLoading` but waits for that load; and the calls that returned
what one promise gave all returned the same result. Two calls for one key
before the promise settles make one promise, and both get its result. -/
theorem loadKMLForZone_coalesced (E : Engine) (P : Printer)
    (xmlParse : String → Except String JSVal) (clock : ℕ → ℕ) (actions : List KMLAction)
    (zone : ℤ) (subzone : String) :
    ((KMLService.after E P xmlParse clock actions).inFlight (cacheKey zone subzone)).length ≤ 1 ∧
    (∀ load, load ∈ (KMLService.after E P xmlParse clock actions).inFlight
        (cacheKey zone subzone) ↔
      (KMLService.after E P xmlParse clock actions).loadingPromises (cacheKey zone subzone) =
        some load) ∧
    (∀ (i j : ℕ) (p q : PendingLoad), (KMLService.after E P xmlParse clock actions).loads[i]? = some p →
      (KMLService.after E P xmlParse clock actions).loads[j]? = some q →
      p.outcome = none → q.outcome = none →
      cacheKey p.zone p.subzone = cacheKey q.zone q.subzone → i = j) ∧
    (∀ load, load ∈ (KMLService.after E P xmlParse clock actions).inFlight
        (cacheKey zone subzone) →
      ∀ caller forceReload,
        (KMLService.after E P xmlParse clock actions).loadKMLForZone caller zone subzone
            forceReload =
          { KMLService.after E P xmlParse clock actions with
            waiting := (KMLService.after E P xmlParse clock actions).waiting ++
              [{ caller := caller, key := cacheKey zone subzone, load := load,
                 starter := false }] }) ∧
    (∀ d ∈ (KMLService.after E P xmlParse clock actions).delivered,
      ∀ e ∈ (KMLService.after E P xmlParse clock actions).delivered,
      ∀ load, d.load = some load → e.load = some load → d.outcome = e.outcome) ∧
    (∀ a : FileAnswers, ∃ r, performKMLLoading E P xmlParse clock zone subzone a = .returns r ∧
      KMLService.after E P xmlParse clock
          [.call 1 zone subzone false, .call 2 zone subzone false, .settle 0 a, .resume 0,
            .resume 0] =
        { initialKMLService with
          cache := Function.update (fun _ => none) (cacheKey zone subzone) (some r)
          loads := [{ zone := zone, subzone := subzone, outcome := some (.ok r) }]
          delivered := [{ caller := 1, load := some 0, outcome := .ok r },
                        { caller := 2, load := some 0, outcome := .ok r }] }) := by
  have h := coalesced_after E P xmlParse clock actions
  refine ⟨inFlight_length _ h _, fun load => inFlight_iff _ h _ load, ?_, ?_, ?_, ?_⟩
  · intro i j p q hp hq hpn hqn hkey
    have hi := (inFlight_iff _ h _ i).1 (pending_inFlight _ h i p hp hpn)
    have hj := (inFlight_iff _ h _ j).1 (pending_inFlight _ h j q hq hqn)
    rw [hkey, hj] at hi
    exact (Option.some.inj hi).symm
  · intro load hload caller forceReload
    exact loadKMLForZone_join _ caller zone subzone forceReload load
      ((inFlight_iff _ h _ load).1 hload)
  · intro d hd e he load hdl hel
    obtain ⟨p, hp, hpo⟩ := h.same d hd load hdl
    obtain ⟨q, hq, hqo⟩ := h.same e he load hel
    rw [hp] at hq
    cases hq
    rw [hpo] at hqo
    exact Option.some.inj hqo
  · intro a
    obtain ⟨r, hr⟩ := performKMLLoading_returns E P xmlParse clock zone subzone a
    refine ⟨r, hr, ?_⟩
    simp only [KMLService.after, KMLService.run, List.foldl, KMLService.step]
    rw [loadKMLForZone_start initialKMLService 1 zone subzone false rfl (Or.inr rfl)]
    rw [loadKMLForZone_join _ 2 zone subzone false 0 (Function.update_same _ _ _)]
    simp [KMLService.settle, KMLService.resume, initialKMLService, hr]

/-- The class taken alone, as its body reads (the module that holds it is
rejected when it is imported, see `importKMLService_error`). The key
is made of the plan as it is written. After a load of a zone with plan B is in the cache, `isInCache` says
no for plan b, and a call of `loadKMLForZone` for plan b calls
`_performKMLLoading` once more. -/
theorem cacheKey_case (E : Engine) (P : Printer) (xmlParse : String → Except String JSVal)
    (clock : ℕ → ℕ) (zone : ℤ) (a : FileAnswers) :
    (KMLService.after E P xmlParse clock
        [.call 1 zone "B" false, .settle 0 a, .resume 0]).isInCache zone "B" = true ∧
    (KMLService.after E P xmlParse clock
        [.call 1 zone "B" false, .settle 0 a, .resume 0]).isInCache zone "b" = false ∧
    ((KMLService.after E P xmlParse clock
        [.call 1 zone "B" false, .settle 0 a, .resume 0]).loadKMLForZone 2 zone "b" false).loads =
      (KMLService.after E P xmlParse clock
        [.call 1 zone "B" false, .settle 0 a, .resume 0]).loads ++
        [{ zone := zone, subzone := "b", outcome := none }] := by
  obtain ⟨r, hr⟩ := performKMLLoading_returns E P xmlParse clock zone "B" a
  have hrun : KMLService.after E P xmlParse clock
      [.call 1 zone "B" false, .settle 0 a, .resume 0] = _ :=
    reload_run E P xmlParse clock initialKMLService 1 zone "B" false a r rfl (Or.inr rfl) hr
  rw [hrun]
  refine ⟨?_, ?_, ?_⟩
  · simp [KMLService.isInCache]
  · simp [KMLService.isInCache, Function.update_noteq (cacheKey_ne zone), initialKMLService]
  · rw [loadKMLForZone_start _ 2 zone "b" false rfl
      (Or.inr (by simp [Function.update_noteq (cacheKey_ne zone), initialKMLService]))]

/-- The method `_performKMLLoading` taken alone, as the body of the class
reads (the module that holds it is rejected when it is imported, see
`importKMLService_error`). It never throws: for every answer of the file
system, every XML library and every clock it returns a result. The result has
`success = true` exactly when the existence check, the read and the parse all
succeed and no route has more points than a call passes as arguments (a
longer route ends `calculateRouteStats` with a `RangeError`, which the `catch`
block turns into a failure); it then carries the validation, with
`metadata.isValid` equal to its `isValid`, whatever that is. Otherwise the
result has `success = false`, an error message and `metadata.error = true`.
On the sample document, which has no placemark, the result has
`success = true` and `metadata.isValid = false`. And no call of
`loadKMLForZone` throws: after every list of actions on a new service, every
call that has returned has returned a result. -/
theorem performKMLLoading_spec (E : Engine) (P : Printer)
    (xmlParse : String → Except String JSVal) (clock : ℕ → ℕ) (zone : ℤ) (subzone : String)
    (a : FileAnswers) :
    (∃ r, performKMLLoading E P xmlParse clock zone subzone a = .returns r ∧
      (r.success = true ↔
        (verifyKMLFile a.verifyInfo = true ∧
          ∃ content, loadKML zone subzone a.loadInfo a.content = .ok content ∧
            ∃ d, parseKML E xmlParse clock (.str content) = .ok d ∧
              ∀ route ∈ d.routes,
                route.path.length < 2 ∨ route.path.length ≤ E.maxArguments)) ∧
      (r.success = true →
        ∃ v, r.validation = some v ∧ r.metadata.isValid = some v.isValid) ∧
      (r.success = false →
        (∃ message, r.error = some message) ∧ r.metadata.error = true ∧
          r.parsedKML = none)) ∧
    (∃ r, performKMLLoading E P (fun _ => .ok emptyDocumentTree) clock zone subzone
        goodAnswers = .returns r ∧ r.success = true ∧ r.metadata.isValid = some false) ∧
    (∀ actions : List KMLAction,
      ∀ d ∈ (KMLService.after E P xmlParse clock actions).delivered,
        ∃ result, d.outcome = .ok result) := by
  refine ⟨?_, ⟨_, rfl, rfl, rfl⟩,
    fun actions d hd => (coalesced_after E P xmlParse clock actions).returned d hd⟩
  · cases hv : verifyKMLFile a.verifyInfo with
    | false =>
      rw [performKMLLoading_missing E P xmlParse clock zone subzone a hv]
      exact ⟨_, rfl, ⟨fun h => Bool.noConfusion h, fun h => Bool.noConfusion h.1⟩,
        fun h => Bool.noConfusion h, fun _ => ⟨⟨_, rfl⟩, rfl, rfl⟩⟩
    | true =>
      cases hl : loadKML zone subzone a.loadInfo a.content with
      | error message =>
        rw [performKMLLoading_unread E P xmlParse clock zone subzone a message hv hl]
        refine ⟨_, rfl, ⟨fun h => Bool.noConfusion h, fun h => ?_⟩,
          fun h => Bool.noConfusion h, fun _ => ⟨⟨_, rfl⟩, rfl, rfl⟩⟩
        obtain ⟨_, content, hc, _⟩ := h
        cases hc
      | ok kmlContent =>
        cases hp : parseKML E xmlParse clock (.str kmlContent) with
        | error message =>
          rw [performKMLLoading_unparsed E P xmlParse clock zone subzone a kmlContent message
            hv hl hp]
          refine ⟨_, rfl, ⟨fun h => Bool.noConfusion h, fun h => ?_⟩,
            fun h => Bool.noConfusion h, fun _ => ⟨⟨_, rfl⟩, rfl, rfl⟩⟩
          obtain ⟨_, content, hc, d, hd, _⟩ := h
          cases hc
          rw [hp] at hd
          cases hd
        | ok parsedKML =>
          obtain ⟨v, hv2⟩ := validateKML_toJS_ends E P parsedKML
          cases hs : routesWithStats E parsedKML.routes with
          | error message =>
            rw [performKMLLoading_rangeError E P xmlParse clock zone subzone a kmlContent
              parsedKML v message hv hl hp hv2 hs]
            refine ⟨_, rfl, ⟨fun h => Bool.noConfusion h, fun h => ?_⟩,
              fun h => Bool.noConfusion h, fun _ => ⟨⟨_, rfl⟩, rfl, rfl⟩⟩
            obtain ⟨_, content, hc, d, hd, hroutes⟩ := h
            cases hc
            rw [hp] at hd
            cases hd
            obtain ⟨withStats, hw⟩ := (routesWithStats_ok_iff E parsedKML.routes).2 hroutes
            rw [hs] at hw
            cases hw
          | ok withStats =>
            rw [performKMLLoading_loaded E P xmlParse clock zone subzone a kmlContent parsedKML
              v withStats hv hl hp hv2 hs]
            exact ⟨_, rfl,
              ⟨fun _ => ⟨rfl, kmlContent, rfl, parsedKML, hp,
                (routesWithStats_ok_iff E parsedKML.routes).1 ⟨withStats, hs⟩⟩, fun _ => rfl⟩,
              fun _ => ⟨v, rfl, rfl⟩, fun h => Bool.noConfusion h⟩

/-! ## The text of the estimated time over the integers -/

theorem showInt_natCast (n : ℕ) : showInt (n : ℤ) = showNat n := rfl

/-- Over the integers, without the rounding of binary64 (for that see
`Binary64.formatETA`): for every non-negative integer `m`, `formatETA(m)` is
`< 1 min` when
`m < 1`, the decimal text of `m` followed by ` min` when `1 ≤ m < 60`, and
otherwise the text of `H`, `h`, a space, the text of `M` and `m`, with
`H = floor(m / 60)` and `M = m mod 60`, written as the text of `H` and `h`
alone when `M = 0`; and `60 * H + M = m` with `0 ≤ M < 60`. -/
theorem formatETA_spec (m : ℕ) :
    formatETA (m : ℤ) = etaText m ∧
      (m < 1 → formatETA (m : ℤ) = "< 1 min") ∧
      (1 ≤ m → m < 60 → formatETA (m : ℤ) = showNat m ++ " min") ∧
      (60 ≤ m → m % 60 = 0 → formatETA (m : ℤ) = showNat (m / 60) ++ "h") ∧
      (60 ≤ m → m % 60 ≠ 0 →
        formatETA (m : ℤ) = showNat (m / 60) ++ "h " ++ showNat (m % 60) ++ "m") ∧
      60 * (m / 60) + m % 60 = m ∧ m % 60 < 60 := by
  have hdiv : Int.fdiv (m : ℤ) 60 = ((m / 60 : ℕ) : ℤ) := by
    rw [Int.fdiv_eq_ediv _ (by norm_num)]
    norm_cast
  have hmod : Int.tmod (m : ℤ) 60 = ((m % 60 : ℕ) : ℤ) := by
    rw [Int.tmod_eq_emod (by positivity) (by norm_num)]
    norm_cast
  have hmain : formatETA (m : ℤ) = etaText m := by
    unfold formatETA etaText
    by_cases h1 : m < 1
    · have : (m : ℤ) < 1 := by exact_mod_cast h1
      rw [if_pos this, if_pos h1]
    · have hz1 : ¬ (m : ℤ) < 1 := by exact_mod_cast h1
      rw [if_neg hz1, if_neg h1]
      by_cases h60 : m < 60
      · have : (m : ℤ) < 60 := by exact_mod_cast h60
        rw [if_pos this, if_pos h60, showInt_natCast]
      · have hz60 : ¬ (m : ℤ) < 60 := by exact_mod_cast h60
        rw [if_neg hz60, if_neg h60]
        dsimp only
        rw [hdiv, hmod, showInt_natCast, showInt_natCast]
        by_cases hm : m % 60 = 0
        · have : ¬ (((m % 60 : ℕ) : ℤ) > 0) := by rw [hm]; simp
          rw [if_neg this, if_pos hm]
        · have : ((m % 60 : ℕ) : ℤ) > 0 := by
            have : 0 < m % 60 := Nat.pos_of_ne_zero hm
            exact_mod_cast this
          rw [if_pos this, if_neg hm]
  refine ⟨hmain, ?_, ?_, ?_, ?_, Nat.div_add_mod m 60, Nat.mod_lt m (by norm_num)⟩
  · intro h
    rw [hmain, etaText, if_pos h]
  · intro h1 h60
    rw [hmain, etaText, if_neg (by omega), if_pos h60]
  · intro h60 hm
    rw [hmain, etaText, if_neg (by omega), if_neg (by omega), if_pos hm]
  · intro h60 hm
    rw [hmain, etaText, if_neg (by omega), if_neg (by omega), if_neg hm]

/-! ## The bearing of a result and its direction (C34, C38) -/

theorem calculateNavigationInfo_eq_with {α : Type} (toFixed1 : ℝ → String) (stop : Stop α)
    (userLocation : Option UserLocation) :
    calculateNavigationInfo toFixed1 stop userLocation =
      calculateNavigationInfoWith gpsMarkerServiceExports toFixed1 stop userLocation := rfl

theorem findNearestStop_bearing {α : Type} (userLocation : Option UserLocation)
    (allStops : List (Stop α)) (res : NearestStop α)
    (h : findNearestStop userLocation allStops = some res) :
    ∃ p q, res.bearing = mathRound (calculateBearing p q) ∧
      res.direction = bearingToCardinal (calculateBearing p q) := by
  unfold findNearestStop at h
  cases userLocation with
  | none => cases h
  | some u =>
    dsimp only at h
    split at h
    · cases h
    · split at h
      · cases h
      · split at h
        · cases h
        · cases h
          exact ⟨_, _, rfl, rfl⟩

theorem callBinding_ok {α : Type} (name : String) (binding : Option α) (f : α)
    (h : callBinding name binding = .ok f) : binding = some f := by
  cases binding with
  | none => cases h
  | some g =>
    cases h
    rfl

theorem importBinding_some {α : Type} (exported : List String) (name : String) (value f : α)
    (h : importBinding exported name value = some f) : f = value := by
  unfold importBinding at h
  split at h
  · cases h
    rfl
  · cases h

theorem calculateNavigationInfoWith_bearing {α : Type} (exported : List String)
    (toFixed1 : ℝ → String) (stop : Stop α) (userLocation : Option UserLocation)
    (info : NavigationInfo)
    (h : calculateNavigationInfoWith exported toFixed1 stop userLocation = .ok info)
    (hnav : info.canNavigate = true) :
    ∃ p q, info.bearing = some (mathRound (calculateBearing p q)) ∧
      info.direction = bearingToCardinal (calculateBearing p q) := by
  unfold calculateNavigationInfoWith at h
  cases userLocation with
  | none =>
    cases h
    cases hnav
  | some u =>
    dsimp only at h
    split at h
    · cases h
      cases hnav
    · split at h
      · cases h
        cases hnav
      · cases h1 : callBinding "haversineDistance"
            (importBinding exported "haversineDistance" haversineDistance) with
        | error e => rw [h1] at h; cases h
        | ok f1 =>
          cases h2 : callBinding "calculateBearing"
              (importBinding exported "calculateBearing" calculateBearing) with
          | error e => rw [h1, h2] at h; cases h
          | ok f2 =>
            cases h3 : callBinding "bearingToCardinal"
                (importBinding exported "bearingToCardinal" bearingToCardinal) with
            | error e => rw [h1, h2, h3] at h; cases h
            | ok f3 =>
              rw [h1, h2, h3] at h
              have e2 := importBinding_some _ _ _ _ (callBinding_ok _ _ _ h2)
              have e3 := importBinding_some _ _ _ _ (callBinding_ok _ _ _ h3)
              subst e2 e3
              cases h
              exact ⟨_, _, rfl, rfl⟩

theorem mathRound_range (b : ℝ) (h0 : 0 ≤ b) (h360 : b < 360) :
    0 ≤ mathRound b ∧ mathRound b ≤ 360 := by
  unfold mathRound
  constructor
  · apply Int.floor_nonneg.2
    linarith
  · have h : b + 1 / 2 < ((361 : ℤ) : ℝ) := by
      push_cast
      linarith
    have := Int.floor_lt.2 h
    omega

theorem bearingToCardinal_mathRound (b : ℝ) (h0 : 0 ≤ b) (h360 : b < 360) :
    bearingToCardinal (mathRound b : ℝ) = bearingToCardinal b := by
  obtain ⟨hr0, hr8⟩ := mathRound_bearing_range b h0 h360
  obtain ⟨n, hn⟩ : ∃ n : ℕ, mathRound (b / 45) = (n : ℤ) := ⟨_, (Int.toNat_of_nonneg hr0).symm⟩
  have hn8 : n ≤ 8 := by omega
  have hb := (mathRound_eq_iff (b / 45) n).1 hn
  have hb1 : 45 * (n : ℝ) - 45 / 2 ≤ b := by
    have := hb.1
    rw [le_div_iff₀ (by norm_num)] at this
    push_cast at this
    linarith
  have hb2 : b < 45 * (n : ℝ) + 45 / 2 := by
    have := hb.2
    rw [div_lt_iff₀ (by norm_num)] at this
    push_cast at this
    linarith
  have hr := (mathRound_eq_iff b (mathRound b)).1 rfl
  have hlow : (45 * (n : ℤ) - 23 : ℤ) < mathRound b := by
    have : ((45 * (n : ℤ) - 23 : ℤ) : ℝ) < (mathRound b : ℝ) := by
      push_cast
      linarith [hr.2]
    exact_mod_cast this
  have hhigh : mathRound b < (45 * (n : ℤ) + 23 : ℤ) := by
    have : (mathRound b : ℝ) < ((45 * (n : ℤ) + 23 : ℤ) : ℝ) := by
      push_cast
      linarith [hr.1]
    exact_mod_cast this
  have h1 : 45 * (n : ℝ) - 45 / 2 ≤ (mathRound b : ℝ) := by
    have : (45 * (n : ℤ) - 22 : ℤ) ≤ mathRound b := by omega
    have : ((45 * (n : ℤ) - 22 : ℤ) : ℝ) ≤ (mathRound b : ℝ) := by exact_mod_cast this
    push_cast at this
    linarith
  have h2 : (mathRound b : ℝ) < 45 * (n : ℝ) + 45 / 2 := by
    have : mathRound b ≤ (45 * (n : ℤ) + 22 : ℤ) := by omega
    have : (mathRound b : ℝ) ≤ ((45 * (n : ℤ) + 22 : ℤ) : ℝ) := by exact_mod_cast this
    push_cast at this
    linarith
  rw [bearingToCardinal_sector _ n hn8 h1 h2, bearingToCardinal_sector b n hn8 hb1 hb2]

/-- C38. For every real bearing `b` in `[0, 360)`,
`bearingToCardinal(Math.round(b))` is `bearingToCardinal(b)`. Hence the field
`direction` of every result of `findNearestStop` is the cardinal direction of
its rounded field `bearing`; and so it is for every result of
`calculateNavigationInfo` with `canNavigate` true, whatever names the module
GPSMarkerService.js exports. -/
theorem bearingToCardinal_round :
    (∀ b : ℝ, 0 ≤ b → b < 360 → bearingToCardinal (mathRound b : ℝ) = bearingToCardinal b) ∧
    (∀ (α : Type) (userLocation : Option UserLocation) (allStops : List (Stop α))
      (res : NearestStop α), findNearestStop userLocation allStops = some res →
        res.direction = bearingToCardinal (res.bearing : ℝ)) ∧
    (∀ (α : Type) (exported : List String) (toFixed1 : ℝ → String) (stop : Stop α)
      (userLocation : Option UserLocation) (info : NavigationInfo),
      calculateNavigationInfoWith exported toFixed1 stop userLocation = .ok info →
      info.canNavigate = true →
        ∃ b : ℤ, info.bearing = some b ∧ info.direction = bearingToCardinal (b : ℝ)) := by
  refine ⟨bearingToCardinal_mathRound, ?_, ?_⟩
  · intro α u stops res h
    obtain ⟨p, q, hb, hd⟩ := findNearestStop_bearing u stops res h
    obtain ⟨h0, h360⟩ := calculateBearing_range p q
    rw [hb, hd, bearingToCardinal_mathRound _ h0 h360]
  · intro α exported toFixed1 stop u info h hnav
    obtain ⟨p, q, hb, hd⟩ := calculateNavigationInfoWith_bearing exported toFixed1 stop u info
      h hnav
    obtain ⟨h0, h360⟩ := calculateBearing_range p q
    exact ⟨_, hb, by rw [hd, bearingToCardinal_mathRound _ h0 h360]⟩

/-- C34 (amended). The field `bearing` of every result of `findNearestStop` is
an integer from `0` to `360`, both included: it is the bearing, which lies in
`[0, 360)`, rounded to the nearest integer, and a bearing of `359.5` or more
rounds to `360`. The same holds for the field `bearing` of every result of
`calculateNavigationInfo` with `canNavigate` true, whatever names the module
GPSMarkerService.js exports. -/
theorem bearing_field_range :
    (∀ (α : Type) (userLocation : Option UserLocation) (allStops : List (Stop α))
      (res : NearestStop α), findNearestStop userLocation allStops = some res →
        0 ≤ res.bearing ∧ res.bearing ≤ 360) ∧
    (∀ (α : Type) (exported : List String) (toFixed1 : ℝ → String) (stop : Stop α)
      (userLocation : Option UserLocation) (info : NavigationInfo),
      calculateNavigationInfoWith exported toFixed1 stop userLocation = .ok info →
      info.canNavigate = true → ∃ b : ℤ, info.bearing = some b ∧ 0 ≤ b ∧ b ≤ 360) := by
  constructor
  · intro α u stops res h
    obtain ⟨p, q, hb, _⟩ := findNearestStop_bearing u stops res h
    obtain ⟨h0, h360⟩ := calculateBearing_range p q
    rw [hb]
    exact mathRound_range _ h0 h360
  · intro α exported toFixed1 stop u info h hnav
    obtain ⟨p, q, hb, _⟩ := calculateNavigationInfoWith_bearing exported toFixed1 stop u info
      h hnav
    obtain ⟨h0, h360⟩ := calculateBearing_range p q
    exact ⟨_, hb, mathRound_range _ h0 h360⟩

theorem northBearing_range :
    (719 : ℝ) / 2 ≤ calculateBearing { latitude := 30, longitude := 10 }
        { latitude := 60, longitude := 99 / 10 } ∧
      calculateBearing { latitude := 30, longitude := 10 }
        { latitude := 60, longitude := 99 / 10 } < 360 := by
  have hpi := Real.pi_pos
  have hpi3 := Real.pi_gt_three
  have hpi4 := Real.pi_le_four
  have e1 : (30 : ℝ) * Real.pi / 180 = Real.pi / 6 := by ring
  have e2 : (60 : ℝ) * Real.pi / 180 = Real.pi / 3 := by ring
  have e3 : ((99 : ℝ) / 10 - 10) * Real.pi / 180 = -(Real.pi / 1800) := by ring
  have hsq : Real.sqrt 3 / 2 * (Real.sqrt 3 / 2) = 3 / 4 := by
    have := Real.mul_self_sqrt (show (0 : ℝ) ≤ 3 by norm_num)
    nlinarith
  have hs0 : 0 < Real.sin (Real.pi / 1800) :=
    Real.sin_pos_of_pos_of_lt_pi (by positivity) (by linarith)
  have hs1 : Real.sin (Real.pi / 1800) < Real.pi / 1800 := Real.sin_lt (by positivity)
  have hc1 : Real.cos (Real.pi / 1800) ≤ 1 := Real.cos_le_one _
  unfold calculateBearing
  dsimp only
  rw [e1, e2, e3, Real.sin_neg, Real.cos_neg, Real.cos_pi_div_six, Real.sin_pi_div_three,
    Real.sin_pi_div_six, Real.cos_pi_div_three, hsq]
  generalize hy : -Real.sin (Real.pi / 1800) * (1 / 2) = y
  generalize hx : (3 : ℝ) / 4 - 1 / 2 * (1 / 2) * Real.cos (Real.pi / 1800) = x
  have hy0 : y < 0 := by rw [← hy]; linarith
  have hy1 : -(Real.pi / 3600) < y := by rw [← hy]; linarith
  have hx0 : 1 / 2 ≤ x := by rw [← hx]; linarith
  have harg0 : atan2 y x < 0 := Complex.arg_neg_iff.2 hy0
  have habs : x ≤ Complex.abs ⟨x, y⟩ := Complex.re_le_abs ⟨x, y⟩
  have habs0 : 0 < Complex.abs ⟨x, y⟩ := by linarith
  have hlow : -(Real.pi / 360) ≤ atan2 y x := by
    unfold atan2
    rw [Complex.arg_of_re_nonneg (show 0 ≤ (Complex.mk x y).re by show 0 ≤ x; linarith)]
    have hq : -(Real.pi / 1800) ≤ y / Complex.abs ⟨x, y⟩ := by
      rw [le_div_iff₀ habs0]
      nlinarith
    have hsin : Real.pi / 1800 ≤ Real.sin (Real.pi / 360) := by
      have h := Real.mul_le_sin (show 0 ≤ Real.pi / 360 by positivity) (by linarith)
      have e : 2 / Real.pi * (Real.pi / 360) = 1 / 180 := by field_simp; ring
      rw [e] at h
      linarith
    have hmono : Real.arcsin (-Real.sin (Real.pi / 360)) ≤
        Real.arcsin (y / Complex.abs ⟨x, y⟩) :=
      Real.monotone_arcsin (by linarith)
    rw [Real.arcsin_neg, Real.arcsin_sin (by linarith) (by linarith)] at hmono
    exact hmono
  have hdeg1 : -(1 / 2) ≤ atan2 y x * 180 / Real.pi := by
    rw [le_div_iff₀ hpi]
    linarith
  have hdeg2 : atan2 y x * 180 / Real.pi < 0 := by
    rw [div_lt_iff₀ hpi]
    linarith
  have hrem : jsRem (atan2 y x * 180 / Real.pi + 360) 360 = atan2 y x * 180 / Real.pi + 360 := by
    unfold jsRem
    have hq0 : 0 ≤ (atan2 y x * 180 / Real.pi + 360) / 360 := by
      apply div_nonneg <;> linarith
    have hfloor : ⌊(atan2 y x * 180 / Real.pi + 360) / 360⌋ = 0 := by
      rw [Int.floor_eq_iff]
      constructor
      · simpa using hq0
      · rw [div_lt_iff₀ (by norm_num)]
        push_cast
        linarith
    rw [if_pos hq0, hfloor]
    simp
  rw [hrem]
  constructor <;> linarith

/-- C34, counterexample. For a user at latitude 30, longitude 10 and one stop
at latitude 60, longitude 9.9, a tenth of a degree to the west, the bearing
is between `359.5` and `360`, and the field `bearing` of the result of
`findNearestStop` is `360`, which is not in `[0, 360)`. -/
theorem bearing_field_counterexample :
    (findNearestStop (some northUser) [northStop]).map (fun res => res.bearing) = some 360 := by
  rw [findNearestStop_of_gate_open northUser 30 10 rfl rfl (by norm_num) (by norm_num)
    (fun a h => by cases h)]
  have hstep : [northStop].foldl (nearestStep { latitude := 30, longitude := 10 }) none =
      some (northStop, haversineDistance { latitude := 30, longitude := 10 }
        { latitude := 60, longitude := 99 / 10 }) := by
    simp [nearestStep, northStop, fieldTruthy, pointOf]
  rw [hstep]
  dsimp only
  have hp : pointOf northStop.latitude northStop.longitude =
      { latitude := 60, longitude := 99 / 10 } := by simp [northStop, pointOf]
  rw [hp, Option.map_some']
  congr 1
  rw [mathRound_eq_iff]
  obtain ⟨h1, h2⟩ := northBearing_range
  constructor
  · push_cast; linarith
  · push_cast; linarith

/-! ## Parser: zone and plan of the document name (C32) -/

theorem stripWord_spec : ∀ (w cs rest : List Char), stripWord w cs = some rest →
    ∃ word, cs = word ++ rest ∧ word.map lowerAscii = w := by
  intro w
  induction w with
  | nil =>
    intro cs rest h
    simp only [stripWord, Option.some.injEq] at h
    exact ⟨[], by simp [h], rfl⟩
  | cons a w ih =>
    intro cs rest h
    cases cs with
    | nil => simp [stripWord] at h
    | cons c cs =>
      simp only [stripWord] at h
      split at h
      · rename_i hc
        obtain ⟨word, hw, hl⟩ := ih cs rest h
        exact ⟨c :: word, by simp [hw], by simp [hc, hl]⟩
      · cases h

theorem firstMatch_spec {α : Type} (here : List Char → Option α) (a : α) :
    ∀ cs, firstMatch here cs = some a → ∃ pre post, cs = pre ++ post ∧ here post = some a := by
  intro cs
  induction cs with
  | nil =>
    intro h
    exact ⟨[], [], rfl, h⟩
  | cons c cs ih =>
    intro h
    simp only [firstMatch] at h
    cases hh : here (c :: cs) with
    | some b =>
      rw [hh] at h
      cases h
      exact ⟨[], c :: cs, rfl, hh⟩
    | none =>
      rw [hh] at h
      obtain ⟨pre, post, hcs, hp⟩ := ih h
      exact ⟨c :: pre, post, by simp [hcs], hp⟩

theorem dropWhile_split (p : Char → Bool) (l : List Char) :
    ∃ spaces, l = spaces ++ l.dropWhile p ∧ ∀ c ∈ spaces, p c = true :=
  ⟨l.takeWhile p, (List.takeWhile_append_dropWhile p l).symm,
    fun _ hc => List.mem_takeWhile_imp hc⟩

theorem zoneHere_spec (cs digits : List Char) (h : zoneHere cs = some digits) :
    ∃ word spaces rest, cs = word ++ spaces ++ digits ++ rest ∧
      word.map lowerAscii = "zona".data ∧ (∀ c ∈ spaces, isWhiteSpace c = true) ∧
      digits ≠ [] ∧ (∀ c ∈ digits, isDigit c = true) := by
  unfold zoneHere at h
  cases hs : stripWord "zona".data cs with
  | none => rw [hs] at h; cases h
  | some rest =>
    rw [hs] at h
    dsimp only at h
    split at h
    · cases h
    · rename_i hne
      cases h
      obtain ⟨word, hw, hl⟩ := stripWord_spec _ _ _ hs
      obtain ⟨spaces, hsp, hall⟩ := dropWhile_split isWhiteSpace rest
      refine ⟨word, spaces, (rest.dropWhile isWhiteSpace).dropWhile isDigit, ?_, hl, hall, hne,
        fun c hc => List.mem_takeWhile_imp hc⟩
      rw [hw, List.append_assoc, List.append_assoc, List.takeWhile_append_dropWhile, ← hsp]

theorem lowerAscii_eq_a (c : Char) (h : lowerAscii c = 'a') : c = 'A' ∨ c = 'a' := by
  unfold lowerAscii at h
  split at h
  · rename_i hc
    left
    have hcc : c = Char.ofNat c.toNat := (Char.ofNat_toNat c).symm
    obtain ⟨h1, h2⟩ := hc
    generalize c.toNat = n at hcc h h1 h2
    subst hcc
    interval_cases n <;> first | rfl | exact absurd h (by decide)
  · right
    exact h

theorem lowerAscii_eq_b (c : Char) (h : lowerAscii c = 'b') : c = 'B' ∨ c = 'b' := by
  unfold lowerAscii at h
  split at h
  · rename_i hc
    left
    have hcc : c = Char.ofNat c.toNat := (Char.ofNat_toNat c).symm
    obtain ⟨h1, h2⟩ := hc
    generalize c.toNat = n at hcc h h1 h2
    subst hcc
    interval_cases n <;> first | rfl | exact absurd h (by decide)
  · right
    exact h

theorem subzoneHere_spec (cs : List Char) (c : Char) (h : subzoneHere cs = some c) :
    ∃ word spaces rest, cs = word ++ spaces ++ c :: rest ∧
      word.map lowerAscii = "sottozona".data ∧ (∀ x ∈ spaces, isWhiteSpace x = true) ∧
      (c = 'A' ∨ c = 'B' ∨ c = 'a' ∨ c = 'b') := by
  unfold subzoneHere at h
  cases hs : stripWord "sottozona".data cs with
  | none => rw [hs] at h; cases h
  | some rest =>
    rw [hs] at h
    dsimp only at h
    obtain ⟨word, hw, hl⟩ := stripWord_spec _ _ _ hs
    obtain ⟨spaces, hsp, hall⟩ := dropWhile_split isWhiteSpace rest
    cases hd : rest.dropWhile isWhiteSpace with
    | nil => rw [hd] at h; cases h
    | cons x xs =>
      rw [hd] at h hsp
      dsimp only at h
      split at h
      · rename_i hx
        cases h
        refine ⟨word, spaces, xs, ?_, hl, hall, ?_⟩
        · rw [hw, List.append_assoc, ← hsp]
        · rcases hx with hx | hx
          · rcases lowerAscii_eq_a _ hx with e | e
            · exact Or.inl e
            · exact Or.inr (Or.inr (Or.inl e))
          · rcases lowerAscii_eq_b _ hx with e | e
            · exact Or.inr (Or.inl e)
            · exact Or.inr (Or.inr (Or.inr e))
      · cases h

theorem digitsValue_foldl (cs : List Char) (hall : ∀ c ∈ cs, isDigit c = true) :
    ∀ a : ℕ, cs.foldl (fun acc c =>
        match acc, digitValue c with
        | some a, some d => some (10 * a + d)
        | _, _ => none) (some a) =
      some (cs.foldl (fun acc c => 10 * acc + (c.toNat - 48)) a) := by
  induction cs with
  | nil => intro a; rfl
  | cons c cs ih =>
    intro a
    have hc : isDigit c = true := hall c (List.mem_cons_self _ _)
    have hd : digitValue c = some (c.toNat - 48) := by
      unfold isDigit at hc
      unfold digitValue
      simp only [Bool.and_eq_true, decide_eq_true_eq] at hc
      rw [if_pos hc]
    simp only [List.foldl_cons, hd]
    exact ih (fun x hx => hall x (List.mem_cons_of_mem _ hx)) _

theorem digitsValue_eq (cs : List Char) (hall : ∀ c ∈ cs, isDigit c = true) :
    digitsValue cs = some (decimalValue cs) :=
  digitsValue_foldl cs hall 0

theorem parseKML_metadata_eq (E : Engine) (xmlParse : String → Except String JSVal)
    (clock : ℕ → ℕ) (v : JSVal) (d : ParsedKML)
    (h : parseKML E xmlParse clock v = .ok d) :
    d.metadata.zone = (firstMatch zoneHere d.metadata.name.data).bind digitsValue ∧
      d.metadata.subzone =
        (firstMatch subzoneHere d.metadata.name.data).map (fun c => String.mk [c]) := by
  unfold parseKML at h
  split at h
  · rename_i d1 hbody
    cases h
    unfold parseKMLBody at hbody
    simp only [bind, Except.bind, pure, Except.pure] at hbody
    repeat' split at hbody
    all_goals try cases hbody
    all_goals
      exact ⟨rfl, rfl⟩
  · cases h

/-- C32 (the behaviour of the code). For every document that `parseKML`
returns: a `zone` that is not null is the number written by the digits that
follow, after optional white space, the first occurrence of the word `Zona`
in the name (in any case) that has digits after it; a `subzone` that is not
null is the letter after the word `Sottozona`, as the name writes it: one of
`A`, `B`, `a`, `b`. The name `zona 9 sottozona b` gives zone `9` and subzone
`b`, in lower case. -/
theorem parseKML_metadata (E : Engine) (xmlParse : String → Except String JSVal)
    (clock : ℕ → ℕ) (kmlContent : JSVal) :
    (∀ d, parseKML E xmlParse clock kmlContent = .ok d →
      (∀ z, d.metadata.zone = some z →
        ∃ pre word spaces digits rest,
          d.metadata.name.data = pre ++ word ++ spaces ++ digits ++ rest ∧
          word.map lowerAscii = "zona".data ∧ (∀ c ∈ spaces, isWhiteSpace c = true) ∧
          digits ≠ [] ∧ (∀ c ∈ digits, isDigit c = true) ∧ z = decimalValue digits) ∧
      (∀ p, d.metadata.subzone = some p →
        (p = "A" ∨ p = "B" ∨ p = "a" ∨ p = "b") ∧
        ∃ pre word spaces rest,
          d.metadata.name.data = pre ++ word ++ spaces ++ p.data ++ rest ∧
          word.map lowerAscii = "sottozona".data ∧ (∀ c ∈ spaces, isWhiteSpace c = true))) ∧
    (∃ d, parseKML E (fun _ => .ok lowerCaseTree) clock (.str "<kml>...</kml>") = .ok d ∧
      d.metadata.name = "zona 9 sottozona b" ∧ d.metadata.zone = some 9 ∧
      d.metadata.subzone = some "b") := by
  constructor
  · intro d hd
    obtain ⟨hz, hs⟩ := parseKML_metadata_eq E xmlParse clock kmlContent d hd
    constructor
    · intro z hzz
      rw [hz] at hzz
      cases hm : firstMatch zoneHere d.metadata.name.data with
      | none => rw [hm] at hzz; cases hzz
      | some digits =>
        rw [hm] at hzz
        obtain ⟨pre, post, hname, hhere⟩ := firstMatch_spec zoneHere digits _ hm
        obtain ⟨word, spaces, rest, hpost, hword, hsp, hne, hdig⟩ := zoneHere_spec post digits hhere
        refine ⟨pre, word, spaces, digits, rest, ?_, hword, hsp, hne, hdig, ?_⟩
        · rw [hname, hpost]
          simp only [List.append_assoc]
        · have hv : digitsValue digits = some z := hzz
          rw [digitsValue_eq digits hdig] at hv
          exact (Option.some.inj hv).symm
    · intro p hp
      rw [hs] at hp
      cases hm : firstMatch subzoneHere d.metadata.name.data with
      | none => rw [hm] at hp; cases hp
      | some c =>
        rw [hm] at hp
        cases hp
        obtain ⟨pre, post, hname, hhere⟩ := firstMatch_spec subzoneHere c _ hm
        obtain ⟨word, spaces, rest, hpost, hword, hsp, hc⟩ := subzoneHere_spec post c hhere
        constructor
        · rcases hc with e | e | e | e <;> subst e <;> simp
        · refine ⟨pre, word, spaces, rest, ?_, hword, hsp⟩
          rw [hname, hpost]
          simp only [List.append_assoc, List.singleton_append]
  · exact ⟨_, rfl, rfl,
      (show (firstMatch zoneHere "zona 9 sottozona b".data).bind digitsValue = some 9 by decide),
      (show (firstMatch subzoneHere "zona 9 sottozona b".data).map (fun c => String.mk [c]) =
        some "b" by decide)⟩

/-! ## The load coordinator taken alone: a failed load in the cache -/

theorem run_append (E : Engine) (P : Printer) (xmlParse : String → Except String JSVal)
    (clock : ℕ → ℕ) (s : KMLService) (first later : List KMLAction) :
    s.run E P xmlParse clock (first ++ later) =
      (s.run E P xmlParse clock first).run E P xmlParse clock later := by
  unfold KMLService.run
  rw [List.foldl_append]

theorem loadKMLForZone_hit (s : KMLService) (caller : ℕ) (zone : ℤ) (subzone : String)
    (result : LoadResult) (hcache : s.cache (cacheKey zone subzone) = some result)
    (hidle : s.loadingPromises (cacheKey zone subzone) = none) :
    s.loadKMLForZone caller zone subzone false =
      { s with delivered := s.delivered ++ [{ caller := caller, load := none,
                                              outcome := .ok result }] } := by
  unfold KMLService.loadKMLForZone
  simp only [hidle, hcache, Bool.false_eq_true, if_false]

theorem entry_step (E : Engine) (P : Printer) (xmlParse : String → Except String JSVal)
    (clock : ℕ → ℕ) (s : KMLService) (key : String) (result : LoadResult)
    (action : KMLAction) (h : Coalesced s) (hcache : s.cache key = some result)
    (hidle : s.loadingPromises key = none) (hkeep : action.keeps key = true) :
    (s.step E P xmlParse clock action).cache key = some result ∧
      (s.step E P xmlParse clock action).loadingPromises key = none := by
  cases action with
  | call caller zone subzone forceReload =>
    show (s.loadKMLForZone caller zone subzone forceReload).cache key = some result ∧
      (s.loadKMLForZone caller zone subzone forceReload).loadingPromises key = none
    cases hl : s.loadingPromises (cacheKey zone subzone) with
    | some load =>
      rw [loadKMLForZone_join s caller zone subzone forceReload load hl]
      exact ⟨hcache, hidle⟩
    | none =>
      by_cases hk : cacheKey zone subzone = key
      · have hf : forceReload = false := by
          cases forceReload with
          | false => rfl
          | true => simp [KMLAction.keeps, hk] at hkeep
        subst hf
        rw [loadKMLForZone_hit s caller zone subzone result (by rw [hk]; exact hcache) hl]
        exact ⟨hcache, hidle⟩
      · unfold KMLService.loadKMLForZone
        dsimp only
        rw [hl]
        dsimp only
        split
        · exact ⟨hcache, hidle⟩
        · refine ⟨hcache, ?_⟩
          show Function.update s.loadingPromises (cacheKey zone subzone) _ key = none
          rw [Function.update_noteq (fun e => hk e.symm)]
          exact hidle
  | settle load answers =>
    show (s.settle E P xmlParse clock load answers).cache key = some result ∧
      (s.settle E P xmlParse clock load answers).loadingPromises key = none
    rcases settle_eq E P xmlParse clock load answers s with heq | ⟨p, r, _, _, _, heq⟩
    · rw [heq]
      exact ⟨hcache, hidle⟩
    · rw [heq]
      exact ⟨hcache, hidle⟩
  | resume index =>
    show (s.resume index).cache key = some result ∧ (s.resume index).loadingPromises key = none
    rcases resume_eq index s h with heq | ⟨w, p, r, hw, _, _, heq⟩
    · rw [heq]
      exact ⟨hcache, hidle⟩
    · rw [heq]
      cases hs : w.starter with
      | false => exact ⟨hcache, hidle⟩
      | true =>
        have hreg := h.registered w (List.getElem?_mem hw) hs
        have hne : key ≠ w.key := by
          intro e
          rw [← e, hidle] at hreg
          cases hreg
        dsimp only
        simp only [if_true]
        rw [Function.update_noteq hne, Function.update_noteq hne]
        exact ⟨hcache, hidle⟩
  | clearCache => simp [KMLAction.keeps] at hkeep
  | removeFromCache zone subzone =>
    show (s.removeFromCache zone subzone).cache key = some result ∧
      (s.removeFromCache zone subzone).loadingPromises key = none
    have hne : key ≠ cacheKey zone subzone := by
      intro e
      simp [KMLAction.keeps, e] at hkeep
    unfold KMLService.removeFromCache
    split
    · refine ⟨?_, hidle⟩
      show Function.update s.cache (cacheKey zone subzone) none key = some result
      rw [Function.update_noteq hne]
      exact hcache
    · exact ⟨hcache, hidle⟩

theorem entry_run (E : Engine) (P : Printer) (xmlParse : String → Except String JSVal)
    (clock : ℕ → ℕ) (key : String) (result : LoadResult) (later : List KMLAction) :
    ∀ s, Coalesced s → s.cache key = some result → s.loadingPromises key = none →
      (∀ action ∈ later, action.keeps key = true) →
      (s.run E P xmlParse clock later).cache key = some result ∧
        (s.run E P xmlParse clock later).loadingPromises key = none := by
  induction later with
  | nil => intro s _ hc hi _; exact ⟨hc, hi⟩
  | cons action rest ih =>
    intro s h hc hi hkeep
    obtain ⟨hc1, hi1⟩ := entry_step E P xmlParse clock s key result action h hc hi
      (hkeep action (List.mem_cons_self _ _))
    exact ih _ (coalesced_step E P xmlParse clock s action h) hc1 hi1
      (fun x hx => hkeep x (List.mem_cons_of_mem _ hx))

/-- The class taken alone, as its body reads (the module that holds it is
rejected when it is imported, see `importKMLService_error`). Let a
new service have come, by any list of actions, to a state with
no cache entry and no load in flight for the key of a zone and a plan, and
let a load for them end with a result whose `success` is false. After the
call of `loadKMLForZone`, the end of the load and the rest of the call, the
caller has that result and `isInCache` is true. After every further list of
actions without `clearCache`, without `removeFromCache` for the key and
without a call with `forceReload` for the key, the cache still holds that
result for the key, and a call of `loadKMLForZone` without `forceReload`
returns it at once: `_performKMLLoading` is not called, and nothing but the
list of returned values changes. -/
theorem failedLoad_cached (E : Engine) (P : Printer) (xmlParse : String → Except String JSVal)
    (clock : ℕ → ℕ) (actions later : List KMLAction) (caller : ℕ) (zone : ℤ)
    (subzone : String) (a : FileAnswers) (r : LoadResult)
    (hidle : (KMLService.after E P xmlParse clock actions).loadingPromises
      (cacheKey zone subzone) = none)
    (hmiss : (KMLService.after E P xmlParse clock actions).cache (cacheKey zone subzone) = none)
    (hr : performKMLLoading E P xmlParse clock zone subzone a = .returns r)
    (_hfail : r.success = false)
    (hkeep : ∀ action ∈ later, action.keeps (cacheKey zone subzone) = true) :
    ((KMLService.after E P xmlParse clock actions).loadNow E P xmlParse clock caller zone
        subzone false a).delivered =
      (KMLService.after E P xmlParse clock actions).delivered ++
        [{ caller := caller,
           load := some (KMLService.after E P xmlParse clock actions).loads.length,
           outcome := .ok r }] ∧
    ((KMLService.after E P xmlParse clock actions).loadNow E P xmlParse clock caller zone
        subzone false a).isInCache zone subzone = true ∧
    (((KMLService.after E P xmlParse clock actions).loadNow E P xmlParse clock caller zone
        subzone false a).run E P xmlParse clock later).cache (cacheKey zone subzone) =
      some r ∧
    ∀ next : ℕ,
      (((KMLService.after E P xmlParse clock actions).loadNow E P xmlParse clock caller zone
        subzone false a).run E P xmlParse clock later).loadKMLForZone next zone subzone false =
      { ((KMLService.after E P xmlParse clock actions).loadNow E P xmlParse clock caller zone
          subzone false a).run E P xmlParse clock later with
        delivered := (((KMLService.after E P xmlParse clock actions).loadNow E P xmlParse clock
          caller zone subzone false a).run E P xmlParse clock later).delivered ++
            [{ caller := next, load := none, outcome := .ok r }] } := by
  have h0 := coalesced_after E P xmlParse clock actions
  have hrun : (KMLService.after E P xmlParse clock actions).loadNow E P xmlParse clock caller
      zone subzone false a =
      { KMLService.after E P xmlParse clock actions with
        cache := Function.update (KMLService.after E P xmlParse clock actions).cache
          (cacheKey zone subzone) (some r)
        loads := (KMLService.after E P xmlParse clock actions).loads ++
          [{ zone := zone, subzone := subzone, outcome := some (.ok r) }]
        delivered := (KMLService.after E P xmlParse clock actions).delivered ++
          [{ caller := caller,
             load := some (KMLService.after E P xmlParse clock actions).loads.length,
             outcome := .ok r }] } :=
    reload_run E P xmlParse clock (KMLService.after E P xmlParse clock actions)
      caller zone subzone false a r hidle (Or.inr hmiss) hr
  have h1 : Coalesced ((KMLService.after E P xmlParse clock actions).loadNow E P xmlParse clock
      caller zone subzone false a) := coalesced_run E P xmlParse clock _ _ h0
  have hc1 : ((KMLService.after E P xmlParse clock actions).loadNow E P xmlParse clock caller
      zone subzone false a).cache (cacheKey zone subzone) = some r := by
    rw [hrun]
    exact Function.update_same _ _ _
  have hi1 : ((KMLService.after E P xmlParse clock actions).loadNow E P xmlParse clock caller
      zone subzone false a).loadingPromises (cacheKey zone subzone) = none := by
    rw [hrun]
    exact hidle
  have hlater := entry_run E P xmlParse clock (cacheKey zone subzone) r later _ h1 hc1 hi1 hkeep
  refine ⟨?_, ?_, hlater.1, ?_⟩
  · rw [hrun]
  · unfold KMLService.isInCache
    rw [hc1]
    rfl
  · intro next
    exact loadKMLForZone_hit _ next zone subzone r hlater.1 hlater.2

/-- An instance of `failedLoad_cached`: on a new service, a load of zone 9,
plan B whose file does not exist; then a call for zone 9, plan A and a second call for plan B. -/
theorem failedLoad_cached_witness :
    ((KMLService.after decimalEngine plainPrinter (fun _ => .error "no XML") id []).loadNow
        decimalEngine plainPrinter (fun _ => .error "no XML") id 1 9 "B" false
        missingAnswers).isInCache 9 "B" = true ∧
    (((KMLService.after decimalEngine plainPrinter (fun _ => .error "no XML") id []).loadNow
        decimalEngine plainPrinter (fun _ => .error "no XML") id 1 9 "B" false
        missingAnswers).run decimalEngine plainPrinter (fun _ => .error "no XML") id
        [.call 2 9 "A" false, .call 3 9 "B" false]).cache (cacheKey 9 "B") =
      some (loadFailure 9 "B" missingAnswers
        ("File KML non trovato per Zona " ++ showInt 9 ++ " Sottozona " ++ "B")) :=
  have h := failedLoad_cached decimalEngine plainPrinter (fun _ => .error "no XML") id []
    [.call 2 9 "A" false, .call 3 9 "B" false] 1 9 "B" missingAnswers _ rfl rfl
    (performKMLLoading_missing _ _ _ _ 9 "B" missingAnswers rfl) rfl
    (by
      intro action haction
      simp only [List.mem_cons, List.mem_singleton, List.mem_nil_iff, or_false] at haction
      rcases haction with e | e <;> subst e <;> rfl)
  ⟨h.2.1, h.2.2.1⟩

/-! ## The load coordinator taken alone: the metadata and the statistics of the validator -/

theorem validateKML_toJS_stats (E : Engine) (P : Printer) (d : ParsedKML)
    (hstops : d.stops = []) (hlen : ∀ r ∈ d.routes, 2 ≤ r.path.length) :
    ∃ v, validateKML E P d.toJS = .returns v ∧
      v.stats.routeCount = .num (.ofNat d.routes.length) ∧
      v.stats.validRoutes = d.routes.length ∧
      v.stats.totalPoints = (d.routes.map (fun r => r.path.length)).sum := by
  have hroutes : getProp d.toJS "routes" = .ok (.arr (d.routes.map Route.toJS)) := by
    simp [ParsedKML.toJS, getProp, List.lookup]
  have hmeta : ∀ md, getProp d.toJS "metadata" = .ok md → NameOk md := by
    intro md h nm hnm _
    simp [ParsedKML.toJS, getProp, List.lookup] at h
    subst h
    simp [Metadata.toJS, getProp, List.lookup] at hnm
    subst hnm
    rfl
  have hnames : ∀ route ∈ d.routes.map Route.toJS, route.truthy = true → NameOk route := by
    intro route hr _ nm hnm _
    obtain ⟨r, _, rfl⟩ := List.mem_map.1 hr
    simp [Route.toJS, getProp, List.lookup] at hnm
    subst hnm
    rfl
  have hst : ∀ stops, getProp d.toJS "stops" = .ok stops → StopsOk stops := by
    intro stops h items hitems stop hstop
    simp [ParsedKML.toJS, getProp, List.lookup, hstops] at h
    subst h
    cases hitems
    cases hstop
  have hcount : (d.routes.map Route.toJS).filterMap countedPath =
      d.routes.map (fun r => r.path.length) := by
    rw [List.filterMap_map]
    have : ∀ r ∈ d.routes, (countedPath ∘ Route.toJS) r = some r.path.length := by
      intro r hr
      have := hlen r hr
      simp [countedPath, Route.toJS, getProp, List.lookup, this]
    rw [List.filterMap_congr this]
    show List.filterMap (some ∘ (fun r : Route => r.path.length)) d.routes = _
    rw [List.filterMap_eq_map]
  unfold ParsedKML.toJS at hroutes hmeta hst ⊢
  obtain ⟨_, r1, h1⟩ := validateBasicStructure_succeeds _ hmeta initialResult
  obtain ⟨_, r2, h2⟩ := validateRoutes_succeeds E _ _ hroutes hnames r1
  obtain ⟨_, r3, h3⟩ := validateStops_succeeds E _ hst r2
  obtain ⟨r4, stopCount, h4, hs4, _, _⟩ := calculateValidationStats_stats _ _ hroutes r3
  obtain ⟨r5, h5, hs5, _⟩ := checkTotalPoints_eq r4
  have k5 := checkDenseRoutes_keepsStats E P
    (.obj [("metadata", d.metadata.toJS), ("routes", .arr (d.routes.map Route.toJS)),
           ("stops", .arr d.stops), ("rawDocument", d.rawDocument)]) r5
  have n5 := checkDenseRoutes_noDiv E P _ (finiteRoutes_of_array E _ _ hroutes) r5
  unfold validateKML validateKMLBody validatePerformance
  rw [bind_ok h1, bind_ok h2, bind_ok h3, bind_ok h4, bind_ok h5]
  cases hd : checkDenseRoutes E P
      (.obj [("metadata", d.metadata.toJS), ("routes", .arr (d.routes.map Route.toJS)),
             ("stops", .arr d.stops), ("rawDocument", d.rawDocument)]) r5 with
  | diverges => exact absurd hd n5
  | ok u r6 =>
    rw [hd] at k5
    have e : r6.stats = r4.stats := k5.trans hs5
    refine ⟨_, rfl, ?_, ?_, ?_⟩
    · show r6.stats.routeCount = _
      simp only [e, hs4, List.length_map]
    · show r6.stats.validRoutes = _
      simp only [e, hs4, hcount, List.length_map]
    · show r6.stats.totalPoints = _
      simp only [e, hs4, hcount]
  | throws msg r6 =>
    rw [hd] at k5
    have e : r6.stats = r4.stats := k5.trans hs5
    refine ⟨_, rfl, ?_, ?_, ?_⟩
    · show r6.stats.routeCount = _
      simp only [e, hs4, List.length_map]
    · show r6.stats.validRoutes = _
      simp only [e, hs4, hcount, List.length_map]
    · show r6.stats.totalPoints = _
      simp only [e, hs4, hcount]

theorem parseKML_stops (E : Engine) (xmlParse : String → Except String JSVal)
    (clock : ℕ → ℕ) (v : JSVal) (d : ParsedKML)
    (h : parseKML E xmlParse clock v = .ok d) : d.stops = [] := by
  unfold parseKML at h
  split at h
  · rename_i d1 hbody
    cases h
    unfold parseKMLBody at hbody
    simp only [bind, Except.bind, pure, Except.pure] at hbody
    repeat' split at hbody
    all_goals try cases hbody
    all_goals
      rfl
  · cases h

theorem foldl_pointCount (routes : List RouteWithStats) :
    ∀ n : ℕ, routes.foldl (fun sum route => sum + route.route.pointCount) n =
      n + (routes.map (fun route => route.route.pointCount)).sum := by
  induction routes with
  | nil => intro n; simp
  | cons r rest ih =>
    intro n
    rw [List.foldl_cons, ih, List.map_cons, List.sum_cons]
    omega

/-- The method `_performKMLLoading` taken alone, as the body of the class
reads (the module that holds it is rejected when it is imported, see
`importKMLService_error`): it returns a result, and when its `success` is
true the metadata agrees with the statistics of the validator:
`metadata.routeCount` is the number of routes of `parsedKML`, which is
`validation.stats.routeCount` and `validation.stats.validRoutes`;
`metadata.totalPoints` is `validation.stats.totalPoints`, the sum of the path
lengths of the routes; and `metadata.isValid` is `validation.isValid`. -/
theorem performKMLLoading_metadata (E : Engine) (P : Printer)
    (xmlParse : String → Except String JSVal) (clock : ℕ → ℕ) (zone : ℤ) (subzone : String)
    (a : FileAnswers) :
    ∃ r, performKMLLoading E P xmlParse clock zone subzone a = .returns r ∧
      (r.success = true →
        ∃ loaded v, r.parsedKML = some loaded ∧ r.validation = some v ∧
          loaded.routes.length = loaded.parsed.routes.length ∧
          r.metadata.routeCount = some loaded.routes.length ∧
          v.stats.routeCount = .num (.ofNat loaded.routes.length) ∧
          v.stats.validRoutes = loaded.routes.length ∧
          r.metadata.totalPoints = some v.stats.totalPoints ∧
          v.stats.totalPoints = (loaded.routes.map (fun x => x.route.path.length)).sum ∧
          r.metadata.isValid = some v.isValid) := by
  cases hv : verifyKMLFile a.verifyInfo with
  | false =>
    rw [performKMLLoading_missing E P xmlParse clock zone subzone a hv]
    exact ⟨_, rfl, fun h => Bool.noConfusion h⟩
  | true =>
    cases hl : loadKML zone subzone a.loadInfo a.content with
    | error message =>
      rw [performKMLLoading_unread E P xmlParse clock zone subzone a message hv hl]
      exact ⟨_, rfl, fun h => Bool.noConfusion h⟩
    | ok kmlContent =>
      cases hp : parseKML E xmlParse clock (.str kmlContent) with
      | error message =>
        rw [performKMLLoading_unparsed E P xmlParse clock zone subzone a kmlContent message
          hv hl hp]
        exact ⟨_, rfl, fun h => Bool.noConfusion h⟩
      | ok d =>
        obtain ⟨document, hdoc⟩ := parseKML_routes E xmlParse clock _ d hp
        have hok : ∀ r ∈ d.routes, RouteOk r := by
          intro r hr
          rw [hdoc] at hr
          exact extractRoutes_ok E clock document r hr
        obtain ⟨v, hval, h1, h2, h3⟩ := validateKML_toJS_stats E P d
          (parseKML_stops E xmlParse clock _ d hp) (fun r hr => (hok r hr).1)
        cases hs : routesWithStats E d.routes with
        | error message =>
          rw [performKMLLoading_rangeError E P xmlParse clock zone subzone a kmlContent d v
            message hv hl hp hval hs]
          exact ⟨_, rfl, fun h => Bool.noConfusion h⟩
        | ok withStats =>
          have hroutes := routesWithStats_routes E d.routes withStats hs
          have hlen : withStats.length = d.routes.length := by
            rw [← hroutes, List.length_map]
          rw [performKMLLoading_loaded E P xmlParse clock zone subzone a kmlContent d v
            withStats hv hl hp hval hs]
          refine ⟨_, rfl, fun _ => ⟨_, v, rfl, rfl, hlen, rfl, ?_, ?_, ?_, ?_, rfl⟩⟩
          · simpa [hlen] using h1
          · simpa [hlen] using h2
          · have hsum : (d.routes.map (fun r => r.pointCount)).sum =
                (d.routes.map (fun r => r.path.length)).sum := by
              congr 1
              apply List.map_congr_left
              intro r hr
              exact (hok r hr).2.1
            have hmap : withStats.map (fun x => x.route.pointCount) =
                d.routes.map (fun r => r.pointCount) := by
              rw [← hroutes, List.map_map]
              rfl
            rw [foldl_pointCount, Nat.zero_add, hmap, h3]
            exact congrArg some hsum
          · have hmap : withStats.map (fun x => x.route.path.length) =
                d.routes.map (fun r => r.path.length) := by
              rw [← hroutes, List.map_map]
              rfl
            rw [hmap, h3]

/-! ## Map state: loading and loaded exclude each other (C37) -/

theorem observed_setState (newState : List StateUpdate) (s : MapService) (h : Observed s)
    (hnew : ∀ st : MapState, st.exclusive = true →
      (newState.foldl StateUpdate.apply st).exclusive = true) :
    Observed (MapService.setState newState s) := by
  refine ⟨hnew _ h.1, ?_⟩
  intro e he st hst
  simp only [MapService.setState, MapService.notifyListeners, List.mem_append,
    List.mem_singleton] at he
  rcases he with he | he
  · exact h.2 e he st hst
  · subst he
    simp only [MapEvent.states, List.mem_cons, List.mem_singleton, List.mem_nil_iff,
      or_false] at hst
    rcases hst with rfl | rfl
    · exact h.1
    · exact hnew _ h.1

theorem observed_notify (event : MapEvent) (s : MapService) (hev : event.states = [])
    (h : Observed s) : Observed (MapService.notifyListeners event s) := by
  refine ⟨h.1, ?_⟩
  intro e he st hst
  simp only [MapService.notifyListeners, List.mem_append, List.mem_singleton] at he
  rcases he with he | he
  · exact h.2 e he st hst
  · subst he
    rw [hev] at hst
    cases hst

theorem setStateObjects_exclusive (zone : Option ℤ) (subzone : Option String)
    (routes stops markers : List JSVal) (stop : JSVal) :
    ∀ newState ∈ setStateObjects zone subzone routes stops markers stop,
      ∀ st : MapState, st.exclusive = true →
        (newState.foldl StateUpdate.apply st).exclusive = true := by
  intro newState hmem st hst
  simp only [setStateObjects, List.mem_cons, List.mem_singleton, List.mem_nil_iff,
    or_false] at hmem
  rcases hmem with e | e | e | e | e | e | e | e | e | e <;> subst e <;>
    first
      | rfl
      | exact hst

theorem observed_clearCurrentState (s : MapService) (h : Observed s) :
    Observed (MapService.clearCurrentState s) := by
  unfold MapService.clearCurrentState
  dsimp only
  apply observed_notify _ _ (by rfl)
  apply observed_setState _ _ _ (fun _ _ => by rfl)
  split
  · exact observed_notify _ _ (by rfl) h
  · exact h

theorem observed_loadZoneData (zone : ℤ) (subzone : String) (data : JSVal)
    (s s1 : MapService) (h : Observed s)
    (hload : MapService.loadZoneData zone subzone data s = .ok s1) : Observed s1 := by
  unfold MapService.loadZoneData at hload
  simp only [bind, Except.bind, pure, Except.pure] at hload
  repeat' split at hload
  all_goals try cases hload
  all_goals
    exact observed_notify _ _ (by rfl) (observed_setState _ _ h (fun _ hst => hst))

theorem observed_updateZoneData (zone : ℤ) (subzone : String) (data : JSVal)
    (s s1 : MapService) (h : Observed s)
    (hupdate : MapService.updateZoneData zone subzone data s = .ok s1) : Observed s1 := by
  unfold MapService.updateZoneData at hupdate
  simp only [bind, Except.bind, pure, Except.pure] at hupdate
  split at hupdate
  · cases hupdate
  · cases hl : MapService.loadZoneData zone subzone data s with
    | error e => rw [hl] at hupdate; cases hupdate
    | ok s2 =>
      rw [hl] at hupdate
      cases hupdate
      exact observed_notify _ _ (by rfl) (observed_loadZoneData zone subzone data s s2 h hl)

theorem observed_switchFailed (message : String) (s : MapService) (h : Observed s) :
    Observed (MapService.switchFailed message s).2 :=
  observed_setState _ _ h (fun _ _ => by rfl)

theorem observed_switchToZone (zone : ℤ) (subzone : String) (data : JSVal) (s : MapService)
    (h : Observed s) : Observed (MapService.switchToZone zone subzone data s).2 := by
  unfold MapService.switchToZone
  split
  · cases hu : MapService.updateZoneData zone subzone data s with
    | ok s1 => exact observed_updateZoneData zone subzone data s s1 h hu
    | error message => exact observed_switchFailed message s h
  · dsimp only
    have h2 : Observed (MapService.setState
        [.zone (some zone), .subzone (some subzone), .isLoading true, .isLoaded false]
        (MapService.clearCurrentState s)) :=
      observed_setState _ _ (observed_clearCurrentState s h) (fun _ _ => by rfl)
    cases hl : MapService.loadZoneData zone subzone data (MapService.setState
        [.zone (some zone), .subzone (some subzone), .isLoading true, .isLoaded false]
        (MapService.clearCurrentState s)) with
    | ok s3 =>
      exact observed_setState _ _ (observed_loadZoneData zone subzone data _ s3 h2 hl)
        (fun _ _ => by rfl)
    | error message => exact observed_switchFailed message _ h2

theorem observed_act (s : MapService) (action : MapAction) (h : Observed s) :
    Observed (s.act action) := by
  cases action with
  | switchToZone zone subzone data => exact observed_switchToZone zone subzone data s h
  | clearCurrentState => exact observed_clearCurrentState s h
  | updateZoneData zone subzone data =>
    show Observed (match MapService.updateZoneData zone subzone data s with
      | .ok s1 => s1
      | .error _ => s)
    cases hu : MapService.updateZoneData zone subzone data s with
    | ok s1 => exact observed_updateZoneData zone subzone data s s1 h hu
    | error message => exact h
  | updateMarkers markers =>
    show Observed (MapService.updateMarkers markers s).2
    unfold MapService.updateMarkers
    split
    · exact observed_notify _ _ (by rfl) (observed_setState _ _ h (fun _ hst => hst))
    · exact h
  | selectStop stop =>
    exact observed_notify _ _ (by rfl) (observed_setState _ _ h (fun _ hst => hst))
  | deselectStop =>
    exact observed_notify _ _ (by rfl) (observed_setState _ _ h (fun _ hst => hst))
  | addManualStop now createdAt stop =>
    exact observed_notify _ _ (by rfl) (observed_setState _ _ h (fun _ hst => hst))
  | removeManualStop stopId =>
    show Observed (MapService.removeManualStop stopId s).2
    unfold MapService.removeManualStop
    split
    · exact observed_notify _ _ (by rfl) (observed_setState _ _ h (fun _ hst => hst))
    · exact h

theorem observed_runActions (actions : List MapAction) :
    ∀ s : MapService, Observed s → Observed (s.runActions actions) := by
  induction actions with
  | nil => intro s h; exact h
  | cons action rest ih => intro s h; exact ih _ (observed_act s action h)

/-- C37. After every list of calls of `switchToZone` (returning or throwing),
`clearCurrentState`, `updateZoneData`, `updateMarkers`, `selectStop`,
`deselectStop`, `addManualStop` and `removeManualStop` on a new service, the
flags `isLoading` and `isLoaded` of the state are not both true, and they are
not both true in any state, old or new, that a `stateChanged` event has shown
to the listeners on the way. Moreover every object that a method of the
service passes to `setState` keeps the flags so from whatever state it is
applied to: it sets both flags, not both to true, or none of them. -/
theorem mapState_exclusive (actions : List MapAction) :
    ((initialMapService.runActions actions).currentState.isLoading = false ∨
      (initialMapService.runActions actions).currentState.isLoaded = false) ∧
    (∀ e ∈ (initialMapService.runActions actions).emitted, ∀ st ∈ e.states,
      st.isLoading = false ∨ st.isLoaded = false) ∧
    (∀ (zone : Option ℤ) (subzone : Option String) (routes stops markers : List JSVal)
      (stop : JSVal), ∀ newState ∈ setStateObjects zone subzone routes stops markers stop,
      ∀ st : MapState, st.isLoading = false ∨ st.isLoaded = false →
        (newState.foldl StateUpdate.apply st).isLoading = false ∨
          (newState.foldl StateUpdate.apply st).isLoaded = false) := by
  have hex : ∀ st : MapState, st.exclusive = true ↔
      (st.isLoading = false ∨ st.isLoaded = false) := by
    intro st
    unfold MapState.exclusive
    cases st.isLoading <;> cases st.isLoaded <;> simp
  have h : Observed (initialMapService.runActions actions) :=
    observed_runActions actions _ ⟨rfl, fun e he => by cases he⟩
  refine ⟨(hex _).1 h.1, fun e he st hst => (hex _).1 (h.2 e he st hst), ?_⟩
  intro zone subzone routes stops markers stop newState hmem st hst
  exact (hex _).1
    (setStateObjects_exclusive zone subzone routes stops markers stop newState hmem st
      ((hex _).2 hst))

/-! ## Routing: the waypoints kept for a request (C36) -/

theorem foldl_push {α β : Type} (f : β → α) (l : List β) :
    ∀ init : List α, l.foldl (fun result i => result ++ [f i]) init = init ++ l.map f := by
  induction l with
  | nil => intro init; simp
  | cons x xs ih =>
    intro init
    rw [List.foldl_cons, ih, List.map_cons, List.append_assoc]
    rfl

theorem roundRat_natCast (n : ℕ) : roundRat (n : ℚ) = (n : ℤ) := by
  unfold roundRat
  rw [Int.floor_eq_iff]
  constructor
  · push_cast
    linarith
  · push_cast
    linarith

theorem roundRat_lt (x y : ℚ) (h : x + 1 ≤ y) : roundRat x < roundRat y := by
  unfold roundRat
  have h1 : (⌊x + 1 / 2⌋ : ℤ) + 1 ≤ ⌊y + 1 / 2⌋ := by
    rw [← Int.floor_add_one]
    apply Int.floor_le_floor
    linarith
  omega

theorem roundRat_nonneg (x : ℚ) (h : 0 ≤ x) : 0 ≤ roundRat x := by
  unfold roundRat
  apply Int.floor_nonneg.2
  linarith

theorem decimatedStep_gt (n maxCount : ℕ) (h2 : 2 ≤ maxCount) (hlt : maxCount < n) :
    (1 : ℚ) < ((n : ℚ) - 1) / ((maxCount : ℚ) - 1) := by
  have hm : (0 : ℚ) < (maxCount : ℚ) - 1 := by
    have : (2 : ℚ) ≤ (maxCount : ℚ) := by exact_mod_cast h2
    linarith
  rw [lt_div_iff₀ hm]
  have : (maxCount : ℚ) < (n : ℚ) := by exact_mod_cast hlt
  linarith

theorem decimatedIndex_lt (n maxCount i j : ℕ) (h2 : 2 ≤ maxCount) (hlt : maxCount < n)
    (hij : i < j) : decimatedIndex n maxCount i < decimatedIndex n maxCount j := by
  have hstep := decimatedStep_gt n maxCount h2 hlt
  unfold decimatedIndex
  have hi : (0 : ℚ) ≤ (i : ℚ) * (((n : ℚ) - 1) / ((maxCount : ℚ) - 1)) := by positivity
  have hgap : (i : ℚ) * (((n : ℚ) - 1) / ((maxCount : ℚ) - 1)) + 1 ≤
      (j : ℚ) * (((n : ℚ) - 1) / ((maxCount : ℚ) - 1)) := by
    have hj : (i : ℚ) + 1 ≤ (j : ℚ) := by exact_mod_cast hij
    nlinarith
  have h1 := roundRat_lt _ _ hgap
  have h0 := roundRat_nonneg _ hi
  omega

theorem decimatedIndex_zero (n maxCount : ℕ) : decimatedIndex n maxCount 0 = 0 := by
  unfold decimatedIndex
  rw [show ((0 : ℕ) : ℚ) * (((n : ℚ) - 1) / ((maxCount : ℚ) - 1)) = ((0 : ℕ) : ℚ) by simp,
    roundRat_natCast]
  rfl

theorem decimatedIndex_last (n maxCount : ℕ) (h2 : 2 ≤ maxCount) (hn : 1 ≤ n) :
    decimatedIndex n maxCount (maxCount - 1) = n - 1 := by
  unfold decimatedIndex
  have hm : ((maxCount : ℚ) - 1) ≠ 0 := by
    have : (2 : ℚ) ≤ (maxCount : ℚ) := by exact_mod_cast h2
    intro h
    linarith
  have hcast : ((maxCount - 1 : ℕ) : ℚ) = (maxCount : ℚ) - 1 := by
    rw [Nat.cast_sub (by omega)]
    simp
  have hval : ((maxCount - 1 : ℕ) : ℚ) * (((n : ℚ) - 1) / ((maxCount : ℚ) - 1)) =
      ((n - 1 : ℕ) : ℚ) := by
    rw [hcast, Nat.cast_sub hn]
    field_simp
  rw [hval, roundRat_natCast]
  simp

theorem range_split (m : ℕ) (h2 : 2 ≤ m) :
    List.range m = [0] ++ List.range' 1 (m - 2) ++ [m - 1] := by
  obtain ⟨k, rfl⟩ : ∃ k, m = k + 2 := ⟨m - 2, by omega⟩
  rw [List.range_eq_range', show k + 2 = (k + 1) + 1 from rfl, List.range'_concat,
    List.range'_succ]
  simp

theorem decimateWaypoints_eq {α : Type} (waypoints : List α) (maxCount : ℕ)
    (h2 : 2 ≤ maxCount) (hlt : maxCount < waypoints.length) :
    decimateWaypoints waypoints maxCount =
      (List.range maxCount).map
        (fun i => waypoints[decimatedIndex waypoints.length maxCount i]?) := by
  unfold decimateWaypoints
  rw [if_neg (by omega)]
  dsimp only
  rw [foldl_push, range_split maxCount h2, List.map_append, List.map_append]
  have hfirst : elementAt waypoints 0 =
      waypoints[decimatedIndex waypoints.length maxCount 0]? := by
    rw [decimatedIndex_zero]
    rfl
  have hlast : elementAt waypoints ((waypoints.length : ℤ) - 1) =
      waypoints[decimatedIndex waypoints.length maxCount (maxCount - 1)]? := by
    rw [decimatedIndex_last _ _ h2 (by omega)]
    unfold elementAt
    have h0 : (0 : ℤ) ≤ (waypoints.length : ℤ) - 1 := by omega
    rw [if_pos h0]
    congr 1
    omega
  have hmid : (List.range' 1 (maxCount - 2)).map
      (fun i : ℕ => elementAt waypoints
        (roundRat ((i : ℚ) * (((waypoints.length : ℚ) - 1) / ((maxCount : ℚ) - 1))))) =
      (List.range' 1 (maxCount - 2)).map
        (fun i => waypoints[decimatedIndex waypoints.length maxCount i]?) := by
    apply List.map_congr_left
    intro i _
    unfold elementAt decimatedIndex
    rw [if_pos (roundRat_nonneg _ (by
      have := decimatedStep_gt waypoints.length maxCount h2 hlt
      positivity))]
  rw [hmid, List.map_singleton, List.map_singleton, hfirst, hlast]

theorem decimatedIndex_bound (n maxCount i : ℕ) (h2 : 2 ≤ maxCount) (hlt : maxCount < n)
    (hi : i < maxCount) : decimatedIndex n maxCount i < n := by
  have hl := decimatedIndex_last n maxCount h2 (by omega)
  by_cases hc : i = maxCount - 1
  · rw [hc, hl]
    omega
  · have := decimatedIndex_lt n maxCount i (maxCount - 1) h2 hlt (by omega)
    omega

theorem decimateWaypoints_mem {α : Type} (waypoints : List α) (maxCount : ℕ)
    (h2 : 2 ≤ maxCount) (hlt : maxCount < waypoints.length) :
    ∀ w ∈ decimateWaypoints waypoints maxCount, ∃ x ∈ waypoints, w = some x := by
  intro w hw
  rw [decimateWaypoints_eq waypoints maxCount h2 hlt] at hw
  obtain ⟨k, hk, rfl⟩ := List.mem_map.1 hw
  have hb := decimatedIndex_bound waypoints.length maxCount k h2 hlt (List.mem_range.1 hk)
  exact ⟨waypoints[decimatedIndex waypoints.length maxCount k],
    List.getElem_mem _, (List.getElem?_eq_getElem hb)⟩

/-- C36. For every list of `n` waypoints and every `maxCount`:
when `n ≤ maxCount`, `decimateWaypoints` returns the waypoints as they are;
when `n > maxCount ≥ 2` (as in `calculateRoute`, where `maxCount` is 50), it
returns exactly `maxCount` waypoints, none of them `undefined`: the waypoints
at `maxCount` strictly increasing indices of the input, the first of which is
`0` and the last `n - 1`. The quotient `step` and the products `i * step` are
exact. -/
theorem decimateWaypoints_spec {α : Type} (waypoints : List α) (maxCount : ℕ) :
    (waypoints.length ≤ maxCount →
      decimateWaypoints waypoints maxCount = waypoints.map some) ∧
    (2 ≤ maxCount → maxCount < waypoints.length →
      ∃ indices : List ℕ, indices.length = maxCount ∧ indices.Pairwise (fun i j => i < j) ∧
        indices.head? = some 0 ∧ indices.getLast? = some (waypoints.length - 1) ∧
        (∀ i ∈ indices, i < waypoints.length) ∧
        decimateWaypoints waypoints maxCount = indices.map (fun i => waypoints[i]?) ∧
        (decimateWaypoints waypoints maxCount).length = maxCount ∧
        (decimateWaypoints waypoints maxCount).head? = some waypoints.head? ∧
        (decimateWaypoints waypoints maxCount).getLast? = some waypoints.getLast? ∧
        ∀ w ∈ decimateWaypoints waypoints maxCount, ∃ x ∈ waypoints, w = some x) := by
  constructor
  · intro h
    unfold decimateWaypoints
    rw [if_pos h]
  · intro h2 hlt
    have heq := decimateWaypoints_eq waypoints maxCount h2 hlt
    have hmono : ∀ i j, i < j → decimatedIndex waypoints.length maxCount i <
        decimatedIndex waypoints.length maxCount j :=
      fun i j hij => decimatedIndex_lt _ _ i j h2 hlt hij
    have hbound : ∀ i, i < maxCount →
        decimatedIndex waypoints.length maxCount i < waypoints.length :=
      fun i hi => decimatedIndex_bound _ _ i h2 hlt hi
    have hsplit := range_split maxCount h2
    refine ⟨(List.range maxCount).map (decimatedIndex waypoints.length maxCount), ?_, ?_, ?_, ?_,
      ?_, ?_, ?_, ?_, ?_, ?_⟩
    · simp
    · rw [List.pairwise_map]
      exact (List.pairwise_lt_range maxCount).imp (fun hij => hmono _ _ hij)
    · rw [hsplit]
      simp [decimatedIndex_zero]
    · rw [hsplit]
      simp only [List.map_append, List.map_singleton, List.getLast?_concat]
      rw [decimatedIndex_last _ _ h2 (by omega)]
    · intro i hi
      obtain ⟨k, hk, rfl⟩ := List.mem_map.1 hi
      exact hbound k (List.mem_range.1 hk)
    · rw [heq, List.map_map]
      rfl
    · rw [heq]
      simp
    · rw [heq, hsplit]
      simp [decimatedIndex_zero, List.head?_eq_getElem?]
    · rw [heq, hsplit]
      simp only [List.map_append, List.map_singleton, List.getLast?_concat]
      rw [decimatedIndex_last _ _ h2 (by omega), List.getLast?_eq_getElem?]
    · exact decimateWaypoints_mem waypoints maxCount h2 hlt

/-- C36, witness: four waypoints and `maxCount` 3. -/
theorem decimateWaypoints_spec_witness :
    ∃ indices : List ℕ, indices.length = 3 ∧ indices.Pairwise (fun i j => i < j) ∧
      indices.head? = some 0 ∧ indices.getLast? = some ([10, 11, 12, 13].length - 1) ∧
      (∀ i ∈ indices, i < [10, 11, 12, 13].length) ∧
      decimateWaypoints [10, 11, 12, 13] 3 = indices.map (fun i => [10, 11, 12, 13][i]?) ∧
      (decimateWaypoints [10, 11, 12, 13] 3).length = 3 ∧
      (decimateWaypoints [10, 11, 12, 13] 3).head? = some [10, 11, 12, 13].head? ∧
      (decimateWaypoints [10, 11, 12, 13] 3).getLast? = some [10, 11, 12, 13].getLast? ∧
      ∀ w ∈ decimateWaypoints [10, 11, 12, 13] 3, ∃ x ∈ [10, 11, 12, 13], w = some x :=
  (decimateWaypoints_spec ([10, 11, 12, 13] : List ℕ) 3).2 (by decide) (by decide)

/-! ## Routing: the straight line when the request fails (C31) -/

theorem calculateDistance_eq (p q : GeoPoint) : calculateDistance p q = haversineDistance p q :=
  rfl

theorem foldl_addComputed {β : Type} (f : β → ℝ) (l : List β) :
    ∀ a : ℝ, l.foldl (fun total x => addComputed total (some (f x))) (some a) =
      some (a + (l.map f).sum) := by
  induction l with
  | nil => intro a; simp
  | cons x xs ih =>
    intro a
    rw [List.foldl_cons]
    show xs.foldl (fun total x => addComputed total (some (f x))) (some (a + f x)) = _
    rw [ih, List.map_cons, List.sum_cons, add_assoc]

theorem fallbackStraightLine_eq (pts : List (ℚ × ℚ)) :
    fallbackStraightLine (pts.map waypointOf) =
      { coordinates := pts.map latLngOf,
        distance := .computed (some (lineDistance (pts.map geoPointOf))),
        duration := .value (.num (.fin 0)), geometry := "" } := by
  unfold fallbackStraightLine
  dsimp only
  have hcoords : (pts.map waypointOf).map
      (fun w => ({ latitude := w.at 1, longitude := w.at 0 } : LatLng)) =
      pts.map latLngOf := by
    rw [List.map_map]
    rfl
  rw [hcoords]
  have hzip : (pts.map latLngOf).zip (pts.map latLngOf).tail =
      (pts.zip pts.tail).map (fun pair => (latLngOf pair.1, latLngOf pair.2)) := by
    rw [← List.map_tail, List.zip_map]
    rfl
  have hline : lineDistance (pts.map geoPointOf) =
      ((pts.zip pts.tail).map
        (fun pair => haversineDistance (geoPointOf pair.1) (geoPointOf pair.2))).sum := by
    unfold lineDistance
    rw [← List.map_tail, List.zip_map, List.map_map]
    rfl
  rw [hzip, List.foldl_map, hline]
  have hfold := foldl_addComputed
    (fun pair : (ℚ × ℚ) × (ℚ × ℚ) => haversineDistance (geoPointOf pair.1) (geoPointOf pair.2))
    (pts.zip pts.tail) 0
  rw [zero_add] at hfold
  rw [← hfold]
  rfl

theorem mapM_ok {α β : Type} (f : α → Except String β) (l : List α)
    (h : ∀ x ∈ l, ∃ y, f x = .ok y) : ∃ ys, l.mapM f = .ok ys := by
  induction l with
  | nil => exact ⟨[], rfl⟩
  | cons x xs ih =>
    obtain ⟨y, hy⟩ := h x (List.mem_cons_self _ _)
    obtain ⟨ys, hys⟩ := ih (fun z hz => h z (List.mem_cons_of_mem _ hz))
    refine ⟨y :: ys, ?_⟩
    rw [List.mapM_cons, hy, hys]
    rfl

theorem getCacheKey_ok (toFixed5 : JSNum → String) (pts : List (ℚ × ℚ)) :
    ∃ cacheKey, getCacheKey toFixed5 (limitedWaypoints (pts.map waypointOf)) = .ok cacheKey := by
  have hall : ∀ w ∈ limitedWaypoints (pts.map waypointOf),
      ∃ k, waypointKey toFixed5 w = .ok k := by
    intro w hw
    have hsome : ∃ x ∈ pts.map waypointOf, w = some x := by
      unfold limitedWaypoints at hw
      split at hw
      · rename_i hgt
        exact decimateWaypoints_mem _ 50 (by norm_num) hgt w hw
      · obtain ⟨x, hx, rfl⟩ := List.mem_map.1 hw
        exact ⟨x, hx, rfl⟩
    obtain ⟨x, hx, rfl⟩ := hsome
    obtain ⟨p, _, rfl⟩ := List.mem_map.1 hx
    exact ⟨_, rfl⟩
  obtain ⟨parts, hparts⟩ := mapM_ok _ _ hall
  unfold getCacheKey
  rw [hparts]
  exact ⟨_, rfl⟩

theorem requestRoute_fails (stringify : JSVal → String) (answers : FetchAnswers)
    (hfail : (∃ e, answers.response = .error e) ∨
      ∃ text, answers.response = .ok (false, text)) :
    ∃ e, requestRoute stringify answers = .error e := by
  unfold requestRoute
  rcases hfail with ⟨e, he⟩ | ⟨text, ht⟩
  · rw [he]
    exact ⟨e, rfl⟩
  · rw [ht]
    cases hb : answers.body with
    | error e => exact ⟨e, rfl⟩
    | ok data => exact ⟨_, rfl⟩

/-- C31. With fewer than 2 waypoints `calculateRoute` throws. For every list
of at least 2 waypoints `[lng, lat]` of finite numbers, `calculateRoute` does
not throw, whatever the cache holds and whatever the network answers; and
when the request is made (the cache has no route for the waypoints) and fails
(`fetch` rejects, or the response is not `ok`), it returns the straight line:
as `coordinates` all the waypoints in order, each as
`{ latitude: w[1], longitude: w[0] }`, `duration` 0, and as `distance` the
sum of the Haversine distances between consecutive waypoints; the cache is
left as it was. -/
theorem calculateRoute_fallback (toFixed5 : JSNum → String) (stringify : JSVal → String)
    (answers : FetchAnswers) (s : RoutingService) :
    (∀ waypoints : List Waypoint, waypoints.length < 2 →
      s.calculateRoute toFixed5 stringify answers waypoints =
        (.error "Servono almeno 2 waypoints per calcolare un percorso", s)) ∧
    (∀ pts : List (ℚ × ℚ), 2 ≤ pts.length →
      ∃ route, (s.calculateRoute toFixed5 stringify answers (pts.map waypointOf)).1 =
        .ok route) ∧
    (∀ pts : List (ℚ × ℚ), 2 ≤ pts.length →
      s.requests toFixed5 (pts.map waypointOf) →
      ((∃ e, answers.response = .error e) ∨ ∃ text, answers.response = .ok (false, text)) →
      s.calculateRoute toFixed5 stringify answers (pts.map waypointOf) =
        (.ok { coordinates := pts.map latLngOf,
               distance := .computed (some (lineDistance (pts.map geoPointOf))),
               duration := .value (.num (.fin 0)), geometry := "" }, s)) := by
  refine ⟨?_, ?_, ?_⟩
  · intro waypoints h
    unfold RoutingService.calculateRoute
    rw [if_pos h]
  · intro pts hlen
    obtain ⟨key, hkey⟩ := getCacheKey_ok toFixed5 pts
    unfold RoutingService.calculateRoute
    rw [if_neg (by simpa using hlen), hkey]
    dsimp only
    cases s.requestCache key with
    | some cached => exact ⟨_, rfl⟩
    | none =>
      dsimp only
      cases requestRoute stringify answers with
      | ok result => exact ⟨_, rfl⟩
      | error e => exact ⟨_, rfl⟩
  · intro pts hlen hreq hfail
    obtain ⟨key, hkey, hmiss⟩ := hreq
    obtain ⟨e, he⟩ := requestRoute_fails stringify answers hfail
    unfold RoutingService.calculateRoute
    rw [if_neg (by simpa using hlen), hkey]
    dsimp only
    rw [hmiss]
    dsimp only
    rw [he]
    dsimp only
    rw [fallbackStraightLine_eq]

/-- C31, witness: three waypoints, an empty cache and a network that is down. -/
theorem calculateRoute_fallback_witness :
    emptyRoutingService.calculateRoute (fun _ => "x") (fun _ => "")
        { response := .error "Network request failed", body := .error "no body" }
        (sampleWaypoints.map waypointOf) =
      (.ok { coordinates := sampleWaypoints.map latLngOf,
             distance := .computed (some (lineDistance (sampleWaypoints.map geoPointOf))),
             duration := .value (.num (.fin 0)), geometry := "" }, emptyRoutingService) :=
  (calculateRoute_fallback (fun _ => "x") (fun _ => "")
    { response := .error "Network request failed", body := .error "no body" }
    emptyRoutingService).2.2 sampleWaypoints (by decide) ⟨_, rfl, rfl⟩ (Or.inl ⟨_, rfl⟩)

/-! ## Manual stops: what the collection can hold (C35) -/

theorem showVal_nat (n : ℕ) (h : n < 10 ^ 21) :
    showVal plainPrinter (.num (.fin (n : ℚ))) = showNat n := by
  have h1 : ((n : ℚ)).den = 1 := Rat.den_natCast n
  have h2 : ((n : ℚ)).num = n := Rat.num_natCast n
  have h3 : (n : ℚ) < 10 ^ 21 := by exact_mod_cast h
  simp [showVal, showNum, h1, h2, h3]

theorem parseFloatOf_45 : parseFloatOf decimalEngine plainPrinter (.num (.fin 45)) = .fin 45 := by
  have h := showVal_nat 45 (by norm_num)
  norm_num at h
  unfold parseFloatOf
  rw [h]
  have : decimalEngine.parseFloat (showNat 45) = .fin ((45 : ℕ) : ℚ) := by decide
  rw [this]
  norm_num

theorem parseFloatOf_9 : parseFloatOf decimalEngine plainPrinter (.num (.fin 9)) = .fin 9 := by
  have h := showVal_nat 9 (by norm_num)
  norm_num at h
  unfold parseFloatOf
  rw [h]
  have : decimalEngine.parseFloat (showNat 9) = .fin ((9 : ℕ) : ℚ) := by decide
  rw [this]
  norm_num

theorem parseInt_9 : digitsParseInt (showVal plainPrinter (.num (.fin 9))) = .fin 9 := by
  have h := showVal_nat 9 (by norm_num)
  norm_num at h
  rw [h]
  have : digitsParseInt (showNat 9) = .ofNat 9 := by decide
  rw [this]
  simp [JSNum.ofNat]

theorem isValidCoordinate_sample (E : Engine) :
    ManualStopService.isValidCoordinate E (.num (.fin 45)) (.num (.fin 9)) = .ok true := by
  simp [ManualStopService.isValidCoordinate, toNumber, JSNum.isNaN, JSNum.ge, JSNum.le,
    JSNum.isFinite, bind, Except.bind, pure, Except.pure]
  norm_num

theorem addManualStop_sample (subzone plan : String)
    (htruthy : (JSVal.str subzone).truthy = true) (hplan : toUpperCase subzone = plan) :
    initialManualStopService.addManualStop decimalEngine plainPrinter digitsParseInt
        sampleStamps (sampleStopData subzone) =
      (.ok (sampleStop 45 plan "2023-11-14T22:13:20.000Z"),
        { manualStops := [sampleStop 45 plan "2023-11-14T22:13:20.000Z"],
          emitted := [.manualStopAdded (sampleStop 45 plan "2023-11-14T22:13:20.000Z") 1] }) := by
  have ht : (JSVal.num (.fin 45)).truthy = true := by simp [JSVal.truthy, JSNum.truthy]
  have ht9 : (JSVal.num (.fin 9)).truthy = true := by simp [JSVal.truthy, JSNum.truthy]
  have hname : callTrim (.str "Via Roma 12") = .ok (.str "Via Roma 12") :=
    congrArg (fun t => Except.ok (JSVal.str t))
      (show String.mk (trim "Via Roma 12".data) = "Via Roma 12" by decide)
  have hdesc : callTrim (.str "") = .ok (.str "") :=
    congrArg (fun t => Except.ok (JSVal.str t)) (show String.mk (trim "".data) = "" by decide)
  have hup : callToUpperCase (.str subzone) = .ok (.str plan) := by
    rw [← hplan]
    rfl
  have hs : (JSVal.str "Via Roma 12").truthy = true := by decide
  have g1 : getProp (sampleStopData subzone) "latitude" = .ok (.num (.fin 45)) := rfl
  have g2 : getProp (sampleStopData subzone) "longitude" = .ok (.num (.fin 9)) := rfl
  have g3 : getProp (sampleStopData subzone) "name" = .ok (.str "Via Roma 12") := rfl
  have g4 : getProp (sampleStopData subzone) "description" = .ok .undefined := rfl
  have g5 : getProp (sampleStopData subzone) "zone" = .ok (.num (.fin 9)) := rfl
  have g6 : getProp (sampleStopData subzone) "subzone" = .ok (.str subzone) := rfl
  simp only [ManualStopService.addManualStop, g1, g2, g3, g4, g5, g6,
    bind, Except.bind, pure, Except.pure, orDefault, ht, ht9, hs, htruthy, hname, hdesc, hup,
    isValidCoordinate_sample, parseFloatOf_45, parseFloatOf_9, parseInt_9]
  rfl

theorem wellFormed_sample (updatedAt : String) : WellFormedStop (sampleStop 45 "B" updatedAt) :=
  ⟨Or.inr rfl, ⟨.fin 45, rfl, 45, rfl, by norm_num, by norm_num⟩,
    ⟨.fin 9, rfl, 9, rfl, by norm_num, by norm_num⟩⟩

theorem not_wellFormed_planC (latitude : ℚ) (updatedAt : String) :
    ¬ WellFormedStop (sampleStop latitude "C" updatedAt) := by
  intro h
  have hplan : getProp (sampleStop latitude "C" updatedAt) "plan" = .ok (.str "C") := rfl
  unfold WellFormedStop at h
  rw [hplan] at h
  rcases h.1 with h1 | h1
  · have : "C" = "A" := by
      injection h1 with h2
      injection h2
    exact absurd this (by decide)
  · have : "C" = "B" := by
      injection h1 with h2
      injection h2
    exact absurd this (by decide)

theorem not_wellFormed_far (plan updatedAt : String) :
    ¬ WellFormedStop (sampleStop 999 plan updatedAt) := by
  intro h
  obtain ⟨lat, hlat, q, hq, _, hle⟩ := h.2.1
  have hl : getProp (sampleStop 999 plan updatedAt) "latitude" = .ok (.num (.fin 999)) := rfl
  rw [hl] at hlat
  injection hlat with h1
  injection h1 with h2
  rw [← h2] at hq
  injection hq with h3
  rw [← h3] at hle
  norm_num at hle

theorem updateManualStop_far :
    (oneStopService.updateManualStop "2024-01-01T00:00:00.000Z" (.str sampleStopId)
        (.obj [("latitude", .num (.fin 999))])).2.manualStops =
      [sampleStop 999 "B" "2024-01-01T00:00:00.000Z"] := by
  have hfind : findStopIndex (.str sampleStopId) oneStopService.manualStops = .ok (some 0) := by
    simp [findStopIndex, oneStopService, sampleStop, getProp, List.lookup, strictEquals, bind,
      Except.bind, pure, Except.pure]
  unfold ManualStopService.updateManualStop
  rw [hfind]
  rfl

theorem importManualStops_planC :
    (initialManualStopService.importManualStops decimalEngine (fun _ => .ok planCExport)
        "export").2.manualStops = [sampleStop 45 "C" "2023-11-14T22:13:20.000Z"] := by
  have ht : (JSVal.num (.fin 45)).truthy = true := by simp [JSVal.truthy, JSNum.truthy]
  have ht9 : (JSVal.num (.fin 9)).truthy = true := by simp [JSVal.truthy, JSNum.truthy]
  have hone : strictEquals (.num (.fin 1)) (.num (.fin 1)) = true := by simp [strictEquals]
  have hid : (JSVal.str sampleStopId).truthy = true := by decide
  have hs : (JSVal.str "Via Roma 12").truthy = true := by decide
  have hc : (JSVal.str "C").truthy = true := by decide
  have hvalid : ManualStopService.isValidManualStop decimalEngine
      (sampleStop 45 "C" "2023-11-14T22:13:20.000Z") = .ok true := by
    simp only [ManualStopService.isValidManualStop, sampleStop, getProp, List.lookup,
      Option.getD, bind, Except.bind, pure, Except.pure, ht, ht9, hone, hid, hs, hc,
      JSVal.truthy, isValidCoordinate_sample]
    rfl
  simp only [ManualStopService.importManualStops, planCExport, getProp, List.lookup, Option.getD,
    bind, Except.bind, pure, Except.pure, filterItems, hvalid, JSVal.truthy]
  rfl

/-- C35 (the behaviour of the code). The empty collection holds well-formed
stops only, and `removeManualStop` and `clearAllManualStops` keep it so. The
other three methods do not: `addManualStop` takes any non-empty text as
`subzone` and stores its upper case as plan (the subzone `c` gives a stop of
plan `C`); `updateManualStop` stores the properties of its argument without a
check (an update with `{ latitude: 999 }` of a well-formed stop gives a stop
at latitude 999); and `importManualStops` takes every stop whose plan is
truthy (a stop of plan `C`). -/
theorem manualStops_wellFormed :
    (∀ stop ∈ initialManualStopService.manualStops, WellFormedStop stop) ∧
    (∀ (s : ManualStopService) (stopId : JSVal),
      (∀ stop ∈ s.manualStops, WellFormedStop stop) →
      ∀ stop ∈ (s.removeManualStop stopId).2.manualStops, WellFormedStop stop) ∧
    (∀ s : ManualStopService, ∀ stop ∈ s.clearAllManualStops.manualStops,
      WellFormedStop stop) ∧
    ((initialManualStopService.addManualStop decimalEngine plainPrinter digitsParseInt
        sampleStamps (sampleStopData "c")).2.manualStops =
        [sampleStop 45 "C" "2023-11-14T22:13:20.000Z"] ∧
      ¬ WellFormedStop (sampleStop 45 "C" "2023-11-14T22:13:20.000Z")) ∧
    ((∀ stop ∈ oneStopService.manualStops, WellFormedStop stop) ∧
      (oneStopService.updateManualStop "2024-01-01T00:00:00.000Z" (.str sampleStopId)
        (.obj [("latitude", .num (.fin 999))])).2.manualStops =
        [sampleStop 999 "B" "2024-01-01T00:00:00.000Z"] ∧
      ¬ WellFormedStop (sampleStop 999 "B" "2024-01-01T00:00:00.000Z")) ∧
    ((initialManualStopService.importManualStops decimalEngine (fun _ => .ok planCExport)
        "export").2.manualStops = [sampleStop 45 "C" "2023-11-14T22:13:20.000Z"]) := by
  refine ⟨fun stop h => (by cases h), ?_, fun s stop h => (by cases h), ?_, ?_,
    importManualStops_planC⟩
  · intro s stopId hall stop hstop
    unfold ManualStopService.removeManualStop at hstop
    split at hstop
    · exact hall stop hstop
    · exact hall stop hstop
    · exact hall stop ((List.eraseIdx_sublist _ _).subset hstop)
  · constructor
    · rw [addManualStop_sample "c" "C" (by decide) (by decide)]
    · exact not_wellFormed_planC _ _
  · refine ⟨?_, updateManualStop_far, not_wellFormed_far _ _⟩
    intro stop hstop
    simp only [oneStopService, List.mem_singleton] at hstop
    rw [hstop]
    exact wellFormed_sample _

/-! ## KMLService.js: the module is rejected (C21 to C24, C39, C40) -/

theorem redeclared_kmlService : redeclared [] kmlServiceDeclarations = some "validateKML" := by
  decide

theorem importKMLService_error : importKMLService = .error kmlServiceError := by
  unfold importKMLService evaluateModule
  rw [redeclared_kmlService]
  rfl

theorem runImported_error (E : Engine) (P : Printer)
    (xmlParse : String → Except String JSVal) (clock : ℕ → ℕ) (actions : List KMLAction) :
    runImported E P xmlParse clock actions = .error kmlServiceError := by
  unfold runImported
  rw [importKMLService_error]
  rfl

theorem performImported_error (E : Engine) (P : Printer)
    (xmlParse : String → Except String JSVal) (clock : ℕ → ℕ) (zone : ℤ) (subzone : String)
    (a : FileAnswers) :
    performImported E P xmlParse clock zone subzone a = .error kmlServiceError := by
  unfold performImported
  rw [importKMLService_error]
  rfl
/-- C21 (what the program does). KMLService.js binds `validateKML` twice, by
the import of line 10 and by the `export const` of line 284, so the module is
rejected with a `SyntaxError` and `_performKMLLoading` is never reached: for
every zone, plan and answer of the file system (the file is missing, cannot
be read, cannot be parsed, or is good) the program that imports the service
and calls it ends with that error, and so with no result object, neither one
with `success = false` nor one with `success = true`. -/
theorem performKMLLoading_import_fails (E : Engine) (P : Printer)
    (xmlParse : String → Except String JSVal) (clock : ℕ → ℕ) (zone : ℤ) (subzone : String)
    (a : FileAnswers) :
    redeclared [] kmlServiceDeclarations = some "validateKML" ∧
    performImported E P xmlParse clock zone subzone a = .error kmlServiceError ∧
    performImported E P xmlParse clock zone subzone missingAnswers = .error kmlServiceError ∧
    ∀ success : Bool, ¬ ∃ r : LoadResult,
      performImported E P xmlParse clock zone subzone a = .ok (.returns r) ∧
        r.success = success := by
  refine ⟨redeclared_kmlService, performImported_error _ _ _ _ _ _ _,
    performImported_error _ _ _ _ _ _ _, ?_⟩
  rintro success ⟨r, hr, -⟩
  rw [performImported_error] at hr
  cases hr

/-- C22 (what the program does). The import of KMLService.js ends with a
`SyntaxError`, so the singleton with its cache is never made. The run of
KMLService.test.js (a load of zone 9, plan B, a second call that should be
served from the cache, a third with `forceReload`) ends with the error of the
import, and so does every list of actions that ends with a call of
`loadKMLForZone`, with or without `forceReload`: no call returns a result,
from the cache or from a new load. -/
theorem loadKMLForZone_import_fails (E : Engine) (P : Printer)
    (xmlParse : String → Except String JSVal) (clock : ℕ → ℕ) (actions : List KMLAction)
    (caller : ℕ) (zone : ℤ) (subzone : String) (forceReload : Bool) (a b : FileAnswers) :
    importKMLService = .error kmlServiceError ∧
    runImported E P xmlParse clock
        [.call 1 9 "B" false, .settle 0 a, .resume 0, .call 2 9 "B" false,
         .call 3 9 "B" true, .settle 1 b, .resume 0] = .error kmlServiceError ∧
    runImported E P xmlParse clock (actions ++ [.call caller zone subzone forceReload]) =
      .error kmlServiceError :=
  ⟨importKMLService_error, runImported_error _ _ _ _ _, runImported_error _ _ _ _ _⟩

/-- C23 (what the program does). The import of KMLService.js ends with a
`SyntaxError`. Two calls of `loadKMLForZone` for one key, the second made
while the load of the first has not settled, give neither caller a result:
the program ends with the error of the import, whatever the file system
answers; and after every list of actions whatever no state of the service
exists in which a call has returned. -/
theorem coalescing_import_fails (E : Engine) (P : Printer)
    (xmlParse : String → Except String JSVal) (clock : ℕ → ℕ) (actions : List KMLAction)
    (zone : ℤ) (subzone : String) (a : FileAnswers) :
    runImported E P xmlParse clock
        [.call 1 zone subzone false, .call 2 zone subzone false, .settle 0 a, .resume 0,
         .resume 0] = .error kmlServiceError ∧
    ¬ ∃ s : KMLService, runImported E P xmlParse clock actions = .ok s ∧ s.delivered ≠ [] := by
  refine ⟨runImported_error _ _ _ _ _, ?_⟩
  rintro ⟨s, hs, -⟩
  rw [runImported_error] at hs
  cases hs

/-- C24 (amended). The key of a zone and a plan is the text
`${zone}_${plan}` with the plan as it is passed: no letter is changed. The
keys of plan b and of plan B are different for every zone. So in every state
of the service whose cache has no entry under the key of plan b (whatever it
has for plan B), `isInCache(zone, b)` is false, and a call of
`loadKMLForZone(zone, b)` with no load in flight for that key returns nothing
from the cache: it calls `_performKMLLoading(zone, b)`. -/
theorem cacheKey_as_passed (zone : ℤ) :
    (∀ plan : String, cacheKey zone plan = showInt zone ++ "_" ++ plan) ∧
    cacheKey zone "b" ≠ cacheKey zone "B" ∧
    (∀ (s : KMLService) (result : LoadResult),
      s.cache (cacheKey zone "b") = none →
      KMLService.isInCache zone "b"
          { s with cache := Function.update s.cache (cacheKey zone "B") (some result) } =
        false ∧
      KMLService.isInCache zone "B"
          { s with cache := Function.update s.cache (cacheKey zone "B") (some result) } =
        true) ∧
    (∀ (s : KMLService) (caller : ℕ), s.cache (cacheKey zone "b") = none →
      s.loadingPromises (cacheKey zone "b") = none →
      (s.loadKMLForZone caller zone "b" false).loads =
          s.loads ++ [{ zone := zone, subzone := "b", outcome := none }] ∧
        (s.loadKMLForZone caller zone "b" false).delivered = s.delivered) := by
  refine ⟨fun _ => rfl, cacheKey_ne zone, ?_, ?_⟩
  · intro s result hb
    constructor
    · simp [KMLService.isInCache, Function.update_noteq (cacheKey_ne zone), hb]
    · simp [KMLService.isInCache]
  · intro s caller hb hidle
    rw [loadKMLForZone_start s caller zone "b" false hidle (Or.inr hb)]
    exact ⟨rfl, rfl⟩

/-- C24, counterexample. The key of zone 9 with plan b is the text `9_b`; it
is not the key `9_B` of plan B, so no upper-case form is taken. And in the
class as its body reads, on a new service, after a load of zone 9 with plan B
has gone into the cache (whatever the file system answered), `isInCache(9, B)`
is true and `isInCache(9, b)` is false, and a call of `loadKMLForZone(9, b)`
calls `_performKMLLoading` once more. -/
theorem cacheKey_counterexample :
    cacheKey 9 "b" = "9_b" ∧ cacheKey 9 "B" = "9_B" ∧ cacheKey 9 "b" ≠ cacheKey 9 "B" ∧
    ∀ (E : Engine) (P : Printer) (xmlParse : String → Except String JSVal) (clock : ℕ → ℕ)
      (a : FileAnswers),
      (KMLService.after E P xmlParse clock
          [.call 1 9 "B" false, .settle 0 a, .resume 0]).isInCache 9 "B" = true ∧
      (KMLService.after E P xmlParse clock
          [.call 1 9 "B" false, .settle 0 a, .resume 0]).isInCache 9 "b" = false ∧
      ((KMLService.after E P xmlParse clock
          [.call 1 9 "B" false, .settle 0 a, .resume 0]).loadKMLForZone 2 9 "b" false).loads =
        (KMLService.after E P xmlParse clock
          [.call 1 9 "B" false, .settle 0 a, .resume 0]).loads ++
          [{ zone := 9, subzone := "b", outcome := none }] :=
  ⟨by decide, by decide, by decide,
    fun E P xmlParse clock a => cacheKey_case E P xmlParse clock 9 a⟩

/-- C39 (what the program does). The import of KMLService.js ends with a
`SyntaxError`. A program that imports the service, loads a zone and a plan
(whatever the file system answers, so also when the file is missing) and then
asks `isInCache` for that key ends with the error of the import: the answer is
not `true`, and no later call returns the failure of the load. -/
theorem failedLoad_import_fails (E : Engine) (P : Printer)
    (xmlParse : String → Except String JSVal) (clock : ℕ → ℕ) (caller : ℕ) (zone : ℤ)
    (subzone : String) (a : FileAnswers) (later : List KMLAction) :
    (runImported E P xmlParse clock
        [.call caller zone subzone false, .settle 0 a, .resume 0]).map
      (KMLService.isInCache zone subzone) = .error kmlServiceError ∧
    (runImported E P xmlParse clock
        [.call caller zone subzone false, .settle 0 missingAnswers, .resume 0]).map
      (KMLService.isInCache zone subzone) ≠ .ok true ∧
    (runImported E P xmlParse clock
        ([.call caller zone subzone false, .settle 0 a, .resume 0] ++ later ++
          [.call (caller + 1) zone subzone false])).map
      (fun s => s.delivered) = .error kmlServiceError := by
  simp only [runImported_error]
  exact ⟨rfl, fun h => (by cases h), rfl⟩

/-- C40 (what the program does). The import of KMLService.js ends with a
`SyntaxError`, so the program has no load result at all: for every zone,
plan and answer of the file system, also for a file that is there, is read
and parses to routes, the program that imports the service and calls
`_performKMLLoading` does not return a result with `success = true`, and
there is no `metadata` to compare with the statistics of the validator. -/
theorem loadResult_import_fails (E : Engine) (P : Printer)
    (xmlParse : String → Except String JSVal) (clock : ℕ → ℕ) (zone : ℤ) (subzone : String)
    (a : FileAnswers) :
    (∀ r : LoadResult, performImported E P xmlParse clock zone subzone a ≠ .ok (.returns r)) ∧
    (performImported E P xmlParse clock zone subzone a).toOption = none ∧
    (performImported E P xmlParse clock zone subzone goodAnswers).toOption = none := by
  simp only [performImported_error]
  exact ⟨fun r h => (by cases h), rfl, rfl⟩

/-! ## The database is never initialised (C29, C30) -/

theorem ensureInitialized_not_ready (d : Database) (h : d.isInitialized = false) :
    d.ensureInitialized = .error notInitialized := by
  unfold Database.ensureInitialized Database.isReady
  rw [h]
  rfl

theorem seedData_not_ready (d : Database) (h : d.isInitialized = false) :
    d.seedData = .error notInitialized := by
  unfold Database.seedData
  simp only [seedZones, Database.insertZone, ensureInitialized_not_ready d h, bind, Except.bind]
  rfl

theorem initializeCall_not_ready (answers : SQLiteAnswers) (d : Database)
    (h : d.isInitialized = false) :
    (∃ message, (Database.initializeCall answers d).1 = .error message) ∧
      (Database.initializeCall answers d).2.isInitialized = false ∧
      (Database.initializeCall answers d).2.runs = d.runs ∧
      (Database.initializeCall answers d).2.runStops = d.runStops ∧
      (answers.openDatabase = .ok () → answers.createTables = .ok () →
        answers.createIndexes = .ok () → (Database.initializeCall answers d).1 = .error notInitialized) := by
  unfold Database.initializeCall
  cases ho : answers.openDatabase with
  | error message => exact ⟨⟨_, rfl⟩, h, rfl, rfl, fun h1 => by cases h1⟩
  | ok u =>
    cases ht : answers.createTables with
    | error message => exact ⟨⟨_, rfl⟩, h, rfl, rfl, fun _ h2 => by cases h2⟩
    | ok v =>
      cases hi : answers.createIndexes with
      | error message => exact ⟨⟨_, rfl⟩, h, rfl, rfl, fun _ _ h3 => by cases h3⟩
      | ok w =>
        have hs : Database.seedData { d with dbOpen := true } = .error notInitialized :=
          seedData_not_ready _ h
        rw [hs]
        exact ⟨⟨_, rfl⟩, h, rfl, rfl, fun _ _ _ => rfl⟩

theorem neverReady_act (d : Database) (action : DatabaseAction) (h : NeverReady d) :
    NeverReady (d.act action) := by
  obtain ⟨h1, h2, h3⟩ := h
  cases action with
  | initializeCall answers =>
    obtain ⟨_, hi, hr, hs, _⟩ := initializeCall_not_ready answers d h1
    exact ⟨hi, hr.trans h2, hs.trans h3⟩
  | startRun now runData =>
    simp only [Database.act, Database.startRun, ensureInitialized_not_ready d h1, bind,
      Except.bind]
    exact ⟨h1, h2, h3⟩
  | completeRun now runId completionData =>
    simp only [Database.act, Database.completeRun, ensureInitialized_not_ready d h1, bind,
      Except.bind]
    exact ⟨h1, h2, h3⟩
  | addStopToRun runStopData =>
    simp only [Database.act, Database.addStopToRun, ensureInitialized_not_ready d h1, bind,
      Except.bind]
    exact ⟨h1, h2, h3⟩
  | completeStopInRun now runStopId completionData =>
    simp only [Database.act, Database.completeStopInRun, ensureInitialized_not_ready d h1, bind,
      Except.bind]
    exact ⟨h1, h2, h3⟩
  | close =>
    simp only [Database.act, Database.close]
    split
    · exact ⟨rfl, h2, h3⟩
    · exact ⟨h1, h2, h3⟩

theorem neverReady_runActions (actions : List DatabaseAction) (d : Database)
    (h : NeverReady d) : NeverReady (d.runActions actions) := by
  induction actions generalizing d with
  | nil => exact h
  | cons action rest ih => exact ih _ (neverReady_act d action h)

theorem neverReady_new : NeverReady newDatabase := ⟨rfl, rfl, rfl⟩

theorem neverReady_service_act (s : PostManService) (action : ServiceAction)
    (h : NeverReady s.database) :
    NeverReady (s.act action).database ∧ (s.act action).emitted = s.emitted := by
  obtain ⟨h1, h2, h3⟩ := h
  cases action with
  | initializeCall answers =>
    obtain ⟨⟨message, he⟩, hi, hr, hs, _⟩ := initializeCall_not_ready answers s.database h1
    have hpair : Database.initializeCall answers s.database =
        (.error message, (Database.initializeCall answers s.database).2) := by
      rw [← he]
    simp only [PostManService.act, PostManService.initializeCall]
    rw [hpair]
    exact ⟨⟨hi, hr.trans h2, hs.trans h3⟩, rfl⟩
  | startRun now runData =>
    simp only [PostManService.act, PostManService.startRun, Database.startRun,
      ensureInitialized_not_ready _ h1, bind, Except.bind]
    exact ⟨⟨h1, h2, h3⟩, trivial⟩
  | completeStop now completionData =>
    simp only [PostManService.act, PostManService.completeStop, Database.getActiveRun,
      ensureInitialized_not_ready _ h1, bind, Except.bind]
    exact ⟨⟨h1, h2, h3⟩, trivial⟩

theorem neverReady_service_runActions (actions : List ServiceAction) (s : PostManService)
    (h : NeverReady s.database) :
    NeverReady (s.runActions actions).database ∧ (s.runActions actions).emitted = s.emitted := by
  induction actions generalizing s with
  | nil => exact ⟨h, rfl⟩
  | cons action rest ih =>
    obtain ⟨h1, h2⟩ := neverReady_service_act s action h
    obtain ⟨h3, h4⟩ := ih _ h1
    exact ⟨h3, h4.trans h2⟩

theorem importPostManService_error : importPostManService = .error kmlServiceError := by
  unfold importPostManService
  rw [importKMLService_error]
  rfl

/-- C29. After every list of calls of `initialize`, `startRun`,
`completeRun`, `addStopToRun`, `completeStopInRun` and `close` on the database
service as its constructor leaves it, with any arguments and any answers of
the SQLite library, the table `runs` has at most one row with status
`active`; and so it is after every list of calls of `initialize`, `startRun`
and `completeStop` on the service of PostManV3Service.js. The table has no
row at all: `initialize` runs `seedData` before it sets `isInitialized`, and
`insertZone` tests that flag first, so `initialize` always throws and the flag
is never set; every `startRun` then throws at `ensureInitialized` and inserts
nothing. -/
theorem activeRuns_le_one (actions : List DatabaseAction) :
    activeRuns (newDatabase.runActions actions) ≤ 1 ∧
    (∀ serviceActions : List ServiceAction,
      activeRuns (newPostManService.runActions serviceActions).database ≤ 1) ∧
    (newDatabase.runActions actions).runs = [] ∧
    (newDatabase.runActions actions).isReady = false ∧
    (∀ answers, ∃ message,
      (Database.initializeCall answers (newDatabase.runActions actions)).1 = .error message) ∧
    (∀ now runData,
      (newDatabase.runActions actions).startRun now runData = .error notInitialized) := by
  obtain ⟨h1, h2, _⟩ := neverReady_runActions actions newDatabase neverReady_new
  refine ⟨?_, ?_, h2, ?_, fun answers => (initializeCall_not_ready answers _ h1).1, ?_⟩
  · simp [activeRuns, h2]
  · intro serviceActions
    obtain ⟨⟨_, h3, _⟩, _⟩ :=
      neverReady_service_runActions serviceActions newPostManService neverReady_new
    simp [activeRuns, h3]
  · simp [Database.isReady, h1]
  · intro now runData
    simp only [Database.startRun, ensureInitialized_not_ready _ h1, bind, Except.bind]

/-- C30 (what the program does). PostManV3Service.js imports KMLService.js,
whose import ends with a `SyntaxError`, so the import of the service ends
with that error. And in the class as it is written, after every list of calls
of `initialize`, `startRun` and `completeStop` on the service as its
constructor leaves it, the database is not initialised (`initialize` always
throws), no run is active, and `completeStop` fails with the message of
`ensureInitialized`, which is not `Nessuna run attiva`; it leaves the service
as it was, so nothing is written and no event is emitted. -/
theorem completeStop_not_initialised (actions : List ServiceAction) (now : ℕ)
    (c : StopCompletionData) :
    importPostManService = .error kmlServiceError ∧
    (∀ r ∈ (newPostManService.runActions actions).database.runs, r.status ≠ "active") ∧
    (∀ answers, ∃ message,
      (PostManService.initializeCall answers (newPostManService.runActions actions)).1 = .error message) ∧
    PostManService.completeStop now c (newPostManService.runActions actions) =
      (.error notInitialized, newPostManService.runActions actions) ∧
    notInitialized ≠ "Nessuna run attiva" := by
  obtain ⟨⟨h1, h2, _⟩, _⟩ :=
    neverReady_service_runActions actions newPostManService neverReady_new
  refine ⟨importPostManService_error, ?_, ?_, ?_, by decide⟩
  · intro r hr
    rw [h2] at hr
    cases hr
  · intro answers
    obtain ⟨⟨message, he⟩, _⟩ := initializeCall_not_ready answers _ h1
    have hpair : Database.initializeCall answers (newPostManService.runActions actions).database =
        (.error message, (Database.initializeCall answers (newPostManService.runActions actions).database).2) := by
      rw [← he]
    refine ⟨message, ?_⟩
    simp only [PostManService.initializeCall]
    rw [hpair]
  · simp only [PostManService.completeStop, Database.getActiveRun,
      ensureInitialized_not_ready _ h1, bind, Except.bind]

/-! ## Map state: a switch with data that is not an object (C26) -/

/-- C26, counterexample. The data is `null`. On the service with zone 9,
plan A loaded, the call for zone 9, plan A (the loaded ones) throws in
`updateZoneData`, and the `catch` block sets `isLoaded` to false: it is not
left as it was. The call for zone 9, plan B (a different plan) emits
`beforeCleanup` and `afterCleanup` and then throws in `loadZoneData`: no
`dataLoaded` is emitted. -/
theorem switchToZone_events_counterexample :
    MapService.isZoneLoaded 9 "A" loadedMapService = true ∧
    loadedMapService.currentState.isLoaded = true ∧
    (MapService.switchToZone 9 "A" .null loadedMapService).2.currentState.isLoaded = false ∧
    (MapService.switchToZone 9 "B" .null loadedMapService).2.emitted.filter
        (fun e => !e.isStateChanged) =
      [.beforeCleanup (some 9) (some "A"), .afterCleanup (some 9) (some "A")] ∧
    (∃ message, (MapService.switchToZone 9 "B" .null loadedMapService).1 = .error message) :=
  ⟨rfl, rfl, rfl, rfl, ⟨_, rfl⟩⟩

/-! ## Validator: a route loop that never ends (C3) -/

theorem finiteRoutes_of_plain (E : Engine) (v : JSVal) (h : PlainRoutes v) :
    FiniteRoutes E v := by
  intro routes len bound h1 h2 _
  rcases h with h | h | h | h | ⟨items, h⟩
  · subst h
    cases h1
  · subst h
    cases h1
  · rw [h] at h1
    cases h1
    cases h2
  · rw [h] at h1
    cases h1
    cases h2
  · rw [h] at h1
    cases h1
    exact fun hc => by cases hc

/-- C3 (what the program does). `validateRoutes` runs its loop up to
`routes.length` whatever `routes` is; `validateBasicStructure` has only
recorded that it is not an array. On the document whose `routes` is
`{ length: Infinity }` the test `i < routes.length` is true at every turn, a
message is pushed at every turn, and `validateKML` returns no result; this
holds for every engine and printer. On `null`, on `undefined`, and on every
value whose `routes` is missing, is `null` or is an array (with or without
metadata), `validateKML` returns a result, so it does not throw. Whenever it
returns a result, `isValid` is true if and only if `errors` is empty, whatever
the warnings are. -/
theorem validateKML_outcomes (E : Engine) (P : Printer) :
    validateKML E P endlessDocument = .diverges ∧
    (∀ v, PlainRoutes v → ∃ r, validateKML E P v = .returns r) ∧
    (∀ v r, validateKML E P v = .returns r → (r.isValid = true ↔ r.errors = [])) := by
  refine ⟨rfl, ?_, ?_⟩
  · intro v hv
    unfold validateKML
    cases h : validateKMLBody E P v initialResult with
    | ok a r => exact ⟨_, rfl⟩
    | throws msg r => exact ⟨_, rfl⟩
    | diverges => exact absurd h (validateKMLBody_noDiv E P v (finiteRoutes_of_plain E v hv) _)
  · intro v r hr
    unfold validateKML at hr
    cases h : validateKMLBody E P v initialResult with
    | ok a r0 =>
      rw [h] at hr
      cases hr
      simp
    | throws msg r0 =>
      rw [h] at hr
      cases hr
      simp
    | diverges =>
      rw [h] at hr
      cases hr

/-! ## Binary64 arithmetic: distances and times (C7, C8, C13, C33) -/

theorem Binary64.roundHalfEven_eq (x : ℚ) (k : ℤ) (h1 : x - k < 1 / 2) (h2 : -(1 / 2) < x - k) :
    roundHalfEven x = k := by
  unfold roundHalfEven
  by_cases hk : (k : ℚ) ≤ x
  · have hf : ⌊x⌋ = k := by
      rw [Int.floor_eq_iff]
      constructor
      · exact hk
      · linarith
    rw [hf, if_pos h1]
  · have hf : ⌊x⌋ = k - 1 := by
      rw [Int.floor_eq_iff]
      push_cast
      constructor <;> linarith
    rw [hf]
    push_cast
    rw [if_neg (by linarith), if_pos (by linarith)]
    ring

theorem Binary64.log_eq (q : ℚ) (e : ℤ) (h1 : (2 : ℚ) ^ e ≤ |q|) (h2 : |q| < (2 : ℚ) ^ (e + 1)) :
    Int.log 2 |q| = e := by
  have hpos : 0 < |q| := lt_of_lt_of_le (by positivity) h1
  have ha : e ≤ Int.log 2 |q| := (Int.zpow_le_iff_le_log (by norm_num) hpos).1 (by exact_mod_cast h1)
  have hb : Int.log 2 |q| < e + 1 :=
    (Int.lt_zpow_iff_log_lt (by norm_num) hpos).1 (by exact_mod_cast h2)
  omega

theorem Binary64.round_eq (q : ℚ) (e k : ℤ) (h1 : (2 : ℚ) ^ e ≤ |q|) (h2 : |q| < (2 : ℚ) ^ (e + 1))
    (he : -1022 ≤ e) (hk1 : q / 2 ^ (e - 52) - k < 1 / 2)
    (hk2 : -(1 / 2) < q / 2 ^ (e - 52) - k)
    (hfin : |(k : ℚ) * 2 ^ (e - 52)| < 2 ^ (1024 : ℕ)) :
    round q = .fin (k * 2 ^ (e - 52)) := by
  have hu : ulpExponent q = e - 52 := by
    unfold ulpExponent
    rw [log_eq q e h1 h2, max_eq_left he]
  unfold round
  rw [hu, roundHalfEven_eq _ k hk1 hk2, if_neg (not_le.2 hfin)]

theorem Binary64.round_eq_pos (q : ℚ) (e k : ℤ) (hq : 0 < q) (h1 : (2 : ℚ) ^ e ≤ q)
    (h2 : q < (2 : ℚ) ^ (e + 1)) (he : -1022 ≤ e) (hk1 : q / 2 ^ (e - 52) - k < 1 / 2)
    (hk2 : -(1 / 2) < q / 2 ^ (e - 52) - k)
    (hf1 : (k : ℚ) * 2 ^ (e - 52) < 2 ^ (1024 : ℕ))
    (hf2 : -(2 ^ (1024 : ℕ)) < (k : ℚ) * 2 ^ (e - 52)) :
    round q = .fin (k * 2 ^ (e - 52)) :=
  round_eq q e k ((abs_of_pos hq).symm ▸ h1) ((abs_of_pos hq).symm ▸ h2) he hk1 hk2
    (abs_lt.2 ⟨hf2, hf1⟩)

theorem Binary64.round_eq_neg (q : ℚ) (e k : ℤ) (hq : q < 0) (h1 : (2 : ℚ) ^ e ≤ -q)
    (h2 : -q < (2 : ℚ) ^ (e + 1)) (he : -1022 ≤ e) (hk1 : q / 2 ^ (e - 52) - k < 1 / 2)
    (hk2 : -(1 / 2) < q / 2 ^ (e - 52) - k)
    (hf1 : (k : ℚ) * 2 ^ (e - 52) < 2 ^ (1024 : ℕ))
    (hf2 : -(2 ^ (1024 : ℕ)) < (k : ℚ) * 2 ^ (e - 52)) :
    round q = .fin (k * 2 ^ (e - 52)) :=
  round_eq q e k ((abs_of_neg hq).symm ▸ h1) ((abs_of_neg hq).symm ▸ h2) he hk1 hk2
    (abs_lt.2 ⟨hf2, hf1⟩)

theorem Binary64.sample_m1 : mul (.fin (-12)) (.fin pi) = .fin (-2652839157010665 / 70368744177664) := by
  show round ((-12) * pi) = _
  rw [round_eq_neg ((-12) * pi) 5 (-5305678314021330) (by norm_num [pi]) (by norm_num [pi]) (by norm_num [pi])
    (by norm_num) (by norm_num [pi]) (by norm_num [pi]) (by norm_num) (by norm_num)]
  congr 1
  norm_num

theorem Binary64.sample_l1 : div (.fin (-2652839157010665 / 70368744177664)) 180 = .fin (-7545853602163669 / 36028797018963968) := by
  show round ((-2652839157010665 / 70368744177664) / 180) = _
  rw [round_eq_neg ((-2652839157010665 / 70368744177664) / 180) (-3) (-7545853602163669) (by norm_num [pi]) (by norm_num [pi]) (by norm_num [pi])
    (by norm_num) (by norm_num [pi]) (by norm_num [pi]) (by norm_num) (by norm_num)]
  congr 1
  norm_num

theorem Binary64.sample_m2 : mul (.fin 12) (.fin pi) = .fin (2652839157010665 / 70368744177664) := by
  show round (12 * pi) = _
  rw [round_eq_pos (12 * pi) 5 5305678314021330 (by norm_num [pi]) (by norm_num [pi]) (by norm_num [pi])
    (by norm_num) (by norm_num [pi]) (by norm_num [pi]) (by norm_num) (by norm_num)]
  congr 1
  norm_num

theorem Binary64.sample_l2 : div (.fin (2652839157010665 / 70368744177664)) 180 = .fin (7545853602163669 / 36028797018963968) := by
  show round ((2652839157010665 / 70368744177664) / 180) = _
  rw [round_eq_pos ((2652839157010665 / 70368744177664) / 180) (-3) 7545853602163669 (by norm_num [pi]) (by norm_num [pi]) (by norm_num [pi])
    (by norm_num) (by norm_num [pi]) (by norm_num [pi]) (by norm_num) (by norm_num)]
  congr 1
  norm_num

theorem Binary64.sample_d : sub (.fin 12) (.fin (-12)) = .fin 24 := by
  show round (12 + -(-12)) = _
  rw [round_eq_pos (12 + -(-12)) 4 6755399441055744 (by norm_num [pi]) (by norm_num [pi]) (by norm_num [pi])
    (by norm_num) (by norm_num [pi]) (by norm_num [pi]) (by norm_num) (by norm_num)]
  congr 1
  norm_num

theorem Binary64.sample_m3 : mul (.fin 24) (.fin pi) = .fin (2652839157010665 / 35184372088832) := by
  show round (24 * pi) = _
  rw [round_eq_pos (24 * pi) 6 5305678314021330 (by norm_num [pi]) (by norm_num [pi]) (by norm_num [pi])
    (by norm_num) (by norm_num [pi]) (by norm_num [pi]) (by norm_num) (by norm_num)]
  congr 1
  norm_num

theorem Binary64.sample_dl : div (.fin (2652839157010665 / 35184372088832)) 180 = .fin (7545853602163669 / 18014398509481984) := by
  show round ((2652839157010665 / 35184372088832) / 180) = _
  rw [round_eq_pos ((2652839157010665 / 35184372088832) / 180) (-2) 7545853602163669 (by norm_num [pi]) (by norm_num [pi]) (by norm_num [pi])
    (by norm_num) (by norm_num [pi]) (by norm_num [pi]) (by norm_num) (by norm_num)]
  congr 1
  norm_num

theorem Binary64.sample_g : sub (.fin 90) (.fin (-90)) = .fin 180 := by
  show round (90 + -(-90)) = _
  rw [round_eq_pos (90 + -(-90)) 7 6333186975989760 (by norm_num [pi]) (by norm_num [pi]) (by norm_num [pi])
    (by norm_num) (by norm_num [pi]) (by norm_num [pi]) (by norm_num) (by norm_num)]
  congr 1
  norm_num

theorem Binary64.sample_m4 : mul (.fin 180) (.fin pi) = .fin (4974073419394997 / 8796093022208) := by
  show round (180 * pi) = _
  rw [round_eq_pos (180 * pi) 9 4974073419394997 (by norm_num [pi]) (by norm_num [pi]) (by norm_num [pi])
    (by norm_num) (by norm_num [pi]) (by norm_num [pi]) (by norm_num) (by norm_num)]
  congr 1
  norm_num

theorem Binary64.sample_dg : div (.fin (4974073419394997 / 8796093022208)) 180 = .fin (884279719003555 / 281474976710656) := by
  show round ((4974073419394997 / 8796093022208) / 180) = _
  rw [round_eq_pos ((4974073419394997 / 8796093022208) / 180) 1 7074237752028440 (by norm_num [pi]) (by norm_num [pi]) (by norm_num [pi])
    (by norm_num) (by norm_num [pi]) (by norm_num [pi]) (by norm_num) (by norm_num)]
  congr 1
  norm_num

theorem Binary64.sample_hl : div (.fin (7545853602163669 / 18014398509481984)) 2 = .fin (7545853602163669 / 36028797018963968) := by
  show round ((7545853602163669 / 18014398509481984) / 2) = _
  rw [round_eq_pos ((7545853602163669 / 18014398509481984) / 2) (-3) 7545853602163669 (by norm_num [pi]) (by norm_num [pi]) (by norm_num [pi])
    (by norm_num) (by norm_num [pi]) (by norm_num [pi]) (by norm_num) (by norm_num)]
  congr 1
  norm_num

theorem Binary64.sample_hg : div (.fin (884279719003555 / 281474976710656)) 2 = .fin (884279719003555 / 562949953421312) := by
  show round ((884279719003555 / 281474976710656) / 2) = _
  rw [round_eq_pos ((884279719003555 / 281474976710656) / 2) 0 7074237752028440 (by norm_num [pi]) (by norm_num [pi]) (by norm_num [pi])
    (by norm_num) (by norm_num [pi]) (by norm_num [pi]) (by norm_num) (by norm_num)]
  congr 1
  norm_num

theorem Binary64.sample_t1 : mul (.fin (7490808106342645 / 36028797018963968)) (.fin (7490808106342645 / 36028797018963968)) = .fin (6229706315924309 / 144115188075855872) := by
  show round ((7490808106342645 / 36028797018963968) * (7490808106342645 / 36028797018963968)) = _
  rw [round_eq_pos ((7490808106342645 / 36028797018963968) * (7490808106342645 / 36028797018963968)) (-5) 6229706315924309 (by norm_num [pi]) (by norm_num [pi]) (by norm_num [pi])
    (by norm_num) (by norm_num [pi]) (by norm_num [pi]) (by norm_num) (by norm_num)]
  congr 1
  norm_num

theorem Binary64.sample_t2 : mul (.fin (68831018284033 / 70368744177664)) (.fin (68831018284033 / 70368744177664)) = .fin (2154460652498931 / 2251799813685248) := by
  show round ((68831018284033 / 70368744177664) * (68831018284033 / 70368744177664)) = _
  rw [round_eq_pos ((68831018284033 / 70368744177664) * (68831018284033 / 70368744177664)) (-1) 8617842609995724 (by norm_num [pi]) (by norm_num [pi]) (by norm_num [pi])
    (by norm_num) (by norm_num [pi]) (by norm_num [pi]) (by norm_num) (by norm_num)]
  congr 1
  norm_num

theorem Binary64.sample_t3 : mul (.fin (2154460652498931 / 2251799813685248)) (.fin 1) = .fin (2154460652498931 / 2251799813685248) := by
  show round ((2154460652498931 / 2251799813685248) * 1) = _
  rw [round_eq_pos ((2154460652498931 / 2251799813685248) * 1) (-1) 8617842609995724 (by norm_num [pi]) (by norm_num [pi]) (by norm_num [pi])
    (by norm_num) (by norm_num [pi]) (by norm_num [pi]) (by norm_num) (by norm_num)]
  congr 1
  norm_num

theorem Binary64.sample_a : add (.fin (6229706315924309 / 144115188075855872)) (.fin (2154460652498931 / 2251799813685248)) = .fin (4503599627370497 / 4503599627370496) := by
  show round ((6229706315924309 / 144115188075855872) + (2154460652498931 / 2251799813685248)) = _
  rw [round_eq_pos ((6229706315924309 / 144115188075855872) + (2154460652498931 / 2251799813685248)) 0 4503599627370497 (by norm_num [pi]) (by norm_num [pi]) (by norm_num [pi])
    (by norm_num) (by norm_num [pi]) (by norm_num [pi]) (by norm_num) (by norm_num)]
  congr 1
  norm_num

theorem Binary64.sample_one : sub (.fin 1) (.fin (4503599627370497 / 4503599627370496)) = .fin (-1 / 4503599627370496) := by
  show round (1 + -(4503599627370497 / 4503599627370496)) = _
  rw [round_eq_neg (1 + -(4503599627370497 / 4503599627370496)) (-52) (-4503599627370496) (by norm_num [pi]) (by norm_num [pi]) (by norm_num [pi])
    (by norm_num) (by norm_num [pi]) (by norm_num [pi]) (by norm_num) (by norm_num)]
  congr 1
  norm_num

theorem Binary64.sample_sin_hl : sin sampleMath (.fin (7545853602163669 / 36028797018963968)) = .fin (7490808106342645 / 36028797018963968) := by
  simp [sin, sampleMath]

theorem Binary64.sample_sin_hg : sin sampleMath (.fin (884279719003555 / 562949953421312)) = .fin 1 := by
  simp only [sin, sampleMath]
  norm_num

theorem Binary64.sample_cos_l1 : cos sampleMath (.fin (-7545853602163669 / 36028797018963968)) = .fin (68831018284033 / 70368744177664) := by
  simp [cos, sampleMath]

theorem Binary64.sample_cos_l2 : cos sampleMath (.fin (7545853602163669 / 36028797018963968)) = .fin (68831018284033 / 70368744177664) := by
  simp [cos, sampleMath]

theorem Binary64.sample_haversineA :
    haversineA sampleMath southWest northEast = .fin (4503599627370497 / 4503599627370496) := by
  unfold haversineA
  simp only [southWest, northEast]
  rw [sample_m1, sample_l1, sample_m2, sample_l2, sample_d, sample_m3, sample_dl, sample_g,
    sample_m4, sample_dg, sample_hl, sample_hg, sample_sin_hl, sample_sin_hg, sample_cos_l1,
    sample_cos_l2, sample_t1, sample_t2, sample_t3, sample_t3, sample_a]

theorem Binary64.sample_negative :
    JSNum.lt (sub (.fin 1) (haversineA sampleMath southWest northEast)) (.fin 0) = true := by
  rw [sample_haversineA, sample_one]
  simp only [JSNum.lt, decide_eq_true_eq]
  norm_num

theorem Binary64.haversineDistance_nan (M : MathLib) (point1 point2 : Point)
    (h : JSNum.lt (sub (.fin 1) (haversineA M point1 point2)) (.fin 0) = true) :
    haversineDistance M point1 point2 = .nan := by
  have hs : sqrt M (sub (.fin 1) (haversineA M point1 point2)) = .nan := by
    cases hx : sub (.fin 1) (haversineA M point1 point2) with
    | nan => rfl
    | negInf => rfl
    | posInf =>
      rw [hx] at h
      cases h
    | fin q =>
      rw [hx] at h
      have hq : q < 0 := by simpa [JSNum.lt] using h
      simp [sqrt, hq]
  unfold haversineDistance
  simp only [hs]
  have ha : ∀ y, atan2 M y .nan = .nan := by
    intro y
    simp [atan2, JSNum.isNaN]
  rw [ha]
  rfl

theorem Binary64.nearestStep_nan {α : Type} (M : MathLib) (user : Point) (state : Option (Stop α) × JSNum)
    (stop : Stop α)
    (h : haversineDistance M user (pointOf stop.latitude stop.longitude) = .nan) :
    nearestStep M user state stop = state := by
  unfold nearestStep
  rw [h]
  split
  · rfl
  · rfl

theorem Binary64.foldl_nearestStep_nan {α : Type} (M : MathLib) (user : Point) (stops : List (Stop α))
    (state : Option (Stop α) × JSNum)
    (h : ∀ stop ∈ stops, haversineDistance M user (pointOf stop.latitude stop.longitude) = .nan) :
    stops.foldl (nearestStep M user) state = state := by
  induction stops generalizing state with
  | nil => rfl
  | cons stop rest ih =>
    rw [List.foldl_cons, nearestStep_nan M user state stop (h stop (List.mem_cons_self _ _))]
    exact ih state (fun s hs => h s (List.mem_cons_of_mem _ hs))

/-- C7 (what the program does). In binary64 arithmetic, for every
implementation of `Math` and all points: when the argument `1 - a` of the
second square root of `haversineDistance(A, B)` is negative (the sum `a` has
been rounded above `1`), the distance is `NaN`, and the comparison
`haversineDistance(A, B) === haversineDistance(B, A)` is false, in both
orders, whatever the second distance is. -/
theorem haversineDistance_nan_unequal (M : MathLib) (pointA pointB : Binary64.Point)
    (h : JSNum.lt (Binary64.sub (.fin 1) (Binary64.haversineA M pointA pointB)) (.fin 0) =
      true) :
    Binary64.haversineDistance M pointA pointB = .nan ∧
    Binary64.strictEq (Binary64.haversineDistance M pointA pointB)
      (Binary64.haversineDistance M pointB pointA) = false ∧
    Binary64.strictEq (Binary64.haversineDistance M pointB pointA)
      (Binary64.haversineDistance M pointA pointB) = false := by
  have hn := Binary64.haversineDistance_nan M pointA pointB h
  rw [hn]
  refine ⟨rfl, ?_, ?_⟩ <;> cases Binary64.haversineDistance M pointB pointA <;> rfl

/-- C7, the failing input: the points at latitude -12, longitude -90 and at
latitude 12, longitude 90, with the binary64 values of the sine and the
cosine. The sum `a` is `1 + 2^(-52)`. -/
theorem haversineDistance_nan_unequal_witness :
    Binary64.haversineA sampleMath southWest northEast =
        .fin (4503599627370497 / 4503599627370496) ∧
    Binary64.haversineDistance sampleMath southWest northEast = .nan ∧
    Binary64.strictEq (Binary64.haversineDistance sampleMath southWest northEast)
      (Binary64.haversineDistance sampleMath northEast southWest) = false :=
  ⟨Binary64.sample_haversineA,
    (haversineDistance_nan_unequal sampleMath southWest northEast Binary64.sample_negative).1,
    (haversineDistance_nan_unequal sampleMath southWest northEast Binary64.sample_negative).2.1⟩

/-- C8 (what the program does). In binary64 arithmetic, for every
implementation of `Math` and all points: when the argument `1 - a` of the
second square root of `haversineDistance(A, B)` is negative, the distance is
`NaN`, and `haversineDistance(A, B) >= 0` is false. -/
theorem haversineDistance_nan_not_ge (M : MathLib) (pointA pointB : Binary64.Point)
    (h : JSNum.lt (Binary64.sub (.fin 1) (Binary64.haversineA M pointA pointB)) (.fin 0) =
      true) :
    Binary64.haversineDistance M pointA pointB = .nan ∧
    JSNum.ge (Binary64.haversineDistance M pointA pointB) (.fin 0) = false := by
  rw [Binary64.haversineDistance_nan M pointA pointB h]
  exact ⟨rfl, rfl⟩

/-- C8, the failing input: the points at latitude -12, longitude -90 and at
latitude 12, longitude 90, both in range; `1 - a` is `-2^(-52)`. -/
theorem haversineDistance_nan_not_ge_witness :
    Binary64.sub (.fin 1) (Binary64.haversineA sampleMath southWest northEast) =
        .fin (-1 / 4503599627370496) ∧
    Binary64.haversineDistance sampleMath southWest northEast = .nan ∧
    JSNum.ge (Binary64.haversineDistance sampleMath southWest northEast) (.fin 0) = false :=
  ⟨by rw [Binary64.sample_haversineA, Binary64.sample_one],
    haversineDistance_nan_not_ge sampleMath southWest northEast Binary64.sample_negative⟩

/-- C13 (what the program does). In binary64 arithmetic, for every
implementation of `Math`: let the user location pass the gate. If for every
stop of the list with coordinates that are not zero the argument `1 - a` of
the second square root of its distance is negative, the distance of each is
`NaN`, the test `distance < minDistance` is false for each, and
`findNearestStop` returns `null`, also when the list is not empty. -/
theorem findNearestStop_nan_null {α : Type} (M : MathLib) (u : Binary64.UserLocation)
    (stops : List (Binary64.Stop α))
    (hlat : Binary64.fieldTruthy u.latitude = true)
    (hlng : Binary64.fieldTruthy u.longitude = true)
    (hacc : (Binary64.fieldTruthy u.accuracy &&
      JSNum.gt (u.accuracy.getD .nan) (.fin 50)) = false)
    (hstops : ∀ stop ∈ stops,
      JSNum.lt (Binary64.sub (.fin 1)
        (Binary64.haversineA M (Binary64.pointOf u.latitude u.longitude)
          (Binary64.pointOf stop.latitude stop.longitude))) (.fin 0) = true) :
    Binary64.findNearestStop M (some u) stops = none := by
  unfold Binary64.findNearestStop
  simp only [hlat, hlng, hacc, Bool.not_true, Bool.or_self, Bool.false_eq_true, if_false]
  rw [Binary64.foldl_nearestStep_nan M _ stops _
    (fun stop hs => Binary64.haversineDistance_nan M _ _ (hstops stop hs))]

/-- C13, the failing input: a user at latitude -12, longitude -90 and the
list of one stop at latitude 12, longitude 90. -/
theorem findNearestStop_nan_null_witness :
    [northEastStop] ≠ [] ∧
    Binary64.findNearestStop sampleMath (some southWestUser) [northEastStop] = none :=
  ⟨by simp, findNearestStop_nan_null sampleMath southWestUser [northEastStop]
    (by decide) (by decide) rfl
    (fun stop hs => by
      rw [List.mem_singleton] at hs
      subst hs
      exact Binary64.sample_negative)⟩

theorem Binary64.roundHalfEven_bounds (y : ℚ) :
    y - 1 / 2 ≤ roundHalfEven y ∧ (roundHalfEven y : ℚ) ≤ y + 1 / 2 := by
  have h1 := Int.floor_le y
  have h2 := Int.lt_floor_add_one y
  unfold roundHalfEven
  split_ifs with ha hb hc
  · constructor <;> linarith
  · push_cast
    constructor <;> linarith
  · constructor <;> linarith
  · push_cast
    constructor <;> linarith

theorem Binary64.floor_round_div (m : ℕ) (h60 : 60 ≤ m) (hm : m < 2 ^ 53) :
    floor (round ((m : ℚ) / 60)) = .fin ((m / 60 : ℕ) : ℚ) := by
  have hdm := Nat.div_add_mod m 60
  have hmod : m % 60 < 60 := Nat.mod_lt m (by norm_num)
  generalize m / 60 = n at hdm ⊢
  generalize m % 60 = r at hdm hmod
  have hsplit : (m : ℚ) = 60 * (n : ℚ) + (r : ℚ) := by exact_mod_cast hdm.symm
  have hmodq : (r : ℚ) ≤ 59 := by
    have : r ≤ 59 := by omega
    exact_mod_cast this
  have hmod0 : (0 : ℚ) ≤ (r : ℚ) := Nat.cast_nonneg _
  have hn0 : (0 : ℚ) ≤ (n : ℚ) := Nat.cast_nonneg _
  have hmq : (m : ℚ) < 2 ^ 53 := by exact_mod_cast hm
  have h60q : (60 : ℚ) ≤ m := by exact_mod_cast h60
  have hnq : (n : ℚ) < 2 ^ 53 := by linarith
  have hx1 : (1 : ℚ) ≤ (m : ℚ) / 60 := by
    rw [le_div_iff₀ (by norm_num)]
    linarith
  have hx2 : (m : ℚ) / 60 < 2 ^ (48 : ℤ) := by
    rw [div_lt_iff₀ (by norm_num)]
    norm_num
    norm_num at hmq
    linarith
  have hxpos : (0 : ℚ) < (m : ℚ) / 60 := by linarith
  have habs : |(m : ℚ) / 60| = (m : ℚ) / 60 := abs_of_pos hxpos
  have hlog1 : 0 ≤ Int.log 2 |(m : ℚ) / 60| := by
    rw [habs]
    exact (Int.zpow_le_iff_le_log (by norm_num) hxpos).1 (by simpa using hx1)
  have hlog2 : Int.log 2 |(m : ℚ) / 60| < 48 := by
    rw [habs]
    exact (Int.lt_zpow_iff_log_lt (by norm_num) hxpos).1 (by exact_mod_cast hx2)
  obtain ⟨j, hu, hj5⟩ : ∃ j : ℕ, ulpExponent ((m : ℚ) / 60) = -(j : ℤ) ∧ 5 ≤ j := by
    refine ⟨(52 - Int.log 2 |(m : ℚ) / 60|).toNat, ?_, ?_⟩
    · unfold ulpExponent
      rw [max_eq_left (by omega)]
      omega
    · omega
  have hpow : (2 : ℚ) ^ ulpExponent ((m : ℚ) / 60) = ((2 : ℚ) ^ j)⁻¹ := by
    rw [hu, zpow_neg, zpow_natCast]
  have hT : (32 : ℚ) ≤ (2 : ℚ) ^ j := by
    calc (32 : ℚ) = 2 ^ 5 := by norm_num
      _ ≤ 2 ^ j := pow_le_pow_right₀ (by norm_num) hj5
  have hTpos : (0 : ℚ) < (2 : ℚ) ^ j := by positivity
  have hy : (m : ℚ) / 60 / ((2 : ℚ) ^ j)⁻¹ = (m : ℚ) / 60 * 2 ^ j := by
    rw [div_inv_eq_mul]
  unfold round
  rw [hpow, hy]
  obtain ⟨hb1, hb2⟩ := roundHalfEven_bounds ((m : ℚ) / 60 * 2 ^ j)
  generalize roundHalfEven ((m : ℚ) / 60 * 2 ^ j) = k at hb1 hb2 ⊢
  have hxlow : (n : ℚ) ≤ (m : ℚ) / 60 := by
    rw [le_div_iff₀ (by norm_num)]
    linarith
  have hxhigh : (m : ℚ) / 60 ≤ (n : ℚ) + 59 / 60 := by
    rw [div_le_iff₀ (by norm_num)]
    linarith
  have hlow2 := mul_le_mul_of_nonneg_right hxlow hTpos.le
  have hhigh2 := mul_le_mul_of_nonneg_right hxhigh hTpos.le
  have hk1 : (n : ℤ) * 2 ^ j ≤ k := by
    have : ((((n : ℤ) * 2 ^ j - 1 : ℤ)) : ℚ) < (k : ℚ) := by
      push_cast
      linarith
    have h2 := Int.cast_lt.1 this
    omega
  have hk2 : k < ((n : ℤ) + 1) * 2 ^ j := by
    have : (k : ℚ) < ((((n : ℤ) + 1) * 2 ^ j : ℤ) : ℚ) := by
      push_cast
      nlinarith
    exact Int.cast_lt.1 this
  have hr1 : (n : ℚ) ≤ (k : ℚ) * ((2 : ℚ) ^ j)⁻¹ := by
    rw [← div_eq_mul_inv, le_div_iff₀ hTpos]
    have := (Int.cast_le (R := ℚ)).2 hk1
    push_cast at this
    exact this
  have hr2 : (k : ℚ) * ((2 : ℚ) ^ j)⁻¹ < (n : ℚ) + 1 := by
    rw [← div_eq_mul_inv, div_lt_iff₀ hTpos]
    have := (Int.cast_lt (R := ℚ)).2 hk2
    push_cast at this
    exact this
  have hr0 : (0 : ℚ) ≤ (k : ℚ) * ((2 : ℚ) ^ j)⁻¹ := le_trans hn0 hr1
  have hfin : ¬ ((2 : ℚ) ^ (1024 : ℕ) ≤ |(k : ℚ) * ((2 : ℚ) ^ j)⁻¹|) := by
    rw [abs_of_nonneg hr0, not_le]
    have h53 : (2 : ℚ) ^ 53 + 1 < 2 ^ (1024 : ℕ) := by norm_num
    linarith
  have hfloor : ⌊(k : ℚ) * ((2 : ℚ) ^ j)⁻¹⌋ = (n : ℤ) := by
    rw [Int.floor_eq_iff]
    constructor
    · exact_mod_cast hr1
    · exact_mod_cast hr2
  rw [if_neg hfin]
  simp only [floor, hfloor, Int.cast_natCast]

theorem Binary64.rem_natCast (m : ℕ) : rem (.fin m) 60 = .fin ((m % 60 : ℕ) : ℚ) := by
  have hfl : ⌊(m : ℚ) / 60⌋ = ((m / 60 : ℕ) : ℤ) := by
    have := Rat.floor_intCast_div_natCast (m : ℤ) 60
    simpa using this
  have hpos : (0 : ℚ) ≤ (m : ℚ) / 60 := by positivity
  have hdm := Nat.div_add_mod m 60
  generalize m / 60 = n at hdm hfl
  generalize m % 60 = r at hdm ⊢
  have hsplit : (m : ℚ) = 60 * (n : ℚ) + (r : ℚ) := by exact_mod_cast hdm.symm
  simp only [rem, if_pos hpos, hfl]
  congr 1
  push_cast
  linarith

/-- C33 (amended). In binary64 arithmetic, for every printer and every
integer `m` with `0 <= m < 2^53`: `formatETA(m)` is `< 1 min` when `m < 1`,
the text of `m` and ` min` when `1 <= m < 60`, and otherwise the text of `H`
and `h`, followed when `M` is not `0` by a blank, the text of `M` and `m`,
where `H` is the integer quotient of `m` by `60` and `M` the remainder, so
that `60 * H + M = m` and `M < 60`. -/
theorem formatETA_safe (P : Printer) (m : ℕ) (hm : m < 2 ^ 53) :
    Binary64.formatETA P (.fin m) =
      (if m < 1 then "< 1 min"
       else if m < 60 then P.numberToString (.fin m) ++ " min"
       else if m % 60 = 0 then P.numberToString (.fin ((m / 60 : ℕ) : ℚ)) ++ "h"
       else P.numberToString (.fin ((m / 60 : ℕ) : ℚ)) ++ "h " ++
         P.numberToString (.fin ((m % 60 : ℕ) : ℚ)) ++ "m") ∧
    60 * (m / 60) + m % 60 = m ∧ m % 60 < 60 := by
  refine ⟨?_, Nat.div_add_mod m 60, Nat.mod_lt m (by norm_num)⟩
  unfold Binary64.formatETA
  by_cases h1 : m < 1
  · have : ((m : ℚ) < 1) := by exact_mod_cast h1
    simp [JSNum.lt, h1, this]
  · have h1q : ¬ ((m : ℚ) < 1) := by exact_mod_cast h1
    by_cases h60 : m < 60
    · have : ((m : ℚ) < 60) := by exact_mod_cast h60
      simp [JSNum.lt, h1, h1q, h60, this]
    · have h60q : ¬ ((m : ℚ) < 60) := by exact_mod_cast h60
      rw [Binary64.rem_natCast, Binary64.div, Binary64.floor_round_div m (by omega) hm]
      by_cases hmod : m % 60 = 0
      · simp [JSNum.lt, JSNum.gt, h1, h1q, h60, h60q, hmod]
      · have hpos : (0 : ℚ) < ((m % 60 : ℕ) : ℚ) := by
          exact_mod_cast Nat.pos_of_ne_zero hmod
        simp [JSNum.lt, JSNum.gt, h1, h1q, h60, h60q, hmod, hpos]

/-- C33, witness: 135 minutes are 2 hours and 15 minutes. -/
theorem formatETA_safe_witness :
    135 < 2 ^ 53 ∧ Binary64.formatETA integerPrinter (.fin ((135 : ℕ) : ℚ)) = "2h 15m" :=
  ⟨by norm_num, (formatETA_safe integerPrinter 135 (by norm_num)).1.trans (by decide)⟩

/-- C33, counterexample. For `m = 10^21`, which is a binary64 number, the
quotient `m / 60` is rounded to `16666666666666665984`: the hours that
`formatETA` prints are that number and not the integer quotient
`16666666666666666666`, for every printer. -/
theorem formatETA_counterexample :
    (∀ P : Printer, Binary64.formatETA P (.fin 1000000000000000000000) =
      P.numberToString (.fin 16666666666666665984) ++ "h " ++
        P.numberToString (.fin 40) ++ "m") ∧
    (1000000000000000000000 / 60 : ℕ) = 16666666666666666666 ∧
    (1000000000000000000000 % 60 : ℕ) = 40 := by
  refine ⟨fun P => ?_, by norm_num, by norm_num⟩
  have hdiv : Binary64.div (.fin 1000000000000000000000) 60 = .fin 16666666666666665984 := by
    show Binary64.round (1000000000000000000000 / 60) = _
    rw [Binary64.round_eq_pos (1000000000000000000000 / 60) 63 8138020833333333 (by norm_num)
      (by norm_num) (by norm_num) (by norm_num) (by norm_num) (by norm_num) (by norm_num)
      (by norm_num)]
    congr 1
    norm_num
  have hrem : Binary64.rem (.fin 1000000000000000000000) 60 = .fin 40 := by
    have hf : ⌊(1000000000000000000000 : ℚ) / 60⌋ = 16666666666666666666 := by
      rw [Int.floor_eq_iff]
      constructor <;> norm_num
    simp only [Binary64.rem]
    rw [if_pos (by norm_num), hf]
    congr 1
    norm_num
  unfold Binary64.formatETA
  rw [hdiv, hrem]
  have hfloor : Binary64.floor (.fin 16666666666666665984) = .fin 16666666666666665984 := by
    simp [Binary64.floor]
  rw [hfloor]
  have h1 : JSNum.lt (.fin 1000000000000000000000) (.fin 1) = false := by
    simp only [JSNum.lt, decide_eq_false_iff_not]
    norm_num
  have h2 : JSNum.lt (.fin 1000000000000000000000) (.fin 60) = false := by
    simp only [JSNum.lt, decide_eq_false_iff_not]
    norm_num
  have h3 : JSNum.gt (.fin 40) (.fin 0) = true := by
    simp only [JSNum.gt, JSNum.lt, decide_eq_true_eq]
    norm_num
  rw [h1, h2, h3]
  rfl

end PostMan
